import Mathlib

/-!
# SAL (Simple Audio Library): voice table, sample reference counts, mixer

A shallow embedding of the device / voice / sample core of SAL
(`sal_device.c`, `sal_sound.c`, `sal_sample.c`, `sal_mixer.c`, `sal_private.h`).

Conventions of the embedding:

* C pointers to samples are addresses into the arena served by
  `device_callbacks.alloc`; the arena is the list `device_heap`, an address is
  an index into it, and `none` is the NULL pointer.  Addresses are never
  handed out twice.
* An out parameter (`sal_voice_t *p_sid`, `sal_voice_status_e *p_status`, ...)
  is the value of the caller's variable: the function takes the old value and
  returns the new one.  NULL arguments are excluded by the types.
* The device mutex is not modelled: every operation is one atomic step.
* `sample_fnc_destroy` is the generic callback `_SAL_generic_destroy_sample`:
  it frees the PCM storage and sets `sample_data` to 0, so the storage of a
  destroyed sample is empty and every index into it is out of range.  The
  `device_callbacks.free` of the record that follows is observed through the
  log `device_destroyed`; the other fields of the freed record keep their last
  values (what a stale pointer reads until the block is reused).
* `sal_u32_t` arithmetic is reduced modulo 2^32 where the source can overflow;
  signed counters (`sample_ref_count`, `voice_num_repetitions`) are integers,
  signed overflow being undefined in C.
* Audio buffers are lists of samples (one entry per `di_bytes_per_sample`
  bytes): 0..255 on an 8-bit device, -32768..32767 on a 16-bit device.
-/

namespace SAL

/-! ## Types (`sal.h`, `sal_private.h`) -/

/-- Standard error codes returned by most SAL functions (`sal_error_e`). -/
inductive sal_error_e where
  | SALERR_OK
  | SALERR_INVALIDPARAM
  | SALERR_WRONGVERSION
  | SALERR_OUTOFMEMORY
  | SALERR_SYSTEMFAILURE
  | SALERR_ALREADYLOCKED
  | SALERR_INUSE
  | SALERR_INVALIDFORMAT
  | SALERR_OUTOFVOICES
  | SALERR_UNIMPLEMENTED
  | SALERR_UNKNOWN
  deriving DecidableEq, Repr

/-- Voice status constant as returned by `SAL_get_voice_status`. -/
inductive sal_voice_status_e where
  | SALVS_IDLE
  | SALVS_PLAYING
  | SALVS_INVALIDSOUND
  deriving DecidableEq, Repr

open sal_error_e sal_voice_status_e

/-- The constant `SAL_LOOP_ALWAYS`. -/
def SAL_LOOP_ALWAYS : Int := -1

/-- The constant `SAL_INVALID_SOUND`. -/
def SAL_INVALID_SOUND : Int := -1

/-- Conversion of an integer to `sal_u32_t`. -/
def toU32 (x : Int) : Nat := (x % 4294967296).toNat

/-- Conversion of an integer to `sal_i32_t` (two's complement). -/
def toI32 (x : Int) : Int := (x + 2147483648) % 4294967296 - 2147483648

/-- The struct `SAL_Voice`: one slot of the voice table. -/
structure SAL_Voice where
  voice_sample : Option Nat
  voice_cursor : Nat
  voice_volume : Nat
  voice_pan : Int
  voice_loop_start : Nat
  voice_loop_end : Nat
  voice_num_repetitions : Int
  deriving DecidableEq, Repr

/-- A slot after `memset( p_voice, 0, sizeof( *p_voice ) )`. -/
def SAL_Voice.zero : SAL_Voice :=
  { voice_sample := none, voice_cursor := 0, voice_volume := 0, voice_pan := 0,
    voice_loop_start := 0, voice_loop_end := 0, voice_num_repetitions := 0 }

/-- The struct `SAL_Sample` (the function pointers are abstracted; the union `sample_args`
is its integer payload, 0 after `memset`). -/
structure SAL_Sample where
  sample_ref_count : Int
  sample_data : List Int
  sample_num_samples : Int
  sample_args : Int := 0
  deriving DecidableEq, Repr

/-- A `SAL_Sample` record after `memset( p_sample, 0, sizeof( *p_sample ) )`. -/
def SAL_Sample.zero : SAL_Sample :=
  { sample_ref_count := 0, sample_data := [], sample_num_samples := 0 }

/-- The struct `SAL_DeviceInfo` (without `di_name`). -/
structure SAL_DeviceInfo where
  di_size : Int
  di_channels : Int
  di_bits : Int
  di_sample_rate : Int
  di_bytes_per_sample : Int
  di_bytes_per_frame : Int
  deriving DecidableEq, Repr

/-- The struct `SAL_Device` together with the arena of its allocator:
`device_voices` has exactly `device_max_voices` entries. -/
structure SAL_Device where
  device_info : SAL_DeviceInfo
  device_voices : List SAL_Voice
  device_heap : List SAL_Sample
  device_destroyed : List Nat
  deriving DecidableEq, Repr

/-- The field `device_max_voices`: the size of the voice table. -/
def SAL_Device.device_max_voices (d : SAL_Device) : Int := d.device_voices.length

/-- Read `device_voices[ i ]`. -/
def SAL_Device.voice (d : SAL_Device) (i : Nat) : SAL_Voice :=
  d.device_voices.getD i SAL_Voice.zero

/-- Read the sample record at address `p`. -/
def SAL_Device.sample (d : SAL_Device) (p : Nat) : SAL_Sample :=
  d.device_heap.getD p SAL_Sample.zero

/-- Read `p_sample->sample_ref_count`. -/
def SAL_Device.ref_count (d : SAL_Device) (p : Nat) : Int :=
  (d.sample p).sample_ref_count

/-- Write `device_voices[ i ] = v`. -/
def SAL_Device.set_voice (d : SAL_Device) (i : Nat) (v : SAL_Voice) : SAL_Device :=
  { d with device_voices := d.device_voices.set i v }

/-- Add `k` to `p_sample->sample_ref_count` (`++` is `k = 1`, `--` is `k = -1`). -/
def SAL_Device.add_ref (d : SAL_Device) (p : Nat) (k : Int) : SAL_Device :=
  let s := d.sample p
  let s1 : SAL_Sample := { s with sample_ref_count := s.sample_ref_count + k }
  { d with device_heap := d.device_heap.set p s1 }

/-- Number of times the destroy callback has run on the sample at address `p`. -/
def SAL_Device.destroy_count (d : SAL_Device) (p : Nat) : Nat :=
  d.device_destroyed.count p

/-! ## `sal_sample.c` -/

/-- The function `_SAL_destroy_sample_raw`.  The call `sample_fnc_destroy( p_device,
p_sample )` is the generic callback, which frees the PCM storage and sets `sample_data` to 0;
`device_callbacks.free( p_sample )` then frees the record, which is logged. -/
def _SAL_destroy_sample_raw (d : SAL_Device) (p_sample : Nat) : SAL_Device :=
  let s := d.sample p_sample
  let s1 : SAL_Sample := { s with sample_data := [] }
  { d with
    device_heap := d.device_heap.set p_sample s1
    device_destroyed := d.device_destroyed ++ [p_sample] }

/-- The function `SAL_destroy_sample`. -/
def SAL_destroy_sample (d : SAL_Device) (p_sample : Nat) : sal_error_e × SAL_Device :=
  let d1 := d.add_ref p_sample (-1)
  if d1.ref_count p_sample ≤ 0 then
    (SALERR_OK, _SAL_destroy_sample_raw d1 p_sample)
  else
    (SALERR_INUSE, d1)

/-- The function `SAL_get_sample_ref_count`; `count` is the old value of `*p_count`. -/
def SAL_get_sample_ref_count (d : SAL_Device) (p_sample : Nat) (count : Int) :
    sal_error_e × Int :=
  let _ := count
  (SALERR_OK, d.ref_count p_sample)

/-- The function `SAL_create_sample`: the new record is placed at a fresh address, which is
stored in `*pp_sample`.  The PCM storage of `num_samples` samples is handed out zero-filled. -/
def SAL_create_sample (d : SAL_Device) (num_samples : Nat) : sal_error_e × SAL_Device × Nat :=
  let p_sample : SAL_Sample :=
    { SAL_Sample.zero with
      sample_num_samples := toI32 num_samples
      sample_ref_count := 1
      sample_data := if num_samples > 0 then List.replicate num_samples 0 else [] }
  (SALERR_OK, { d with device_heap := d.device_heap ++ [p_sample] }, d.device_heap.length)

/-! ## `sal_sound.c` -/

/-- The linear scan of `SAL_play_sample`: the index at which the loop
`for ( i = 0; i < device_max_voices; i++ ) if ( voice_num_repetitions == 0 ) break;`
stops; it is the table size when no slot is free. -/
def find_free_voice : List SAL_Voice → Nat
  | [] => 0
  | v :: vs => if v.voice_num_repetitions = 0 then 0 else find_free_voice vs + 1

/-- The function `SAL_play_sample`; `sid` is the old value of `*p_sid`. -/
def SAL_play_sample (d : SAL_Device) (p_sample : Nat) (sid : Int) (volume : Nat) (pan : Int)
    (loop_start loop_end : Nat) (num_repetitions : Int) : sal_error_e × SAL_Device × Int :=
  if loop_start > loop_end then
    (SALERR_INVALIDPARAM, d, sid)
  else
    let i := find_free_voice d.device_voices
    if (i : Int) = d.device_max_voices then
      (SALERR_OUTOFVOICES, d, sid)
    else
      let loop_end := if loop_end = 0 then toU32 (d.sample p_sample).sample_num_samples
                      else loop_end
      let p_voice : SAL_Voice :=
        { voice_sample := some p_sample
          voice_cursor := 0
          voice_volume := volume
          voice_pan := pan
          voice_loop_start := loop_start
          voice_loop_end := loop_end
          voice_num_repetitions := num_repetitions }
      (SALERR_OK, ((d.set_voice i p_voice).add_ref p_sample 1), (i : Int))

/-- The function `SAL_stop_voice`. -/
def SAL_stop_voice (d : SAL_Device) (sid : Int) : sal_error_e × SAL_Device :=
  if sid < 0 ∨ sid ≥ d.device_max_voices then
    (SALERR_INVALIDPARAM, d)
  else
    let i := sid.toNat
    let d1 :=
      if (d.voice i).voice_num_repetitions ≠ 0 then
        match (d.voice i).voice_sample with
        | some p =>
          let d2 := d.add_ref p (-1)
          if d2.ref_count p ≤ 0 then _SAL_destroy_sample_raw d2 p else d2
        | none => d
      else d
    (SALERR_OK, d1.set_voice i SAL_Voice.zero)

/-- The function `SAL_get_voice_status`; `status` is the old value of `*p_status`. -/
def SAL_get_voice_status (d : SAL_Device) (sid : Int) (status : sal_voice_status_e) :
    sal_error_e × sal_voice_status_e :=
  let _ := status
  if sid < 0 ∨ sid ≥ d.device_max_voices then
    (SALERR_INVALIDPARAM, SALVS_INVALIDSOUND)
  else if (d.voice sid.toNat).voice_num_repetitions = 0 then
    (SALERR_OK, SALVS_IDLE)
  else
    (SALERR_OK, SALVS_PLAYING)

/-- The function `SAL_get_voice_sample`; `old` is the old value of `*pp_sample`. -/
def SAL_get_voice_sample (d : SAL_Device) (sid : Int) (old : Option Nat) :
    sal_error_e × Option Nat :=
  if sid < 0 ∨ sid ≥ d.device_max_voices then
    (SALERR_INVALIDPARAM, old)
  else
    (SALERR_OK, (d.voice sid.toNat).voice_sample)

/-- The function `SAL_get_voice_cursor`; `old` is the old value of `*p_cursor` (an `int`). -/
def SAL_get_voice_cursor (d : SAL_Device) (sid : Int) (old : Int) : sal_error_e × Int :=
  if sid < 0 ∨ sid ≥ d.device_max_voices then
    (SALERR_INVALIDPARAM, old)
  else
    (SALERR_OK, toI32 (d.voice sid.toNat).voice_cursor)

/-- The function `_SAL_advance_voice`: returns 0 if the voice has ended playing and 1 if it
is still playing. -/
def _SAL_advance_voice (d : SAL_Device) (sid : Nat) (num_frames : Int) : Int × SAL_Device :=
  let voice := d.voice sid
  let voice1 : SAL_Voice :=
    { voice with voice_cursor := toU32 ((voice.voice_cursor : Int) + num_frames) }
  if voice1.voice_loop_end ≠ 0 then
    if voice1.voice_cursor ≥ voice1.voice_loop_end then
      let voice2 : SAL_Voice := { voice1 with voice_cursor := voice1.voice_loop_start }
      if voice2.voice_num_repetitions ≠ SAL_LOOP_ALWAYS then
        let voice3 : SAL_Voice :=
          { voice2 with voice_num_repetitions := voice2.voice_num_repetitions - 1 }
        if voice3.voice_num_repetitions ≤ 0 then
          (0, d.set_voice sid voice3)
        else
          (1, d.set_voice sid voice3)
      else
        (1, d.set_voice sid voice2)
    else
      (1, d.set_voice sid voice1)
  else
    (1, d.set_voice sid voice1)

/-! ## The generic PCM decoder (`sal_sample.c`) -/

/-- The function `SAL_get_sample_data`: the PCM storage of the sample at address `p`. -/
def SAL_get_sample_data (d : SAL_Device) (p_sample : Nat) : sal_error_e × List Int :=
  (SALERR_OK, (d.sample p_sample).sample_data)

/-- The read `sample_data[ cursor ]`; outside the storage (undefined in C) it yields 0. -/
def read_sample (sample_data : List Int) (cursor : Int) : Int :=
  if 0 ≤ cursor then
    match sample_data[cursor.toNat]? with
    | some x => x
    | none => 0
  else 0

/-- The copy loop of `_SAL_generic_decode_sample`, the same for both bit depths:
`n` iterations are left, `i` is the loop counter. -/
def generic_decode_loop (voice : Nat) (sample_data : List Int) :
    Nat → Nat → SAL_Device → List Int → Int × List Int × SAL_Device
  | 0, _, d, p_dst => (0, p_dst, d)
  | n + 1, i, d, p_dst =>
    let cursor := (SAL_get_voice_cursor d voice 0).2
    let p_dst1 := p_dst.set i (read_sample sample_data cursor)
    let r := _SAL_advance_voice d voice 1
    if r.1 = 0 then
      (1, p_dst1, r.2)
    else
      generic_decode_loop voice sample_data n (i + 1) r.2 p_dst1

/-- The function `_SAL_generic_decode_sample`: returns 1 if the voice has ended, 0 if not,
together with the filled buffer. -/
def _SAL_generic_decode_sample (d : SAL_Device) (voice : Nat) (p_dst : List Int)
    (bytes_needed : Int) : Int × List Int × SAL_Device :=
  let samples_needed := Int.tdiv bytes_needed d.device_info.di_bytes_per_sample
  let sample := (SAL_get_voice_sample d voice none).2
  let sample_data :=
    match sample with
    | some p => (SAL_get_sample_data d p).2
    | none => []
  if d.device_info.di_bits = 8 then
    generic_decode_loop voice sample_data samples_needed.toNat 0 d p_dst
  else if d.device_info.di_bits = 16 then
    generic_decode_loop voice sample_data samples_needed.toNat 0 d p_dst
  else
    (0, p_dst, d)

/-! ## The mixer (`sal_mixer.c`) -/

/-- Conversion of an integer to `sal_i16_t` (two's complement). -/
def toI16 (x : Int) : Int := (x + 32768) % 65536 - 32768

/-- Conversion of an integer to `sal_byte_t`. -/
def toU8 (x : Int) : Int := x % 256

/-- The per-channel volume of the stereo paths of `submix_buffer`: a `sal_u32_t` that starts
as `voice_volume`, gets `voice_pan*2` added (odd index, right) or subtracted (even index,
left), and is capped at 65535; the test `volume < 0` never holds for an unsigned value. -/
def pan_volume (voice_volume : Nat) (voice_pan : Int) (i : Nat) : Nat :=
  let volume : Nat :=
    if i % 2 = 1 then toU32 ((voice_volume : Int) + voice_pan * 2)
    else toU32 ((voice_volume : Int) - voice_pan * 2)
  if volume > 65535 then 65535 else volume

/-- One iteration of the 8-bit mono loop of `submix_buffer`. -/
def submix_8_mono (dst src : Int) (voice_volume : Nat) : Int :=
  let a := toI16 (dst - 128)
  let b := toI16 (src - 128)
  let a := toI16 (a + ((b * (voice_volume : Int)) >>> 16) + 128)
  let a := if a > 255 then 255 else a
  let a := if a < 0 then 0 else a
  toU8 a

/-- One iteration of the 8-bit stereo loop of `submix_buffer`; the product `b * volume` and
the sum are unsigned 32-bit. -/
def submix_8_stereo (i : Nat) (dst src : Int) (voice_volume : Nat) (voice_pan : Int) : Int :=
  let volume := pan_volume voice_volume voice_pan i
  let a := toI16 (dst - 128)
  let b := toI16 (src - 128)
  let a := toI16 (toU32 ((toU32 a : Int) + ((toU32 ((toU32 b : Int) * volume) >>> 16 : Nat) : Int)
                + 128))
  let a := if a > 255 then 255 else a
  let a := if a < 0 then 0 else a
  toU8 a

/-- One iteration of the 16-bit stereo loop of `submix_buffer`. -/
def submix_16_stereo (i : Nat) (dst src : Int) (voice_volume : Nat) (voice_pan : Int) : Int :=
  let volume := pan_volume voice_volume voice_pan i
  toI16 (dst + toI16 ((toU32 ((toU32 src : Int) * volume) >>> 16 : Nat)))

/-- One iteration of the 16-bit mono loop of `submix_buffer`. -/
def submix_16_mono (dst src : Int) (voice_volume : Nat) : Int :=
  toI16 (dst + toI16 ((src * (voice_volume : Int)) >>> 16))

/-- The body of the loop of `submix_buffer` selected by the device format. -/
def submix_sample (info : SAL_DeviceInfo) (i : Nat) (dst src : Int) (voice_volume : Nat)
    (voice_pan : Int) : Int :=
  if info.di_bits = 8 then
    if info.di_channels = 1 then submix_8_mono dst src voice_volume
    else submix_8_stereo i dst src voice_volume voice_pan
  else if info.di_bits = 16 then
    if info.di_channels = 2 then submix_16_stereo i dst src voice_volume voice_pan
    else submix_16_mono dst src voice_volume
  else dst

/-- The loop of `submix_buffer`: `n` iterations are left, `i` is the loop counter, `off` is
the position of `p_dst` in the destination, counted in samples. -/
def submix_loop (info : SAL_DeviceInfo) (kp_src : List Int) (voice_volume : Nat)
    (voice_pan : Int) (off : Nat) : Nat → Nat → List Int → List Int
  | 0, _, dst => dst
  | n + 1, i, dst =>
    submix_loop info kp_src voice_volume voice_pan off n (i + 1)
      (dst.set (off + i)
        (submix_sample info i (dst.getD (off + i) 0) (kp_src.getD i 0) voice_volume voice_pan))

/-- The function `submix_buffer`; the destination pointer is the buffer `dst` with the
offset `off` in samples. -/
def submix_buffer (info : SAL_DeviceInfo) (dst : List Int) (off : Nat) (kp_src : List Int)
    (src_bytes : Int) (voice_volume : Nat) (voice_pan : Int) : List Int :=
  let samples_to_mix := Int.tdiv src_bytes info.di_bytes_per_sample
  submix_loop info kp_src voice_volume voice_pan off samples_to_mix.toNat 0 dst

/-- The type of a decode callback `sample_fnc_decoder( device, voice, p_dst, bytes_needed )`:
it returns its result, the buffer and the device state it leaves. -/
abbrev sal_sample_decode_fnc_t := SAL_Device → Nat → List Int → Int → Int × List Int × SAL_Device

/-- The end of a voice in `_SAL_mix_chunk`: decrement the ref count of the sample of the
slot (without destroying it) and clear the slot. -/
def mix_end_voice (d : SAL_Device) (i : Nat) : SAL_Device :=
  let d1 :=
    match (d.voice i).voice_sample with
    | some p => d.add_ref p (-1)
    | none => d
  d1.set_voice i SAL_Voice.zero

/-- The loop `while ( bytes_left > 0 )` of `_SAL_mix_chunk` for the voice `i`; each iteration
consumes at least one byte, so `fuel = bytes_left` iterations are enough.  The state is the
device, the destination and `decode_buffer`. -/
def mix_voice_loop (decode : sal_sample_decode_fnc_t) (i : Nat) (bytes_to_mix : Nat) :
    Nat → Int → SAL_Device × List Int × List Int → SAL_Device × List Int × List Int
  | 0, _, st => st
  | fuel + 1, bytes_left, (d, dst, decode_buffer) =>
    if bytes_left > 0 then
      let bytes_to_decode : Int := if bytes_left > 512 then 512 else bytes_left
      let r := decode d i decode_buffer bytes_to_decode
      let voice_ended := r.1
      let d1 := r.2.2
      let off := (Int.tdiv ((bytes_to_mix : Int) - bytes_left) d1.device_info.di_bytes_per_sample).toNat
      let dst1 := submix_buffer d1.device_info dst off r.2.1 bytes_to_decode
        (d1.voice i).voice_volume (d1.voice i).voice_pan
      if voice_ended ≠ 0 then
        (mix_end_voice d1 i, dst1, r.2.1)
      else
        mix_voice_loop decode i bytes_to_mix fuel (bytes_left - bytes_to_decode) (d1, dst1, r.2.1)
    else (d, dst, decode_buffer)

/-- The body of the loop over the voice table of `_SAL_mix_chunk`. -/
def mix_voice (decode : sal_sample_decode_fnc_t) (bytes_to_mix : Nat)
    (st : SAL_Device × List Int × List Int) (i : Nat) : SAL_Device × List Int × List Int :=
  if (st.1.voice i).voice_num_repetitions = 0 then st
  else
    let bytes_left := toI32 bytes_to_mix
    mix_voice_loop decode i bytes_to_mix bytes_left.toNat bytes_left st

/-- The `memset( p_dst, clear_value, bytes_to_mix )` of `_SAL_mix_chunk`, on samples. -/
def clear_chunk (info : SAL_DeviceInfo) (dst : List Int) (bytes_to_mix : Nat) : List Int :=
  let clear_value : Int := if info.di_bits = 8 then 128 else 0
  let n := (Int.tdiv (bytes_to_mix : Int) info.di_bytes_per_sample).toNat
  List.replicate (min n dst.length) clear_value ++ dst.drop n

/-- The function `_SAL_mix_chunk`.  The call through `sample_fnc_decoder` of the sample of
a voice is the parameter `decode`; `decode_buffer` is the initial content of the local
scratch array, `dst` the previous content of the destination. -/
def _SAL_mix_chunk (decode : sal_sample_decode_fnc_t) (d : SAL_Device) (dst : List Int)
    (decode_buffer : List Int) (bytes_to_mix : Nat) : sal_error_e × SAL_Device × List Int :=
  let dst0 := clear_chunk d.device_info dst bytes_to_mix
  let r := (List.range d.device_voices.length).foldl (mix_voice decode bytes_to_mix)
    (d, dst0, decode_buffer)
  (SALERR_OK, r.1, r.2.1)

/-! ## `sal_device.c` -/

/-- The function `SAL_create_device` with `kp_cb == NULL`.  The backend call
`_SAL_create_device_data`, which negotiates the format and fills `device_info`, is the
parameter `create_device_data`; `old` is the old value of `*pp_device`. -/
def SAL_create_device (create_device_data : Nat → Nat → Nat → sal_error_e × SAL_DeviceInfo)
    (old : Option SAL_Device) (desired_channels desired_bits desired_sample_rate : Nat)
    (num_voices : Nat) : sal_error_e × Option SAL_Device :=
  if num_voices ≤ 0 then
    (SALERR_INVALIDPARAM, old)
  else
    let r := create_device_data desired_channels desired_bits desired_sample_rate
    if r.1 ≠ SALERR_OK then
      (r.1, old)
    else
      let bytes_per_sample := Int.tdiv r.2.di_bits 8
      let info : SAL_DeviceInfo :=
        { r.2 with
          di_bytes_per_sample := bytes_per_sample
          di_bytes_per_frame := bytes_per_sample * r.2.di_channels }
      (SALERR_OK, some
        { device_info := info
          device_voices := List.replicate num_voices SAL_Voice.zero
          device_heap := []
          device_destroyed := [] })

/-! ## Example devices -/

/-- A backend that grants the requested format. -/
def backend_as_requested (channels bits rate : Nat) : sal_error_e × SAL_DeviceInfo :=
  (SALERR_OK,
    { di_size := 280, di_channels := channels, di_bits := bits, di_sample_rate := rate,
      di_bytes_per_sample := 0, di_bytes_per_frame := 0 })

/-- The device of the test harness: 8 voices, 2 channels, 16 bits, 44100 Hz. -/
def device8 : SAL_Device :=
  ((SAL_create_device backend_as_requested none 2 16 44100 8).2).getD
    { device_info := (backend_as_requested 2 16 44100).2, device_voices := [],
      device_heap := [], device_destroyed := [] }

/-- A one-voice device whose only slot is PLAYING the sample at address 0. -/
def device_full1 : SAL_Device :=
  { device_info :=
      { di_size := 280, di_channels := 2, di_bits := 16, di_sample_rate := 44100,
        di_bytes_per_sample := 2, di_bytes_per_frame := 4 }
    device_voices :=
      [{ voice_sample := some 0, voice_cursor := 0, voice_volume := 65535, voice_pan := 0,
         voice_loop_start := 0, voice_loop_end := 4, voice_num_repetitions := -1 }]
    device_heap := [{ sample_ref_count := 2, sample_data := [0, 0, 0, 0], sample_num_samples := 4 }]
    device_destroyed := [] }

/-! ## Sequences of API calls -/

/-- One call of the public API (or of the mixer, by the backend) on a device. -/
inductive Call where
  | create (num_samples : Nat)
  | play (p_sample : Nat) (volume : Nat) (pan : Int) (loop_start loop_end : Nat)
      (num_repetitions : Int)
  | stop (sid : Int)
  | destroy (p_sample : Nat)
  | mix (dst decode_buffer : List Int) (bytes_to_mix : Nat)
  deriving DecidableEq, Repr

/-- The device state after one call; the decode callbacks are `decode`. -/
def step (decode : sal_sample_decode_fnc_t) (d : SAL_Device) : Call → SAL_Device
  | .create num_samples => (SAL_create_sample d num_samples).2.1
  | .play p volume pan loop_start loop_end num_repetitions =>
    (SAL_play_sample d p SAL_INVALID_SOUND volume pan loop_start loop_end num_repetitions).2.1
  | .stop sid => (SAL_stop_voice d sid).2
  | .destroy p => (SAL_destroy_sample d p).2
  | .mix dst decode_buffer bytes_to_mix =>
    (_SAL_mix_chunk decode d dst decode_buffer bytes_to_mix).2.1

/-- The device state after a sequence of calls. -/
def run (decode : sal_sample_decode_fnc_t) (d : SAL_Device) (cs : List Call) : SAL_Device :=
  cs.foldl (step decode) d

/-- A call of `SAL_play_sample` or `SAL_stop_voice`. -/
def Call.is_play_or_stop : Call → Bool
  | .play _ _ _ _ _ _ => true
  | .stop _ => true
  | _ => false

/-- The slot is PLAYING and bound to the sample at address `p`. -/
def SAL_Voice.plays (v : SAL_Voice) (p : Nat) : Bool :=
  decide (v.voice_num_repetitions ≠ 0) && decide (v.voice_sample = some p)

/-- Number of PLAYING slots of the voice table bound to the sample at address `p`. -/
def SAL_Device.playing_count (d : SAL_Device) (p : Nat) : Nat :=
  d.device_voices.countP (fun v => v.plays p)

/-- What the mixer relies on from a decode callback run for the PLAYING voice `i`: it
changes nothing of the device but slot `i`, keeps the sample the slot is bound to, and
leaves the slot PLAYING when it returns 0 (not ended).  This is what a callback does
that touches the device through `_SAL_advance_voice` on its own voice only. -/
def decode_frame (decode : sal_sample_decode_fnc_t) : Prop :=
  ∀ (d : SAL_Device) (i : Nat) (p_dst : List Int) (bytes_needed : Int),
    ∃ v : SAL_Voice,
      (decode d i p_dst bytes_needed).2.2 = d.set_voice i v ∧
      v.voice_sample = (d.voice i).voice_sample ∧
      ((decode d i p_dst bytes_needed).1 = 0 → (d.voice i).voice_num_repetitions ≠ 0 →
        v.voice_num_repetitions ≠ 0)

/-- The use a caller may make of a sample in the state `d`, `released` being the samples it
has passed to `SAL_destroy_sample` so far: it plays only samples of the arena whose destroy
callback has not run, and passes a sample of the arena to `SAL_destroy_sample` at most
once. -/
def Call.allowed (d : SAL_Device) (released : List Nat) : Call → Bool
  | .play p _ _ _ _ _ => decide (p < d.device_heap.length) && !(d.device_destroyed.contains p)
  | .destroy p => decide (p < d.device_heap.length) && !(released.contains p)
  | _ => true

/-- The samples passed to `SAL_destroy_sample` so far, after one more call. -/
def Call.release (released : List Nat) : Call → List Nat
  | .destroy p => p :: released
  | _ => released

/-- Every call of the sequence is allowed in the state in which it is made. -/
def disciplined (decode : sal_sample_decode_fnc_t) :
    SAL_Device → List Nat → List Call → Bool
  | _, _, [] => true
  | d, released, c :: cs =>
    c.allowed d released && disciplined decode (step decode d c) (c.release released) cs

/-- The samples passed to `SAL_destroy_sample` by a sequence of calls. -/
def released_by (released : List Nat) (cs : List Call) : List Nat :=
  cs.foldl Call.release released

/-- The reference count invariant of a device, `released` being the samples whose creator
has given up its reference: PLAYING slots are bound to samples of the arena; destroyed
samples are samples of the arena, are released and have no PLAYING slot; and the ref count
of a sample that is not destroyed covers the reference of its creator and one per PLAYING
slot bound to it. -/
def ref_inv (d : SAL_Device) (released : List Nat) : Prop :=
  (∀ i, (d.voice i).voice_num_repetitions ≠ 0 →
    ∃ p, (d.voice i).voice_sample = some p ∧ p < d.device_heap.length) ∧
  (∀ p ∈ d.device_destroyed, p < d.device_heap.length ∧ d.playing_count p = 0 ∧ p ∈ released) ∧
  (∀ p, p < d.device_heap.length → p ∉ d.device_destroyed →
    (if p ∈ released then (0 : Int) else 1) + (d.playing_count p : Int) ≤ d.ref_count p)

/-- What sequences of play and stop calls keep for the sample at address `s`: it is a sample
of the arena, its ref count covers the reference of its creator and one per PLAYING slot
bound to it, and its destroy callback has run `c` times. -/
def keeps_sample (d : SAL_Device) (s : Nat) (c : Nat) : Prop :=
  s < d.device_heap.length ∧ 1 + (d.playing_count s : Int) ≤ d.ref_count s ∧
  d.destroy_count s = c

/-! ## More of `sal.h`, `sal_sound.c`, `sal_sample.c`, `sal_device.c` -/

/-- The constant `SAL_PAN_HARD_LEFT`. -/
def SAL_PAN_HARD_LEFT : Int := -32767

/-- The constant `SAL_PAN_HARD_RIGHT`. -/
def SAL_PAN_HARD_RIGHT : Int := 32767

/-- The constant `SAL_VOLUME_MAX`. -/
def SAL_VOLUME_MAX : Nat := 65535

/-- The value of `sizeof( SAL_DeviceInfo )`: six `sal_i32_t` and `di_name[ 256 ]`. -/
def sizeof_SAL_DeviceInfo : Int := 280

/-- The function `SAL_set_voice_volume`. -/
def SAL_set_voice_volume (d : SAL_Device) (sid : Int) (volume : Nat) : sal_error_e × SAL_Device :=
  if sid < 0 ∨ sid ≥ d.device_max_voices then
    (SALERR_INVALIDPARAM, d)
  else
    (SALERR_OK, d.set_voice sid.toNat { (d.voice sid.toNat) with voice_volume := volume })

/-- The function `SAL_set_voice_pan`. -/
def SAL_set_voice_pan (d : SAL_Device) (sid : Int) (pan : Int) : sal_error_e × SAL_Device :=
  if sid < 0 ∨ sid ≥ d.device_max_voices then
    (SALERR_INVALIDPARAM, d)
  else
    (SALERR_OK, d.set_voice sid.toNat { (d.voice sid.toNat) with voice_pan := pan })

/-- The function `SAL_get_sample_args`; `old` is the old value of `*args`. -/
def SAL_get_sample_args (d : SAL_Device) (p_sample : Nat) (old : Int) : sal_error_e × Int :=
  let _ := old
  (SALERR_OK, (d.sample p_sample).sample_args)

/-- The function `SAL_get_device_info`; `info` is the old content of `*p_info`. -/
def SAL_get_device_info (d : SAL_Device) (info : SAL_DeviceInfo) :
    sal_error_e × SAL_DeviceInfo :=
  if info.di_size ≠ sizeof_SAL_DeviceInfo then
    (SALERR_WRONGVERSION, info)
  else
    (SALERR_OK, d.device_info)

/-! ## The test against NULL that opens the public functions

The functions above take their pointer arguments as the objects pointed to.  The variants
below take the device and sample pointers as they are passed, `none` being NULL, and
return the result code with the new value of the output location; the pointer to the
output location itself is not NULL. -/

/-- The function `SAL_play_sample` with nullable `device` and `p_sample`: the handle. -/
def SAL_play_sample_nullable (device : Option SAL_Device) (p_sample : Option Nat) (sid : Int)
    (volume : Nat) (pan : Int) (loop_start loop_end : Nat) (num_repetitions : Int) :
    sal_error_e × Int :=
  match device, p_sample with
  | some d, some p =>
    ((SAL_play_sample d p sid volume pan loop_start loop_end num_repetitions).1,
     (SAL_play_sample d p sid volume pan loop_start loop_end num_repetitions).2.2)
  | _, _ => (SALERR_INVALIDPARAM, sid)

/-- The function `SAL_get_voice_status` with nullable `p_device`: with a NULL device the
status is not written. -/
def SAL_get_voice_status_nullable (p_device : Option SAL_Device) (sid : Int)
    (status : sal_voice_status_e) : sal_error_e × sal_voice_status_e :=
  match p_device with
  | some d => SAL_get_voice_status d sid status
  | none => (SALERR_INVALIDPARAM, status)

/-- The function `SAL_get_voice_sample` with nullable `p_device`. -/
def SAL_get_voice_sample_nullable (p_device : Option SAL_Device) (sid : Int)
    (old : Option Nat) : sal_error_e × Option Nat :=
  match p_device with
  | some d => SAL_get_voice_sample d sid old
  | none => (SALERR_INVALIDPARAM, old)

/-- The function `SAL_get_voice_cursor` with nullable `p_device`. -/
def SAL_get_voice_cursor_nullable (p_device : Option SAL_Device) (sid : Int) (old : Int) :
    sal_error_e × Int :=
  match p_device with
  | some d => SAL_get_voice_cursor d sid old
  | none => (SALERR_INVALIDPARAM, old)

/-- The function `SAL_get_sample_ref_count` with nullable `p_device` and `p_sample`. -/
def SAL_get_sample_ref_count_nullable (p_device : Option SAL_Device) (p_sample : Option Nat)
    (count : Int) : sal_error_e × Int :=
  match p_device, p_sample with
  | some d, some p => SAL_get_sample_ref_count d p count
  | _, _ => (SALERR_INVALIDPARAM, count)

/-- The function `SAL_get_sample_data` with nullable `p_device` and `p_sample`; `old` is
the old value of `*pp_bytes`, the storage it points to. -/
def SAL_get_sample_data_nullable (p_device : Option SAL_Device) (p_sample : Option Nat)
    (old : List Int) : sal_error_e × List Int :=
  match p_device, p_sample with
  | some d, some p => SAL_get_sample_data d p
  | _, _ => (SALERR_INVALIDPARAM, old)

/-- The function `SAL_get_sample_args` with nullable `p_device` and `p_sample`. -/
def SAL_get_sample_args_nullable (p_device : Option SAL_Device) (p_sample : Option Nat)
    (old : Int) : sal_error_e × Int :=
  match p_device, p_sample with
  | some d, some p => SAL_get_sample_args d p old
  | _, _ => (SALERR_INVALIDPARAM, old)

/-- The function `SAL_get_device_info` with nullable `p_device`. -/
def SAL_get_device_info_nullable (p_device : Option SAL_Device) (info : SAL_DeviceInfo) :
    sal_error_e × SAL_DeviceInfo :=
  match p_device with
  | some d => SAL_get_device_info d info
  | none => (SALERR_INVALIDPARAM, info)

/-- The function `SAL_create_sample` with nullable `p_device`, `decoder` and `destroy`
(`true` for a function pointer that is not NULL); `old` is the old value of `*pp_sample`. -/
def SAL_create_sample_nullable (p_device : Option SAL_Device) (decoder destroy : Bool)
    (old : Option Nat) (num_samples : Nat) : sal_error_e × Option Nat :=
  match p_device with
  | some d =>
    if decoder = false ∨ destroy = false then (SALERR_INVALIDPARAM, old)
    else ((SAL_create_sample d num_samples).1, some (SAL_create_sample d num_samples).2.2)
  | none => (SALERR_INVALIDPARAM, old)

/-! ## Repeated calls -/

/-- The device after `m` calls `_SAL_advance_voice( device, sid, 1 )`. -/
def advance_steps (d : SAL_Device) (sid : Nat) : Nat → SAL_Device
  | 0 => d
  | m + 1 => (_SAL_advance_voice (advance_steps d sid m) sid 1).2

/-- The result of call number `m + 1` of a run of calls `_SAL_advance_voice( device, sid, 1 )`. -/
def advance_result (d : SAL_Device) (sid : Nat) (m : Nat) : Int :=
  (_SAL_advance_voice (advance_steps d sid m) sid 1).1

/-- Call number `m + 1` of a run of 1-frame calls crosses the loop end: the voice has a loop
end marker and the advanced cursor has reached it (the test of `_SAL_advance_voice`). -/
def crosses_loop_end (d : SAL_Device) (sid : Nat) (m : Nat) : Prop :=
  ((advance_steps d sid m).voice sid).voice_loop_end ≠ 0 ∧
  toU32 ((((advance_steps d sid m).voice sid).voice_cursor : Int) + 1)
    ≥ ((advance_steps d sid m).voice sid).voice_loop_end

/-- The results of the calls `_SAL_advance_voice( device, sid, k )` for the frame counts `k`
of a list, in order, and the device they leave. -/
def advance_all (d : SAL_Device) (sid : Nat) : List Int → List Int × SAL_Device
  | [] => ([], d)
  | k :: ks =>
    ((_SAL_advance_voice d sid k).1 :: (advance_all (_SAL_advance_voice d sid k).2 sid ks).1,
     (advance_all (_SAL_advance_voice d sid k).2 sid ks).2)

/-- The arguments `volume`, `pan`, `loop_start`, `loop_end`, `num_repetitions` of one
`SAL_play_sample` call. -/
structure PlayArgs where
  volume : Nat
  pan : Int
  loop_start : Nat
  loop_end : Nat
  num_repetitions : Int
  deriving DecidableEq, Repr

/-- One `SAL_play_sample` call of the sample at `p_sample` per entry of the list, in
order: the result codes with the handles, and the device the calls leave. -/
def play_all (d : SAL_Device) (p_sample : Nat) :
    List PlayArgs → List (sal_error_e × Int) × SAL_Device
  | [] => ([], d)
  | a :: as =>
    let r := SAL_play_sample d p_sample SAL_INVALID_SOUND a.volume a.pan a.loop_start a.loop_end
      a.num_repetitions
    ((r.1, r.2.2) :: (play_all r.2.1 p_sample as).1, (play_all r.2.1 p_sample as).2)

/-- One `SAL_stop_voice` call per handle of the list, in order. -/
def stop_all (d : SAL_Device) (sids : List Int) : SAL_Device :=
  sids.foldl (fun d sid => (SAL_stop_voice d sid).2) d

/-- One `SAL_set_voice_pan` call on the handle `sid` per pan value of the list, in order. -/
def set_pan_all (d : SAL_Device) (sid : Int) (pans : List Int) : SAL_Device :=
  pans.foldl (fun d pan => (SAL_set_voice_pan d sid pan).2) d

/-! ## Example decode callbacks -/

/-- A decode callback that reports an error by returning -1 and touches neither the buffer
nor the device. -/
def decode_error : sal_sample_decode_fnc_t :=
  fun d _ p_dst _ => (-1, p_dst, d)

/-- A decode callback that skips its request: it returns 0 and touches neither the buffer
nor the device (what the Ogg decoder does when its first read fails). -/
def decode_skip : sal_sample_decode_fnc_t :=
  fun d _ p_dst _ => (0, p_dst, d)

/-- A decode callback that returns 0 on a request of 512 bytes or more and reports an error
by returning -1 on a shorter request; it touches neither the buffer nor the device. -/
def decode_error_late : sal_sample_decode_fnc_t :=
  fun d _ p_dst bytes_needed => (if bytes_needed < 512 then -1 else 0, p_dst, d)

/-- A 16-bit mono device format. -/
def info_16_mono : SAL_DeviceInfo :=
  { di_size := 280, di_channels := 1, di_bits := 16, di_sample_rate := 44100,
    di_bytes_per_sample := 2, di_bytes_per_frame := 2 }

/-- A 16-bit stereo device format. -/
def info_16_stereo : SAL_DeviceInfo :=
  { di_size := 280, di_channels := 2, di_bits := 16, di_sample_rate := 44100,
    di_bytes_per_sample := 2, di_bytes_per_frame := 4 }

/-- An 8-bit mono device format. -/
def info_8_mono : SAL_DeviceInfo :=
  { di_size := 280, di_channels := 1, di_bits := 8, di_sample_rate := 22050,
    di_bytes_per_sample := 1, di_bytes_per_frame := 1 }

/-- An 8-bit stereo device format. -/
def info_8_stereo : SAL_DeviceInfo :=
  { di_size := 280, di_channels := 2, di_bits := 8, di_sample_rate := 22050,
    di_bytes_per_sample := 1, di_bytes_per_frame := 2 }

/-- What the pass of `_SAL_mix_chunk` over the voice `j` does to the device, from `d` to
`d1`: the destroy log, the format, the size of the table and the other slots are kept; and
either the arena is kept and the slot keeps its sample (a FREE slot is not touched, a
PLAYING slot stays PLAYING), or the slot was PLAYING and is now cleared and the arena is the
one `mix_end_voice` leaves. -/
def voice_mixed (d d1 : SAL_Device) (j : Nat) : Prop :=
  d1.device_destroyed = d.device_destroyed ∧
  d1.device_info = d.device_info ∧
  d1.device_voices.length = d.device_voices.length ∧
  d1.device_heap.length = d.device_heap.length ∧
  (∀ k, k ≠ j → d1.voice k = d.voice k) ∧
  ((d1.device_heap = d.device_heap ∧
      (d1.voice j).voice_sample = (d.voice j).voice_sample ∧
      ((d.voice j).voice_num_repetitions = 0 → d1.voice j = d.voice j) ∧
      ((d.voice j).voice_num_repetitions ≠ 0 → (d1.voice j).voice_num_repetitions ≠ 0)) ∨
   ((d.voice j).voice_num_repetitions ≠ 0 ∧ d1.voice j = SAL_Voice.zero ∧
      d1.device_heap = (mix_end_voice d j).device_heap))

/-- The device of the test harness after `SAL_create_sample` of 4 frames and one
`SAL_play_sample` of it that loops forever: voice 0 is PLAYING the sample at address 0, whose
ref count is 2. -/
def device8_playing : SAL_Device :=
  run _SAL_generic_decode_sample device8 [.create 4, .play 0 65535 0 0 0 (-1)]

/-- The device of the test harness after `SAL_create_sample` of 4 frames, one
`SAL_play_sample` of it with one repetition and `SAL_destroy_sample`: voice 0 is PLAYING
the sample at address 0 and holds its last reference. -/
def device8_last_ref : SAL_Device :=
  run _SAL_generic_decode_sample device8 [.create 4, .play 0 65535 0 0 0 1, .destroy 0]

/-- The device of the test harness after `SAL_create_sample` of 4 frames and one
`SAL_play_sample` of it with `loop_start` 1, `loop_end` 3 and 3 repetitions: voice 0 is
PLAYING with cursor 0. -/
def device8_loop3 : SAL_Device :=
  run _SAL_generic_decode_sample device8 [.create 4, .play 0 65535 0 1 3 3]

/-! ## The pieces of the pass of a voice in the mixer -/

/-- The state in which `_SAL_mix_chunk` starts the pass of voice `i`: the destination is
cleared and the passes of the voices `0 .. i - 1` are done. -/
def mix_reach (decode : sal_sample_decode_fnc_t) (d : SAL_Device) (dst decode_buffer : List Int)
    (bytes_to_mix : Nat) (i : Nat) : SAL_Device × List Int × List Int :=
  (List.range i).foldl (mix_voice decode bytes_to_mix)
    (d, clear_chunk d.device_info dst bytes_to_mix, decode_buffer)

/-- The result of the decode call for piece number `k + 1` of the pass of voice `i` in
`_SAL_mix_chunk`, the pass starting in the state `st` with `bytes_left` bytes to mix and the
`k` pieces before it, of 512 bytes each, having been decoded with result 0: the call
`sample_fnc_decoder( device, i, decode_buffer, bytes_to_decode )` in the state the loop
`while ( bytes_left > 0 )` has reached after `k` pieces. -/
def mix_piece_result (decode : sal_sample_decode_fnc_t) (i : Nat) (bytes_to_mix : Nat)
    (bytes_left : Int) (st : SAL_Device × List Int × List Int) (k : Nat) : Int :=
  let s := mix_voice_loop decode i bytes_to_mix k bytes_left st
  let bytes_left_k := bytes_left - 512 * (k : Int)
  (decode s.1 i s.2.2 (if bytes_left_k > 512 then 512 else bytes_left_k)).1

/-! ## The steps as the specification words them -/

/-- The step of `AdvanceVoice(handle, n)` on one slot as the specification words it:
`cursor' = cursor + n` (32-bit unsigned); if `loop_end != 0` and `cursor' >= loop_end` the
cursor becomes `loop_start` and, unless the repetitions are `SAL_LOOP_ALWAYS`, the
repetitions are decremented and the result is 0 (ended) iff the decremented value is
`<= 0`; in every other case the result is 1 (still playing) with the repetitions
unchanged. -/
def spec_advance_voice (v : SAL_Voice) (n : Int) : Int × SAL_Voice :=
  let cursor1 := toU32 ((v.voice_cursor : Int) + n)
  if v.voice_loop_end ≠ 0 ∧ cursor1 ≥ v.voice_loop_end then
    if v.voice_num_repetitions ≠ SAL_LOOP_ALWAYS then
      (if v.voice_num_repetitions - 1 ≤ 0 then 0 else 1,
       { v with
         voice_cursor := v.voice_loop_start
         voice_num_repetitions := v.voice_num_repetitions - 1 })
    else
      (1, { v with voice_cursor := v.voice_loop_start })
  else
    (1, { v with voice_cursor := cursor1 })

/-- The 16-bit submix of one sample as the specification words it: `d + floor(s*e / 65536)`
reduced modulo 2^16 to a signed 16-bit value. -/
def spec_submix_16 (d s : Int) (e : Nat) : Int :=
  toI16 (d + s * (e : Int) / 65536)

/-- The per-channel volume of a stereo device as the specification words it:
`clamp(voice_volume + 2*pan, 0, 65535)` at an odd index (right channel) and
`clamp(voice_volume - 2*pan, 0, 65535)` at an even index (left channel). -/
def spec_pan_volume (voice_volume : Nat) (voice_pan : Int) (i : Nat) : Int :=
  let e : Int :=
    if i % 2 = 1 then (voice_volume : Int) + 2 * voice_pan
    else (voice_volume : Int) - 2 * voice_pan
  max 0 (min e 65535)

/-- The successor of a cursor as the specification words it: `c + 1` if `c + 1 < L`, else
`S`. -/
def spec_next_cursor (S L c : Nat) : Nat :=
  if c + 1 < L then c + 1 else S

/-- The sequence of cursors of the specification: `c_0 = c` and `c_(i+1)` is the successor of
`c_i`. -/
def spec_cursor (S L c : Nat) : Nat → Nat
  | 0 => c
  | i + 1 => spec_next_cursor S L (spec_cursor S L c i)

/-! ## What the generic decoder copies and reads -/

/-- The value which iteration `t + 1` of the copy loop of `_SAL_generic_decode_sample`
copies, when the loop gets that far: `sample_data[ cursor ]` with the cursor reported by
`SAL_get_voice_cursor` after `t` calls `_SAL_advance_voice( device, voice, 1 )`. -/
def decode_read (d : SAL_Device) (voice : Nat) (sample_data : List Int) (t : Nat) : Int :=
  read_sample sample_data (SAL_get_voice_cursor (advance_steps d voice t) voice 0).2

/-- The reads `sample_data[ cursor ]` of the copy loop of `_SAL_generic_decode_sample`, in
order: each index `cursor` with the number of samples of the storage it is applied to. -/
def generic_decode_reads (voice : Nat) (sample_data : List Int) :
    Nat → SAL_Device → List (Int × Nat)
  | 0, _ => []
  | n + 1, d =>
    let cursor := (SAL_get_voice_cursor d voice 0).2
    let r := _SAL_advance_voice d voice 1
    if r.1 = 0 then
      [(cursor, sample_data.length)]
    else
      (cursor, sample_data.length) :: generic_decode_reads voice sample_data n r.2

/-- The reads of the sample storage made by one call of `_SAL_generic_decode_sample`. -/
def _SAL_generic_decode_reads (d : SAL_Device) (voice : Nat) (bytes_needed : Int) :
    List (Int × Nat) :=
  let samples_needed := Int.tdiv bytes_needed d.device_info.di_bytes_per_sample
  let sample := (SAL_get_voice_sample d voice none).2
  let sample_data :=
    match sample with
    | some p => (SAL_get_sample_data d p).2
    | none => []
  if d.device_info.di_bits = 8 then
    generic_decode_reads voice sample_data samples_needed.toNat d
  else if d.device_info.di_bits = 16 then
    generic_decode_reads voice sample_data samples_needed.toNat d
  else
    []

/-- A one-voice 16-bit mono device whose slot is PLAYING the sample at address 0, which
stores the four samples 10, 11, 12, 13: cursor 0, loop from 1 to 3, 2 repetitions. -/
def device_ramp : SAL_Device :=
  { device_info := info_16_mono
    device_voices :=
      [{ voice_sample := some 0, voice_cursor := 0, voice_volume := 65535, voice_pan := 0,
         voice_loop_start := 1, voice_loop_end := 3, voice_num_repetitions := 2 }]
    device_heap :=
      [{ sample_ref_count := 2, sample_data := [10, 11, 12, 13], sample_num_samples := 4 }]
    device_destroyed := [] }

/-- The reads of sample storage made by the loop `while ( bytes_left > 0 )` of
`_SAL_mix_chunk` for the voice `i`, the decode callback being `_SAL_generic_decode_sample`:
the reads of each decode call, in order. -/
def mix_voice_loop_reads (i : Nat) (bytes_to_mix : Nat) :
    Nat → Int → SAL_Device × List Int × List Int → List (Int × Nat)
  | 0, _, _ => []
  | fuel + 1, bytes_left, (d, dst, decode_buffer) =>
    if bytes_left > 0 then
      let bytes_to_decode : Int := if bytes_left > 512 then 512 else bytes_left
      let reads := _SAL_generic_decode_reads d i bytes_to_decode
      let r := _SAL_generic_decode_sample d i decode_buffer bytes_to_decode
      let voice_ended := r.1
      let d1 := r.2.2
      let off := (Int.tdiv ((bytes_to_mix : Int) - bytes_left) d1.device_info.di_bytes_per_sample).toNat
      let dst1 := submix_buffer d1.device_info dst off r.2.1 bytes_to_decode
        (d1.voice i).voice_volume (d1.voice i).voice_pan
      if voice_ended ≠ 0 then
        reads
      else
        reads ++ mix_voice_loop_reads i bytes_to_mix fuel (bytes_left - bytes_to_decode)
          (d1, dst1, r.2.1)
    else []

/-- The reads of sample storage made by the pass of voice `i` in `_SAL_mix_chunk`. -/
def mix_voice_reads (bytes_to_mix : Nat) (st : SAL_Device × List Int × List Int) (i : Nat) :
    List (Int × Nat) :=
  if (st.1.voice i).voice_num_repetitions = 0 then []
  else
    let bytes_left := toI32 bytes_to_mix
    mix_voice_loop_reads i bytes_to_mix bytes_left.toNat bytes_left st

/-- The reads of sample storage made by one call of `_SAL_mix_chunk` over the voices of a
list, from the state `st`, the decode callback being `_SAL_generic_decode_sample`. -/
def mix_voices_reads (bytes_to_mix : Nat) :
    List Nat → SAL_Device × List Int × List Int → List (Int × Nat)
  | [], _ => []
  | i :: l, st =>
    mix_voice_reads bytes_to_mix st i
      ++ mix_voices_reads bytes_to_mix l (mix_voice _SAL_generic_decode_sample bytes_to_mix st i)

/-- The reads of sample storage made by one call of `_SAL_mix_chunk`. -/
def mix_chunk_reads (d : SAL_Device) (dst decode_buffer : List Int) (bytes_to_mix : Nat) :
    List (Int × Nat) :=
  mix_voices_reads bytes_to_mix (List.range d.device_voices.length)
    (d, clear_chunk d.device_info dst bytes_to_mix, decode_buffer)

/-- The reads of sample storage made by one API call: only `_SAL_mix_chunk` decodes. -/
def step_reads (d : SAL_Device) : Call → List (Int × Nat)
  | .mix dst decode_buffer bytes_to_mix => mix_chunk_reads d dst decode_buffer bytes_to_mix
  | _ => []

/-- The reads of sample storage made by a sequence of API calls, the decode callback of
every sample being `_SAL_generic_decode_sample`. -/
def run_reads (d : SAL_Device) : List Call → List (Int × Nat)
  | [] => []
  | c :: cs => step_reads d c ++ run_reads (step _SAL_generic_decode_sample d c) cs

/-- The loop bounds of a `SAL_play_sample` call lie inside the storage of the sample in the
state `d`: `loop_start < loop_end <= N`, where a `loop_end` of 0 stands for
`sample_num_samples`. -/
def Call.loop_in_bounds (d : SAL_Device) : Call → Bool
  | .play p _ _ loop_start loop_end _ =>
    decide (loop_start <
      (if loop_end = 0 then toU32 (d.sample p).sample_num_samples else loop_end)) &&
    decide ((if loop_end = 0 then toU32 (d.sample p).sample_num_samples else loop_end)
      ≤ (d.sample p).sample_data.length) &&
    decide ((d.sample p).sample_data.length < 2147483648)
  | _ => true

/-- Every `SAL_play_sample` call of the sequence has its loop bounds inside the storage of
its sample, in the state in which it is made. -/
def loops_in_bounds : SAL_Device → List Call → Bool
  | _, [] => true
  | d, c :: cs =>
    c.loop_in_bounds d && loops_in_bounds (step _SAL_generic_decode_sample d c) cs

/-- A two-voice 16-bit mono device.  Voice 0 loops forever over the sample at address 0,
which stores 1000 four times; voice 1 plays the sample at address 1, which stores 10, 11,
12, 13, from cursor 0 with the loop from 1 to 3 and 2 repetitions. -/
def device_two : SAL_Device :=
  { device_info := info_16_mono
    device_voices :=
      [{ voice_sample := some 0, voice_cursor := 0, voice_volume := 65535, voice_pan := 0,
         voice_loop_start := 0, voice_loop_end := 4, voice_num_repetitions := -1 },
       { voice_sample := some 1, voice_cursor := 0, voice_volume := 65535, voice_pan := 0,
         voice_loop_start := 1, voice_loop_end := 3, voice_num_repetitions := 2 }]
    device_heap :=
      [{ sample_ref_count := 2, sample_data := [1000, 1000, 1000, 1000],
         sample_num_samples := 4 },
       { sample_ref_count := 2, sample_data := [10, 11, 12, 13], sample_num_samples := 4 }]
    device_destroyed := [] }

/-- A one-voice 16-bit stereo device whose slot loops forever over the sample at address 0,
which stores 100, 200, 300, at volume 30000 and pan 10000. -/
def device_stereo_loop : SAL_Device :=
  { device_info := info_16_stereo
    device_voices :=
      [{ voice_sample := some 0, voice_cursor := 0, voice_volume := 30000, voice_pan := 10000,
         voice_loop_start := 0, voice_loop_end := 3, voice_num_repetitions := -1 }]
    device_heap :=
      [{ sample_ref_count := 2, sample_data := [100, 200, 300], sample_num_samples := 3 }]
    device_destroyed := [] }

/-! ## Lemmas on the voice scan -/

theorem find_free_voice_le (vs : List SAL_Voice) : find_free_voice vs ≤ vs.length := by
  induction vs with
  | nil => simp [find_free_voice]
  | cons v vs ih =>
    simp only [find_free_voice, List.length_cons]
    split <;> omega

theorem find_free_voice_full (vs : List SAL_Voice)
    (h : ∀ v ∈ vs, v.voice_num_repetitions ≠ 0) : find_free_voice vs = vs.length := by
  induction vs with
  | nil => simp [find_free_voice]
  | cons v vs ih =>
    have hv : v.voice_num_repetitions ≠ 0 := h v (List.mem_cons_self _ _)
    have ht : ∀ u ∈ vs, u.voice_num_repetitions ≠ 0 :=
      fun u hu => h u (List.mem_cons_of_mem _ hu)
    simp [find_free_voice, hv, ih ht]

theorem find_free_voice_free (vs : List SAL_Voice) (h : find_free_voice vs < vs.length) :
    (vs.getD (find_free_voice vs) SAL_Voice.zero).voice_num_repetitions = 0 := by
  induction vs with
  | nil => simp at h
  | cons v vs ih =>
    by_cases hv : v.voice_num_repetitions = 0
    · simp [find_free_voice, hv]
    · simp only [find_free_voice, hv, if_false, List.length_cons] at h ⊢
      have := ih (by omega)
      simpa using this

theorem find_free_voice_below (vs : List SAL_Voice) (j : Nat) (h : j < find_free_voice vs) :
    (vs.getD j SAL_Voice.zero).voice_num_repetitions ≠ 0 := by
  induction vs generalizing j with
  | nil => simp [find_free_voice] at h
  | cons v vs ih =>
    by_cases hv : v.voice_num_repetitions = 0
    · simp [find_free_voice, hv] at h
    · simp only [find_free_voice, hv, if_false] at h
      cases j with
      | zero => simpa using hv
      | succ j => simpa using ih j (by omega)

theorem find_free_voice_eq (vs : List SAL_Voice) (h : Nat)
    (hfree : (vs.getD h SAL_Voice.zero).voice_num_repetitions = 0) (hlt : h < vs.length)
    (hbelow : ∀ j, j < h → (vs.getD j SAL_Voice.zero).voice_num_repetitions ≠ 0) :
    find_free_voice vs = h := by
  have hle := find_free_voice_le vs
  rcases Nat.lt_trichotomy (find_free_voice vs) h with hlt1 | heq | hgt
  · exact absurd (find_free_voice_free vs (by omega)) (hbelow _ hlt1)
  · exact heq
  · exact absurd hfree (find_free_voice_below vs h hgt)

/-! ## Frame lemmas for the voice table and the arena -/

theorem voice_set_voice (d : SAL_Device) (i j : Nat) (v : SAL_Voice) :
    (d.set_voice i v).voice j = if i = j ∧ i < d.device_voices.length then v else d.voice j := by
  simp only [SAL_Device.voice, SAL_Device.set_voice, List.getD_eq_getElem?_getD, List.getElem?_set]
  by_cases h : i = j
  · subst h
    by_cases h2 : i < d.device_voices.length
    · simp [h2]
    · have h3 : d.device_voices[i]? = none := List.getElem?_eq_none (by omega)
      simp [h2, h3]
  · simp [h]

theorem ref_count_add_ref (d : SAL_Device) (p q : Nat) (k : Int) :
    (d.add_ref p k).ref_count q =
      if p = q ∧ p < d.device_heap.length then d.ref_count p + k else d.ref_count q := by
  simp only [SAL_Device.ref_count, SAL_Device.sample, SAL_Device.add_ref, List.getD_eq_getElem?_getD, List.getElem?_set]
  by_cases h : p = q
  · subst h
    by_cases h2 : p < d.device_heap.length
    · simp [h2]
    · have h3 : d.device_heap[p]? = none := List.getElem?_eq_none (by omega)
      simp [h2, h3]
  · simp [h]

theorem sample_add_ref (d : SAL_Device) (p q : Nat) (k : Int) :
    (d.add_ref p k).sample q =
      if p = q ∧ p < d.device_heap.length then
        { (d.sample p) with sample_ref_count := (d.sample p).sample_ref_count + k }
      else d.sample q := by
  simp only [SAL_Device.sample, SAL_Device.add_ref, List.getD_eq_getElem?_getD, List.getElem?_set]
  by_cases h : p = q
  · subst h
    by_cases h2 : p < d.device_heap.length
    · simp [h2]
    · have h3 : d.device_heap[p]? = none := List.getElem?_eq_none (by omega)
      simp [h2, h3]
  · simp [h]

theorem voices_add_ref (d : SAL_Device) (p : Nat) (k : Int) :
    (d.add_ref p k).device_voices = d.device_voices := rfl

theorem voice_add_ref (d : SAL_Device) (p : Nat) (k : Int) (j : Nat) :
    (d.add_ref p k).voice j = d.voice j := rfl

theorem destroyed_add_ref (d : SAL_Device) (p : Nat) (k : Int) :
    (d.add_ref p k).device_destroyed = d.device_destroyed := rfl

theorem heap_length_add_ref (d : SAL_Device) (p : Nat) (k : Int) :
    (d.add_ref p k).device_heap.length = d.device_heap.length := by
  simp [SAL_Device.add_ref]

theorem heap_set_voice (d : SAL_Device) (i : Nat) (v : SAL_Voice) :
    (d.set_voice i v).device_heap = d.device_heap := rfl

theorem destroyed_set_voice (d : SAL_Device) (i : Nat) (v : SAL_Voice) :
    (d.set_voice i v).device_destroyed = d.device_destroyed := rfl

theorem ref_count_set_voice (d : SAL_Device) (i : Nat) (v : SAL_Voice) (p : Nat) :
    (d.set_voice i v).ref_count p = d.ref_count p := rfl

theorem voices_length_set_voice (d : SAL_Device) (i : Nat) (v : SAL_Voice) :
    (d.set_voice i v).device_voices.length = d.device_voices.length := by
  simp [SAL_Device.set_voice]

theorem voice_destroy_raw (d : SAL_Device) (p : Nat) (j : Nat) :
    (_SAL_destroy_sample_raw d p).voice j = d.voice j := rfl

theorem destroyed_destroy_raw (d : SAL_Device) (p : Nat) :
    (_SAL_destroy_sample_raw d p).device_destroyed = d.device_destroyed ++ [p] := rfl

theorem voices_destroy_raw (d : SAL_Device) (p : Nat) :
    (_SAL_destroy_sample_raw d p).device_voices = d.device_voices := rfl

theorem heap_length_destroy_raw (d : SAL_Device) (p : Nat) :
    (_SAL_destroy_sample_raw d p).device_heap.length = d.device_heap.length := by
  simp [_SAL_destroy_sample_raw]

/-- The records of the arena after `_SAL_destroy_sample_raw`: the storage of the destroyed
sample is gone, nothing else is changed. -/
theorem sample_destroy_raw (d : SAL_Device) (p q : Nat) :
    (_SAL_destroy_sample_raw d p).sample q =
      if p = q ∧ p < d.device_heap.length then { (d.sample p) with sample_data := [] }
      else d.sample q := by
  simp only [SAL_Device.sample, _SAL_destroy_sample_raw, List.getD_eq_getElem?_getD,
    List.getElem?_set]
  by_cases h : p = q
  · subst h
    by_cases h2 : p < d.device_heap.length
    · simp [h2]
    · have h3 : d.device_heap[p]? = none := List.getElem?_eq_none (by omega)
      simp [h2, h3]
  · simp [h]

theorem ref_count_destroy_raw (d : SAL_Device) (p q : Nat) :
    (_SAL_destroy_sample_raw d p).ref_count q = d.ref_count q := by
  unfold SAL_Device.ref_count
  rw [sample_destroy_raw]
  split
  · rename_i h
    rw [h.1]
  · rfl

/-- The three outcomes of `SAL_play_sample`, by the order of its tests. -/
theorem SAL_play_sample_cases (d : SAL_Device) (p : Nat) (sid : Int) (volume : Nat) (pan : Int)
    (loop_start loop_end : Nat) (num_repetitions : Int) :
    (loop_start > loop_end ∧
      SAL_play_sample d p sid volume pan loop_start loop_end num_repetitions
        = (SALERR_INVALIDPARAM, d, sid)) ∨
    (loop_start ≤ loop_end ∧ find_free_voice d.device_voices = d.device_voices.length ∧
      SAL_play_sample d p sid volume pan loop_start loop_end num_repetitions
        = (SALERR_OUTOFVOICES, d, sid)) ∨
    (loop_start ≤ loop_end ∧ find_free_voice d.device_voices < d.device_voices.length ∧
      SAL_play_sample d p sid volume pan loop_start loop_end num_repetitions
        = (SALERR_OK,
            (d.set_voice (find_free_voice d.device_voices)
              { voice_sample := some p
                voice_cursor := 0
                voice_volume := volume
                voice_pan := pan
                voice_loop_start := loop_start
                voice_loop_end :=
                  if loop_end = 0 then toU32 (d.sample p).sample_num_samples else loop_end
                voice_num_repetitions := num_repetitions }).add_ref p 1,
            (find_free_voice d.device_voices : Int))) := by
  by_cases h1 : loop_start > loop_end
  · left
    exact ⟨h1, by simp [SAL_play_sample, h1]⟩
  · right
    have hle := find_free_voice_le d.device_voices
    by_cases h2 : find_free_voice d.device_voices = d.device_voices.length
    · left
      refine ⟨by omega, h2, ?_⟩
      simp [SAL_play_sample, h1, h2, SAL_Device.device_max_voices]
    · right
      refine ⟨by omega, by omega, ?_⟩
      have h3 : ¬ ((find_free_voice d.device_voices : Int) = d.device_max_voices) := by
        simp only [SAL_Device.device_max_voices]
        omega
      simp only [SAL_play_sample, h1, if_false, h3]

/-! ## Claims C3 - C6: `SAL_play_sample` -/

/-- C3 (as stated, refuted): on the one-voice device `device_full1`, whose only slot is
PLAYING, `SAL_play_sample` with `loop_start = 5 > loop_end = 3` returns InvalidParam, not
OutOfVoices. -/
theorem C3_counterexample :
    (∀ v ∈ device_full1.device_voices, v.voice_num_repetitions ≠ 0) ∧
    (SAL_play_sample device_full1 0 SAL_INVALID_SOUND 65535 0 5 3 1).1 = SALERR_INVALIDPARAM ∧
    (SAL_play_sample device_full1 0 SAL_INVALID_SOUND 65535 0 5 3 1).1 ≠ SALERR_OUTOFVOICES := by
  decide

/-- C3 (amended): on a device whose slots are all PLAYING, `SAL_play_sample` called with
`loop_start <= loop_end` returns OutOfVoices, and whatever the loop bounds it leaves the
device (every voice slot, every sample and its ref count) and the handle variable unchanged. -/
theorem C3_play_on_full_device (d : SAL_Device) (p : Nat) (sid : Int) (volume : Nat) (pan : Int)
    (loop_start loop_end : Nat) (num_repetitions : Int)
    (hfull : ∀ v ∈ d.device_voices, v.voice_num_repetitions ≠ 0) :
    (loop_start ≤ loop_end →
      (SAL_play_sample d p sid volume pan loop_start loop_end num_repetitions).1
        = SALERR_OUTOFVOICES) ∧
    (SAL_play_sample d p sid volume pan loop_start loop_end num_repetitions).2.1 = d ∧
    (SAL_play_sample d p sid volume pan loop_start loop_end num_repetitions).2.2 = sid := by
  have hf := find_free_voice_full d.device_voices hfull
  rcases SAL_play_sample_cases d p sid volume pan loop_start loop_end num_repetitions with
    ⟨h1, h⟩ | ⟨h1, _, h⟩ | ⟨_, h2, _⟩
  · rw [h]; exact ⟨fun hle => absurd hle (by omega), rfl, rfl⟩
  · rw [h]; exact ⟨fun _ => rfl, rfl, rfl⟩
  · omega

/-- C3, witness: a play with `loop_start = 0 <= loop_end = 3` on the full one-voice device. -/
theorem C3_play_on_full_device_witness :
    (SAL_play_sample device_full1 0 SAL_INVALID_SOUND 65535 0 0 3 1).1 = SALERR_OUTOFVOICES ∧
    (SAL_play_sample device_full1 0 SAL_INVALID_SOUND 65535 0 0 3 1).2.1 = device_full1 ∧
    (SAL_play_sample device_full1 0 SAL_INVALID_SOUND 65535 0 0 3 1).2.2 = SAL_INVALID_SOUND :=
  have h := C3_play_on_full_device device_full1 0 SAL_INVALID_SOUND 65535 0 0 3 1 (by decide)
  ⟨h.1 (by decide), h.2.1, h.2.2⟩

/-- C4 (as stated, refuted): on the 8-voice device with one sample, `SAL_play_sample` with
`num_repetitions = 0` returns Ok with handle 0, raises the ref count from 1 to 2, and yet
slot 0 is not PLAYING: its `voice_num_repetitions` is 0 and `SAL_get_voice_status` reports
IDLE. -/
theorem C4_counterexample :
    (SAL_play_sample (SAL_create_sample device8 4).2.1 0 SAL_INVALID_SOUND 65535 0 0 0 0).1
      = SALERR_OK ∧
    (SAL_play_sample (SAL_create_sample device8 4).2.1 0 SAL_INVALID_SOUND 65535 0 0 0 0).2.2
      = 0 ∧
    ((SAL_play_sample (SAL_create_sample device8 4).2.1 0 SAL_INVALID_SOUND 65535 0 0 0 0).2.1.voice
      0).voice_num_repetitions = 0 ∧
    SAL_get_voice_status
      (SAL_play_sample (SAL_create_sample device8 4).2.1 0 SAL_INVALID_SOUND 65535 0 0 0 0).2.1
      0 SALVS_INVALIDSOUND = (SALERR_OK, SALVS_IDLE) ∧
    (SAL_play_sample (SAL_create_sample device8 4).2.1 0 SAL_INVALID_SOUND 65535 0 0 0 0).2.1.ref_count
      0 = 2 := by
  decide

/-- C4 (amended): for every `SAL_play_sample` call that returns Ok with a repetitions
argument other than 0 (any volume, pan and loop bounds), on a sample of the arena, the
returned handle names a slot of the table that is PLAYING afterwards
(`voice_num_repetitions != 0`, `SAL_get_voice_status` reports PLAYING), the cursor of the
slot is 0, and the ref count of the sample is exactly one higher than before. -/
theorem C4_play_ok_slot_playing (d : SAL_Device) (p : Nat) (sid : Int) (volume : Nat) (pan : Int)
    (loop_start loop_end : Nat) (num_repetitions : Int) (status : sal_voice_status_e)
    (hok : (SAL_play_sample d p sid volume pan loop_start loop_end num_repetitions).1 = SALERR_OK)
    (hreps : num_repetitions ≠ 0) (hp : p < d.device_heap.length) :
    0 ≤ (SAL_play_sample d p sid volume pan loop_start loop_end num_repetitions).2.2 ∧
    (SAL_play_sample d p sid volume pan loop_start loop_end num_repetitions).2.2
      < d.device_max_voices ∧
    ((SAL_play_sample d p sid volume pan loop_start loop_end num_repetitions).2.1.voice
      (SAL_play_sample d p sid volume pan loop_start loop_end num_repetitions).2.2.toNat
      ).voice_num_repetitions ≠ 0 ∧
    SAL_get_voice_status
      (SAL_play_sample d p sid volume pan loop_start loop_end num_repetitions).2.1
      (SAL_play_sample d p sid volume pan loop_start loop_end num_repetitions).2.2 status
      = (SALERR_OK, SALVS_PLAYING) ∧
    ((SAL_play_sample d p sid volume pan loop_start loop_end num_repetitions).2.1.voice
      (SAL_play_sample d p sid volume pan loop_start loop_end num_repetitions).2.2.toNat
      ).voice_cursor = 0 ∧
    (SAL_play_sample d p sid volume pan loop_start loop_end num_repetitions).2.1.ref_count p
      = d.ref_count p + 1 := by
  rcases SAL_play_sample_cases d p sid volume pan loop_start loop_end num_repetitions with
    ⟨_, h⟩ | ⟨_, _, h⟩ | ⟨_, h2, h⟩
  · rw [h] at hok; simp at hok
  · rw [h] at hok; simp at hok
  · rw [h]
    have hlt : ¬ ((find_free_voice d.device_voices : Int) < 0 ∨
        (find_free_voice d.device_voices : Int) ≥ (d.device_voices.length : Int)) := by omega
    simp only [SAL_get_voice_status, SAL_Device.device_max_voices, Int.toNat_ofNat,
      voice_add_ref, voice_set_voice, h2, and_self, if_true, ref_count_add_ref,
      heap_set_voice, hp, ref_count_set_voice, voices_add_ref, voices_length_set_voice, hlt,
      if_false, hreps]
    simp only [ne_eq, not_false_eq_true, if_true, and_self, and_true]
    omega

/-- C4, witness: a play with 3 repetitions on the 8-voice device with one sample. -/
theorem C4_play_ok_slot_playing_witness :
    SAL_get_voice_status
      (SAL_play_sample (SAL_create_sample device8 4).2.1 0 SAL_INVALID_SOUND 65535 0 0 0 3).2.1
      (SAL_play_sample (SAL_create_sample device8 4).2.1 0 SAL_INVALID_SOUND 65535 0 0 0 3).2.2
      SALVS_INVALIDSOUND = (SALERR_OK, SALVS_PLAYING) ∧
    (SAL_play_sample (SAL_create_sample device8 4).2.1 0 SAL_INVALID_SOUND 65535 0 0 0 3
      ).2.1.ref_count 0 = (SAL_create_sample device8 4).2.1.ref_count 0 + 1 :=
  have h := C4_play_ok_slot_playing (SAL_create_sample device8 4).2.1 0 SAL_INVALID_SOUND
    65535 0 0 0 3 SALVS_INVALIDSOUND (by decide) (by decide) (by decide)
  ⟨h.2.2.2.1, h.2.2.2.2.2⟩

/-- C5: a successful `SAL_play_sample` returns as handle the lowest index whose slot is FREE
(every slot below it is PLAYING), changes no other slot and binds the slot to the sample
played; consequently, when `SAL_stop_voice` on an in-range handle `h` leaves `h` as the
lowest FREE index, a `SAL_play_sample` (with `loop_start <= loop_end`) that follows
directly returns Ok with the same handle `h`, whose slot is now bound to the sample of
that call. -/
theorem C5_play_returns_lowest_free_slot (d : SAL_Device) (p : Nat) (sid : Int) (volume : Nat)
    (pan : Int) (loop_start loop_end : Nat) (num_repetitions : Int) :
    ((SAL_play_sample d p sid volume pan loop_start loop_end num_repetitions).1 = SALERR_OK →
      ∃ i : Nat,
        (SAL_play_sample d p sid volume pan loop_start loop_end num_repetitions).2.2 = (i : Int) ∧
        i < d.device_voices.length ∧
        (d.voice i).voice_num_repetitions = 0 ∧
        (∀ j, j < i → (d.voice j).voice_num_repetitions ≠ 0) ∧
        (∀ j, j ≠ i →
          (SAL_play_sample d p sid volume pan loop_start loop_end num_repetitions).2.1.voice j
            = d.voice j) ∧
        (SAL_play_sample d p sid volume pan loop_start loop_end
          num_repetitions).2.1.device_voices.length = d.device_voices.length ∧
        ((SAL_play_sample d p sid volume pan loop_start loop_end num_repetitions).2.1.voice
          i).voice_sample = some p) ∧
    (∀ h : Nat, h < d.device_voices.length →
      (∀ j, j < h → ((SAL_stop_voice d h).2.voice j).voice_num_repetitions ≠ 0) →
      loop_start ≤ loop_end →
      (SAL_play_sample (SAL_stop_voice d h).2 p sid volume pan loop_start loop_end
        num_repetitions).1 = SALERR_OK ∧
      (SAL_play_sample (SAL_stop_voice d h).2 p sid volume pan loop_start loop_end
        num_repetitions).2.2 = (h : Int) ∧
      ((SAL_play_sample (SAL_stop_voice d h).2 p sid volume pan loop_start loop_end
        num_repetitions).2.1.voice h).voice_sample = some p) := by
  constructor
  · intro hok
    rcases SAL_play_sample_cases d p sid volume pan loop_start loop_end num_repetitions with
      ⟨_, h⟩ | ⟨_, _, h⟩ | ⟨_, h2, h⟩
    · rw [h] at hok; simp at hok
    · rw [h] at hok; simp at hok
    · rw [h]
      refine ⟨find_free_voice d.device_voices, rfl, h2, find_free_voice_free _ h2,
        fun j hj => find_free_voice_below _ j hj, ?_, ?_, ?_⟩
      · intro j hj
        simp only [voice_add_ref, voice_set_voice]
        rw [if_neg]
        intro hcon
        exact hj hcon.1.symm
      · simp only [voices_add_ref, voices_length_set_voice]
      · simp only [voice_add_ref, voice_set_voice, h2, and_self, if_true]
  · intro h hlt hbelow hle
    have hstop_len : (SAL_stop_voice d h).2.device_voices.length = d.device_voices.length := by
      have hr : ¬ (((h : Int) < 0) ∨ ((h : Int) ≥ (d.device_voices.length : Int))) := by omega
      simp only [SAL_stop_voice, SAL_Device.device_max_voices, hr, if_false,
        voices_length_set_voice]
      split
      · split
        · split <;> rfl
        · rfl
      · rfl
    have hstop_free : ((SAL_stop_voice d h).2.voice h).voice_num_repetitions = 0 := by
      have hr : ¬ (((h : Int) < 0) ∨ ((h : Int) ≥ (d.device_voices.length : Int))) := by omega
      simp only [SAL_stop_voice, SAL_Device.device_max_voices, hr, if_false, Int.toNat_ofNat,
        voice_set_voice, true_and]
      rw [if_pos]
      · rfl
      · split
        · split
          · split <;> exact hlt
          · exact hlt
        · exact hlt
    have hfind : find_free_voice (SAL_stop_voice d h).2.device_voices = h :=
      find_free_voice_eq _ h hstop_free (by omega) hbelow
    rcases SAL_play_sample_cases (SAL_stop_voice d h).2 p sid volume pan loop_start loop_end
        num_repetitions with ⟨h1, _⟩ | ⟨_, h2, _⟩ | ⟨_, h2, hp⟩
    · omega
    · omega
    · rw [hp, hfind]
      refine ⟨rfl, rfl, ?_⟩
      simp only [voice_add_ref, voice_set_voice, hstop_len, hlt, and_self, if_true]

/-- C5, witness: handles 0 and 1 play sample 0 on the 8-voice device; after
`SAL_stop_voice` on handle 0 a play of sample 1 gets handle 0 again, bound to sample 1. -/
theorem C5_play_returns_lowest_free_slot_witness :
    (SAL_play_sample
      (SAL_stop_voice
        (run _SAL_generic_decode_sample device8
          [.create 4, .create 4, .play 0 9 0 0 0 1, .play 0 9 0 0 0 1]) (0 : Nat)).2
      1 SAL_INVALID_SOUND 9 0 0 0 1).2.2 = ((0 : Nat) : Int) ∧
    ((SAL_play_sample
      (SAL_stop_voice
        (run _SAL_generic_decode_sample device8
          [.create 4, .create 4, .play 0 9 0 0 0 1, .play 0 9 0 0 0 1]) (0 : Nat)).2
      1 SAL_INVALID_SOUND 9 0 0 0 1).2.1.voice 0).voice_sample = some 1 :=
  have h := (C5_play_returns_lowest_free_slot
    (run _SAL_generic_decode_sample device8
      [.create 4, .create 4, .play 0 9 0 0 0 1, .play 0 9 0 0 0 1])
    1 SAL_INVALID_SOUND 9 0 0 0 1).2 0 (by decide) (by decide) (by decide)
  ⟨h.2.1, h.2.2⟩

/-- C6: `SAL_play_sample` returns InvalidParam whenever `loop_start` is greater than the
`loop_end` argument as passed (before a `loop_end` of 0 is replaced by the sample length),
leaving the device (voice table, ref counts) and the handle variable unchanged; and when
`loop_start <= loop_end` the call does not return InvalidParam: it returns Ok or
OutOfVoices. -/
theorem C6_play_loop_bounds (d : SAL_Device) (p : Nat) (sid : Int) (volume : Nat) (pan : Int)
    (loop_start loop_end : Nat) (num_repetitions : Int) :
    (loop_start > loop_end →
      SAL_play_sample d p sid volume pan loop_start loop_end num_repetitions
        = (SALERR_INVALIDPARAM, d, sid)) ∧
    (loop_start ≤ loop_end →
      (SAL_play_sample d p sid volume pan loop_start loop_end num_repetitions).1
          ≠ SALERR_INVALIDPARAM ∧
      ((SAL_play_sample d p sid volume pan loop_start loop_end num_repetitions).1 = SALERR_OK ∨
        (SAL_play_sample d p sid volume pan loop_start loop_end num_repetitions).1
          = SALERR_OUTOFVOICES)) := by
  rcases SAL_play_sample_cases d p sid volume pan loop_start loop_end num_repetitions with
    ⟨h1, h⟩ | ⟨h1, _, h⟩ | ⟨h1, _, h⟩
  · exact ⟨fun _ => h, fun hle => absurd hle (by omega)⟩
  · rw [h]; exact ⟨fun hgt => absurd hgt (by omega), fun _ => ⟨by simp, Or.inr rfl⟩⟩
  · rw [h]; exact ⟨fun hgt => absurd hgt (by omega), fun _ => ⟨by simp, Or.inl rfl⟩⟩

/-- C6, witness: `loop_start = 1` with `loop_end = 0` is rejected although the sample has
4 samples, and `loop_start = 1` with `loop_end = 4` is accepted. -/
theorem C6_play_loop_bounds_witness :
    SAL_play_sample (SAL_create_sample device8 4).2.1 0 SAL_INVALID_SOUND 65535 0 1 0 1
      = (SALERR_INVALIDPARAM, (SAL_create_sample device8 4).2.1, SAL_INVALID_SOUND) ∧
    (SAL_play_sample (SAL_create_sample device8 4).2.1 0 SAL_INVALID_SOUND 65535 0 1 4 1).1
      ≠ SALERR_INVALIDPARAM :=
  ⟨(C6_play_loop_bounds (SAL_create_sample device8 4).2.1 0 SAL_INVALID_SOUND 65535 0 1 0 1).1
      (by decide),
   ((C6_play_loop_bounds (SAL_create_sample device8 4).2.1 0 SAL_INVALID_SOUND 65535 0 1 4 1).2
      (by decide)).1⟩

/-! ## Claims C8, C9: `SAL_stop_voice`, `SAL_destroy_sample` -/

/-- The result of `SAL_stop_voice` on an in-range handle whose slot is FREE. -/
theorem SAL_stop_voice_free (d : SAL_Device) (i : Nat) (hi : i < d.device_voices.length)
    (hfree : (d.voice i).voice_num_repetitions = 0) :
    SAL_stop_voice d i = (SALERR_OK, d.set_voice i SAL_Voice.zero) := by
  have hr : ¬ (((i : Int) < 0) ∨ ((i : Int) ≥ (d.device_voices.length : Int))) := by omega
  simp [SAL_stop_voice, SAL_Device.device_max_voices, hi, hfree]

/-- The result of `SAL_stop_voice` on an in-range handle whose slot is PLAYING the sample at
address `p`. -/
theorem SAL_stop_voice_playing (d : SAL_Device) (i : Nat) (p : Nat)
    (hi : i < d.device_voices.length) (hplay : (d.voice i).voice_num_repetitions ≠ 0)
    (hs : (d.voice i).voice_sample = some p) :
    SAL_stop_voice d i =
      (SALERR_OK,
        (if (d.add_ref p (-1)).ref_count p ≤ 0 then _SAL_destroy_sample_raw (d.add_ref p (-1)) p
         else d.add_ref p (-1)).set_voice i SAL_Voice.zero) := by
  have hr : ¬ (((i : Int) < 0) ∨ ((i : Int) ≥ (d.device_voices.length : Int))) := by omega
  simp [SAL_stop_voice, SAL_Device.device_max_voices, hi, hplay, hs]

theorem set_voice_set_voice (d : SAL_Device) (i : Nat) (v w : SAL_Voice) :
    (d.set_voice i v).set_voice i w = d.set_voice i w := by
  simp [SAL_Device.set_voice]

/-- C8: `SAL_stop_voice` on an in-range handle returns Ok and leaves the slot zeroed (FREE)
and every other slot as it was; if the slot was PLAYING a sample of the arena, the ref count
of that sample drops by exactly one, no other ref count changes, and the sample is destroyed
(once) iff the new count is <= 0; if the slot was FREE the arena and the destroy log are
unchanged.  Calling it a second time on the same handle gives the same result and device
state as calling it once.  An out-of-range handle returns InvalidParam with the state
unchanged. -/
theorem C8_stop_voice (d : SAL_Device) (sid : Int) :
    (0 ≤ sid ∧ sid < d.device_max_voices →
      (SAL_stop_voice d sid).1 = SALERR_OK ∧
      (SAL_stop_voice d sid).2.voice sid.toNat = SAL_Voice.zero ∧
      (∀ j, j ≠ sid.toNat → (SAL_stop_voice d sid).2.voice j = d.voice j) ∧
      (SAL_stop_voice d sid).2.device_voices.length = d.device_voices.length ∧
      (∀ p, (d.voice sid.toNat).voice_num_repetitions ≠ 0 →
        (d.voice sid.toNat).voice_sample = some p → p < d.device_heap.length →
        (SAL_stop_voice d sid).2.ref_count p = d.ref_count p - 1 ∧
        (∀ q, q ≠ p → (SAL_stop_voice d sid).2.ref_count q = d.ref_count q) ∧
        (d.ref_count p - 1 ≤ 0 →
          (SAL_stop_voice d sid).2.device_destroyed = d.device_destroyed ++ [p]) ∧
        (¬ d.ref_count p - 1 ≤ 0 →
          (SAL_stop_voice d sid).2.device_destroyed = d.device_destroyed)) ∧
      ((d.voice sid.toNat).voice_num_repetitions = 0 →
        (SAL_stop_voice d sid).2.device_heap = d.device_heap ∧
        (SAL_stop_voice d sid).2.device_destroyed = d.device_destroyed) ∧
      SAL_stop_voice (SAL_stop_voice d sid).2 sid = SAL_stop_voice d sid) ∧
    (sid < 0 ∨ sid ≥ d.device_max_voices → SAL_stop_voice d sid = (SALERR_INVALIDPARAM, d)) := by
  constructor
  · rintro ⟨h0, hlt⟩
    obtain ⟨i, rfl⟩ := Int.eq_ofNat_of_zero_le h0
    have hi : i < d.device_voices.length := by
      simp only [SAL_Device.device_max_voices] at hlt; omega
    simp only [Int.toNat_ofNat]
    by_cases hfree : (d.voice i).voice_num_repetitions = 0
    · rw [SAL_stop_voice_free d i hi hfree]
      refine ⟨rfl, ?_, ?_, ?_, ?_, ?_, ?_⟩
      · simp [voice_set_voice, hi]
      · intro j hj
        rw [voice_set_voice, if_neg]
        intro hcon; exact hj hcon.1.symm
      · simp [voices_length_set_voice]
      · intro p hp; exact absurd hfree hp
      · intro _; exact ⟨rfl, rfl⟩
      · rw [SAL_stop_voice_free _ i (by simp [voices_length_set_voice, hi])
          (by simp [voice_set_voice, hi, SAL_Voice.zero]), set_voice_set_voice]
    · cases hs : (d.voice i).voice_sample with
      | none =>
        have hr : ¬ (((i : Int) < 0) ∨ ((i : Int) ≥ (d.device_voices.length : Int))) := by omega
        have hstop : SAL_stop_voice d i = (SALERR_OK, d.set_voice i SAL_Voice.zero) := by
          simp [SAL_stop_voice, SAL_Device.device_max_voices, hi, hfree, hs]
        rw [hstop]
        refine ⟨rfl, ?_, ?_, ?_, ?_, ?_, ?_⟩
        · simp [voice_set_voice, hi]
        · intro j hj
          rw [voice_set_voice, if_neg]
          intro hcon; exact hj hcon.1.symm
        · simp [voices_length_set_voice]
        · intro p _ hp; simp at hp
        · intro _; exact ⟨rfl, rfl⟩
        · rw [SAL_stop_voice_free _ i (by simp [voices_length_set_voice, hi])
            (by simp [voice_set_voice, hi, SAL_Voice.zero]), set_voice_set_voice]
      | some p0 =>
        rw [SAL_stop_voice_playing d i p0 hi hfree hs]
        have hlen : (if (d.add_ref p0 (-1)).ref_count p0 ≤ 0 then
            _SAL_destroy_sample_raw (d.add_ref p0 (-1)) p0
            else d.add_ref p0 (-1)).device_voices.length = d.device_voices.length := by
          split <;> rfl
        have hvoice : ∀ j, (if (d.add_ref p0 (-1)).ref_count p0 ≤ 0 then
            _SAL_destroy_sample_raw (d.add_ref p0 (-1)) p0
            else d.add_ref p0 (-1)).voice j = d.voice j := by
          intro j; split <;> rfl
        have hrc : ∀ q, (if (d.add_ref p0 (-1)).ref_count p0 ≤ 0 then
            _SAL_destroy_sample_raw (d.add_ref p0 (-1)) p0
            else d.add_ref p0 (-1)).ref_count q = (d.add_ref p0 (-1)).ref_count q := by
          intro q
          split
          · exact ref_count_destroy_raw _ _ _
          · rfl
        refine ⟨rfl, ?_, ?_, ?_, ?_, ?_, ?_⟩
        · simp [voice_set_voice, hlen, hi]
        · intro j hj
          rw [voice_set_voice, if_neg, hvoice]
          intro hcon; exact hj hcon.1.symm
        · simp [voices_length_set_voice, hlen]
        · intro p _ hsp hp
          have hpp : p0 = p := by simpa using hsp
          subst hpp
          have hnew : (d.add_ref p0 (-1)).ref_count p0 = d.ref_count p0 - 1 := by
            rw [ref_count_add_ref]; simp [hp]; ring
          refine ⟨?_, ?_, ?_, ?_⟩
          · rw [ref_count_set_voice, hrc, hnew]
          · intro q hq
            rw [ref_count_set_voice, hrc, ref_count_add_ref, if_neg]
            intro hcon; exact hq hcon.1.symm
          · intro hle
            rw [destroyed_set_voice, if_pos (by rw [hnew]; exact hle)]
            rfl
          · intro hgt
            rw [destroyed_set_voice, if_neg (by rw [hnew]; exact hgt)]
            rfl
        · intro hz; exact absurd hz hfree
        · rw [SAL_stop_voice_free _ i (by simp [voices_length_set_voice, hlen, hi])
            (by simp [voice_set_voice, hlen, hi, SAL_Voice.zero]), set_voice_set_voice]
  · intro h
    simp [SAL_stop_voice, h]

/-- C8, witness: stopping handle 0 of the 8-voice device after one play of sample 0, then
stopping it again; and stopping the out-of-range handle 8. -/
theorem C8_stop_voice_witness :
    SAL_stop_voice
      (SAL_stop_voice (run _SAL_generic_decode_sample device8 [.create 4, .play 0 9 0 0 0 1]) 0).2 0
      = SAL_stop_voice (run _SAL_generic_decode_sample device8 [.create 4, .play 0 9 0 0 0 1]) 0 ∧
    SAL_stop_voice (run _SAL_generic_decode_sample device8 [.create 4, .play 0 9 0 0 0 1]) 8
      = (SALERR_INVALIDPARAM,
          run _SAL_generic_decode_sample device8 [.create 4, .play 0 9 0 0 0 1]) :=
  ⟨((C8_stop_voice (run _SAL_generic_decode_sample device8 [.create 4, .play 0 9 0 0 0 1]) 0).1
      (by decide)).2.2.2.2.2.2,
   (C8_stop_voice (run _SAL_generic_decode_sample device8 [.create 4, .play 0 9 0 0 0 1]) 8).2
      (by decide)⟩

/-- C9: `SAL_destroy_sample` on a sample of the arena decrements its ref count by one; it
returns Ok and runs the destroy callback (once) exactly when the decremented count is <= 0;
otherwise it returns InUse, runs no destroy callback and leaves the voice table, the other
fields of the sample and every other sample unchanged. -/
theorem C9_destroy_sample (d : SAL_Device) (p : Nat) (hp : p < d.device_heap.length) :
    (SAL_destroy_sample d p).2.ref_count p = d.ref_count p - 1 ∧
    ((SAL_destroy_sample d p).1 = SALERR_OK ↔ d.ref_count p - 1 ≤ 0) ∧
    ((SAL_destroy_sample d p).1 = SALERR_OK →
      (SAL_destroy_sample d p).2.device_destroyed = d.device_destroyed ++ [p]) ∧
    ((SAL_destroy_sample d p).1 ≠ SALERR_OK →
      (SAL_destroy_sample d p).1 = SALERR_INUSE ∧
      (SAL_destroy_sample d p).2.device_destroyed = d.device_destroyed ∧
      ((SAL_destroy_sample d p).2.sample p).sample_data = (d.sample p).sample_data ∧
      ((SAL_destroy_sample d p).2.sample p).sample_num_samples
        = (d.sample p).sample_num_samples ∧
      (∀ q, q ≠ p → (SAL_destroy_sample d p).2.sample q = d.sample q)) ∧
    (SAL_destroy_sample d p).2.device_voices = d.device_voices := by
  have hnew : (d.add_ref p (-1)).ref_count p = d.ref_count p - 1 := by
    rw [ref_count_add_ref]; simp [hp]; ring
  by_cases h : d.ref_count p - 1 ≤ 0
  · have hd : SAL_destroy_sample d p
        = (SALERR_OK, _SAL_destroy_sample_raw (d.add_ref p (-1)) p) := by
      simp only [SAL_destroy_sample, hnew, h, if_true]
    rw [hd]
    refine ⟨(ref_count_destroy_raw _ _ _).trans hnew, ⟨fun _ => h, fun _ => rfl⟩, fun _ => rfl,
      fun hne => absurd rfl hne, rfl⟩
  · have hd : SAL_destroy_sample d p = (SALERR_INUSE, d.add_ref p (-1)) := by
      simp only [SAL_destroy_sample, hnew, h, if_false]
    rw [hd]
    refine ⟨hnew, ⟨fun hcon => by simp at hcon, fun hcon => absurd hcon h⟩,
      fun hcon => by simp at hcon, fun _ => ⟨rfl, rfl, ?_, ?_, ?_⟩, rfl⟩
    · rw [sample_add_ref]; simp [hp]
    · rw [sample_add_ref]; simp [hp]
    · intro q hq
      rw [sample_add_ref, if_neg]
      intro hcon; exact hq hcon.1.symm

/-- C9, witness: on the 8-voice device, destroying a sample that one voice is playing
returns InUse and leaves the ref count at 1 with nothing destroyed. -/
theorem C9_destroy_sample_witness :
    (SAL_destroy_sample
      (run _SAL_generic_decode_sample device8 [.create 4, .play 0 9 0 0 0 1]) 0).1
      = SALERR_INUSE ∧
    (SAL_destroy_sample
      (run _SAL_generic_decode_sample device8 [.create 4, .play 0 9 0 0 0 1]) 0).2.ref_count 0
      = (run _SAL_generic_decode_sample device8 [.create 4, .play 0 9 0 0 0 1]).ref_count 0 - 1 :=
  have h := C9_destroy_sample
    (run _SAL_generic_decode_sample device8 [.create 4, .play 0 9 0 0 0 1]) 0 (by decide)
  ⟨(h.2.2.2.1 (by decide)).1, h.1⟩

/-! ## Claim C10: a sample played twice, one voice stopped -/

/-- C10 (as stated, refuted): on the 8-voice device, after a sample is created and played
twice (handles 0 and 1) and `SAL_stop_voice` is called on handle 0, the ref count read by
`SAL_get_sample_ref_count` is 2, not 1. -/
theorem C10_counterexample :
    SAL_get_sample_ref_count
      (run _SAL_generic_decode_sample device8
        [.create 4, .play 0 65535 0 0 0 1, .play 0 65535 0 0 0 1, .stop 0]) 0 0
      = (SALERR_OK, 2) ∧
    (run _SAL_generic_decode_sample device8
        [.create 4, .play 0 65535 0 0 0 1, .play 0 65535 0 0 0 1, .stop 0]).ref_count 0 ≠ 1 := by
  decide

theorem device8_eq : device8 =
    { device_info :=
        { di_size := 280, di_channels := 2, di_bits := 16, di_sample_rate := 44100,
          di_bytes_per_sample := 2, di_bytes_per_frame := 4 }
      device_voices := List.replicate 8 SAL_Voice.zero
      device_heap := []
      device_destroyed := [] } := by decide

/-- C10 (amended): on the 8-voice, 2-channel, 16-bit, 44100 Hz device, after a sample is
created and played twice (any volumes, pans, loop bounds with `loop_start <= loop_end`,
and repetitions other than 0), the two calls return Ok with the distinct handles 0 and 1;
after `SAL_stop_voice` on either handle the sample has not been destroyed, its ref count is
2 (the reference of the creator and the one of the remaining voice), and the other handle
is still PLAYING that sample; after the other handle is stopped as well the ref count is 1
and the sample is still not destroyed. -/
theorem C10_two_voices_one_stopped (n : Nat) (sid : Int) (v1 v2 : Nat) (p1 p2 : Int)
    (s1 e1 s2 e2 : Nat) (r1 r2 : Int) (h : Nat)
    (h1 : s1 ≤ e1) (h2 : s2 ≤ e2) (hr1 : r1 ≠ 0) (hr2 : r2 ≠ 0) (hh : h = 0 ∨ h = 1) :
    (SAL_play_sample (SAL_create_sample device8 n).2.1 0 sid v1 p1 s1 e1 r1).1 = SALERR_OK ∧
    (SAL_play_sample (SAL_create_sample device8 n).2.1 0 sid v1 p1 s1 e1 r1).2.2 = 0 ∧
    (SAL_play_sample
      (SAL_play_sample (SAL_create_sample device8 n).2.1 0 sid v1 p1 s1 e1 r1).2.1
      0 sid v2 p2 s2 e2 r2).1 = SALERR_OK ∧
    (SAL_play_sample
      (SAL_play_sample (SAL_create_sample device8 n).2.1 0 sid v1 p1 s1 e1 r1).2.1
      0 sid v2 p2 s2 e2 r2).2.2 = 1 ∧
    (SAL_stop_voice
      (SAL_play_sample
        (SAL_play_sample (SAL_create_sample device8 n).2.1 0 sid v1 p1 s1 e1 r1).2.1
        0 sid v2 p2 s2 e2 r2).2.1 h).2.device_destroyed = [] ∧
    (SAL_stop_voice
      (SAL_play_sample
        (SAL_play_sample (SAL_create_sample device8 n).2.1 0 sid v1 p1 s1 e1 r1).2.1
        0 sid v2 p2 s2 e2 r2).2.1 h).2.ref_count 0 = 2 ∧
    ((SAL_stop_voice
      (SAL_play_sample
        (SAL_play_sample (SAL_create_sample device8 n).2.1 0 sid v1 p1 s1 e1 r1).2.1
        0 sid v2 p2 s2 e2 r2).2.1 h).2.voice (1 - h)).voice_num_repetitions ≠ 0 ∧
    ((SAL_stop_voice
      (SAL_play_sample
        (SAL_play_sample (SAL_create_sample device8 n).2.1 0 sid v1 p1 s1 e1 r1).2.1
        0 sid v2 p2 s2 e2 r2).2.1 h).2.voice (1 - h)).voice_sample = some 0 ∧
    (SAL_stop_voice
      (SAL_stop_voice
        (SAL_play_sample
          (SAL_play_sample (SAL_create_sample device8 n).2.1 0 sid v1 p1 s1 e1 r1).2.1
          0 sid v2 p2 s2 e2 r2).2.1 h).2 ((1 - h : Nat) : Int)).2.ref_count 0 = 1 ∧
    (SAL_stop_voice
      (SAL_stop_voice
        (SAL_play_sample
          (SAL_play_sample (SAL_create_sample device8 n).2.1 0 sid v1 p1 s1 e1 r1).2.1
          0 sid v2 p2 s2 e2 r2).2.1 h).2 ((1 - h : Nat) : Int)).2.device_destroyed = [] := by
  have hn1 : ¬ (e1 < s1) := by omega
  have hn2 : ¬ (e2 < s2) := by omega
  rcases hh with rfl | rfl <;>
  simp [SAL_play_sample, SAL_create_sample, SAL_stop_voice, device8_eq, find_free_voice,
    SAL_Voice.zero, SAL_Device.set_voice, SAL_Device.add_ref, SAL_Device.sample,
    SAL_Device.ref_count, SAL_Device.voice, SAL_Device.device_max_voices,
    _SAL_destroy_sample_raw, SAL_Sample.zero, hn1, hn2, hr1, hr2]

/-- C10, witness: two plays of a 4-sample sample (one repetition, then looping always),
handle 0 stopped. -/
theorem C10_two_voices_one_stopped_witness :
    (SAL_stop_voice
      (SAL_play_sample
        (SAL_play_sample (SAL_create_sample device8 4).2.1 0 SAL_INVALID_SOUND 65535 0 0 0 1).2.1
        0 SAL_INVALID_SOUND 65535 0 0 0 SAL_LOOP_ALWAYS).2.1 (0 : Nat)).2.ref_count 0 = 2 ∧
    (SAL_stop_voice
      (SAL_play_sample
        (SAL_play_sample (SAL_create_sample device8 4).2.1 0 SAL_INVALID_SOUND 65535 0 0 0 1).2.1
        0 SAL_INVALID_SOUND 65535 0 0 0 SAL_LOOP_ALWAYS).2.1 (0 : Nat)).2.device_destroyed = [] :=
  have h := C10_two_voices_one_stopped 4 SAL_INVALID_SOUND 65535 65535 0 0 0 0 0 0 1
    SAL_LOOP_ALWAYS 0 (by decide) (by decide) (by decide) (by decide) (by decide)
  ⟨h.2.2.2.2.2.1, h.2.2.2.2.1⟩

/-! ## Claim C7: the default loop end -/

theorem toU32_toI32 (n : Nat) (hn : n < 4294967296) : toU32 (toI32 (n : Int)) = n := by
  unfold toU32 toI32
  omega

theorem toU32_of_lt (x : Int) (h0 : 0 ≤ x) (hx : x < 4294967296) : toU32 x = x.toNat := by
  unfold toU32
  rw [Int.emod_eq_of_lt h0 hx]

/-- The cursor of slot `i` after `_SAL_advance_voice`, when the addition does not overflow:
it is `voice_loop_start` if there is a loop end marker and the advanced cursor has reached
it, and the advanced cursor otherwise. -/
theorem advance_voice_cursor (d : SAL_Device) (i : Nat) (k : Nat)
    (hi : i < d.device_voices.length) (hk : (d.voice i).voice_cursor + k < 4294967296) :
    ((_SAL_advance_voice d i k).2.voice i).voice_cursor =
      if (d.voice i).voice_loop_end ≠ 0 ∧ (d.voice i).voice_cursor + k ≥ (d.voice i).voice_loop_end
      then (d.voice i).voice_loop_start else (d.voice i).voice_cursor + k := by
  have hc : toU32 (((d.voice i).voice_cursor : Int) + (k : Int)) = (d.voice i).voice_cursor + k := by
    rw [toU32_of_lt _ (by omega) (by omega)]
    omega
  unfold _SAL_advance_voice
  simp only [hc]
  by_cases h1 : (d.voice i).voice_loop_end = 0
  · simp [h1, voice_set_voice, hi]
  · by_cases h2 : (d.voice i).voice_cursor + k ≥ (d.voice i).voice_loop_end
    · simp only [h1, h2, ne_eq, not_false_eq_true, if_true, and_self]
      split
      · split <;> simp [voice_set_voice, hi]
      · simp [voice_set_voice, hi]
    · simp [h1, h2, voice_set_voice, hi]

/-- C7 (as stated, refuted): a sample created with `num_samples = 0` and played with
`loop_end = 0` gets `voice_loop_end = 0`, its total length, but the voice does not loop
there: advancing by one frame returns 1 (still playing) and leaves the cursor at 1, past the
length and not back at `voice_loop_start = 0`. -/
theorem C7_counterexample :
    (SAL_play_sample (SAL_create_sample device8 0).2.1 0 SAL_INVALID_SOUND 65535 0 0 0
      SAL_LOOP_ALWAYS).1 = SALERR_OK ∧
    ((SAL_create_sample device8 0).2.1.sample 0).sample_num_samples = 0 ∧
    ((SAL_play_sample (SAL_create_sample device8 0).2.1 0 SAL_INVALID_SOUND 65535 0 0 0
      SAL_LOOP_ALWAYS).2.1.voice 0).voice_loop_end = 0 ∧
    ((SAL_play_sample (SAL_create_sample device8 0).2.1 0 SAL_INVALID_SOUND 65535 0 0 0
      SAL_LOOP_ALWAYS).2.1.voice 0).voice_loop_start = 0 ∧
    (_SAL_advance_voice
      (SAL_play_sample (SAL_create_sample device8 0).2.1 0 SAL_INVALID_SOUND 65535 0 0 0
        SAL_LOOP_ALWAYS).2.1 0 1).1 = 1 ∧
    ((_SAL_advance_voice
      (SAL_play_sample (SAL_create_sample device8 0).2.1 0 SAL_INVALID_SOUND 65535 0 0 0
        SAL_LOOP_ALWAYS).2.1 0 1).2.voice 0).voice_cursor = 1 := by
  decide

/-- C7 (amended): for every successful `SAL_play_sample` with `loop_end == 0` of a sample
created with `num_samples` samples, the `voice_loop_end` of the voice is `num_samples` (and
its `voice_loop_start` is 0); when `num_samples` is not 0 the voice loops there: in every
device state in which the slot has these loop bounds, `_SAL_advance_voice` puts the cursor
back to `voice_loop_start` when the advanced cursor reaches `num_samples`, and just advances
it otherwise.  With `loop_end != 0` the `voice_loop_end` of the voice is the value passed.
(For a sample of 0 samples `voice_loop_end` stays 0, which means no loop end: the voice
never wraps.) -/
theorem C7_default_loop_end (d0 : SAL_Device) (num_samples : Nat) (sid : Int) (volume : Nat)
    (pan : Int) (loop_start loop_end : Nat) (num_repetitions : Int)
    (r : sal_error_e × SAL_Device × Int)
    (hr : r = SAL_play_sample (SAL_create_sample d0 num_samples).2.1
      (SAL_create_sample d0 num_samples).2.2 sid volume pan loop_start loop_end num_repetitions)
    (hn : num_samples < 4294967296) (hok : r.1 = SALERR_OK) :
    (loop_end = 0 →
      (r.2.1.voice r.2.2.toNat).voice_loop_end = num_samples ∧
      (r.2.1.voice r.2.2.toNat).voice_loop_start = 0) ∧
    (loop_end ≠ 0 → (r.2.1.voice r.2.2.toNat).voice_loop_end = loop_end) ∧
    (loop_end = 0 → num_samples ≠ 0 →
      ∀ (d : SAL_Device) (k : Nat), r.2.2.toNat < d.device_voices.length →
        (d.voice r.2.2.toNat).voice_loop_end = (r.2.1.voice r.2.2.toNat).voice_loop_end →
        (d.voice r.2.2.toNat).voice_loop_start = (r.2.1.voice r.2.2.toNat).voice_loop_start →
        (d.voice r.2.2.toNat).voice_cursor + k < 4294967296 →
        ((_SAL_advance_voice d r.2.2.toNat k).2.voice r.2.2.toNat).voice_cursor =
          if (d.voice r.2.2.toNat).voice_cursor + k ≥ num_samples then 0
          else (d.voice r.2.2.toNat).voice_cursor + k) := by
  have hsample : ((SAL_create_sample d0 num_samples).2.1.sample
      (SAL_create_sample d0 num_samples).2.2).sample_num_samples = toI32 (num_samples : Int) := by
    simp [SAL_create_sample, SAL_Device.sample]
  rcases SAL_play_sample_cases (SAL_create_sample d0 num_samples).2.1
      (SAL_create_sample d0 num_samples).2.2 sid volume pan loop_start loop_end
      num_repetitions with ⟨_, h⟩ | ⟨_, _, h⟩ | ⟨hle, h2, h⟩
  · rw [hr, h] at hok; simp at hok
  · rw [hr, h] at hok; simp at hok
  · rw [h, hsample] at hr
    have hslot : (r.2.1.voice r.2.2.toNat) =
        { voice_sample := some (SAL_create_sample d0 num_samples).2.2
          voice_cursor := 0
          voice_volume := volume
          voice_pan := pan
          voice_loop_start := loop_start
          voice_loop_end := if loop_end = 0 then toU32 (toI32 (num_samples : Int)) else loop_end
          voice_num_repetitions := num_repetitions } := by
      rw [hr]
      simp only [Int.toNat_ofNat, voice_add_ref, voice_set_voice, h2, and_self, if_true]
    have h_end0 : loop_end = 0 → (r.2.1.voice r.2.2.toNat).voice_loop_end = num_samples := by
      intro h0
      rw [hslot]
      simp only [h0, if_true]
      exact toU32_toI32 num_samples hn
    have h_start0 : loop_end = 0 → (r.2.1.voice r.2.2.toNat).voice_loop_start = 0 := by
      intro h0
      rw [hslot]
      show loop_start = 0
      omega
    refine ⟨fun h0 => ⟨h_end0 h0, h_start0 h0⟩, ?_, ?_⟩
    · intro hne
      rw [hslot]
      simp only [hne, if_false]
    · intro h0 hnz d k hlt he hs hk
      rw [advance_voice_cursor d _ k hlt hk, he, hs, h_end0 h0, h_start0 h0]
      by_cases hge : (d.voice r.2.2.toNat).voice_cursor + k ≥ num_samples
      · simp [hge, hnz]
      · simp [hge]

/-- C7, witness: a 4-sample sample played with `loop_end = 0` on the 8-voice device. -/
theorem C7_default_loop_end_witness :
    ((SAL_play_sample (SAL_create_sample device8 4).2.1 (SAL_create_sample device8 4).2.2
      SAL_INVALID_SOUND 65535 0 0 0 SAL_LOOP_ALWAYS).2.1.voice
      (SAL_play_sample (SAL_create_sample device8 4).2.1 (SAL_create_sample device8 4).2.2
        SAL_INVALID_SOUND 65535 0 0 0 SAL_LOOP_ALWAYS).2.2.toNat).voice_loop_end = 4 :=
  ((C7_default_loop_end device8 4 SAL_INVALID_SOUND 65535 0 0 0 SAL_LOOP_ALWAYS _ rfl
    (by decide) (by decide)).1 rfl).1

/-! ## Counting the PLAYING slots of a sample -/

theorem voice_eq_getElem (d : SAL_Device) (i : Nat) (hi : i < d.device_voices.length) :
    d.voice i = d.device_voices[i] := by
  simp [SAL_Device.voice, List.getD_eq_getElem?_getD, List.getElem?_eq_getElem hi]

theorem voice_eq_zero_of_le (d : SAL_Device) (i : Nat) (hi : d.device_voices.length ≤ i) :
    d.voice i = SAL_Voice.zero := by
  simp [SAL_Device.voice, List.getD_eq_getElem?_getD, List.getElem?_eq_none hi]

theorem lt_of_voice_playing (d : SAL_Device) (i : Nat)
    (h : (d.voice i).voice_num_repetitions ≠ 0) : i < d.device_voices.length := by
  by_contra hcon
  rw [voice_eq_zero_of_le d i (by omega)] at h
  exact h rfl

theorem playing_count_set_voice (d : SAL_Device) (i : Nat) (v : SAL_Voice) (p : Nat)
    (hi : i < d.device_voices.length) :
    ((d.set_voice i v).playing_count p : Int) =
      (d.playing_count p : Int) - (if (d.voice i).plays p then 1 else 0)
        + (if v.plays p then 1 else 0) := by
  have h1 := List.countP_set (fun v => v.plays p) d.device_voices i v hi
  have h2 := List.boole_getElem_le_countP (fun v => v.plays p) d.device_voices i hi
  simp only [SAL_Device.playing_count, SAL_Device.set_voice, voice_eq_getElem d i hi]
  by_cases ha : d.device_voices[i].plays p = true <;> by_cases hb : v.plays p = true <;>
    simp only [ha, hb, if_true, if_false, Bool.false_eq_true] at h1 h2 ⊢ <;> omega

theorem playing_count_pos (d : SAL_Device) (i : Nat) (p : Nat)
    (h : (d.voice i).plays p = true) : 1 ≤ d.playing_count p := by
  have hi : i < d.device_voices.length := by
    apply lt_of_voice_playing
    simp only [SAL_Voice.plays, Bool.and_eq_true, decide_eq_true_eq] at h
    exact h.1
  have h2 := List.boole_getElem_le_countP (fun v => v.plays p) d.device_voices i hi
  rw [voice_eq_getElem d i hi] at h
  simp only [h, if_true] at h2
  exact h2

theorem playing_count_eq_zero (d : SAL_Device) (p : Nat)
    (h : ∀ i, (d.voice i).plays p = false) : d.playing_count p = 0 := by
  simp only [SAL_Device.playing_count, List.countP_eq_zero]
  intro v hv
  obtain ⟨i, hi, rfl⟩ := List.getElem_of_mem hv
  rw [← voice_eq_getElem d i hi, h i]
  simp

theorem plays_iff (v : SAL_Voice) (p : Nat) :
    v.plays p = true ↔ v.voice_num_repetitions ≠ 0 ∧ v.voice_sample = some p := by
  simp [SAL_Voice.plays]

theorem plays_zero (p : Nat) : SAL_Voice.zero.plays p = false := by
  simp [SAL_Voice.plays, SAL_Voice.zero]

theorem set_voice_voice (d : SAL_Device) (i : Nat) : d.set_voice i (d.voice i) = d := by
  cases d with
  | mk info voices heap destroyed =>
    simp only [SAL_Device.set_voice, SAL_Device.voice, SAL_Device.mk.injEq, true_and, and_true]
    apply List.ext_getElem?
    intro j
    rw [List.getElem?_set]
    by_cases hij : i = j
    · subst hij
      by_cases hi : i < voices.length
      · simp [hi, List.getD_eq_getElem?_getD, List.getElem?_eq_getElem hi]
      · simp [hi, List.getElem?_eq_none (Nat.le_of_not_lt hi)]
    · simp [hij]

/-! ## Preservation of the reference count invariant -/

theorem playing_count_add_ref (d : SAL_Device) (q : Nat) (k : Int) (p : Nat) :
    (d.add_ref q k).playing_count p = d.playing_count p := rfl

theorem playing_count_destroy_raw (d : SAL_Device) (q : Nat) (p : Nat) :
    (_SAL_destroy_sample_raw d q).playing_count p = d.playing_count p := rfl

theorem destroy_raw_set_voice (d : SAL_Device) (q : Nat) (i : Nat) (v : SAL_Voice) :
    (_SAL_destroy_sample_raw d q).set_voice i v = _SAL_destroy_sample_raw (d.set_voice i v) q :=
  rfl

theorem add_ref_set_voice (d : SAL_Device) (q : Nat) (k : Int) (i : Nat) (v : SAL_Voice) :
    (d.set_voice i v).add_ref q k = (d.add_ref q k).set_voice i v := rfl

/-- A PLAYING slot may be rewritten by any voice bound to the same sample. -/
theorem ref_inv_set_voice_same (d : SAL_Device) (rel : List Nat) (i : Nat) (v : SAL_Voice)
    (hinv : ref_inv d rel) (hplay : (d.voice i).voice_num_repetitions ≠ 0)
    (hs : v.voice_sample = (d.voice i).voice_sample) (hv : v.voice_num_repetitions ≠ 0) :
    ref_inv (d.set_voice i v) rel := by
  have hi := lt_of_voice_playing d i hplay
  obtain ⟨h1, h2, h3⟩ := hinv
  have hcount : ∀ p, (d.set_voice i v).playing_count p = d.playing_count p := by
    intro p
    have h := playing_count_set_voice d i v p hi
    have hsame : v.plays p = (d.voice i).plays p := by
      simp [SAL_Voice.plays, hs, hv, hplay]
    rw [hsame] at h
    omega
  refine ⟨?_, ?_, ?_⟩
  · intro j hj
    rw [voice_set_voice] at hj ⊢
    by_cases hij : i = j ∧ i < d.device_voices.length
    · rw [if_pos hij, hs]
      exact h1 i hplay
    · rw [if_neg hij] at hj ⊢
      exact h1 j hj
  · intro p hp
    rw [hcount]
    exact h2 p hp
  · intro p hp hnot
    rw [hcount]
    exact h3 p hp hnot

/-- Clearing a FREE slot changes no count. -/
theorem ref_inv_set_voice_free (d : SAL_Device) (rel : List Nat) (i : Nat)
    (hinv : ref_inv d rel) (hi : i < d.device_voices.length)
    (hfree : (d.voice i).voice_num_repetitions = 0) :
    ref_inv (d.set_voice i SAL_Voice.zero) rel := by
  obtain ⟨h1, h2, h3⟩ := hinv
  have hcount : ∀ p, (d.set_voice i SAL_Voice.zero).playing_count p = d.playing_count p := by
    intro p
    have h := playing_count_set_voice d i SAL_Voice.zero p hi
    have ha : (d.voice i).plays p = false := by simp [SAL_Voice.plays, hfree]
    rw [ha, plays_zero] at h
    simp at h
    omega
  refine ⟨?_, ?_, ?_⟩
  · intro j hj
    rw [voice_set_voice] at hj ⊢
    by_cases hij : i = j ∧ i < d.device_voices.length
    · rw [if_pos hij] at hj
      exact absurd rfl hj
    · rw [if_neg hij] at hj ⊢
      exact h1 j hj
  · intro p hp
    rw [hcount]
    exact h2 p hp
  · intro p hp hnot
    rw [hcount]
    exact h3 p hp hnot

/-- Giving up the reference of a PLAYING slot: the ref count of its sample is decremented
and the slot is cleared.  The invariant is kept, and if the count has dropped to 0 or below
the sample is released and has no PLAYING slot left. -/
theorem ref_inv_release_slot (d : SAL_Device) (rel : List Nat) (i : Nat) (q : Nat)
    (hinv : ref_inv d rel) (hplay : (d.voice i).voice_num_repetitions ≠ 0)
    (hs : (d.voice i).voice_sample = some q) :
    q < d.device_heap.length ∧ q ∉ d.device_destroyed ∧
    ref_inv ((d.add_ref q (-1)).set_voice i SAL_Voice.zero) rel ∧
    ((d.add_ref q (-1)).ref_count q ≤ 0 →
      ((d.add_ref q (-1)).set_voice i SAL_Voice.zero).playing_count q = 0 ∧ q ∈ rel) := by
  have hi := lt_of_voice_playing d i hplay
  obtain ⟨h1, h2, h3⟩ := hinv
  have hplays : (d.voice i).plays q = true := by simp [SAL_Voice.plays, hplay, hs]
  have hpos := playing_count_pos d i q hplays
  obtain ⟨q', hq', hqlt⟩ := h1 i hplay
  have hqq : q' = q := by rw [hs] at hq'; simpa using hq'.symm
  subst hqq
  have hnot : q' ∉ d.device_destroyed := by
    intro hmem
    have := (h2 q' hmem).2.1
    omega
  have hcount : ∀ p, (((d.add_ref q' (-1)).set_voice i SAL_Voice.zero).playing_count p : Int)
      = (d.playing_count p : Int) - (if p = q' then 1 else 0) := by
    intro p
    have h := playing_count_set_voice (d.add_ref q' (-1)) i SAL_Voice.zero p hi
    rw [plays_zero, voice_add_ref, playing_count_add_ref] at h
    have ha : (d.voice i).plays p = decide (p = q') := by
      simp [SAL_Voice.plays, hplay, hs, eq_comm]
    rw [ha] at h
    by_cases hp : p = q' <;> simp [hp] at h ⊢ <;> omega
  have hrc : ∀ p, ((d.add_ref q' (-1)).set_voice i SAL_Voice.zero).ref_count p
      = d.ref_count p - (if p = q' then 1 else 0) := by
    intro p
    rw [ref_count_set_voice, ref_count_add_ref]
    by_cases hp : p = q'
    · subst hp; simp [hqlt]; ring
    · have : ¬ (q' = p ∧ q' < d.device_heap.length) := fun hc => hp hc.1.symm
      simp [this, hp]
  have hlen : ((d.add_ref q' (-1)).set_voice i SAL_Voice.zero).device_heap.length
      = d.device_heap.length := by
    rw [heap_set_voice, heap_length_add_ref]
  have h3q := h3 q' hqlt hnot
  refine ⟨hqlt, hnot, ⟨?_, ?_, ?_⟩, ?_⟩
  · intro j hj
    rw [voice_set_voice, voices_add_ref, voice_add_ref] at hj ⊢
    by_cases hij : i = j ∧ i < d.device_voices.length
    · rw [if_pos hij] at hj
      exact absurd rfl hj
    · rw [if_neg hij] at hj ⊢
      rw [hlen]
      exact h1 j hj
  · intro p hp
    have hp' : p ∈ d.device_destroyed := hp
    obtain ⟨ha, hb, hc⟩ := h2 p hp'
    have hne : p ≠ q' := fun hcon => hnot (hcon ▸ hp')
    have hcp := hcount p
    simp only [hne, if_false] at hcp
    rw [hlen]
    refine ⟨ha, ?_, hc⟩
    omega
  · intro p hp hnotp
    rw [hlen] at hp
    have hnotp' : p ∉ d.device_destroyed := hnotp
    have h3p := h3 p hp hnotp'
    rw [hrc, hcount]
    omega
  · intro hle
    rw [ref_count_add_ref] at hle
    simp only [hqlt, and_self, if_true] at hle
    have hcq := hcount q'
    simp only [if_true] at hcq
    by_cases hr : q' ∈ rel
    · simp only [hr, if_true] at h3q
      exact ⟨by omega, hr⟩
    · simp only [hr, if_false] at h3q
      omega

/-- Logging the destruction of a released sample that has no PLAYING slot. -/
theorem ref_inv_destroy_raw (d : SAL_Device) (rel : List Nat) (q : Nat)
    (hinv : ref_inv d rel) (hq : q < d.device_heap.length) (hc : d.playing_count q = 0)
    (hr : q ∈ rel) : ref_inv (_SAL_destroy_sample_raw d q) rel := by
  obtain ⟨h1, h2, h3⟩ := hinv
  refine ⟨?_, ?_, ?_⟩
  · intro i hi
    rw [heap_length_destroy_raw]
    exact h1 i hi
  · intro p hp
    have hp' : p ∈ d.device_destroyed ++ [q] := hp
    rw [List.mem_append, List.mem_singleton] at hp'
    rw [heap_length_destroy_raw]
    rcases hp' with hp' | rfl
    · exact h2 p hp'
    · exact ⟨hq, hc, hr⟩
  · intro p hp hnot
    have hnot' : p ∉ d.device_destroyed ++ [q] := hnot
    rw [List.mem_append, not_or] at hnot'
    rw [heap_length_destroy_raw] at hp
    rw [ref_count_destroy_raw]
    exact h3 p hp hnot'.1

theorem ref_inv_create (d : SAL_Device) (rel : List Nat) (n : Nat) (hinv : ref_inv d rel) :
    ref_inv (SAL_create_sample d n).2.1 rel := by
  obtain ⟨h1, h2, h3⟩ := hinv
  have hlen : (SAL_create_sample d n).2.1.device_heap.length = d.device_heap.length + 1 := by
    simp [SAL_create_sample]
  have hvoice : ∀ i, (SAL_create_sample d n).2.1.voice i = d.voice i := fun _ => rfl
  have hcount : ∀ p, (SAL_create_sample d n).2.1.playing_count p = d.playing_count p :=
    fun _ => rfl
  have hlog : (SAL_create_sample d n).2.1.device_destroyed = d.device_destroyed := rfl
  refine ⟨?_, ?_, ?_⟩
  · intro i hi
    rw [hvoice] at hi ⊢
    obtain ⟨p, hp, hlt⟩ := h1 i hi
    exact ⟨p, hp, by omega⟩
  · intro p hp
    rw [hlog] at hp
    obtain ⟨ha, hb, hc⟩ := h2 p hp
    exact ⟨by omega, by rw [hcount]; exact hb, hc⟩
  · intro p hp hnot
    rw [hlog] at hnot
    rw [hlen] at hp
    rw [hcount]
    by_cases hlt : p < d.device_heap.length
    · have hrc : (SAL_create_sample d n).2.1.ref_count p = d.ref_count p := by
        simp [SAL_create_sample, SAL_Device.ref_count, SAL_Device.sample,
          List.getD_eq_getElem?_getD, List.getElem?_append_left hlt]
      rw [hrc]
      exact h3 p hlt hnot
    · have hpe : p = d.device_heap.length := by omega
      have hrc : (SAL_create_sample d n).2.1.ref_count p = 1 := by
        subst hpe
        simp [SAL_create_sample, SAL_Device.ref_count, SAL_Device.sample,
          List.getD_eq_getElem?_getD]
      have hzero : d.playing_count p = 0 := by
        apply playing_count_eq_zero
        intro i
        by_contra hcon
        have hpl : (d.voice i).plays p = true := by simpa using hcon
        rw [plays_iff] at hpl
        obtain ⟨q, hq, hqlt⟩ := h1 i hpl.1
        rw [hpl.2] at hq
        have : p = q := by simpa using hq
        omega
      rw [hrc, hzero]
      split <;> simp

theorem ref_inv_play (d : SAL_Device) (rel : List Nat) (p : Nat) (sid : Int) (volume : Nat)
    (pan : Int) (loop_start loop_end : Nat) (num_repetitions : Int) (hinv : ref_inv d rel)
    (hp : p < d.device_heap.length) (hnot : p ∉ d.device_destroyed) :
    ref_inv (SAL_play_sample d p sid volume pan loop_start loop_end num_repetitions).2.1 rel := by
  rcases SAL_play_sample_cases d p sid volume pan loop_start loop_end num_repetitions with
    ⟨_, h⟩ | ⟨_, _, h⟩ | ⟨_, hlt, h⟩
  · rw [h]; exact hinv
  · rw [h]; exact hinv
  · rw [h]
    dsimp only
    have hfree := find_free_voice_free d.device_voices hlt
    generalize find_free_voice d.device_voices = i at hlt hfree ⊢
    generalize hv : ({ voice_sample := some p
                       voice_cursor := 0
                       voice_volume := volume
                       voice_pan := pan
                       voice_loop_start := loop_start
                       voice_loop_end :=
                         if loop_end = 0 then toU32 (d.sample p).sample_num_samples
                         else loop_end
                       voice_num_repetitions := num_repetitions } : SAL_Voice) = v
    have hvs : v.voice_sample = some p := by rw [← hv]
    obtain ⟨h1, h2, h3⟩ := hinv
    have hold : ∀ q, (d.voice i).plays q = false := by
      intro q
      have : (d.voice i).voice_num_repetitions = 0 := hfree
      simp [SAL_Voice.plays, this]
    have hcount : ∀ q, (((d.set_voice i v).add_ref p 1).playing_count q : Int)
        = (d.playing_count q : Int) + (if v.plays q then 1 else 0) := by
      intro q
      rw [playing_count_add_ref, playing_count_set_voice d i v q hlt, hold q]
      simp
    have hother : ∀ q, q ≠ p → v.plays q = false := by
      intro q hq
      simp [SAL_Voice.plays, hvs, Ne.symm hq]
    have hrc : ∀ q, ((d.set_voice i v).add_ref p 1).ref_count q
        = d.ref_count q + (if q = p then 1 else 0) := by
      intro q
      rw [ref_count_add_ref, heap_set_voice, ref_count_set_voice]
      by_cases hq : q = p
      · subst hq; simp [hp]
      · have : ¬ (p = q ∧ p < d.device_heap.length) := fun hc => hq hc.1.symm
        simp [this, hq, ref_count_set_voice]
    have hlen : ((d.set_voice i v).add_ref p 1).device_heap.length = d.device_heap.length := by
      rw [heap_length_add_ref, heap_set_voice]
    refine ⟨?_, ?_, ?_⟩
    · intro j hj
      rw [voice_add_ref, voice_set_voice] at hj ⊢
      rw [hlen]
      by_cases hij : i = j ∧ i < d.device_voices.length
      · rw [if_pos hij]
        exact ⟨p, hvs, hp⟩
      · rw [if_neg hij] at hj ⊢
        exact h1 j hj
    · intro q hq
      have hq' : q ∈ d.device_destroyed := hq
      obtain ⟨ha, hb, hc⟩ := h2 q hq'
      have hne : q ≠ p := fun hcon => hnot (hcon ▸ hq')
      have hcq := hcount q
      rw [hother q hne] at hcq
      rw [hlen]
      refine ⟨ha, ?_, hc⟩
      simp at hcq
      omega
    · intro q hq hnq
      rw [hlen] at hq
      have hnq' : q ∉ d.device_destroyed := hnq
      have h3q := h3 q hq hnq'
      rw [hrc, hcount]
      by_cases hqp : q = p
      · subst hqp
        by_cases hr : q ∈ rel <;> by_cases hvp : v.plays q = true <;>
          simp only [hr, hvp, if_true, if_false, Bool.false_eq_true] at h3q ⊢ <;> omega
      · rw [hother q hqp]
        simp [hqp]
        exact h3q

theorem ref_inv_stop (d : SAL_Device) (rel : List Nat) (sid : Int) (hinv : ref_inv d rel) :
    ref_inv (SAL_stop_voice d sid).2 rel := by
  by_cases hr : sid < 0 ∨ sid ≥ d.device_max_voices
  · have hst : SAL_stop_voice d sid = (SALERR_INVALIDPARAM, d) := by simp [SAL_stop_voice, hr]
    rw [hst]
    exact hinv
  · have h0 : 0 ≤ sid := by omega
    obtain ⟨i, rfl⟩ := Int.eq_ofNat_of_zero_le h0
    have hi : i < d.device_voices.length := by
      simp only [SAL_Device.device_max_voices] at hr; omega
    by_cases hfree : (d.voice i).voice_num_repetitions = 0
    · rw [SAL_stop_voice_free d i hi hfree]
      exact ref_inv_set_voice_free d rel i hinv hi hfree
    · obtain ⟨q, hq, _⟩ := hinv.1 i hfree
      rw [SAL_stop_voice_playing d i q hi hfree hq]
      obtain ⟨hqlt, _, hinv', hdrop⟩ := ref_inv_release_slot d rel i q hinv hfree hq
      by_cases hle : (d.add_ref q (-1)).ref_count q ≤ 0
      · rw [if_pos hle]
        show ref_inv ((_SAL_destroy_sample_raw (d.add_ref q (-1)) q).set_voice i SAL_Voice.zero) rel
        rw [destroy_raw_set_voice]
        obtain ⟨hc, hrel⟩ := hdrop hle
        refine ref_inv_destroy_raw _ rel q hinv' ?_ hc hrel
        rw [heap_set_voice, heap_length_add_ref]
        exact hqlt
      · rw [if_neg hle]
        exact hinv'

theorem ref_inv_destroy (d : SAL_Device) (rel : List Nat) (p : Nat) (hinv : ref_inv d rel)
    (hp : p < d.device_heap.length) (hrel : p ∉ rel) :
    ref_inv (SAL_destroy_sample d p).2 (p :: rel) := by
  obtain ⟨h1, h2, h3⟩ := hinv
  have hnot : p ∉ d.device_destroyed := fun hmem => hrel (h2 p hmem).2.2
  have hnew : (d.add_ref p (-1)).ref_count p = d.ref_count p - 1 := by
    rw [ref_count_add_ref]; simp [hp]; ring
  have h3p := h3 p hp hnot
  simp only [hrel, if_false] at h3p
  have hbase : ref_inv (d.add_ref p (-1)) (p :: rel) := by
    refine ⟨?_, ?_, ?_⟩
    · intro i hi
      rw [heap_length_add_ref]
      exact h1 i hi
    · intro q hq
      have hq' : q ∈ d.device_destroyed := hq
      obtain ⟨ha, hb, hc⟩ := h2 q hq'
      exact ⟨by rw [heap_length_add_ref]; exact ha, hb, List.mem_cons_of_mem _ hc⟩
    · intro q hq hnq
      rw [heap_length_add_ref] at hq
      have hnq' : q ∉ d.device_destroyed := hnq
      have h3q := h3 q hq hnq'
      rw [playing_count_add_ref, ref_count_add_ref]
      by_cases hqp : q = p
      · subst hqp
        simp only [hq, and_self, if_true, List.mem_cons, true_or]
        omega
      · have hne : ¬ (p = q ∧ p < d.device_heap.length) := fun hc => hqp hc.1.symm
        simp only [hne, if_false, List.mem_cons, hqp, false_or]
        exact h3q
  by_cases hle : (d.add_ref p (-1)).ref_count p ≤ 0
  · have hd : (SAL_destroy_sample d p).2 = _SAL_destroy_sample_raw (d.add_ref p (-1)) p := by
      simp only [SAL_destroy_sample, hle, if_true]
    rw [hd]
    refine ref_inv_destroy_raw _ _ p hbase (by rw [heap_length_add_ref]; exact hp) ?_
      (List.mem_cons_self _ _)
    rw [playing_count_add_ref]
    omega
  · have hd : (SAL_destroy_sample d p).2 = d.add_ref p (-1) := by
      simp only [SAL_destroy_sample, hle, if_false]
    rw [hd]
    exact hbase

theorem mix_end_voice_set_voice (d : SAL_Device) (i : Nat) (v : SAL_Voice) (q : Nat)
    (hi : i < d.device_voices.length) (hs : v.voice_sample = some q) :
    mix_end_voice (d.set_voice i v) i = (d.add_ref q (-1)).set_voice i SAL_Voice.zero := by
  have hv : (d.set_voice i v).voice i = v := by
    rw [voice_set_voice]; simp [hi]
  simp only [mix_end_voice, hv, hs]
  rw [add_ref_set_voice, set_voice_set_voice]

theorem ref_inv_mix_voice_loop (decode : sal_sample_decode_fnc_t) (hdec : decode_frame decode)
    (rel : List Nat) (i : Nat) (bytes_to_mix : Nat) :
    ∀ (fuel : Nat) (bytes_left : Int) (st : SAL_Device × List Int × List Int),
      ref_inv st.1 rel → (st.1.voice i).voice_num_repetitions ≠ 0 →
      ref_inv (mix_voice_loop decode i bytes_to_mix fuel bytes_left st).1 rel := by
  intro fuel
  induction fuel with
  | zero =>
    intro bytes_left st hinv _
    simpa [mix_voice_loop] using hinv
  | succ fuel ih =>
    intro bytes_left st hinv hplay
    obtain ⟨d, dst, buf⟩ := st
    simp only [mix_voice_loop]
    by_cases hpos : bytes_left > 0
    · simp only [hpos, if_true]
      obtain ⟨v, hd, hvs, hkeep⟩ :=
        hdec d i buf (if bytes_left > 512 then 512 else bytes_left)
      have hi := lt_of_voice_playing d i hplay
      obtain ⟨q, hq, _⟩ := hinv.1 i hplay
      by_cases hend : (decode d i buf (if bytes_left > 512 then 512 else bytes_left)).1 = 0
      · simp only [hend, ne_eq, not_true_eq_false, if_false]
        apply ih
        · show ref_inv (decode d i buf (if bytes_left > 512 then 512 else bytes_left)).2.2 rel
          rw [hd]
          exact ref_inv_set_voice_same d rel i v hinv hplay hvs (hkeep hend hplay)
        · show ((decode d i buf (if bytes_left > 512 then 512 else bytes_left)).2.2.voice
            i).voice_num_repetitions ≠ 0
          rw [hd, voice_set_voice]
          simp only [hi, and_self, if_true]
          exact hkeep hend hplay
      · simp only [hend, ne_eq, not_false_eq_true, if_true]
        rw [hd, mix_end_voice_set_voice d i v q hi (by rw [hvs, hq])]
        exact (ref_inv_release_slot d rel i q hinv hplay hq).2.2.1
    · simp only [hpos, if_false]
      exact hinv

theorem ref_inv_mix_voice (decode : sal_sample_decode_fnc_t) (hdec : decode_frame decode)
    (rel : List Nat) (bytes_to_mix : Nat) (st : SAL_Device × List Int × List Int) (i : Nat)
    (hinv : ref_inv st.1 rel) : ref_inv (mix_voice decode bytes_to_mix st i).1 rel := by
  unfold mix_voice
  by_cases h : (st.1.voice i).voice_num_repetitions = 0
  · simp only [h, if_true]
    exact hinv
  · simp only [h, if_false]
    exact ref_inv_mix_voice_loop decode hdec rel i bytes_to_mix _ _ st hinv h

theorem ref_inv_mix_chunk (decode : sal_sample_decode_fnc_t) (hdec : decode_frame decode)
    (rel : List Nat) (d : SAL_Device) (dst decode_buffer : List Int) (bytes_to_mix : Nat)
    (hinv : ref_inv d rel) :
    ref_inv (_SAL_mix_chunk decode d dst decode_buffer bytes_to_mix).2.1 rel := by
  have hfold : ∀ (l : List Nat) (st : SAL_Device × List Int × List Int), ref_inv st.1 rel →
      ref_inv (l.foldl (mix_voice decode bytes_to_mix) st).1 rel := by
    intro l
    induction l with
    | nil => intro st h; exact h
    | cons i l ih =>
      intro st h
      rw [List.foldl_cons]
      exact ih _ (ref_inv_mix_voice decode hdec rel bytes_to_mix st i h)
  exact hfold _ _ hinv

/-! ## The generic decoder keeps to its own voice -/

theorem advance_voice_frame (d : SAL_Device) (i : Nat) (k : Int) :
    ∃ v : SAL_Voice,
      (_SAL_advance_voice d i k).2 = d.set_voice i v ∧
      v.voice_sample = (d.voice i).voice_sample ∧
      ((_SAL_advance_voice d i k).1 ≠ 0 → (d.voice i).voice_num_repetitions ≠ 0 →
        v.voice_num_repetitions ≠ 0) := by
  unfold _SAL_advance_voice
  simp only
  split
  · split
    · split
      · split
        · exact ⟨_, rfl, rfl, fun h => absurd rfl h⟩
        · rename_i hgt
          refine ⟨_, rfl, rfl, fun _ _ => ?_⟩
          simp only at hgt ⊢
          omega
      · exact ⟨_, rfl, rfl, fun _ h => h⟩
    · exact ⟨_, rfl, rfl, fun _ h => h⟩
  · exact ⟨_, rfl, rfl, fun _ h => h⟩

theorem generic_decode_loop_frame (voice : Nat) (sample_data : List Int) :
    ∀ (n i : Nat) (d : SAL_Device) (p_dst : List Int),
      ∃ v : SAL_Voice,
        (generic_decode_loop voice sample_data n i d p_dst).2.2 = d.set_voice voice v ∧
        v.voice_sample = (d.voice voice).voice_sample ∧
        ((generic_decode_loop voice sample_data n i d p_dst).1 = 0 →
          (d.voice voice).voice_num_repetitions ≠ 0 → v.voice_num_repetitions ≠ 0) := by
  intro n
  induction n with
  | zero =>
    intro i d p_dst
    exact ⟨d.voice voice, by simp [generic_decode_loop, set_voice_voice], rfl, fun _ h => h⟩
  | succ n ih =>
    intro i d p_dst
    obtain ⟨v1, hd1, hs1, hk1⟩ := advance_voice_frame d voice 1
    simp only [generic_decode_loop]
    by_cases hret : (_SAL_advance_voice d voice 1).1 = 0
    · simp only [hret, if_true]
      exact ⟨v1, hd1, hs1, fun h => absurd h (by decide)⟩
    · simp only [hret, if_false]
      obtain ⟨v2, hd2, hs2, hk2⟩ := ih (i + 1) (_SAL_advance_voice d voice 1).2
        (p_dst.set i (read_sample sample_data (SAL_get_voice_cursor d voice 0).2))
      have hvoice : ((_SAL_advance_voice d voice 1).2.voice voice)
          = if voice < d.device_voices.length then v1 else d.voice voice := by
        rw [hd1, voice_set_voice]; simp
      refine ⟨v2, ?_, ?_, ?_⟩
      · rw [hd2, hd1, set_voice_set_voice]
      · rw [hs2, hvoice]
        split
        · exact hs1
        · rfl
      · intro h0 hplay
        apply hk2 h0
        rw [hvoice, if_pos (lt_of_voice_playing d voice hplay)]
        exact hk1 hret hplay

/-- The generic PCM decoder satisfies the frame condition of decode callbacks. -/
theorem generic_decode_frame : decode_frame _SAL_generic_decode_sample := by
  intro d i p_dst bytes_needed
  unfold _SAL_generic_decode_sample
  simp only
  split
  · exact generic_decode_loop_frame i _ _ _ d p_dst
  · split
    · exact generic_decode_loop_frame i _ _ _ d p_dst
    · exact ⟨d.voice i, by simp [set_voice_voice], rfl, fun _ h => h⟩

/-! ## Sequences of calls keep the invariant -/

theorem ref_inv_step (decode : sal_sample_decode_fnc_t) (hdec : decode_frame decode)
    (d : SAL_Device) (rel : List Nat) (c : Call) (hinv : ref_inv d rel)
    (hok : c.allowed d rel = true) : ref_inv (step decode d c) (c.release rel) := by
  cases c with
  | create n => exact ref_inv_create d rel n hinv
  | play p volume pan loop_start loop_end num_repetitions =>
    simp only [Call.allowed, Bool.and_eq_true, decide_eq_true_eq, Bool.not_eq_true',
      List.contains_eq_any_beq, List.any_eq_false, beq_iff_eq] at hok
    refine ref_inv_play d rel p _ volume pan loop_start loop_end num_repetitions hinv hok.1 ?_
    intro hmem
    exact hok.2 p hmem rfl
  | stop sid => exact ref_inv_stop d rel sid hinv
  | destroy p =>
    simp only [Call.allowed, Bool.and_eq_true, decide_eq_true_eq, Bool.not_eq_true',
      List.contains_eq_any_beq, List.any_eq_false, beq_iff_eq] at hok
    refine ref_inv_destroy d rel p hinv hok.1 ?_
    intro hmem
    exact hok.2 p hmem rfl
  | mix dst decode_buffer bytes_to_mix =>
    exact ref_inv_mix_chunk decode hdec rel d dst decode_buffer bytes_to_mix hinv

theorem ref_inv_run (decode : sal_sample_decode_fnc_t) (hdec : decode_frame decode)
    (cs : List Call) :
    ∀ (d : SAL_Device) (rel : List Nat), ref_inv d rel → disciplined decode d rel cs = true →
      ref_inv (run decode d cs) (released_by rel cs) := by
  induction cs with
  | nil => intro d rel hinv _; exact hinv
  | cons c cs ih =>
    intro d rel hinv hdisc
    simp only [disciplined, Bool.and_eq_true] at hdisc
    exact ih _ _ (ref_inv_step decode hdec d rel c hinv hdisc.1) hdisc.2

theorem disciplined_take (decode : sal_sample_decode_fnc_t) (cs : List Call) :
    ∀ (k : Nat) (d : SAL_Device) (rel : List Nat), disciplined decode d rel cs = true →
      disciplined decode d rel (cs.take k) = true := by
  induction cs with
  | nil => intro k d rel h; simpa using h
  | cons c cs ih =>
    intro k d rel h
    cases k with
    | zero => simp [disciplined]
    | succ k =>
      simp only [disciplined, Bool.and_eq_true, List.take_succ_cons] at h ⊢
      exact ⟨h.1, ih k _ _ h.2⟩

/-! ## Claim C2: a destroyed sample has no voice -/

theorem create_device_ok (create_device_data : Nat → Nat → Nat → sal_error_e × SAL_DeviceInfo)
    (old : Option SAL_Device) (channels bits rate num_voices : Nat) (d0 : SAL_Device)
    (hcreate : SAL_create_device create_device_data old channels bits rate num_voices
      = (SALERR_OK, some d0)) :
    d0.device_voices = List.replicate num_voices SAL_Voice.zero ∧ d0.device_heap = [] ∧
    d0.device_destroyed = [] := by
  by_cases h1 : num_voices ≤ 0
  · simp [SAL_create_device, h1] at hcreate
  · by_cases h2 : (create_device_data channels bits rate).1 = SALERR_OK
    · simp only [SAL_create_device, h1, h2, if_false, ne_eq, not_true_eq_false, Prod.mk.injEq,
        Option.some.injEq, true_and] at hcreate
      subst hcreate
      exact ⟨rfl, rfl, rfl⟩
    · simp [SAL_create_device, h1, h2] at hcreate

theorem ref_inv_created (create_device_data : Nat → Nat → Nat → sal_error_e × SAL_DeviceInfo)
    (old : Option SAL_Device) (channels bits rate num_voices : Nat) (d0 : SAL_Device)
    (hcreate : SAL_create_device create_device_data old channels bits rate num_voices
      = (SALERR_OK, some d0)) : ref_inv d0 [] := by
  obtain ⟨hv, hh, hl⟩ :=
    create_device_ok create_device_data old channels bits rate num_voices d0 hcreate
  have hvoice : ∀ i, d0.voice i = SAL_Voice.zero := by
    intro i
    simp only [SAL_Device.voice, hv, List.getD_eq_getElem?_getD, List.getElem?_replicate]
    split <;> rfl
  refine ⟨?_, ?_, ?_⟩
  · intro i hi
    rw [hvoice] at hi
    exact absurd rfl hi
  · intro p hp
    rw [hl] at hp
    simp at hp
  · intro p hp
    rw [hh] at hp
    simp at hp

/-- C2 (as stated, refuted): on the 8-voice device, create a sample, play it (handle 0) and
call `SAL_destroy_sample` twice.  The second call returns Ok and runs the destroy callback
while slot 0 is still PLAYING that sample. -/
theorem C2_counterexample :
    (SAL_destroy_sample
      (run _SAL_generic_decode_sample device8
        [.create 4, .play 0 65535 0 0 0 SAL_LOOP_ALWAYS, .destroy 0]) 0).1 = SALERR_OK ∧
    (run _SAL_generic_decode_sample device8
      [.create 4, .play 0 65535 0 0 0 SAL_LOOP_ALWAYS, .destroy 0, .destroy 0]).device_destroyed
      = [0] ∧
    ((run _SAL_generic_decode_sample device8
      [.create 4, .play 0 65535 0 0 0 SAL_LOOP_ALWAYS, .destroy 0, .destroy 0]).voice
      0).voice_num_repetitions ≠ 0 ∧
    ((run _SAL_generic_decode_sample device8
      [.create 4, .play 0 65535 0 0 0 SAL_LOOP_ALWAYS, .destroy 0, .destroy 0]).voice
      0).voice_sample = some 0 := by
  decide

/-- C2 (amended): take a device made by `SAL_create_device` and any sequence of
`SAL_create_sample`, `SAL_play_sample`, `SAL_stop_voice`, `SAL_destroy_sample` and
`_SAL_mix_chunk` calls in which `SAL_destroy_sample` is called at most once on each sample
and `SAL_play_sample` is not called on a sample whose destroy callback has run (both only on
samples returned by `SAL_create_sample`), the decode callbacks changing nothing of the
device but their own voice.  Then after every call of the sequence, every sample whose
destroy callback has run (in that call or before) has been passed to `SAL_destroy_sample`
and no PLAYING slot of the voice table refers to it. -/
theorem C2_destroyed_sample_has_no_voice (decode : sal_sample_decode_fnc_t)
    (create_device_data : Nat → Nat → Nat → sal_error_e × SAL_DeviceInfo)
    (old : Option SAL_Device) (channels bits rate num_voices : Nat) (d0 : SAL_Device)
    (cs : List Call) (k p : Nat)
    (hdec : decode_frame decode)
    (hcreate : SAL_create_device create_device_data old channels bits rate num_voices
      = (SALERR_OK, some d0))
    (hdisc : disciplined decode d0 [] cs = true)
    (hp : p ∈ (run decode d0 (cs.take k)).device_destroyed) :
    (∀ i, ¬ (((run decode d0 (cs.take k)).voice i).voice_num_repetitions ≠ 0 ∧
      ((run decode d0 (cs.take k)).voice i).voice_sample = some p)) ∧
    (run decode d0 (cs.take k)).playing_count p = 0 ∧
    p ∈ released_by [] (cs.take k) := by
  have hinv := ref_inv_run decode hdec (cs.take k) d0 []
    (ref_inv_created create_device_data old channels bits rate num_voices d0 hcreate)
    (disciplined_take decode cs k d0 [] hdisc)
  obtain ⟨_, hcount, hrel⟩ := hinv.2.1 p hp
  refine ⟨?_, hcount, hrel⟩
  intro i hi
  have hpl : ((run decode d0 (cs.take k)).voice i).plays p = true := (plays_iff _ p).2 hi
  have := playing_count_pos _ i p hpl
  omega

/-- C2, witness: on the 8-voice device with the generic decoder, a sample is created, played
twice (one repetition on handle 0, looping always on handle 1), released by its creator
(InUse) and mixed until the first voice ends; then handle 1 is stopped, which destroys the
sample, and no PLAYING slot refers to it. -/
theorem C2_destroyed_sample_has_no_voice_witness :
    (0 ∈ (run _SAL_generic_decode_sample device8
      (List.take 6 [.create 4, .play 0 65535 0 0 0 1, .play 0 65535 0 0 0 SAL_LOOP_ALWAYS,
        .destroy 0, .mix [] [] 64, .stop 1, .create 2, .mix [] [] 64])).device_destroyed) ∧
    (run _SAL_generic_decode_sample device8
      (List.take 6 [.create 4, .play 0 65535 0 0 0 1, .play 0 65535 0 0 0 SAL_LOOP_ALWAYS,
        .destroy 0, .mix [] [] 64, .stop 1, .create 2, .mix [] [] 64])).playing_count 0 = 0 :=
  ⟨by decide,
   (C2_destroyed_sample_has_no_voice _SAL_generic_decode_sample backend_as_requested none
    2 16 44100 8 device8
    [.create 4, .play 0 65535 0 0 0 1, .play 0 65535 0 0 0 SAL_LOOP_ALWAYS,
      .destroy 0, .mix [] [] 64, .stop 1, .create 2, .mix [] [] 64] 6 0
    generic_decode_frame (by decide) (by decide) (by decide)).2.1⟩

/-! ## Claim C1: `SAL_play_sample` and `SAL_stop_voice` on a fresh sample -/

theorem keeps_sample_play (d : SAL_Device) (s c : Nat) (p : Nat) (sid : Int) (volume : Nat)
    (pan : Int) (loop_start loop_end : Nat) (num_repetitions : Int)
    (hk : keeps_sample d s c) :
    keeps_sample (SAL_play_sample d p sid volume pan loop_start loop_end num_repetitions).2.1
      s c := by
  rcases SAL_play_sample_cases d p sid volume pan loop_start loop_end num_repetitions with
    ⟨_, h⟩ | ⟨_, _, h⟩ | ⟨_, hlt, h⟩
  · rw [h]; exact hk
  · rw [h]; exact hk
  · rw [h]
    dsimp only
    have hfree := find_free_voice_free d.device_voices hlt
    generalize find_free_voice d.device_voices = i at hlt hfree ⊢
    generalize hv : ({ voice_sample := some p
                       voice_cursor := 0
                       voice_volume := volume
                       voice_pan := pan
                       voice_loop_start := loop_start
                       voice_loop_end :=
                         if loop_end = 0 then toU32 (d.sample p).sample_num_samples
                         else loop_end
                       voice_num_repetitions := num_repetitions } : SAL_Voice) = v
    have hvs : v.voice_sample = some p := by rw [← hv]
    obtain ⟨hs, hrc, hlog⟩ := hk
    have hold : (d.voice i).plays s = false := by
      have : (d.voice i).voice_num_repetitions = 0 := hfree
      simp [SAL_Voice.plays, this]
    have hcount : (((d.set_voice i v).add_ref p 1).playing_count s : Int)
        = (d.playing_count s : Int) + (if v.plays s then 1 else 0) := by
      rw [playing_count_add_ref, playing_count_set_voice d i v s hlt, hold]
      simp
    refine ⟨by rw [heap_length_add_ref, heap_set_voice]; exact hs, ?_, hlog⟩
    rw [hcount, ref_count_add_ref, heap_set_voice, ref_count_set_voice]
    by_cases hps : p = s
    · subst hps
      simp only [hs, and_self, if_true]
      split <;> omega
    · have hne : ¬ (p = s ∧ p < d.device_heap.length) := fun hc => hps hc.1
      have hnp : v.plays s = false := by simp [SAL_Voice.plays, hvs, hps]
      simp only [hne, if_false, hnp, Bool.false_eq_true]
      rw [ref_count_set_voice]
      omega

theorem keeps_sample_stop (d : SAL_Device) (s c : Nat) (sid : Int) (hk : keeps_sample d s c) :
    keeps_sample (SAL_stop_voice d sid).2 s c := by
  by_cases hr : sid < 0 ∨ sid ≥ d.device_max_voices
  · have hst : SAL_stop_voice d sid = (SALERR_INVALIDPARAM, d) := by simp [SAL_stop_voice, hr]
    rw [hst]
    exact hk
  · have h0 : 0 ≤ sid := by omega
    obtain ⟨i, rfl⟩ := Int.eq_ofNat_of_zero_le h0
    have hi : i < d.device_voices.length := by
      simp only [SAL_Device.device_max_voices] at hr; omega
    obtain ⟨hs, hrc, hlog⟩ := hk
    have hclear : ∀ d1 : SAL_Device, d1.device_voices = d.device_voices →
        ((d1.set_voice i SAL_Voice.zero).playing_count s : Int)
          = (d.playing_count s : Int) - (if (d.voice i).plays s then 1 else 0) := by
      intro d1 h1
      have hi1 : i < d1.device_voices.length := by rw [h1]; exact hi
      have hc1 : d1.playing_count s = d.playing_count s := by
        simp only [SAL_Device.playing_count, h1]
      have hv1 : d1.voice i = d.voice i := by simp only [SAL_Device.voice, h1]
      rw [playing_count_set_voice d1 i SAL_Voice.zero s hi1, plays_zero, hc1, hv1]
      simp
    by_cases hfree : (d.voice i).voice_num_repetitions = 0
    · rw [SAL_stop_voice_free d i hi hfree]
      have hnp : (d.voice i).plays s = false := by simp [SAL_Voice.plays, hfree]
      refine ⟨hs, ?_, hlog⟩
      rw [hclear d rfl, hnp, ref_count_set_voice]
      simpa using hrc
    · cases hq : (d.voice i).voice_sample with
      | none =>
        have hst : SAL_stop_voice d i = (SALERR_OK, d.set_voice i SAL_Voice.zero) := by
          simp [SAL_stop_voice, SAL_Device.device_max_voices, hi, hfree, hq]
        rw [hst]
        have hnp : (d.voice i).plays s = false := by simp [SAL_Voice.plays, hq]
        refine ⟨hs, ?_, hlog⟩
        rw [hclear d rfl, hnp, ref_count_set_voice]
        simpa using hrc
      | some q =>
        rw [SAL_stop_voice_playing d i q hi hfree hq]
        have hpl : (d.voice i).plays s = decide (q = s) := by
          simp [SAL_Voice.plays, hfree, hq]
        by_cases hqs : q = s
        · subst hqs
          have hnew : (d.add_ref q (-1)).ref_count q = d.ref_count q - 1 := by
            rw [ref_count_add_ref]; simp [hs]; ring
          have hpos := playing_count_pos d i q (by rw [hpl]; simp)
          have hgt : ¬ (d.add_ref q (-1)).ref_count q ≤ 0 := by rw [hnew]; omega
          rw [if_neg hgt]
          refine ⟨by rw [heap_set_voice, heap_length_add_ref]; exact hs, ?_, hlog⟩
          rw [hclear (d.add_ref q (-1)) rfl, hpl, ref_count_set_voice, hnew]
          simp only [decide_True, if_true]
          omega
        · have hne : ¬ (q = s ∧ q < d.device_heap.length) := fun hc => hqs hc.1
          have hrcs : (d.add_ref q (-1)).ref_count s = d.ref_count s := by
            rw [ref_count_add_ref, if_neg hne]
          have hcnt : ∀ d1 : SAL_Device, d1.device_voices = d.device_voices →
              ((d1.set_voice i SAL_Voice.zero).playing_count s : Int) = d.playing_count s := by
            intro d1 h1
            rw [hclear d1 h1, hpl]
            simp [hqs]
          by_cases hle : (d.add_ref q (-1)).ref_count q ≤ 0
          · rw [if_pos hle]
            dsimp only
            refine ⟨by
              show s < (_SAL_destroy_sample_raw (d.add_ref q (-1)) q).device_heap.length
              rw [heap_length_destroy_raw, heap_length_add_ref]; exact hs, ?_, ?_⟩
            · rw [hcnt (_SAL_destroy_sample_raw (d.add_ref q (-1)) q) rfl]
              show 1 + (d.playing_count s : Int)
                ≤ (_SAL_destroy_sample_raw (d.add_ref q (-1)) q).ref_count s
              rw [ref_count_destroy_raw, hrcs]; exact hrc
            · show List.count s (d.device_destroyed ++ [q]) = c
              rw [List.count_append, List.count_singleton]
              simp only [beq_iff_eq, hqs, if_false, Nat.add_zero]
              exact hlog
          · rw [if_neg hle]
            dsimp only
            refine ⟨by rw [heap_set_voice, heap_length_add_ref]; exact hs, ?_, hlog⟩
            rw [hcnt (d.add_ref q (-1)) rfl, ref_count_set_voice, hrcs]
            exact hrc

theorem keeps_sample_run (decode : sal_sample_decode_fnc_t) (s c : Nat) (cs : List Call) :
    ∀ d : SAL_Device, (∀ call ∈ cs, call.is_play_or_stop = true) → keeps_sample d s c →
      keeps_sample (run decode d cs) s c := by
  induction cs with
  | nil => intro d _ hk; exact hk
  | cons call cs ih =>
    intro d hcs hk
    have hrest : ∀ call' ∈ cs, call'.is_play_or_stop = true :=
      fun call' h => hcs call' (List.mem_cons_of_mem _ h)
    have hhead := hcs call (List.mem_cons_self _ _)
    show keeps_sample (run decode (step decode d call) cs) s c
    apply ih _ hrest
    cases call with
    | create n => simp [Call.is_play_or_stop] at hhead
    | play p volume pan loop_start loop_end num_repetitions =>
      exact keeps_sample_play d s c p _ volume pan loop_start loop_end num_repetitions hk
    | stop sid => exact keeps_sample_stop d s c sid hk
    | destroy p => simp [Call.is_play_or_stop] at hhead
    | mix dst decode_buffer bytes_to_mix => simp [Call.is_play_or_stop] at hhead

/-- C1 (as stated, refuted): on the 8-voice device a sample is created, played and
stopped.  Its ref count goes 1, 2, 1: it never reaches 0, and the destroy callback has not
fired at all, where the claim has it fire exactly once. -/
theorem C1_counterexample :
    (run _SAL_generic_decode_sample device8 [.create 4]).ref_count 0 = 1 ∧
    (run _SAL_generic_decode_sample device8
      [.create 4, .play 0 65535 0 0 0 SAL_LOOP_ALWAYS]).ref_count 0 = 2 ∧
    (run _SAL_generic_decode_sample device8
      [.create 4, .play 0 65535 0 0 0 SAL_LOOP_ALWAYS, .stop 0]).ref_count 0 = 1 ∧
    (run _SAL_generic_decode_sample device8
      [.create 4, .play 0 65535 0 0 0 SAL_LOOP_ALWAYS, .stop 0]).destroy_count 0 = 0 ∧
    (run _SAL_generic_decode_sample device8
      [.create 4, .play 0 65535 0 0 0 SAL_LOOP_ALWAYS, .stop 0]).destroy_count 0 ≠ 1 := by
  decide

/-- C1 (amended): for every sequence of `SAL_play_sample` and `SAL_stop_voice` calls (of
any samples and handles, with any arguments) on a device, after a sample has been made by
`SAL_create_sample` at an address no PLAYING slot refers to, the ref count of the sample
never goes negative: it stays at least 1 (the reference of the creator) plus the number of
PLAYING slots bound to the sample, so it never reaches 0, and the destroy callback of the
sample does not fire during the sequence (hence never while the ref count is > 0 and never a
second time). -/
theorem C1_play_stop_keep_sample (decode : sal_sample_decode_fnc_t) (d0 : SAL_Device)
    (num_samples : Nat) (cs : List Call)
    (hfresh : d0.playing_count d0.device_heap.length = 0)
    (hcs : ∀ call ∈ cs, call.is_play_or_stop = true) :
    0 ≤ (run decode (SAL_create_sample d0 num_samples).2.1 cs).ref_count
      (SAL_create_sample d0 num_samples).2.2 ∧
    1 + ((run decode (SAL_create_sample d0 num_samples).2.1 cs).playing_count
        (SAL_create_sample d0 num_samples).2.2 : Int)
      ≤ (run decode (SAL_create_sample d0 num_samples).2.1 cs).ref_count
        (SAL_create_sample d0 num_samples).2.2 ∧
    (run decode (SAL_create_sample d0 num_samples).2.1 cs).destroy_count
        (SAL_create_sample d0 num_samples).2.2
      = d0.destroy_count (SAL_create_sample d0 num_samples).2.2 := by
  have hinit : keeps_sample (SAL_create_sample d0 num_samples).2.1 d0.device_heap.length
      (d0.destroy_count d0.device_heap.length) := by
    refine ⟨by simp [SAL_create_sample], ?_, rfl⟩
    have hc : (SAL_create_sample d0 num_samples).2.1.playing_count d0.device_heap.length
        = d0.playing_count d0.device_heap.length := rfl
    have hrc : (SAL_create_sample d0 num_samples).2.1.ref_count d0.device_heap.length = 1 := by
      simp [SAL_create_sample, SAL_Device.ref_count, SAL_Device.sample,
        List.getD_eq_getElem?_getD]
    rw [hc, hfresh, hrc]
    simp
  obtain ⟨_, hrc, hlog⟩ := keeps_sample_run decode _ _ cs _ hcs hinit
  have hs : (SAL_create_sample d0 num_samples).2.2 = d0.device_heap.length := rfl
  rw [hs]
  exact ⟨by omega, hrc, hlog⟩

/-- C1, witness: on the 8-voice device, a sample played three times (once with 0
repetitions) with two stops in between keeps a ref count of at least 1 and is not
destroyed. -/
theorem C1_play_stop_keep_sample_witness :
    0 ≤ (run _SAL_generic_decode_sample (SAL_create_sample device8 4).2.1
      [.play 0 65535 0 0 0 1, .play 0 9 0 0 4 0, .stop 0, .play 0 9 0 1 3 SAL_LOOP_ALWAYS,
        .stop 0]).ref_count (SAL_create_sample device8 4).2.2 ∧
    (run _SAL_generic_decode_sample (SAL_create_sample device8 4).2.1
      [.play 0 65535 0 0 0 1, .play 0 9 0 0 4 0, .stop 0, .play 0 9 0 1 3 SAL_LOOP_ALWAYS,
        .stop 0]).destroy_count (SAL_create_sample device8 4).2.2
      = device8.destroy_count (SAL_create_sample device8 4).2.2 :=
  have h := C1_play_stop_keep_sample _SAL_generic_decode_sample device8 4
    [.play 0 65535 0 0 0 1, .play 0 9 0 0 4 0, .stop 0, .play 0 9 0 1 3 SAL_LOOP_ALWAYS,
      .stop 0] (by decide) (by decide)
  ⟨h.1, h.2.2⟩

/-! ## Claim C14: a voice that loops always never ends -/

/-- One `_SAL_advance_voice` call on a voice whose repetitions are `SAL_LOOP_ALWAYS`. -/
theorem advance_voice_loop_always (d : SAL_Device) (i : Nat) (k : Int)
    (h : (d.voice i).voice_num_repetitions = SAL_LOOP_ALWAYS) :
    (_SAL_advance_voice d i k).1 = 1 ∧
    ((_SAL_advance_voice d i k).2.voice i).voice_num_repetitions = SAL_LOOP_ALWAYS := by
  have hi : i < d.device_voices.length := by
    apply lt_of_voice_playing
    rw [h]; decide
  unfold _SAL_advance_voice
  simp only [h, ne_eq, not_true_eq_false, if_false]
  split
  · split
    · exact ⟨rfl, by rw [voice_set_voice]; simp [hi, h]⟩
    · exact ⟨rfl, by rw [voice_set_voice]; simp [hi, h]⟩
  · exact ⟨rfl, by rw [voice_set_voice]; simp [hi, h]⟩

theorem advance_all_loop_always (ks : List Int) :
    ∀ (d : SAL_Device) (i : Nat), (d.voice i).voice_num_repetitions = SAL_LOOP_ALWAYS →
      (∀ r ∈ (advance_all d i ks).1, r = 1) ∧
      (advance_all d i ks).1.length = ks.length ∧
      ((advance_all d i ks).2.voice i).voice_num_repetitions = SAL_LOOP_ALWAYS := by
  induction ks with
  | nil => intro d i h; exact ⟨by simp [advance_all], rfl, h⟩
  | cons k ks ih =>
    intro d i h
    obtain ⟨h1, h2⟩ := advance_voice_loop_always d i k h
    obtain ⟨ha, hb, hc⟩ := ih (_SAL_advance_voice d i k).2 i h2
    refine ⟨?_, ?_, hc⟩
    · intro r hr
      simp only [advance_all, List.mem_cons] at hr
      rcases hr with rfl | hr
      · exact h1
      · exact ha r hr
    · simp only [advance_all, List.length_cons, hb]

/-- C14: for a voice whose repetitions are `SAL_LOOP_ALWAYS`, in every finite sequence of
`_SAL_advance_voice` calls on it, with any loop bounds of the voice and any frame counts,
every call returns 1 (still playing), and after every number `m` of calls of the sequence
the repetitions of the voice are still `SAL_LOOP_ALWAYS`. -/
theorem C14_loop_always_never_ends (d : SAL_Device) (i : Nat) (ks : List Int)
    (h : (d.voice i).voice_num_repetitions = SAL_LOOP_ALWAYS) :
    (∀ r ∈ (advance_all d i ks).1, r = 1) ∧
    (advance_all d i ks).1.length = ks.length ∧
    (∀ m, ((advance_all d i (ks.take m)).2.voice i).voice_num_repetitions = SAL_LOOP_ALWAYS) :=
  ⟨(advance_all_loop_always ks d i h).1, (advance_all_loop_always ks d i h).2.1,
   fun m => (advance_all_loop_always (ks.take m) d i h).2.2⟩

/-- C14, witness: the looping voice of the one-voice device (loop from 0 to 4) advanced by
3, 1, 70000, 0 and -2 frames. -/
theorem C14_loop_always_never_ends_witness :
    (device_full1.voice 0).voice_num_repetitions = SAL_LOOP_ALWAYS ∧
    (advance_all device_full1 0 [3, 1, 70000, 0, -2]).1 = [1, 1, 1, 1, 1] ∧
    (∀ r ∈ (advance_all device_full1 0 [3, 1, 70000, 0, -2]).1, r = 1) :=
  ⟨by decide, by decide,
   (C14_loop_always_never_ends device_full1 0 [3, 1, 70000, 0, -2] (by decide)).1⟩

/-! ## Claim C18: `SAL_get_device_info` -/

/-- The format fields of a device made by `SAL_create_device`. -/
theorem create_device_info (create_device_data : Nat → Nat → Nat → sal_error_e × SAL_DeviceInfo)
    (old : Option SAL_Device) (channels bits rate num_voices : Nat) (d0 : SAL_Device)
    (hcreate : SAL_create_device create_device_data old channels bits rate num_voices
      = (SALERR_OK, some d0)) :
    d0.device_info.di_bytes_per_sample = Int.tdiv d0.device_info.di_bits 8 ∧
    d0.device_info.di_bytes_per_frame
      = d0.device_info.di_bytes_per_sample * d0.device_info.di_channels := by
  by_cases h1 : num_voices ≤ 0
  · simp [SAL_create_device, h1] at hcreate
  · by_cases h2 : (create_device_data channels bits rate).1 = SALERR_OK
    · simp only [SAL_create_device, h1, h2, if_false, ne_eq, not_true_eq_false, Prod.mk.injEq,
        Option.some.injEq, true_and] at hcreate
      subst hcreate
      exact ⟨rfl, rfl⟩
    · simp [SAL_create_device, h1, h2] at hcreate

/-- C18: for a device produced by a successful `SAL_create_device` and any info struct,
`SAL_get_device_info` returns WrongVersion and leaves the struct unchanged when its
`di_size` differs from `sizeof( SAL_DeviceInfo )`; otherwise it returns Ok and the struct
equals the `device_info` of the device, in which `di_bytes_per_sample` is `di_bits / 8`
(the division of C) and `di_bytes_per_frame` is `di_bytes_per_sample * di_channels`. -/
theorem C18_get_device_info (create_device_data : Nat → Nat → Nat → sal_error_e × SAL_DeviceInfo)
    (old : Option SAL_Device) (channels bits rate num_voices : Nat) (d : SAL_Device)
    (info : SAL_DeviceInfo)
    (hcreate : SAL_create_device create_device_data old channels bits rate num_voices
      = (SALERR_OK, some d)) :
    (info.di_size ≠ sizeof_SAL_DeviceInfo →
      SAL_get_device_info d info = (SALERR_WRONGVERSION, info)) ∧
    (info.di_size = sizeof_SAL_DeviceInfo →
      SAL_get_device_info d info = (SALERR_OK, d.device_info) ∧
      (SAL_get_device_info d info).2.di_bytes_per_sample
        = Int.tdiv (SAL_get_device_info d info).2.di_bits 8 ∧
      (SAL_get_device_info d info).2.di_bytes_per_frame
        = (SAL_get_device_info d info).2.di_bytes_per_sample
          * (SAL_get_device_info d info).2.di_channels) := by
  obtain ⟨hs, hf⟩ :=
    create_device_info create_device_data old channels bits rate num_voices d hcreate
  constructor
  · intro hne
    simp [SAL_get_device_info, hne]
  · intro heq
    have hget : SAL_get_device_info d info = (SALERR_OK, d.device_info) := by
      simp [SAL_get_device_info, heq]
    rw [hget]
    exact ⟨rfl, hs, hf⟩

/-- C18, witness: the 8-voice device queried with a struct stamped 280 and with a struct
stamped 0. -/
theorem C18_get_device_info_witness :
    SAL_create_device backend_as_requested none 2 16 44100 8 = (SALERR_OK, some device8) ∧
    (SAL_get_device_info device8 (backend_as_requested 1 8 0).2).1 = SALERR_OK ∧
    (SAL_get_device_info device8 (backend_as_requested 1 8 0).2).2.di_bytes_per_frame = 4 ∧
    SAL_get_device_info device8 { (backend_as_requested 1 8 0).2 with di_size := 0 }
      = (SALERR_WRONGVERSION, { (backend_as_requested 1 8 0).2 with di_size := 0 }) :=
  ⟨by decide,
   by rw [((C18_get_device_info backend_as_requested none 2 16 44100 8 device8
      (backend_as_requested 1 8 0).2 (by decide)).2 (by decide)).1],
   by rw [((C18_get_device_info backend_as_requested none 2 16 44100 8 device8
      (backend_as_requested 1 8 0).2 (by decide)).2 (by decide)).1]; decide,
   (C18_get_device_info backend_as_requested none 2 16 44100 8 device8
      { (backend_as_requested 1 8 0).2 with di_size := 0 } (by decide)).1 (by decide)⟩

/-! ## Claim C19: output parameters on the error paths -/

/-- C19 (as stated, refuted): `SAL_get_voice_status` on the 8-voice device with the
out-of-range handle 8 returns InvalidParam and yet writes the status variable, which held
PLAYING before the call and holds INVALIDSOUND after it. -/
theorem C19_counterexample :
    SAL_get_voice_status_nullable (some device8) 8 SALVS_PLAYING
      = (SALERR_INVALIDPARAM, SALVS_INVALIDSOUND) ∧
    (SAL_get_voice_status_nullable (some device8) 8 SALVS_PLAYING).1 ≠ SALERR_OK ∧
    (SAL_get_voice_status_nullable (some device8) 8 SALVS_PLAYING).2 ≠ SALVS_PLAYING := by
  decide

/-- C19 (amended): for `SAL_play_sample` (handle), `SAL_get_voice_sample`,
`SAL_get_voice_cursor`, `SAL_get_sample_ref_count`, `SAL_get_sample_data`,
`SAL_get_sample_args`, `SAL_get_device_info` and `SAL_create_sample`, whenever the call
returns an error code (NULL device or sample, wrong loop bounds, no free voice, handle out
of range, wrong `di_size`, NULL callbacks) the output location keeps its previous value.
`SAL_get_voice_status` is the exception: with a device that is not NULL and a handle out of
range it returns InvalidParam and writes `SALVS_INVALIDSOUND` to the status; it leaves the
status alone only when the device is NULL. -/
theorem C19_outputs_on_error :
    (∀ (device : Option SAL_Device) (p_sample : Option Nat) (sid : Int) (volume : Nat)
        (pan : Int) (loop_start loop_end : Nat) (num_repetitions : Int),
      (SAL_play_sample_nullable device p_sample sid volume pan loop_start loop_end
        num_repetitions).1 ≠ SALERR_OK →
      (SAL_play_sample_nullable device p_sample sid volume pan loop_start loop_end
        num_repetitions).2 = sid) ∧
    (∀ (p_device : Option SAL_Device) (sid : Int) (old : Option Nat),
      (SAL_get_voice_sample_nullable p_device sid old).1 ≠ SALERR_OK →
      (SAL_get_voice_sample_nullable p_device sid old).2 = old) ∧
    (∀ (p_device : Option SAL_Device) (sid : Int) (old : Int),
      (SAL_get_voice_cursor_nullable p_device sid old).1 ≠ SALERR_OK →
      (SAL_get_voice_cursor_nullable p_device sid old).2 = old) ∧
    (∀ (p_device : Option SAL_Device) (p_sample : Option Nat) (old : Int),
      (SAL_get_sample_ref_count_nullable p_device p_sample old).1 ≠ SALERR_OK →
      (SAL_get_sample_ref_count_nullable p_device p_sample old).2 = old) ∧
    (∀ (p_device : Option SAL_Device) (p_sample : Option Nat) (old : List Int),
      (SAL_get_sample_data_nullable p_device p_sample old).1 ≠ SALERR_OK →
      (SAL_get_sample_data_nullable p_device p_sample old).2 = old) ∧
    (∀ (p_device : Option SAL_Device) (p_sample : Option Nat) (old : Int),
      (SAL_get_sample_args_nullable p_device p_sample old).1 ≠ SALERR_OK →
      (SAL_get_sample_args_nullable p_device p_sample old).2 = old) ∧
    (∀ (p_device : Option SAL_Device) (info : SAL_DeviceInfo),
      (SAL_get_device_info_nullable p_device info).1 ≠ SALERR_OK →
      (SAL_get_device_info_nullable p_device info).2 = info) ∧
    (∀ (p_device : Option SAL_Device) (decoder destroy : Bool) (old : Option Nat)
        (num_samples : Nat),
      (SAL_create_sample_nullable p_device decoder destroy old num_samples).1 ≠ SALERR_OK →
      (SAL_create_sample_nullable p_device decoder destroy old num_samples).2 = old) ∧
    (∀ (d : SAL_Device) (sid : Int) (status : sal_voice_status_e),
      (sid < 0 ∨ sid ≥ d.device_max_voices) →
      SAL_get_voice_status_nullable (some d) sid status
        = (SALERR_INVALIDPARAM, SALVS_INVALIDSOUND)) ∧
    (∀ (sid : Int) (status : sal_voice_status_e),
      SAL_get_voice_status_nullable none sid status = (SALERR_INVALIDPARAM, status)) := by
  refine ⟨?_, ?_, ?_, ?_, ?_, ?_, ?_, ?_, ?_, ?_⟩
  · intro device p_sample sid volume pan loop_start loop_end num_repetitions herr
    cases device with
    | none => rfl
    | some d =>
      cases p_sample with
      | none => rfl
      | some p =>
        simp only [SAL_play_sample_nullable] at herr ⊢
        rcases SAL_play_sample_cases d p sid volume pan loop_start loop_end num_repetitions with
          ⟨_, h⟩ | ⟨_, _, h⟩ | ⟨_, _, h⟩
        · rw [h]
        · rw [h]
        · rw [h] at herr
          exact absurd rfl herr
  · intro p_device sid old herr
    cases p_device with
    | none => rfl
    | some d =>
      simp only [SAL_get_voice_sample_nullable, SAL_get_voice_sample] at herr ⊢
      split at herr
      · rename_i hr
        simp [hr]
      · exact absurd rfl herr
  · intro p_device sid old herr
    cases p_device with
    | none => rfl
    | some d =>
      simp only [SAL_get_voice_cursor_nullable, SAL_get_voice_cursor] at herr ⊢
      split at herr
      · rename_i hr
        simp [hr]
      · exact absurd rfl herr
  · intro p_device p_sample old herr
    cases p_device with
    | none => rfl
    | some d =>
      cases p_sample with
      | none => rfl
      | some p => exact absurd rfl herr
  · intro p_device p_sample old herr
    cases p_device with
    | none => rfl
    | some d =>
      cases p_sample with
      | none => rfl
      | some p => exact absurd rfl herr
  · intro p_device p_sample old herr
    cases p_device with
    | none => rfl
    | some d =>
      cases p_sample with
      | none => rfl
      | some p => exact absurd rfl herr
  · intro p_device info herr
    cases p_device with
    | none => rfl
    | some d =>
      simp only [SAL_get_device_info_nullable, SAL_get_device_info] at herr ⊢
      split at herr
      · rename_i hr
        simp [hr]
      · exact absurd rfl herr
  · intro p_device decoder destroy old num_samples herr
    cases p_device with
    | none => rfl
    | some d =>
      simp only [SAL_create_sample_nullable] at herr ⊢
      split at herr
      · rename_i hr
        simp [hr]
      · exact absurd rfl herr
  · intro d sid status hr
    simp [SAL_get_voice_status_nullable, SAL_get_voice_status, hr]
  · intro sid status
    rfl

/-- C19, witness: a play on the full one-voice device returns an error and leaves the
handle variable at 7; a cursor query with the handle 5 on that device leaves the variable
at 42. -/
theorem C19_outputs_on_error_witness :
    (SAL_play_sample_nullable (some device_full1) (some 0) 7 65535 0 0 0 1).2 = 7 ∧
    (SAL_get_voice_cursor_nullable (some device_full1) 5 42).2 = 42 :=
  ⟨C19_outputs_on_error.1 (some device_full1) (some 0) 7 65535 0 0 0 1 (by decide),
   C19_outputs_on_error.2.2.1 (some device_full1) 5 42 (by decide)⟩

/-! ## Claim C15: 16-bit mono submix at full volume -/

theorem shiftRight_16 (x : Int) : x >>> (16 : Int) = x / 65536 := by
  cases x with
  | ofNat m =>
    have h := Int.shiftRight_coe_nat m 16
    simp only [Nat.cast_ofNat, Int.ofNat_eq_coe] at h ⊢
    rw [h, Nat.shiftRight_eq_div_pow]
    norm_num
  | negSucc m =>
    have h := Int.shiftRight_negSucc m 16
    simp only [Nat.cast_ofNat] at h
    rw [h, Nat.shiftRight_eq_div_pow, Int.negSucc_eq, Int.negSucc_eq]
    have : (2:ℕ) ^ 16 = 65536 := by norm_num
    rw [this]
    push_cast
    omega

theorem nat_shiftRight_16 (x : Nat) : x >>> 16 = x / 65536 := by
  rw [Nat.shiftRight_eq_div_pow]

/-- The 16-bit mono loop body on a 16-bit device that is not stereo. -/
theorem submix_sample_16_mono (info : SAL_DeviceInfo) (i : Nat) (dst src : Int)
    (voice_volume : Nat) (voice_pan : Int) (hbits : info.di_bits = 16)
    (hch : info.di_channels ≠ 2) :
    submix_sample info i dst src voice_volume voice_pan
      = submix_16_mono dst src voice_volume := by
  simp [submix_sample, hbits, hch]

/-- C15 (as stated, refuted): on a 16-bit mono device, the full-scale source 32767 submixed
into a silent destination at volume 65535 and pan 0 gives 32766, not 32767. -/
theorem C15_counterexample :
    submix_buffer info_16_mono [0] 0 [32767] 2 65535 0 = [32766] ∧
    submix_sample info_16_mono 0 0 32767 65535 0 = 32766 ∧
    submix_sample info_16_mono 0 0 32767 65535 0 ≠ 32767 := by
  decide

/-- C15 (amended): on a 16-bit mono device, submixing a source sample into a silent
destination (0) at volume 65535 (any pan) reproduces the source exactly for every source
value that is 0 or negative, and gives the source minus 1 for every positive source value:
the product with 65535 is shifted right by 16, so the full-scale source 32767 gives
32766. -/
theorem C15_submix_16_mono_full_volume (info : SAL_DeviceInfo) (i : Nat) (src : Int)
    (voice_pan : Int) (hbits : info.di_bits = 16) (hch : info.di_channels = 1)
    (hlo : -32768 ≤ src) (hhi : src ≤ 32767) :
    submix_sample info i 0 src 65535 voice_pan = (if src > 0 then src - 1 else src) ∧
    (info.di_bytes_per_sample = 2 →
      submix_buffer info [0] 0 [src] 2 65535 voice_pan
        = [if src > 0 then src - 1 else src]) := by
  have hs : submix_sample info i 0 src 65535 voice_pan
      = (if src > 0 then src - 1 else src) := by
    rw [submix_sample_16_mono info i 0 src 65535 voice_pan hbits (by rw [hch]; decide)]
    simp only [submix_16_mono, shiftRight_16, toI16]
    push_cast
    by_cases hpos : src > 0
    · have hb : src * 65535 / 65536 = src - 1 := by omega
      rw [hb, if_pos hpos]
      omega
    · have hb : src * 65535 / 65536 = src := by omega
      rw [hb, if_neg hpos]
      omega
  refine ⟨hs, ?_⟩
  intro hbps
  have h0 : submix_sample info 0 0 src 65535 voice_pan
      = (if src > 0 then src - 1 else src) := by
    rw [submix_sample_16_mono info 0 0 src 65535 voice_pan hbits (by rw [hch]; decide)]
    simp only [submix_16_mono, shiftRight_16, toI16]
    push_cast
    by_cases hpos : src > 0
    · have hb : src * 65535 / 65536 = src - 1 := by omega
      rw [hb, if_pos hpos]
      omega
    · have hb : src * 65535 / 65536 = src := by omega
      rw [hb, if_neg hpos]
      omega
  simp only [submix_buffer, hbps]
  have h2 : (Int.tdiv 2 2).toNat = 1 := by decide
  rw [h2]
  simp only [submix_loop, Nat.add_zero, List.getD_cons_zero, List.set_cons_zero, h0]

/-- C15, witness: the sources 32767, 1, 0 and -32768 on the 16-bit mono format. -/
theorem C15_submix_16_mono_full_volume_witness :
    submix_sample info_16_mono 0 0 32767 65535 0 = 32766 ∧
    submix_sample info_16_mono 0 0 (-32768) 65535 0 = -32768 :=
  ⟨(C15_submix_16_mono_full_volume info_16_mono 0 32767 0 (by decide) (by decide) (by decide)
      (by decide)).1,
   (C15_submix_16_mono_full_volume info_16_mono 0 (-32768) 0 (by decide) (by decide)
      (by decide) (by decide)).1⟩

/-! ## Claims C16, C17: the 8-bit and the stereo submix -/

theorem pan_volume_le (voice_volume : Nat) (voice_pan : Int) (i : Nat) :
    pan_volume voice_volume voice_pan i ≤ 65535 := by
  unfold pan_volume
  simp only
  split
  · split <;> omega
  · split <;> omega

/-- The unsigned 32-bit product of a converted signed value with a volume. -/
theorem toU32_mul (x : Int) (e : Nat) : toU32 ((toU32 x : Int) * (e : Int)) = toU32 (x * e) := by
  unfold toU32
  rw [Int.toNat_of_nonneg (Int.emod_nonneg _ (by decide))]
  have h : x % 4294967296 * (e : Int) % 4294967296 = x * (e : Int) % 4294967296 :=
    (Int.mod_modEq x 4294967296).mul_right (e : Int)
  rw [h]

theorem mul_volume_bounds (b : Int) (e : Nat) (lo hi : Int) (hlo : lo ≤ b) (hhi : b ≤ hi)
    (h0 : lo ≤ 0) (h1 : 0 ≤ hi) (he : e ≤ 65535) :
    lo * 65535 ≤ b * (e : Int) ∧ b * (e : Int) ≤ hi * 65535 := by
  have he0 : (0 : Int) ≤ (e : Int) := Int.ofNat_nonneg e
  have he1 : (e : Int) ≤ 65535 := by exact_mod_cast he
  constructor
  · calc lo * 65535 ≤ lo * (e : Int) := Int.mul_le_mul_of_nonpos_left h0 he1
      _ ≤ b * (e : Int) := Int.mul_le_mul_of_nonneg_right hlo he0
  · calc b * (e : Int) ≤ hi * (e : Int) := Int.mul_le_mul_of_nonneg_right hhi he0
      _ ≤ hi * 65535 := Int.mul_le_mul_of_nonneg_left he1 h1

/-- The 8-bit mono loop body on bytes is the saturated sum. -/
theorem submix_8_mono_eq (d s : Int) (e : Nat) (hd0 : 0 ≤ d) (hd1 : d ≤ 255) (hs0 : 0 ≤ s)
    (hs1 : s ≤ 255) (he : e ≤ 65535) :
    submix_8_mono d s e = max 0 (min 255 (d + (s - 128) * (e : Int) / 65536)) ∧
    -128 ≤ d + (s - 128) * (e : Int) / 65536 ∧ d + (s - 128) * (e : Int) / 65536 ≤ 381 := by
  obtain ⟨hp0, hp1⟩ := mul_volume_bounds (s - 128) e (-128) 127 (by omega) (by omega)
    (by decide) (by decide) he
  have hb : toI16 (s - 128) = s - 128 := by unfold toI16; omega
  have ha : toI16 (d - 128) = d - 128 := by unfold toI16; omega
  simp only [submix_8_mono, shiftRight_16, hb, ha]
  generalize (s - 128) * (e : Int) = P at hp0 hp1 ⊢
  have hf0 : -128 ≤ P / 65536 := by omega
  have hf1 : P / 65536 ≤ 126 := by omega
  generalize P / 65536 = f at hf0 hf1 ⊢
  have hsum : toI16 (d - 128 + f + 128) = d + f := by unfold toI16; omega
  rw [hsum]
  refine ⟨?_, by omega, by omega⟩
  unfold toU8
  split <;> split <;> omega

/-- The 8-bit stereo loop body on bytes gives what the mono loop body gives at the
per-channel volume. -/
theorem submix_8_stereo_eq_mono (i : Nat) (d s : Int) (voice_volume : Nat) (voice_pan : Int)
    (hd0 : 0 ≤ d) (hd1 : d ≤ 255) (hs0 : 0 ≤ s) (hs1 : s ≤ 255) :
    submix_8_stereo i d s voice_volume voice_pan
      = submix_8_mono d s (pan_volume voice_volume voice_pan i) := by
  have he := pan_volume_le voice_volume voice_pan i
  have hb : toI16 (s - 128) = s - 128 := by unfold toI16; omega
  have ha : toI16 (d - 128) = d - 128 := by unfold toI16; omega
  simp only [submix_8_stereo, submix_8_mono, shiftRight_16, nat_shiftRight_16, hb, ha, toU32_mul]
  generalize pan_volume voice_volume voice_pan i = e at he ⊢
  obtain ⟨hp0, hp1⟩ := mul_volume_bounds (s - 128) e (-128) 127 (by omega) (by omega)
    (by decide) (by decide) he
  generalize (s - 128) * (e : Int) = P at hp0 hp1 ⊢
  have hsum : toI16 (toU32 ((toU32 (d - 128) : Int) + ((toU32 P / 65536 : Nat) : Int) + 128))
      = toI16 (d - 128 + P / 65536 + 128) := by
    unfold toI16 toU32
    omega
  rw [hsum]

/-- The 16-bit stereo loop body gives what the mono loop body gives at the per-channel
volume. -/
theorem submix_16_stereo_eq_mono (i : Nat) (d s : Int) (voice_volume : Nat) (voice_pan : Int)
    (hs0 : -32768 ≤ s) (hs1 : s ≤ 32767) :
    submix_16_stereo i d s voice_volume voice_pan
      = submix_16_mono d s (pan_volume voice_volume voice_pan i) := by
  have he := pan_volume_le voice_volume voice_pan i
  simp only [submix_16_stereo, submix_16_mono, shiftRight_16, nat_shiftRight_16, toU32_mul]
  generalize pan_volume voice_volume voice_pan i = e at he ⊢
  obtain ⟨hp0, hp1⟩ := mul_volume_bounds s e (-32768) 32767 hs0 hs1 (by decide) (by decide) he
  generalize s * (e : Int) = P at hp0 hp1 ⊢
  have hx : toI16 ((toU32 P / 65536 : Nat) : Int) = toI16 (P / 65536) := by
    unfold toI16 toU32
    omega
  rw [hx]

/-- C16: on an 8-bit device, for every destination byte `d`, source byte `s` and volume in
[0,65535] (and every pan and sample index), the submix result is
clamp(d + floor((s-128)*e / 65536), 0, 255), where `e` is the voice volume on a mono device
and the per-channel volume `pan_volume` (at most 65535) that the code computes on a stereo
device, whose product is taken in unsigned 32-bit arithmetic.  So the result stays within
[0,255] by saturation, and the sum before the clamp lies in [-128, 381]: the 16-bit
variable holds it without wrap-around. -/
theorem C16_submix_8_saturates (info : SAL_DeviceInfo) (i : Nat) (d s : Int) (volume : Nat)
    (pan : Int) (hbits : info.di_bits = 8) (hd0 : 0 ≤ d) (hd1 : d ≤ 255) (hs0 : 0 ≤ s)
    (hs1 : s ≤ 255) (hvol : volume ≤ 65535) :
    (info.di_channels = 1 →
      submix_sample info i d s volume pan
        = max 0 (min 255 (d + (s - 128) * (volume : Int) / 65536)) ∧
      -128 ≤ d + (s - 128) * (volume : Int) / 65536 ∧
      d + (s - 128) * (volume : Int) / 65536 ≤ 381) ∧
    (info.di_channels ≠ 1 →
      submix_sample info i d s volume pan
        = max 0 (min 255 (d + (s - 128) * (pan_volume volume pan i : Int) / 65536)) ∧
      pan_volume volume pan i ≤ 65535 ∧
      -128 ≤ d + (s - 128) * (pan_volume volume pan i : Int) / 65536 ∧
      d + (s - 128) * (pan_volume volume pan i : Int) / 65536 ≤ 381) ∧
    0 ≤ submix_sample info i d s volume pan ∧ submix_sample info i d s volume pan ≤ 255 := by
  have hmono : info.di_channels = 1 →
      submix_sample info i d s volume pan = submix_8_mono d s volume := by
    intro h; simp [submix_sample, hbits, h]
  have hstereo : info.di_channels ≠ 1 →
      submix_sample info i d s volume pan
        = submix_8_mono d s (pan_volume volume pan i) := by
    intro h
    simp only [submix_sample, hbits, h, if_true, if_false]
    exact submix_8_stereo_eq_mono i d s volume pan hd0 hd1 hs0 hs1
  have hm := submix_8_mono_eq d s volume hd0 hd1 hs0 hs1 hvol
  have hs := submix_8_mono_eq d s (pan_volume volume pan i) hd0 hd1 hs0 hs1
    (pan_volume_le volume pan i)
  refine ⟨fun h => ?_, fun h => ?_, ?_⟩
  · rw [hmono h]; exact hm
  · rw [hstereo h]; exact ⟨hs.1, pan_volume_le volume pan i, hs.2⟩
  · by_cases h : info.di_channels = 1
    · rw [hmono h, hm.1]; omega
    · rw [hstereo h, hs.1]; omega

/-- C16, witness: destination 200 and source 255 at full volume saturate at 255 on the
8-bit mono format, and destination 10 with source 0 saturates at 0 on the 8-bit stereo
format. -/
theorem C16_submix_8_saturates_witness :
    submix_sample info_8_mono 0 200 255 65535 0 = 255 ∧
    submix_sample info_8_stereo 1 10 0 65535 0 = 0 :=
  ⟨by
    rw [((C16_submix_8_saturates info_8_mono 0 200 255 65535 0 (by decide) (by decide)
      (by decide) (by decide) (by decide) (by decide)).1 (by decide)).1]
    decide,
   by
    rw [((C16_submix_8_saturates info_8_stereo 1 10 0 65535 0 (by decide) (by decide)
      (by decide) (by decide) (by decide) (by decide)).2.1 (by decide)).1]
    decide⟩

theorem pan_volume_hard_left_even (voice_volume : Nat) (i : Nat) (hi : i % 2 = 0)
    (hv : voice_volume ≤ 65535) :
    pan_volume voice_volume SAL_PAN_HARD_LEFT i = min (voice_volume + 65534) 65535 := by
  have h : ¬ (i % 2 = 1) := by omega
  simp only [pan_volume, h, if_false, SAL_PAN_HARD_LEFT, toU32]
  split <;> omega

theorem pan_volume_hard_right_odd (voice_volume : Nat) (i : Nat) (hi : i % 2 = 1)
    (hv : voice_volume ≤ 65535) :
    pan_volume voice_volume SAL_PAN_HARD_RIGHT i = min (voice_volume + 65534) 65535 := by
  simp only [pan_volume, hi, if_true, SAL_PAN_HARD_RIGHT, toU32]
  split <;> omega

/-- C17 (as stated, refuted): on the 16-bit stereo format with pan `SAL_PAN_HARD_LEFT` and
volume 32768, the source 16384 submixed into a silent destination gives 16383 on the left
channel (index 0), where the mono formula at volume 32768 gives 8192; and the right channel
(index 1) is not left unchanged: it gets 16383 as well. -/
theorem C17_counterexample :
    submix_sample info_16_stereo 0 0 16384 32768 SAL_PAN_HARD_LEFT = 16383 ∧
    submix_sample info_16_mono 0 0 16384 32768 0 = 8192 ∧
    submix_sample info_16_stereo 1 0 16384 32768 SAL_PAN_HARD_LEFT = 16383 ∧
    submix_sample info_16_stereo 1 0 16384 32768 SAL_PAN_HARD_LEFT ≠ 0 := by
  decide

/-- C17 (amended): on a stereo device (2 channels, 8 or 16 bits) with pan
`SAL_PAN_HARD_LEFT` (-32767) and any voice volume in [0,65535], every left-channel sample
(even index) gets the result of the mono formula at the volume
min(voice_volume + 65534, 65535), which is 65535 for every voice volume from 1 on and is
the voice volume itself only at 65535; symmetrically, with `SAL_PAN_HARD_RIGHT` (32767)
every right-channel sample (odd index) gets the result of the mono formula at that volume.
(Nothing is said here about the opposite channel.) -/
theorem C17_hard_pan_near_channel (info : SAL_DeviceInfo) (i : Nat) (d s : Int) (volume : Nat)
    (hch : info.di_channels = 2) (hvol : volume ≤ 65535) :
    (info.di_bits = 8 → 0 ≤ d → d ≤ 255 → 0 ≤ s → s ≤ 255 →
      (i % 2 = 0 → submix_sample info i d s volume SAL_PAN_HARD_LEFT
        = submix_8_mono d s (min (volume + 65534) 65535)) ∧
      (i % 2 = 1 → submix_sample info i d s volume SAL_PAN_HARD_RIGHT
        = submix_8_mono d s (min (volume + 65534) 65535))) ∧
    (info.di_bits = 16 → -32768 ≤ s → s ≤ 32767 →
      (i % 2 = 0 → submix_sample info i d s volume SAL_PAN_HARD_LEFT
        = submix_16_mono d s (min (volume + 65534) 65535)) ∧
      (i % 2 = 1 → submix_sample info i d s volume SAL_PAN_HARD_RIGHT
        = submix_16_mono d s (min (volume + 65534) 65535))) ∧
    (volume = 65535 → min (volume + 65534) 65535 = volume) ∧
    (1 ≤ volume → min (volume + 65534) 65535 = 65535) := by
  refine ⟨?_, ?_, by omega, by omega⟩
  · intro hbits hd0 hd1 hs0 hs1
    have hne : info.di_channels ≠ 1 := by rw [hch]; decide
    have h8 : ∀ pan, submix_sample info i d s volume pan
        = submix_8_mono d s (pan_volume volume pan i) := by
      intro pan
      simp only [submix_sample, hbits, hne, if_true, if_false]
      exact submix_8_stereo_eq_mono i d s volume pan hd0 hd1 hs0 hs1
    exact ⟨fun hi => by rw [h8, pan_volume_hard_left_even volume i hi hvol],
           fun hi => by rw [h8, pan_volume_hard_right_odd volume i hi hvol]⟩
  · intro hbits hs0 hs1
    have h16 : ∀ pan, submix_sample info i d s volume pan
        = submix_16_mono d s (pan_volume volume pan i) := by
      intro pan
      have h8 : ¬ ((16 : Int) = 8) := by decide
      simp only [submix_sample, hbits, hch, h8, if_true, if_false]
      exact submix_16_stereo_eq_mono i d s volume pan hs0 hs1
    exact ⟨fun hi => by rw [h16, pan_volume_hard_left_even volume i hi hvol],
           fun hi => by rw [h16, pan_volume_hard_right_odd volume i hi hvol]⟩

/-- C17, witness: the 16-bit stereo format at volume 32768, left channel under
`SAL_PAN_HARD_LEFT`: the result is the one of the mono formula at volume 65535. -/
theorem C17_hard_pan_near_channel_witness :
    submix_sample info_16_stereo 0 0 16384 32768 SAL_PAN_HARD_LEFT
      = submix_16_mono 0 16384 (min (32768 + 65534) 65535) :=
  ((C17_hard_pan_near_channel info_16_stereo 0 0 16384 32768 (by decide) (by decide)).2.1
    (by decide) (by decide) (by decide)).1 (by decide)

/-! ## What the mixer does to the voice table and the arena -/

theorem voice_mixed_refl (d : SAL_Device) (j : Nat) : voice_mixed d d j :=
  ⟨rfl, rfl, rfl, rfl, fun _ _ => rfl, Or.inl ⟨rfl, rfl, fun _ => rfl, fun h => h⟩⟩

theorem mix_end_voice_heap_set_voice (d : SAL_Device) (j : Nat) (v : SAL_Voice)
    (hj : j < d.device_voices.length) (hs : v.voice_sample = (d.voice j).voice_sample) :
    (mix_end_voice (d.set_voice j v) j).device_heap = (mix_end_voice d j).device_heap := by
  have hv : (d.set_voice j v).voice j = v := by
    rw [voice_set_voice]; simp [hj]
  simp only [mix_end_voice, hv, hs]
  cases (d.voice j).voice_sample with
  | none => rfl
  | some q => rfl

theorem mix_end_voice_frame (d : SAL_Device) (j : Nat) (hj : j < d.device_voices.length) :
    (mix_end_voice d j).device_destroyed = d.device_destroyed ∧
    (mix_end_voice d j).device_info = d.device_info ∧
    (mix_end_voice d j).device_voices.length = d.device_voices.length ∧
    (mix_end_voice d j).device_heap.length = d.device_heap.length ∧
    (∀ k, k ≠ j → (mix_end_voice d j).voice k = d.voice k) ∧
    (mix_end_voice d j).voice j = SAL_Voice.zero := by
  unfold mix_end_voice
  cases (d.voice j).voice_sample with
  | none =>
    refine ⟨rfl, rfl, by simp [voices_length_set_voice], rfl, ?_, ?_⟩
    · intro k hk
      rw [voice_set_voice, if_neg (fun hc => hk hc.1.symm)]
    · rw [voice_set_voice]; simp [hj]
  | some q =>
    refine ⟨rfl, rfl, by simp [voices_length_set_voice, voices_add_ref], ?_, ?_, ?_⟩
    · simp only [heap_set_voice, heap_length_add_ref]
    · intro k hk
      simp only []
      rw [voice_set_voice, if_neg (fun hc => hk hc.1.symm), voice_add_ref]
    · simp only []
      rw [voice_set_voice]; simp [hj, voices_add_ref]

/-- The loop over the pieces of one PLAYING voice. -/
theorem mix_voice_loop_mixed (decode : sal_sample_decode_fnc_t) (hdec : decode_frame decode)
    (j : Nat) (bytes_to_mix : Nat) :
    ∀ (fuel : Nat) (bytes_left : Int) (st : SAL_Device × List Int × List Int),
      (st.1.voice j).voice_num_repetitions ≠ 0 →
      voice_mixed st.1 (mix_voice_loop decode j bytes_to_mix fuel bytes_left st).1 j := by
  intro fuel
  induction fuel with
  | zero =>
    intro bytes_left st _
    simp only [mix_voice_loop]
    exact voice_mixed_refl st.1 j
  | succ fuel ih =>
    intro bytes_left st hplay
    obtain ⟨d, dst, buf⟩ := st
    simp only [mix_voice_loop]
    by_cases hpos : bytes_left > 0
    · simp only [hpos, if_true]
      obtain ⟨v, hd, hvs, hkeep⟩ :=
        hdec d j buf (if bytes_left > 512 then 512 else bytes_left)
      have hj := lt_of_voice_playing d j hplay
      have hvj : (d.set_voice j v).voice j = v := by
        rw [voice_set_voice]; simp [hj]
      have hvk : ∀ k, k ≠ j → (d.set_voice j v).voice k = d.voice k := by
        intro k hk
        rw [voice_set_voice, if_neg (fun hc => hk hc.1.symm)]
      by_cases hend : (decode d j buf (if bytes_left > 512 then 512 else bytes_left)).1 = 0
      · simp only [hend, ne_eq, not_true_eq_false, if_false]
        have hv := hkeep hend hplay
        have hrec := ih (bytes_left - (if bytes_left > 512 then 512 else bytes_left))
          ((decode d j buf (if bytes_left > 512 then 512 else bytes_left)).2.2,
            submix_buffer (decode d j buf (if bytes_left > 512 then 512 else bytes_left)).2.2.device_info
              dst
              (Int.tdiv ((bytes_to_mix : Int) - bytes_left)
                (decode d j buf (if bytes_left > 512 then 512
                  else bytes_left)).2.2.device_info.di_bytes_per_sample).toNat
              (decode d j buf (if bytes_left > 512 then 512 else bytes_left)).2.1
              (if bytes_left > 512 then 512 else bytes_left)
              ((decode d j buf (if bytes_left > 512 then 512 else bytes_left)).2.2.voice j).voice_volume
              ((decode d j buf (if bytes_left > 512 then 512 else bytes_left)).2.2.voice j).voice_pan,
            (decode d j buf (if bytes_left > 512 then 512 else bytes_left)).2.1)
          (by simp only [hd, hvj]; exact hv)
        simp only [hd] at hrec ⊢
        obtain ⟨r1, r2, r3, r4, r5, r6⟩ := hrec
        refine ⟨r1, r2, by rw [r3, voices_length_set_voice], r4, ?_, ?_⟩
        · intro k hk
          rw [r5 k hk, hvk k hk]
        · rcases r6 with ⟨a1, a2, _, a4⟩ | ⟨_, b2, b3⟩
          · left
            refine ⟨a1, by rw [a2, hvj, hvs], fun h0 => absurd h0 hplay, fun _ => ?_⟩
            exact a4 (by rw [hvj]; exact hv)
          · right
            refine ⟨hplay, b2, ?_⟩
            rw [b3, mix_end_voice_heap_set_voice d j v hj hvs]
      · simp only [hend, ne_eq, not_false_eq_true, if_true, hd]
        obtain ⟨e1, e2, e3, e4, e5, e6⟩ := mix_end_voice_frame (d.set_voice j v) j
          (by rw [voices_length_set_voice]; exact hj)
        refine ⟨e1, e2, by rw [e3, voices_length_set_voice], e4, ?_, Or.inr ⟨hplay, e6, ?_⟩⟩
        · intro k hk
          rw [e5 k hk, hvk k hk]
        · exact mix_end_voice_heap_set_voice d j v hj hvs
    · simp only [hpos, if_false]
      exact voice_mixed_refl d j

/-- The pass of `_SAL_mix_chunk` over one voice. -/
theorem mix_voice_mixed (decode : sal_sample_decode_fnc_t) (hdec : decode_frame decode)
    (bytes_to_mix : Nat) (st : SAL_Device × List Int × List Int) (j : Nat) :
    voice_mixed st.1 (mix_voice decode bytes_to_mix st j).1 j := by
  unfold mix_voice
  by_cases h : (st.1.voice j).voice_num_repetitions = 0
  · simp only [h, if_true]
    exact voice_mixed_refl st.1 j
  · simp only [h, if_false]
    exact mix_voice_loop_mixed decode hdec j bytes_to_mix _ _ st h

/-- The mixer never runs a destroy callback: whatever the voices do, `_SAL_mix_chunk` leaves
the destroy log as it was. -/
theorem mix_chunk_destroyed (decode : sal_sample_decode_fnc_t) (hdec : decode_frame decode)
    (d : SAL_Device) (dst decode_buffer : List Int) (bytes_to_mix : Nat) :
    (_SAL_mix_chunk decode d dst decode_buffer bytes_to_mix).2.1.device_destroyed
      = d.device_destroyed := by
  have hfold : ∀ (l : List Nat) (st : SAL_Device × List Int × List Int),
      (l.foldl (mix_voice decode bytes_to_mix) st).1.device_destroyed
        = st.1.device_destroyed := by
    intro l
    induction l with
    | nil => intro st; rfl
    | cons j l ih =>
      intro st
      rw [List.foldl_cons, ih, (mix_voice_mixed decode hdec bytes_to_mix st j).1]
  exact hfold _ _

/-- A voice whose decode callback returns a result other than 0 for its first piece is
ended by its pass: the ref count of its sample is decremented and the slot cleared. -/
theorem mix_voice_ends (decode : sal_sample_decode_fnc_t) (hdec : decode_frame decode)
    (bytes_to_mix : Nat) (st : SAL_Device × List Int × List Int) (i q : Nat)
    (hplay : (st.1.voice i).voice_num_repetitions ≠ 0)
    (hs : (st.1.voice i).voice_sample = some q)
    (hn : 0 < toI32 bytes_to_mix)
    (hne : ∀ (d1 : SAL_Device) (b : List Int) (m : Int), (decode d1 i b m).1 ≠ 0) :
    (mix_voice decode bytes_to_mix st i).1
      = (st.1.add_ref q (-1)).set_voice i SAL_Voice.zero := by
  obtain ⟨d, dst, buf⟩ := st
  have hi := lt_of_voice_playing d i hplay
  obtain ⟨fuel, hfuel⟩ : ∃ fuel, (toI32 bytes_to_mix).toNat = fuel + 1 :=
    ⟨(toI32 bytes_to_mix).toNat - 1, by omega⟩
  have hplay0 : ¬ (d.voice i).voice_num_repetitions = 0 := hplay
  unfold mix_voice
  simp only [hplay0, if_false]
  rw [hfuel]
  unfold mix_voice_loop
  have hn2 : toI32 bytes_to_mix > 0 := hn
  simp only [hn2, if_true]
  obtain ⟨v, hd, hvs, _⟩ :=
    hdec d i buf (if toI32 bytes_to_mix > 512 then 512 else toI32 bytes_to_mix)
  have hend := hne d buf (if toI32 bytes_to_mix > 512 then 512 else toI32 bytes_to_mix)
  simp only [hend, ne_eq, not_false_eq_true, if_true, hd]
  exact mix_end_voice_set_voice d i v q hi (by rw [hvs, hs])

/-- A voice whose decode callback always returns 0 is kept by its pass: only its own slot
changes, and the slot stays PLAYING the same sample. -/
theorem mix_voice_loop_continues (decode : sal_sample_decode_fnc_t)
    (hdec : decode_frame decode) (i : Nat) (bytes_to_mix : Nat)
    (hz : ∀ (d1 : SAL_Device) (b : List Int) (m : Int), (decode d1 i b m).1 = 0) :
    ∀ (fuel : Nat) (bytes_left : Int) (st : SAL_Device × List Int × List Int),
      (st.1.voice i).voice_num_repetitions ≠ 0 →
      ∃ v : SAL_Voice,
        (mix_voice_loop decode i bytes_to_mix fuel bytes_left st).1 = st.1.set_voice i v ∧
        v.voice_sample = (st.1.voice i).voice_sample ∧ v.voice_num_repetitions ≠ 0 := by
  intro fuel
  induction fuel with
  | zero =>
    intro bytes_left st hplay
    exact ⟨st.1.voice i, by simp [mix_voice_loop, set_voice_voice], rfl, hplay⟩
  | succ fuel ih =>
    intro bytes_left st hplay
    obtain ⟨d, dst, buf⟩ := st
    simp only [mix_voice_loop]
    by_cases hpos : bytes_left > 0
    · simp only [hpos, if_true]
      obtain ⟨v, hd, hvs, hkeep⟩ :=
        hdec d i buf (if bytes_left > 512 then 512 else bytes_left)
      have hend := hz d buf (if bytes_left > 512 then 512 else bytes_left)
      have hi := lt_of_voice_playing d i hplay
      have hvi : (d.set_voice i v).voice i = v := by
        rw [voice_set_voice]; simp [hi]
      simp only [hend, ne_eq, not_true_eq_false, if_false, hd]
      obtain ⟨v2, h1, h2, h3⟩ := ih (bytes_left - (if bytes_left > 512 then 512 else bytes_left))
        (d.set_voice i v,
          submix_buffer (d.set_voice i v).device_info dst
            (Int.tdiv ((bytes_to_mix : Int) - bytes_left)
              (d.set_voice i v).device_info.di_bytes_per_sample).toNat
            (decode d i buf (if bytes_left > 512 then 512 else bytes_left)).2.1
            (if bytes_left > 512 then 512 else bytes_left)
            ((d.set_voice i v).voice i).voice_volume ((d.set_voice i v).voice i).voice_pan,
          (decode d i buf (if bytes_left > 512 then 512 else bytes_left)).2.1)
        (by simp only [hvi]; exact hkeep hend hplay)
      refine ⟨v2, ?_, ?_, h3⟩
      · rw [h1, set_voice_set_voice]
      · rw [h2, hvi, hvs]
    · simp only [hpos, if_false]
      exact ⟨d.voice i, by simp [set_voice_voice], rfl, hplay⟩

/-- The passes over voices other than `i`, none of which plays the sample at `q`: slot `i`,
the ref count of `q` and the sizes are kept. -/
theorem mix_fold_others (decode : sal_sample_decode_fnc_t) (hdec : decode_frame decode)
    (bytes_to_mix : Nat) (i q : Nat) (l : List Nat) (hl : i ∉ l) :
    ∀ st : SAL_Device × List Int × List Int,
      (∀ k, k ≠ i → (st.1.voice k).plays q = false) →
      (l.foldl (mix_voice decode bytes_to_mix) st).1.voice i = st.1.voice i ∧
      (l.foldl (mix_voice decode bytes_to_mix) st).1.ref_count q = st.1.ref_count q ∧
      (l.foldl (mix_voice decode bytes_to_mix) st).1.device_heap.length
        = st.1.device_heap.length ∧
      (∀ k, k ≠ i → ((l.foldl (mix_voice decode bytes_to_mix) st).1.voice k).plays q = false) := by
  induction l with
  | nil => intro st h; exact ⟨rfl, rfl, rfl, h⟩
  | cons j l ih =>
    intro st h
    have hji : j ≠ i := fun hc => hl (hc ▸ List.mem_cons_self _ _)
    have hl2 : i ∉ l := fun hc => hl (List.mem_cons_of_mem _ hc)
    obtain ⟨_, _, _, r4, r5, r6⟩ := mix_voice_mixed decode hdec bytes_to_mix st j
    have hjq := h j hji
    have hstep : (∀ k, k ≠ i → ((mix_voice decode bytes_to_mix st j).1.voice k).plays q = false) ∧
        (mix_voice decode bytes_to_mix st j).1.ref_count q = st.1.ref_count q := by
      rcases r6 with ⟨a1, a2, a3, a4⟩ | ⟨b1, b2, b3⟩
      · constructor
        · intro k hk
          by_cases hkj : k = j
          · subst hkj
            by_cases h0 : (st.1.voice k).voice_num_repetitions = 0
            · rw [a3 h0]; exact hjq
            · simp only [SAL_Voice.plays, h0, ne_eq, not_false_eq_true, decide_True,
                Bool.true_and, decide_eq_false_iff_not] at hjq
              simp only [SAL_Voice.plays, a2, Bool.and_eq_false_imp, decide_eq_true_eq,
                decide_eq_false_iff_not]
              intro _
              exact hjq
          · rw [r5 k hkj]; exact h k hk
        · simp only [SAL_Device.ref_count, SAL_Device.sample, a1]
      · constructor
        · intro k hk
          by_cases hkj : k = j
          · subst hkj
            rw [b2]; exact plays_zero q
          · rw [r5 k hkj]; exact h k hk
        · have hrc : (mix_voice decode bytes_to_mix st j).1.ref_count q
              = (mix_end_voice st.1 j).ref_count q := by
            simp only [SAL_Device.ref_count, SAL_Device.sample, b3]
          rw [hrc]
          simp only [SAL_Voice.plays, b1, ne_eq, not_false_eq_true, decide_True,
            Bool.true_and, decide_eq_false_iff_not] at hjq
          unfold mix_end_voice
          cases hsj : (st.1.voice j).voice_sample with
          | none => rfl
          | some q1 =>
            simp only []
            rw [ref_count_set_voice, ref_count_add_ref, if_neg]
            intro hc
            rw [hsj, hc.1] at hjq
            exact hjq rfl
    obtain ⟨i1, i2, i3, i4⟩ := ih hl2 (mix_voice decode bytes_to_mix st j) hstep.1
    rw [List.foldl_cons]
    exact ⟨by rw [i1, r5 i (Ne.symm hji)], by rw [i2, hstep.2], by rw [i3, r4], i4⟩

/-- The loop over the voice table of `_SAL_mix_chunk`, cut at voice `i`: the passes before
the one of voice `i` leave slot `i` and the ref count of `q` alone when no other voice plays
the sample at `q`, and so do the passes after it. -/
theorem mix_chunk_split (decode : sal_sample_decode_fnc_t) (hdec : decode_frame decode)
    (d : SAL_Device) (dst decode_buffer : List Int) (bytes_to_mix : Nat) (i q : Nat)
    (hi : i < d.device_voices.length)
    (hother : ∀ k, k ≠ i → (d.voice k).plays q = false) :
    ∃ st1 : SAL_Device × List Int × List Int,
      st1.1.voice i = d.voice i ∧ st1.1.ref_count q = d.ref_count q ∧
      st1.1.device_heap.length = d.device_heap.length ∧
      (_SAL_mix_chunk decode d dst decode_buffer bytes_to_mix).2.1.voice i
        = (mix_voice decode bytes_to_mix st1 i).1.voice i ∧
      (_SAL_mix_chunk decode d dst decode_buffer bytes_to_mix).2.1.ref_count q
        = (mix_voice decode bytes_to_mix st1 i).1.ref_count q := by
  obtain ⟨l1, l2, hl⟩ := List.append_of_mem (List.mem_range.mpr hi)
  have hnd : (l1 ++ i :: l2).Nodup := hl ▸ List.nodup_range d.device_voices.length
  rw [List.nodup_middle, List.nodup_cons] at hnd
  have h1 : i ∉ l1 := fun hc => hnd.1 (List.mem_append_left _ hc)
  have h2 : i ∉ l2 := fun hc => hnd.1 (List.mem_append_right _ hc)
  obtain ⟨a1, a2, a3, a4⟩ := mix_fold_others decode hdec bytes_to_mix i q l1 h1
    (d, clear_chunk d.device_info dst bytes_to_mix, decode_buffer) hother
  obtain ⟨_, _, _, _, r5, _⟩ := mix_voice_mixed decode hdec bytes_to_mix
    (l1.foldl (mix_voice decode bytes_to_mix)
      (d, clear_chunk d.device_info dst bytes_to_mix, decode_buffer)) i
  obtain ⟨b1, b2, _, _⟩ := mix_fold_others decode hdec bytes_to_mix i q l2 h2
    (mix_voice decode bytes_to_mix (l1.foldl (mix_voice decode bytes_to_mix)
      (d, clear_chunk d.device_info dst bytes_to_mix, decode_buffer)) i)
    (fun k hk => by rw [r5 k hk]; exact a4 k hk)
  refine ⟨_, a1, a2, a3, ?_, ?_⟩
  · simp only [_SAL_mix_chunk, hl, List.foldl_append, List.foldl_cons]
    exact b1
  · simp only [_SAL_mix_chunk, hl, List.foldl_append, List.foldl_cons]
    exact b2

theorem decode_error_frame : decode_frame decode_error :=
  fun d i _ _ => ⟨d.voice i, by simp [decode_error, set_voice_voice], rfl, fun _ h => h⟩

theorem decode_skip_frame : decode_frame decode_skip :=
  fun d i _ _ => ⟨d.voice i, by simp [decode_skip, set_voice_voice], rfl, fun _ h => h⟩

/-- C20, counterexample: on a device whose voice 0 plays a sample with ref count 2, a chunk
mixed with a decode callback that returns -1 leaves slot 0 zeroed (not playing) and the ref count
at 1: the voice is ended, not kept. -/
theorem C20_counterexample :
    (device8_playing.voice 0).voice_num_repetitions = -1 ∧
    (device8_playing.voice 0).voice_sample = some 0 ∧
    device8_playing.ref_count 0 = 2 ∧
    (_SAL_mix_chunk decode_error device8_playing [] [] 64).2.1.voice 0 = SAL_Voice.zero ∧
    (SAL_get_voice_status (_SAL_mix_chunk decode_error device8_playing [] [] 64).2.1 0
      SALVS_INVALIDSOUND).2 = SALVS_IDLE ∧
    (_SAL_mix_chunk decode_error device8_playing [] [] 64).2.1.ref_count 0 = 1 := by
  decide

theorem decode_error_late_frame : decode_frame decode_error_late :=
  fun d i _ _ => ⟨d.voice i, by simp [decode_error_late, set_voice_voice], rfl, fun _ h => h⟩

/-- One iteration of the loop `while ( bytes_left > 0 )` whose decode call returns 0. -/
theorem mix_voice_loop_step_zero (decode : sal_sample_decode_fnc_t) (i : Nat)
    (bytes_to_mix : Nat) (fuel : Nat) (bytes_left : Int) (d : SAL_Device)
    (dst buf : List Int) (hpos : bytes_left > 0)
    (hz : (decode d i buf (if bytes_left > 512 then 512 else bytes_left)).1 = 0) :
    mix_voice_loop decode i bytes_to_mix (fuel + 1) bytes_left (d, dst, buf)
      = mix_voice_loop decode i bytes_to_mix fuel
          (bytes_left - (if bytes_left > 512 then 512 else bytes_left))
          ((decode d i buf (if bytes_left > 512 then 512 else bytes_left)).2.2,
            submix_buffer
              (decode d i buf (if bytes_left > 512 then 512 else bytes_left)).2.2.device_info
              dst
              (Int.tdiv ((bytes_to_mix : Int) - bytes_left)
                (decode d i buf (if bytes_left > 512 then 512
                  else bytes_left)).2.2.device_info.di_bytes_per_sample).toNat
              (decode d i buf (if bytes_left > 512 then 512 else bytes_left)).2.1
              (if bytes_left > 512 then 512 else bytes_left)
              ((decode d i buf (if bytes_left > 512 then 512
                else bytes_left)).2.2.voice i).voice_volume
              ((decode d i buf (if bytes_left > 512 then 512
                else bytes_left)).2.2.voice i).voice_pan,
            (decode d i buf (if bytes_left > 512 then 512 else bytes_left)).2.1) := by
  simp only [mix_voice_loop]
  simp only [hpos, if_true, hz, ne_eq, not_true_eq_false, if_false]

/-- One iteration of the loop `while ( bytes_left > 0 )` whose decode call returns a result
other than 0: the voice is ended right after the piece has been submixed. -/
theorem mix_voice_loop_step_end (decode : sal_sample_decode_fnc_t) (i : Nat)
    (bytes_to_mix : Nat) (fuel : Nat) (bytes_left : Int) (d : SAL_Device)
    (dst buf : List Int) (hpos : bytes_left > 0)
    (hz : (decode d i buf (if bytes_left > 512 then 512 else bytes_left)).1 ≠ 0) :
    (mix_voice_loop decode i bytes_to_mix (fuel + 1) bytes_left (d, dst, buf)).1
      = mix_end_voice (decode d i buf (if bytes_left > 512 then 512 else bytes_left)).2.2 i := by
  simp only [mix_voice_loop]
  simp only [hpos, if_true, hz, ne_eq, not_false_eq_true]

/-- The results of the pieces after a first full piece decoded with result 0 are the
results of the pieces of the rest of the pass. -/
theorem mix_piece_result_succ (decode : sal_sample_decode_fnc_t) (i : Nat)
    (bytes_to_mix : Nat) (bytes_left : Int) (d : SAL_Device) (dst buf : List Int)
    (hbig : bytes_left > 512)
    (hz : mix_piece_result decode i bytes_to_mix bytes_left (d, dst, buf) 0 = 0) :
    ∃ st1 : SAL_Device × List Int × List Int,
      st1.1 = (decode d i buf 512).2.2 ∧
      (∀ fuel, mix_voice_loop decode i bytes_to_mix (fuel + 1) bytes_left (d, dst, buf)
        = mix_voice_loop decode i bytes_to_mix fuel (bytes_left - 512) st1) ∧
      (∀ k, mix_piece_result decode i bytes_to_mix bytes_left (d, dst, buf) (k + 1)
        = mix_piece_result decode i bytes_to_mix (bytes_left - 512) st1 k) := by
  have hsize : (if bytes_left > 512 then (512 : Int) else bytes_left) = 512 := if_pos hbig
  have hpos : bytes_left > 0 := by omega
  have hz0 : (decode d i buf (if bytes_left > 512 then 512 else bytes_left)).1 = 0 := by
    have h := hz
    simp only [mix_piece_result, mix_voice_loop, Nat.cast_zero, Int.mul_zero, Int.sub_zero] at h
    exact h
  have hstep := fun fuel =>
    mix_voice_loop_step_zero decode i bytes_to_mix fuel bytes_left d dst buf hpos hz0
  rw [hsize] at hstep
  refine ⟨_, rfl, hstep, fun k => ?_⟩
  have harith : bytes_left - 512 * ((k + 1 : Nat) : Int) = bytes_left - 512 - 512 * (k : Int) := by
    push_cast
    ring
  simp only [mix_piece_result, hstep k, harith]

/-- The pass of a PLAYING voice whose decode callback returns a result other than 0 for
piece number `k + 1`, after `k` pieces decoded with result 0: the voice is ended. -/
theorem mix_voice_loop_ends_at (decode : sal_sample_decode_fnc_t) (hdec : decode_frame decode)
    (i q : Nat) (bytes_to_mix : Nat) :
    ∀ (k fuel : Nat) (bytes_left : Int) (st : SAL_Device × List Int × List Int),
      k < fuel → 512 * (k : Int) < bytes_left →
      (st.1.voice i).voice_num_repetitions ≠ 0 → (st.1.voice i).voice_sample = some q →
      (∀ j, j < k → mix_piece_result decode i bytes_to_mix bytes_left st j = 0) →
      mix_piece_result decode i bytes_to_mix bytes_left st k ≠ 0 →
      (mix_voice_loop decode i bytes_to_mix fuel bytes_left st).1
        = (st.1.add_ref q (-1)).set_voice i SAL_Voice.zero := by
  intro k
  induction k with
  | zero =>
    intro fuel bytes_left st hf hb hplay hs _ hnz
    obtain ⟨d, dst, buf⟩ := st
    obtain ⟨f, rfl⟩ : ∃ f, fuel = f + 1 := ⟨fuel - 1, by omega⟩
    have hpos : bytes_left > 0 := by simpa using hb
    have hnz0 : (decode d i buf (if bytes_left > 512 then 512 else bytes_left)).1 ≠ 0 := by
      have h := hnz
      simp only [mix_piece_result, mix_voice_loop, Nat.cast_zero, Int.mul_zero,
        Int.sub_zero] at h
      exact h
    rw [mix_voice_loop_step_end decode i bytes_to_mix f bytes_left d dst buf hpos hnz0]
    obtain ⟨v, hd, hvs, _⟩ := hdec d i buf (if bytes_left > 512 then 512 else bytes_left)
    rw [hd]
    exact mix_end_voice_set_voice d i v q (lt_of_voice_playing d i hplay) (by rw [hvs]; exact hs)
  | succ k ih =>
    intro fuel bytes_left st hf hb hplay hs hzero hnz
    obtain ⟨d, dst, buf⟩ := st
    obtain ⟨f, rfl⟩ : ∃ f, fuel = f + 1 := ⟨fuel - 1, by omega⟩
    have hbig : bytes_left > 512 := by push_cast at hb; omega
    obtain ⟨st1, e1, e2, e3⟩ := mix_piece_result_succ decode i bytes_to_mix bytes_left d dst buf
      hbig (hzero 0 (by omega))
    obtain ⟨v, hd, hvs, hkeep⟩ := hdec d i buf 512
    have hi := lt_of_voice_playing d i hplay
    have hz0 : (decode d i buf 512).1 = 0 := by
      have h := hzero 0 (by omega)
      simp only [mix_piece_result, mix_voice_loop, Nat.cast_zero, Int.mul_zero, Int.sub_zero,
        if_pos hbig] at h
      exact h
    have hv1 : st1.1.voice i = v := by
      rw [e1, hd, voice_set_voice, if_pos ⟨rfl, hi⟩]
    rw [e2 f, ih f (bytes_left - 512) st1 (by omega) (by push_cast at hb; omega)
      (by rw [hv1]; exact hkeep hz0 hplay) (by rw [hv1, hvs]; exact hs)
      (fun j hj => by rw [← e3 j]; exact hzero (j + 1) (by omega))
      (by rw [← e3 k]; exact hnz)]
    rw [e1, hd, add_ref_set_voice, set_voice_set_voice]

/-- The pass of a PLAYING voice whose decode callback returns 0 for every piece: only the
slot of the voice changes, and it stays PLAYING the same sample. -/
theorem mix_voice_loop_all_zero (decode : sal_sample_decode_fnc_t) (hdec : decode_frame decode)
    (i : Nat) (bytes_to_mix : Nat) :
    ∀ (fuel : Nat) (bytes_left : Int) (st : SAL_Device × List Int × List Int),
      (st.1.voice i).voice_num_repetitions ≠ 0 →
      (∀ k : Nat, 512 * (k : Int) < bytes_left →
        mix_piece_result decode i bytes_to_mix bytes_left st k = 0) →
      ∃ v : SAL_Voice,
        (mix_voice_loop decode i bytes_to_mix fuel bytes_left st).1 = st.1.set_voice i v ∧
        v.voice_sample = (st.1.voice i).voice_sample ∧ v.voice_num_repetitions ≠ 0 := by
  intro fuel
  induction fuel with
  | zero =>
    intro bytes_left st hplay _
    exact ⟨st.1.voice i, by simp [mix_voice_loop, set_voice_voice], rfl, hplay⟩
  | succ fuel ih =>
    intro bytes_left st hplay hzero
    obtain ⟨d, dst, buf⟩ := st
    by_cases hpos : bytes_left > 0
    · have hz0 : (decode d i buf (if bytes_left > 512 then 512 else bytes_left)).1 = 0 := by
        have h := hzero 0 (by simpa using hpos)
        simp only [mix_piece_result, mix_voice_loop, Nat.cast_zero, Int.mul_zero,
          Int.sub_zero] at h
        exact h
      obtain ⟨v, hd, hvs, hkeep⟩ :=
        hdec d i buf (if bytes_left > 512 then 512 else bytes_left)
      have hi := lt_of_voice_playing d i hplay
      have hvi : (d.set_voice i v).voice i = v := by
        rw [voice_set_voice, if_pos ⟨rfl, hi⟩]
      rw [mix_voice_loop_step_zero decode i bytes_to_mix fuel bytes_left d dst buf hpos hz0]
      by_cases hbig : bytes_left > 512
      · obtain ⟨st1, e1, e2, e3⟩ := mix_piece_result_succ decode i bytes_to_mix bytes_left d dst
          buf hbig (hzero 0 (by simpa using hpos))
        have hst := mix_voice_loop_step_zero decode i bytes_to_mix fuel bytes_left d dst buf
          hpos hz0
        rw [← hst, e2 fuel]
        have hsz : (if bytes_left > 512 then (512 : Int) else bytes_left) = 512 := if_pos hbig
        rw [hsz] at hd hkeep hz0
        have hv1 : st1.1.voice i = v := by rw [e1, hd]; exact hvi
        obtain ⟨v2, a1, a2, a3⟩ := ih (bytes_left - 512) st1
          (by rw [hv1]; exact hkeep hz0 hplay)
          (fun k hk => by rw [← e3 k]; exact hzero (k + 1) (by push_cast; omega))
        refine ⟨v2, ?_, ?_, a3⟩
        · rw [a1, e1, hd, set_voice_set_voice]
        · rw [a2, hv1, hvs]
      · have hsz : (if bytes_left > 512 then (512 : Int) else bytes_left) = bytes_left :=
          if_neg hbig
        rw [hsz] at hd hkeep hz0 ⊢
        obtain ⟨v2, a1, a2, a3⟩ := ih (bytes_left - bytes_left)
          ((decode d i buf bytes_left).2.2, _, (decode d i buf bytes_left).2.1)
          (by rw [hd, hvi]; exact hkeep hz0 hplay)
          (fun k hk => by exfalso; omega)
        refine ⟨v2, ?_, ?_, a3⟩
        · rw [a1]
          dsimp only
          rw [hd, set_voice_set_voice]
        · rw [a2]
          dsimp only
          rw [hd, hvi, hvs]
    · refine ⟨d.voice i, ?_, rfl, hplay⟩
      simp only [mix_voice_loop, hpos, if_false, set_voice_voice]

/-- The loop over the voice table of `_SAL_mix_chunk`, cut at voice `i`: the passes before
the one of voice `i` lead to the state `mix_reach`, and they leave slot `i` and the ref
count of `q` alone when no other voice plays the sample at `q`; so do the passes after it. -/
theorem mix_chunk_reach (decode : sal_sample_decode_fnc_t) (hdec : decode_frame decode)
    (d : SAL_Device) (dst decode_buffer : List Int) (bytes_to_mix : Nat) (i q : Nat)
    (hi : i < d.device_voices.length)
    (hother : ∀ k, k ≠ i → (d.voice k).plays q = false) :
    (mix_reach decode d dst decode_buffer bytes_to_mix i).1.voice i = d.voice i ∧
    (mix_reach decode d dst decode_buffer bytes_to_mix i).1.ref_count q = d.ref_count q ∧
    (mix_reach decode d dst decode_buffer bytes_to_mix i).1.device_heap.length
      = d.device_heap.length ∧
    (_SAL_mix_chunk decode d dst decode_buffer bytes_to_mix).2.1.voice i
      = (mix_voice decode bytes_to_mix
          (mix_reach decode d dst decode_buffer bytes_to_mix i) i).1.voice i ∧
    (_SAL_mix_chunk decode d dst decode_buffer bytes_to_mix).2.1.ref_count q
      = (mix_voice decode bytes_to_mix
          (mix_reach decode d dst decode_buffer bytes_to_mix i) i).1.ref_count q := by
  obtain ⟨m, hm⟩ : ∃ m, d.device_voices.length = i + (m + 1) :=
    ⟨d.device_voices.length - i - 1, by omega⟩
  have hl : List.range d.device_voices.length
      = List.range i ++ i :: (List.range m).map (fun x => i + (x + 1)) := by
    rw [hm, List.range_add, List.range_succ_eq_map, List.map_cons, List.map_map]
    rfl
  have hnd : (List.range i ++ i :: (List.range m).map (fun x => i + (x + 1))).Nodup :=
    hl ▸ List.nodup_range d.device_voices.length
  rw [List.nodup_middle, List.nodup_cons] at hnd
  have h1 : i ∉ List.range i := fun hc => hnd.1 (List.mem_append_left _ hc)
  have h2 : i ∉ (List.range m).map (fun x => i + (x + 1)) :=
    fun hc => hnd.1 (List.mem_append_right _ hc)
  obtain ⟨a1, a2, a3, a4⟩ := mix_fold_others decode hdec bytes_to_mix i q (List.range i) h1
    (d, clear_chunk d.device_info dst bytes_to_mix, decode_buffer) hother
  obtain ⟨_, _, _, _, r5, _⟩ := mix_voice_mixed decode hdec bytes_to_mix
    (mix_reach decode d dst decode_buffer bytes_to_mix i) i
  obtain ⟨b1, b2, _, _⟩ := mix_fold_others decode hdec bytes_to_mix i q _ h2
    (mix_voice decode bytes_to_mix (mix_reach decode d dst decode_buffer bytes_to_mix i) i)
    (fun k hk => by rw [r5 k hk]; exact a4 k hk)
  refine ⟨a1, a2, a3, ?_, ?_⟩
  · simp only [_SAL_mix_chunk, hl, List.foldl_append, List.foldl_cons]
    exact b1
  · simp only [_SAL_mix_chunk, hl, List.foldl_append, List.foldl_cons]
    exact b2

theorem piece_lt_toNat (k : Nat) (x : Int) (h : 512 * (k : Int) < x) : k < x.toNat := by
  omega

/-- C20, amended: in `_SAL_mix_chunk` the pass of the PLAYING voice `i`, bound to a sample
`q` that no other voice plays, decodes the chunk in pieces of up to 512 bytes, the decode
callbacks keeping to their own voice (`decode_frame`).  The first piece for which the decode
callback returns a result other than 0, a negative one included, ends the voice: after the
call the slot is zeroed (no longer PLAYING) and the ref count of the sample is one lower.
Only when the callback returns 0 for every piece of the chunk is the slot still PLAYING with
its sample binding intact and the ref count unchanged.  The results of the callback may
differ from piece to piece: they are read off the states the loop passes through. -/
theorem C20_decode_result_ends_voice (decode : sal_sample_decode_fnc_t)
    (hdec : decode_frame decode) (d : SAL_Device) (dst decode_buffer : List Int)
    (bytes_to_mix : Nat) (i q : Nat)
    (hplay : (d.voice i).voice_num_repetitions ≠ 0)
    (hs : (d.voice i).voice_sample = some q)
    (hq : q < d.device_heap.length)
    (hother : ∀ k, k < d.device_voices.length → k ≠ i → (d.voice k).plays q = false) :
    (_SAL_mix_chunk decode d dst decode_buffer bytes_to_mix).1 = SALERR_OK ∧
    (∀ k : Nat, 512 * (k : Int) < toI32 bytes_to_mix →
      (∀ j, j < k → mix_piece_result decode i bytes_to_mix (toI32 bytes_to_mix)
        (mix_reach decode d dst decode_buffer bytes_to_mix i) j = 0) →
      mix_piece_result decode i bytes_to_mix (toI32 bytes_to_mix)
        (mix_reach decode d dst decode_buffer bytes_to_mix i) k ≠ 0 →
      (_SAL_mix_chunk decode d dst decode_buffer bytes_to_mix).2.1.voice i = SAL_Voice.zero ∧
      (SAL_get_voice_status (_SAL_mix_chunk decode d dst decode_buffer bytes_to_mix).2.1 i
        SALVS_INVALIDSOUND) = (SALERR_OK, SALVS_IDLE) ∧
      (_SAL_mix_chunk decode d dst decode_buffer bytes_to_mix).2.1.ref_count q
        = d.ref_count q - 1) ∧
    ((∀ k : Nat, 512 * (k : Int) < toI32 bytes_to_mix →
        mix_piece_result decode i bytes_to_mix (toI32 bytes_to_mix)
          (mix_reach decode d dst decode_buffer bytes_to_mix i) k = 0) →
      ((_SAL_mix_chunk decode d dst decode_buffer bytes_to_mix).2.1.voice i).voice_num_repetitions
        ≠ 0 ∧
      ((_SAL_mix_chunk decode d dst decode_buffer bytes_to_mix).2.1.voice i).voice_sample
        = some q ∧
      (_SAL_mix_chunk decode d dst decode_buffer bytes_to_mix).2.1.ref_count q
        = d.ref_count q) := by
  have hi := lt_of_voice_playing d i hplay
  have hother2 : ∀ k, k ≠ i → (d.voice k).plays q = false := by
    intro k hk
    by_cases hkl : k < d.device_voices.length
    · exact hother k hkl hk
    · rw [voice_eq_zero_of_le d k (by omega)]; exact plays_zero q
  obtain ⟨e1, e2, e3, e4, e5⟩ :=
    mix_chunk_reach decode hdec d dst decode_buffer bytes_to_mix i q hi hother2
  generalize mix_reach decode d dst decode_buffer bytes_to_mix i = st1 at e1 e2 e3 e4 e5 ⊢
  have hp1 : (st1.1.voice i).voice_num_repetitions ≠ 0 := by rw [e1]; exact hplay
  have hp2 : ¬ (st1.1.voice i).voice_num_repetitions = 0 := hp1
  have hi1 : i < st1.1.device_voices.length := lt_of_voice_playing st1.1 i hp1
  have hmv : mix_voice decode bytes_to_mix st1 i
      = mix_voice_loop decode i bytes_to_mix (toI32 bytes_to_mix).toNat (toI32 bytes_to_mix)
          st1 := if_neg hp2
  have hlen : (_SAL_mix_chunk decode d dst decode_buffer bytes_to_mix).2.1.device_voices.length
      = d.device_voices.length := by
    have hfold : ∀ (l : List Nat) (st : SAL_Device × List Int × List Int),
        (l.foldl (mix_voice decode bytes_to_mix) st).1.device_voices.length
          = st.1.device_voices.length := by
      intro l
      induction l with
      | nil => intro st; rfl
      | cons j l ih =>
        intro st
        rw [List.foldl_cons, ih, (mix_voice_mixed decode hdec bytes_to_mix st j).2.2.1]
    exact hfold _ _
  refine ⟨rfl, ?_, ?_⟩
  · intro k hk hzero hnz
    have hkf : k < (toI32 bytes_to_mix).toNat := piece_lt_toNat k _ hk
    have hend := mix_voice_loop_ends_at decode hdec i q bytes_to_mix k _ _ st1 hkf hk hp1
      (by rw [e1]; exact hs) hzero hnz
    have hz : (_SAL_mix_chunk decode d dst decode_buffer bytes_to_mix).2.1.voice i
        = SAL_Voice.zero := by
      rw [e4, hmv, hend, voice_set_voice]
      have hi2 : i < (st1.1.add_ref q (-1)).device_voices.length := hi1
      simp [hi2]
    refine ⟨hz, ?_, ?_⟩
    · have hi3 : (i : Int) < ((_SAL_mix_chunk decode d dst decode_buffer
          bytes_to_mix).2.1.device_voices.length : Int) := by rw [hlen]; exact_mod_cast hi
      have hi4 : ¬ ((i : Int) < 0) := by omega
      have hi5 : ¬ ((i : Int) ≥ (_SAL_mix_chunk decode d dst decode_buffer
          bytes_to_mix).2.1.device_max_voices) := by
        simp only [SAL_Device.device_max_voices]; omega
      simp only [SAL_get_voice_status, hi4, hi5, or_self, if_false, Int.toNat_ofNat, hz]
      rfl
    · rw [e5, hmv, hend, ref_count_set_voice, ref_count_add_ref,
        if_pos ⟨rfl, by rw [e3]; exact hq⟩, e2]
      rfl
  · intro hzero
    obtain ⟨v, k1, k2, k3⟩ := mix_voice_loop_all_zero decode hdec i bytes_to_mix
      (toI32 bytes_to_mix).toNat (toI32 bytes_to_mix) st1 hp1 hzero
    have hvi : (st1.1.set_voice i v).voice i = v := by
      rw [voice_set_voice]; simp [hi1]
    refine ⟨?_, ?_, ?_⟩
    · rw [e4, hmv, k1, hvi]; exact k3
    · rw [e4, hmv, k1, hvi, k2, e1]; exact hs
    · rw [e5, hmv, k1, ref_count_set_voice, e2]

/-- C20, witness: on the device of the counterexample, the callback that returns -1 at every
call (the first piece ends the voice), the callback that returns 0 for the first piece of
512 bytes and -1 for the second piece of a chunk of 1000 bytes (the second piece ends the
voice), and the callback that returns 0 at every call (the voice is kept). -/
theorem C20_decode_result_ends_voice_witness :
    ((_SAL_mix_chunk decode_error device8_playing [] [] 64).2.1.voice 0 = SAL_Voice.zero ∧
      (_SAL_mix_chunk decode_error device8_playing [] [] 64).2.1.ref_count 0
        = device8_playing.ref_count 0 - 1) ∧
    ((_SAL_mix_chunk decode_error_late device8_playing [] [] 1000).2.1.voice 0 = SAL_Voice.zero ∧
      (_SAL_mix_chunk decode_error_late device8_playing [] [] 1000).2.1.ref_count 0
        = device8_playing.ref_count 0 - 1) ∧
    (((_SAL_mix_chunk decode_skip device8_playing [] [] 64).2.1.voice 0).voice_sample = some 0 ∧
      (_SAL_mix_chunk decode_skip device8_playing [] [] 64).2.1.ref_count 0
        = device8_playing.ref_count 0) := by
  have h1 := (C20_decode_result_ends_voice decode_error decode_error_frame device8_playing
    [] [] 64 0 0 (by decide) (by decide) (by decide) (by decide)).2.1 0 (by decide)
    (fun j hj => absurd hj (Nat.not_lt_zero j)) (by decide)
  have h2 := (C20_decode_result_ends_voice decode_error_late decode_error_late_frame
    device8_playing [] [] 1000 0 0 (by decide) (by decide) (by decide) (by decide)).2.1 1
    (by decide) (by decide) (by decide)
  have h3 := (C20_decode_result_ends_voice decode_skip decode_skip_frame device8_playing
    [] [] 64 0 0 (by decide) (by decide) (by decide) (by decide)).2.2 (fun _ _ => rfl)
  exact ⟨⟨h1.1, h1.2.2⟩, ⟨h2.1, h2.2.2⟩, ⟨h3.2.1, h3.2.2⟩⟩

/-- C12, failing input: voice 0 of `device8_last_ref` plays the sample at address 0 once and
holds its last reference (ref count 1, `SAL_destroy_sample` has answered InUse).  A
`_SAL_mix_chunk` of 64 bytes plays the 4 frames out: the decode callback signals ended, the
slot is zeroed and the ref count falls to 0, but no destroy callback runs and the sample is
not freed, although `SAL_stop_voice` on the same state destroys it. -/
theorem C12_mixer_end_never_destroys :
    (SAL_destroy_sample (run _SAL_generic_decode_sample device8
      [.create 4, .play 0 65535 0 0 0 1]) 0).1 = SALERR_INUSE ∧
    (device8_last_ref.voice 0).voice_num_repetitions = 1 ∧
    (device8_last_ref.voice 0).voice_sample = some 0 ∧
    device8_last_ref.ref_count 0 = 1 ∧
    device8_last_ref.device_destroyed = [] ∧
    (_SAL_generic_decode_sample device8_last_ref 0 (List.replicate 256 0) 64).1 = 1 ∧
    (_SAL_mix_chunk _SAL_generic_decode_sample device8_last_ref (List.replicate 32 0)
      (List.replicate 256 0) 64).2.1.voice 0 = SAL_Voice.zero ∧
    (_SAL_mix_chunk _SAL_generic_decode_sample device8_last_ref (List.replicate 32 0)
      (List.replicate 256 0) 64).2.1.ref_count 0 = 0 ∧
    (_SAL_mix_chunk _SAL_generic_decode_sample device8_last_ref (List.replicate 32 0)
      (List.replicate 256 0) 64).2.1.device_destroyed = [] ∧
    (SAL_stop_voice device8_last_ref 0).2.ref_count 0 = 0 ∧
    (SAL_stop_voice device8_last_ref 0).2.device_destroyed = [0] := by
  decide

/-! ## Claim C13: a voice with 3 repetitions, advanced frame by frame -/

theorem advance_steps_add (d : SAL_Device) (i : Nat) (a : Nat) :
    ∀ b : Nat, advance_steps d i (a + b) = advance_steps (advance_steps d i a) i b := by
  intro b
  induction b with
  | zero => rfl
  | succ b ih =>
    show (_SAL_advance_voice (advance_steps d i (a + b)) i 1).2
      = (_SAL_advance_voice (advance_steps (advance_steps d i a) i b) i 1).2
    rw [ih]

/-- One call `_SAL_advance_voice( device, i, 1 )` on a PLAYING voice with a counted number
of repetitions whose cursor is before the loop end: either the cursor moves on by one, or
it arrives at the loop end, wraps to the loop start and one repetition is used up. -/
theorem advance_voice_one (d : SAL_Device) (i : Nat)
    (hL : (d.voice i).voice_loop_end < 4294967296)
    (hc : (d.voice i).voice_cursor < (d.voice i).voice_loop_end)
    (hr : 1 ≤ (d.voice i).voice_num_repetitions) :
    _SAL_advance_voice d i 1 =
      if (d.voice i).voice_cursor + 1 < (d.voice i).voice_loop_end then
        (1, d.set_voice i { (d.voice i) with voice_cursor := (d.voice i).voice_cursor + 1 })
      else
        (if (d.voice i).voice_num_repetitions - 1 ≤ 0 then 0 else 1,
         d.set_voice i { (d.voice i) with
           voice_cursor := (d.voice i).voice_loop_start
           voice_num_repetitions := (d.voice i).voice_num_repetitions - 1 }) := by
  have hcu : toU32 (((d.voice i).voice_cursor : Int) + 1) = (d.voice i).voice_cursor + 1 := by
    rw [toU32_of_lt _ (by omega) (by omega)]
    omega
  have hne : (d.voice i).voice_loop_end ≠ 0 := by omega
  have hnl : (d.voice i).voice_num_repetitions ≠ SAL_LOOP_ALWAYS := by
    simp only [SAL_LOOP_ALWAYS]; omega
  unfold _SAL_advance_voice
  simp only [hcu, hne, hnl, ne_eq, not_false_eq_true, if_true]
  by_cases h : (d.voice i).voice_cursor + 1 < (d.voice i).voice_loop_end
  · have h2 : ¬ ((d.voice i).voice_cursor + 1 ≥ (d.voice i).voice_loop_end) := by omega
    simp only [h, h2, if_true, if_false]
  · have h2 : (d.voice i).voice_cursor + 1 ≥ (d.voice i).voice_loop_end := by omega
    simp only [h, h2, if_true, if_false]
    by_cases h3 : (d.voice i).voice_num_repetitions - 1 ≤ 0
    · simp only [h3, if_true]
    · simp only [h3, if_false]

/-- While the cursor stays before the loop end, `t` 1-frame calls move it on by `t` and
change nothing else of the voice. -/
theorem advance_steps_linear (d : SAL_Device) (i : Nat)
    (hL : (d.voice i).voice_loop_end < 4294967296)
    (hr : 1 ≤ (d.voice i).voice_num_repetitions) :
    ∀ t : Nat, (d.voice i).voice_cursor + t < (d.voice i).voice_loop_end →
      (advance_steps d i t).voice i
        = { (d.voice i) with voice_cursor := (d.voice i).voice_cursor + t } := by
  intro t
  induction t with
  | zero => intro _; rfl
  | succ t ih =>
    intro ht
    have h1 := ih (by omega)
    have hi : i < (advance_steps d i t).device_voices.length :=
      lt_of_voice_playing _ i (by rw [h1]; show (d.voice i).voice_num_repetitions ≠ 0; omega)
    show ((_SAL_advance_voice (advance_steps d i t) i 1).2).voice i = _
    rw [advance_voice_one (advance_steps d i t) i (by rw [h1]; exact hL)
      (by rw [h1]; show (d.voice i).voice_cursor + t < (d.voice i).voice_loop_end; omega)
      (by rw [h1]; exact hr)]
    have h2 : ((advance_steps d i t).voice i).voice_cursor + 1
        < ((advance_steps d i t).voice i).voice_loop_end := by
      rw [h1]; show (d.voice i).voice_cursor + t + 1 < (d.voice i).voice_loop_end; omega
    rw [if_pos h2]
    dsimp only
    rw [voice_set_voice, if_pos ⟨rfl, hi⟩, h1]
    rfl

/-- One lap of a voice with a counted number of repetitions, from a cursor before the loop
end: every 1-frame call before the arrival at the loop end returns 1 and crosses nothing;
the call that arrives there crosses the loop end, wraps the cursor to the loop start, uses
up one repetition and returns 0 exactly when none is left. -/
theorem advance_lap (d : SAL_Device) (i : Nat)
    (hL : (d.voice i).voice_loop_end < 4294967296)
    (hc : (d.voice i).voice_cursor < (d.voice i).voice_loop_end)
    (hr : 1 ≤ (d.voice i).voice_num_repetitions) :
    (∀ t : Nat, (d.voice i).voice_cursor + t + 1 < (d.voice i).voice_loop_end →
      advance_result d i t = 1 ∧ ¬ crosses_loop_end d i t) ∧
    advance_result d i ((d.voice i).voice_loop_end - (d.voice i).voice_cursor - 1)
      = (if (d.voice i).voice_num_repetitions - 1 ≤ 0 then 0 else 1) ∧
    crosses_loop_end d i ((d.voice i).voice_loop_end - (d.voice i).voice_cursor - 1) ∧
    (advance_steps d i ((d.voice i).voice_loop_end - (d.voice i).voice_cursor)).voice i
      = { (d.voice i) with
          voice_cursor := (d.voice i).voice_loop_start
          voice_num_repetitions := (d.voice i).voice_num_repetitions - 1 } := by
  have key : ∀ t : Nat, (d.voice i).voice_cursor + t < (d.voice i).voice_loop_end →
      _SAL_advance_voice (advance_steps d i t) i 1 =
        (if (d.voice i).voice_cursor + t + 1 < (d.voice i).voice_loop_end then
          (1, (advance_steps d i t).set_voice i
            { (d.voice i) with voice_cursor := (d.voice i).voice_cursor + t + 1 })
        else
          (if (d.voice i).voice_num_repetitions - 1 ≤ 0 then 0 else 1,
           (advance_steps d i t).set_voice i { (d.voice i) with
             voice_cursor := (d.voice i).voice_loop_start
             voice_num_repetitions := (d.voice i).voice_num_repetitions - 1 })) ∧
      toU32 ((((advance_steps d i t).voice i).voice_cursor : Int) + 1)
        = (d.voice i).voice_cursor + t + 1 ∧
      ((advance_steps d i t).voice i).voice_loop_end = (d.voice i).voice_loop_end ∧
      i < (advance_steps d i t).device_voices.length := by
    intro t ht
    have h1 := advance_steps_linear d i hL hr t ht
    have hi : i < (advance_steps d i t).device_voices.length :=
      lt_of_voice_playing _ i (by rw [h1]; show (d.voice i).voice_num_repetitions ≠ 0; omega)
    refine ⟨?_, ?_, by rw [h1], hi⟩
    · rw [advance_voice_one (advance_steps d i t) i (by rw [h1]; exact hL)
        (by rw [h1]; exact ht) (by rw [h1]; exact hr), h1]
    · rw [h1]
      show toU32 ((((d.voice i).voice_cursor + t : Nat) : Int) + 1) = _
      rw [toU32_of_lt _ (by omega) (by omega)]
      omega
  refine ⟨?_, ?_, ?_, ?_⟩
  · intro t ht
    obtain ⟨k1, k2, k3, _⟩ := key t (by omega)
    constructor
    · show (_SAL_advance_voice (advance_steps d i t) i 1).1 = 1
      rw [k1, if_pos ht]
    · intro hcr
      have h2 := hcr.2
      rw [k2, k3] at h2
      omega
  · obtain ⟨k1, _, _, _⟩ := key ((d.voice i).voice_loop_end - (d.voice i).voice_cursor - 1)
      (by omega)
    show (_SAL_advance_voice (advance_steps d i _) i 1).1 = _
    rw [k1, if_neg (by omega)]
  · obtain ⟨_, k2, k3, _⟩ := key ((d.voice i).voice_loop_end - (d.voice i).voice_cursor - 1)
      (by omega)
    refine ⟨by rw [k3]; omega, ?_⟩
    rw [k2, k3]
    omega
  · obtain ⟨k1, _, _, k4⟩ := key ((d.voice i).voice_loop_end - (d.voice i).voice_cursor - 1)
      (by omega)
    have hsplit : (d.voice i).voice_loop_end - (d.voice i).voice_cursor
        = ((d.voice i).voice_loop_end - (d.voice i).voice_cursor - 1) + 1 := by omega
    rw [hsplit]
    show ((_SAL_advance_voice (advance_steps d i _) i 1).2).voice i = _
    rw [k1, if_neg (by omega)]
    dsimp only
    rw [voice_set_voice, if_pos ⟨rfl, k4⟩]

theorem advance_result_add (d : SAL_Device) (i : Nat) (a b : Nat) :
    advance_result d i (a + b) = advance_result (advance_steps d i a) i b := by
  unfold advance_result
  rw [advance_steps_add]

theorem crosses_loop_end_add (d : SAL_Device) (i : Nat) (a b : Nat) :
    crosses_loop_end d i (a + b) ↔ crosses_loop_end (advance_steps d i a) i b := by
  unfold crosses_loop_end
  rw [advance_steps_add]

/-- C13, counterexample: voice 0 of `device8_loop3` has cursor 0, `loop_start` 1, `loop_end`
3 and 3 repetitions.  Call number 6 = 3*(3-1) of the 1-frame calls returns 1 (still
playing); the call that returns 0 (ended) is call number 7, and it is the third crossing of
the loop end, the earlier ones being calls 3 and 5. -/
theorem C13_counterexample :
    ((device8_loop3.voice 0).voice_cursor = 0 ∧ (device8_loop3.voice 0).voice_loop_start = 1 ∧
      (device8_loop3.voice 0).voice_loop_end = 3 ∧
      (device8_loop3.voice 0).voice_num_repetitions = 3) ∧
    advance_result device8_loop3 0 5 = 1 ∧
    (List.range 7).map (advance_result device8_loop3 0) = [1, 1, 1, 1, 1, 1, 0] ∧
    (crosses_loop_end device8_loop3 0 2 ∧ crosses_loop_end device8_loop3 0 4 ∧
      crosses_loop_end device8_loop3 0 6) ∧
    (¬ crosses_loop_end device8_loop3 0 0 ∧ ¬ crosses_loop_end device8_loop3 0 1 ∧
      ¬ crosses_loop_end device8_loop3 0 3 ∧ ¬ crosses_loop_end device8_loop3 0 5) := by
  unfold crosses_loop_end
  decide

/-- C13, amended: for a voice with `loop_start = S`, `loop_end = L` (`S < L`), 3 repetitions
and cursor 0, advanced by calls `_SAL_advance_voice( device, i, 1 )`: the call that returns
0 (ended) is call number `L + 2*(L-S)`, which is the 3rd crossing of the loop end, and every
earlier call returns 1 (still playing).  The crossings are exactly the calls number `L`,
`L + (L-S)` and `L + 2*(L-S)`; after each of them the cursor is `S`, and the repetitions
left are 2, 1 and 0. -/
theorem C13_third_crossing_ends (d : SAL_Device) (i S L : Nat)
    (hSL : S < L) (hL : L < 4294967296)
    (hc : (d.voice i).voice_cursor = 0)
    (hs : (d.voice i).voice_loop_start = S)
    (hl : (d.voice i).voice_loop_end = L)
    (hr : (d.voice i).voice_num_repetitions = 3) :
    (∀ m : Nat, m + 1 < L + 2 * (L - S) → advance_result d i m = 1) ∧
    advance_result d i (L + 2 * (L - S) - 1) = 0 ∧
    (∀ m : Nat, m < L + 2 * (L - S) →
      (crosses_loop_end d i m ↔
        m + 1 = L ∨ m + 1 = L + (L - S) ∨ m + 1 = L + 2 * (L - S))) ∧
    (((advance_steps d i L).voice i).voice_cursor = S ∧
      ((advance_steps d i L).voice i).voice_num_repetitions = 2) ∧
    (((advance_steps d i (L + (L - S))).voice i).voice_cursor = S ∧
      ((advance_steps d i (L + (L - S))).voice i).voice_num_repetitions = 1) ∧
    (((advance_steps d i (L + 2 * (L - S))).voice i).voice_cursor = S ∧
      ((advance_steps d i (L + 2 * (L - S))).voice i).voice_num_repetitions = 0) := by
  have if2 : (if (3 : Int) - 1 ≤ 0 then (0 : Int) else 1) = 1 := by decide
  have if1 : (if (3 : Int) - 1 - 1 ≤ 0 then (0 : Int) else 1) = 1 := by decide
  have if0 : (if (3 : Int) - 1 - 1 - 1 ≤ 0 then (0 : Int) else 1) = 0 := by decide
  -- the first lap, from cursor 0
  obtain ⟨a1, a2, a3, a4⟩ := advance_lap d i (by rw [hl]; exact hL) (by rw [hc, hl]; omega)
    (by rw [hr]; decide)
  simp only [hc, hl, hs, hr, Nat.sub_zero, Nat.zero_add, if2] at a1 a2 a3 a4
  have c1 : ((advance_steps d i L).voice i).voice_cursor = S := by rw [a4]
  have s1 : ((advance_steps d i L).voice i).voice_loop_start = S := by rw [a4]
  have l1 : ((advance_steps d i L).voice i).voice_loop_end = L := by rw [a4]
  have r1 : ((advance_steps d i L).voice i).voice_num_repetitions = 3 - 1 := by rw [a4]
  -- the second lap, from cursor S
  obtain ⟨b1, b2, b3, b4⟩ := advance_lap (advance_steps d i L) i (by rw [l1]; exact hL)
    (by rw [c1, l1]; exact hSL) (by rw [r1]; decide)
  simp only [c1, l1, s1, r1, if1] at b1 b2 b3 b4
  rw [← advance_steps_add] at b4
  have c2 : ((advance_steps d i (L + (L - S))).voice i).voice_cursor = S := by rw [b4]
  have s2 : ((advance_steps d i (L + (L - S))).voice i).voice_loop_start = S := by rw [b4]
  have l2 : ((advance_steps d i (L + (L - S))).voice i).voice_loop_end = L := by rw [b4]
  have r2 : ((advance_steps d i (L + (L - S))).voice i).voice_num_repetitions = 3 - 1 - 1 := by
    rw [b4]
  -- the third lap
  obtain ⟨e1, e2, e3, e4⟩ := advance_lap (advance_steps d i (L + (L - S))) i
    (by rw [l2]; exact hL) (by rw [c2, l2]; exact hSL) (by rw [r2]; decide)
  simp only [c2, l2, s2, r2, if0] at e1 e2 e3 e4
  rw [← advance_steps_add] at e4
  have hsum : L + (L - S) + (L - S) = L + 2 * (L - S) := by omega
  rw [hsum] at e4
  -- every call, by the lap it falls in
  have hcall : ∀ m : Nat, m < L + 2 * (L - S) →
      (advance_result d i m = (if m + 1 = L + 2 * (L - S) then 0 else 1)) ∧
      (crosses_loop_end d i m ↔
        m + 1 = L ∨ m + 1 = L + (L - S) ∨ m + 1 = L + 2 * (L - S)) := by
    intro m hm
    by_cases h1 : m + 1 < L
    · obtain ⟨x1, x2⟩ := a1 m h1
      rw [x1, if_neg (by omega)]
      exact ⟨rfl, ⟨fun h => absurd h x2, fun h => by omega⟩⟩
    by_cases h2 : m + 1 = L
    · have hm2 : m = L - 1 := by omega
      rw [hm2, a2, if_neg (by omega)]
      exact ⟨rfl, ⟨fun _ => Or.inl (by omega), fun _ => a3⟩⟩
    by_cases h3 : m + 1 < L + (L - S)
    · obtain ⟨t, ht⟩ : ∃ t, m = L + t := ⟨m - L, by omega⟩
      obtain ⟨x1, x2⟩ := b1 t (by omega)
      rw [ht, advance_result_add, crosses_loop_end_add, x1, if_neg (by omega)]
      exact ⟨rfl, ⟨fun h => absurd h x2, fun h => by omega⟩⟩
    by_cases h4 : m + 1 = L + (L - S)
    · have hm2 : m = L + (L - S - 1) := by omega
      rw [hm2, advance_result_add, crosses_loop_end_add, b2, if_neg (by omega)]
      exact ⟨rfl, ⟨fun _ => Or.inr (Or.inl (by omega)), fun _ => b3⟩⟩
    by_cases h5 : m + 1 < L + 2 * (L - S)
    · obtain ⟨t, ht⟩ : ∃ t, m = L + (L - S) + t := ⟨m - (L + (L - S)), by omega⟩
      obtain ⟨x1, x2⟩ := e1 t (by omega)
      rw [ht, advance_result_add, crosses_loop_end_add, x1, if_neg (by omega)]
      exact ⟨rfl, ⟨fun h => absurd h x2, fun h => by omega⟩⟩
    · have hm2 : m = L + (L - S) + (L - S - 1) := by omega
      rw [hm2, advance_result_add, crosses_loop_end_add, e2, if_pos (by omega)]
      exact ⟨rfl, ⟨fun _ => Or.inr (Or.inr (by omega)), fun _ => e3⟩⟩
  refine ⟨?_, ?_, fun m hm => (hcall m hm).2, ⟨c1, by rw [r1]; rfl⟩, ⟨c2, by rw [r2]; rfl⟩,
    ⟨by rw [e4], by rw [e4]; rfl⟩⟩
  · intro m hm
    rw [(hcall m (by omega)).1, if_neg (by omega)]
  · rw [(hcall (L + 2 * (L - S) - 1) (by omega)).1, if_pos (by omega)]

/-- C13, witness: the voice of the counterexample, `S = 1` and `L = 3`; the ending call is
call number 7. -/
theorem C13_third_crossing_ends_witness :
    advance_result device8_loop3 0 (3 + 2 * (3 - 1) - 1) = 0 ∧
    ((advance_steps device8_loop3 0 3).voice 0).voice_cursor = 1 := by
  have h := C13_third_crossing_ends device8_loop3 0 1 3 (by decide) (by decide) (by decide)
    (by decide) (by decide) (by decide)
  exact ⟨h.2.1, h.2.2.2.1.1⟩

/-! ## Claim C11: ref-count accounting over plays and stops -/

/-- A `SAL_play_sample` call that returns Ok: it took a FREE slot `f`, bound it to the
sample and added one reference. -/
theorem SAL_play_sample_ok (d : SAL_Device) (p : Nat) (sid : Int) (volume : Nat) (pan : Int)
    (loop_start loop_end : Nat) (num_repetitions : Int)
    (hok : (SAL_play_sample d p sid volume pan loop_start loop_end num_repetitions).1
      = SALERR_OK) :
    ∃ (f : Nat) (v : SAL_Voice),
      f < d.device_voices.length ∧ (d.voice f).voice_num_repetitions = 0 ∧
      v.voice_sample = some p ∧ v.voice_num_repetitions = num_repetitions ∧
      SAL_play_sample d p sid volume pan loop_start loop_end num_repetitions
        = (SALERR_OK, (d.set_voice f v).add_ref p 1, (f : Int)) := by
  rcases SAL_play_sample_cases d p sid volume pan loop_start loop_end num_repetitions with
    ⟨_, h⟩ | ⟨_, _, h⟩ | ⟨_, hf, h⟩
  · rw [h] at hok; exact absurd hok (by intro hc; cases hc)
  · rw [h] at hok; exact absurd hok (by intro hc; cases hc)
  · exact ⟨_, _, hf, find_free_voice_free d.device_voices hf, rfl, rfl, h⟩

/-- A run of `SAL_play_sample` calls of the sample at `s`, all of them with a repetition
count other than 0 and all returning Ok: one reference is added per call, nothing is
destroyed, and every handle returned names a slot that is PLAYING `s` at the end. -/
theorem play_all_spec (s : Nat) (as : List PlayArgs) :
    ∀ d : SAL_Device, s < d.device_heap.length →
      (∀ a ∈ as, a.num_repetitions ≠ 0) →
      (∀ r ∈ (play_all d s as).1, r.1 = SALERR_OK) →
      (play_all d s as).1.length = as.length ∧
      (play_all d s as).2.ref_count s = d.ref_count s + as.length ∧
      (play_all d s as).2.device_destroyed = d.device_destroyed ∧
      (play_all d s as).2.device_heap.length = d.device_heap.length ∧
      (∀ r ∈ (play_all d s as).1, ∃ i : Nat, r.2 = (i : Int) ∧
        ((play_all d s as).2.voice i).plays s = true) ∧
      (∀ i, (d.voice i).voice_num_repetitions ≠ 0 → (play_all d s as).2.voice i = d.voice i) := by
  induction as with
  | nil =>
    intro d _ _ _
    exact ⟨rfl, by simp [play_all], rfl, rfl, by simp [play_all], fun _ _ => rfl⟩
  | cons a as ih =>
    intro d hs hreps hok
    have hok1 : (SAL_play_sample d s SAL_INVALID_SOUND a.volume a.pan a.loop_start a.loop_end
        a.num_repetitions).1 = SALERR_OK :=
      hok (_, _) (by simp only [play_all]; exact List.mem_cons_self _ _)
    obtain ⟨f, v, hf, hfree, hvs, hvr, hplay⟩ := SAL_play_sample_ok d s SAL_INVALID_SOUND
      a.volume a.pan a.loop_start a.loop_end a.num_repetitions hok1
    have hra : a.num_repetitions ≠ 0 := hreps a (List.mem_cons_self _ _)
    have hpa : play_all d s (a :: as)
        = ((SALERR_OK, (f : Int)) :: (play_all ((d.set_voice f v).add_ref s 1) s as).1,
           (play_all ((d.set_voice f v).add_ref s 1) s as).2) := by
      simp only [play_all, hplay]
    rw [hpa] at hok ⊢
    dsimp only at hok ⊢
    have hs1 : s < ((d.set_voice f v).add_ref s 1).device_heap.length := by
      rw [heap_length_add_ref]; exact hs
    obtain ⟨i0, i1, i2, i3, i4, i5⟩ := ih ((d.set_voice f v).add_ref s 1) hs1
      (fun b hb => hreps b (List.mem_cons_of_mem _ hb))
      (fun r hr => hok r (List.mem_cons_of_mem _ hr))
    have hvf : ((d.set_voice f v).add_ref s 1).voice f = v := by
      rw [voice_add_ref, voice_set_voice, if_pos ⟨rfl, hf⟩]
    refine ⟨by simp [i0], ?_, by rw [i2]; rfl, by rw [i3, heap_length_add_ref]; rfl, ?_, ?_⟩
    · rw [i1, ref_count_add_ref, if_pos ⟨rfl, hs⟩, ref_count_set_voice]
      simp only [List.length_cons]
      push_cast
      omega
    · intro r hr
      rcases List.mem_cons.mp hr with rfl | hr
      · refine ⟨f, rfl, ?_⟩
        rw [i5 f (by rw [hvf, hvr]; exact hra), hvf]
        exact (plays_iff v s).mpr ⟨by rw [hvr]; exact hra, hvs⟩
      · exact i4 r hr
    · intro i hi
      have hif : f ≠ i := fun hc => hi (hc ▸ hfree)
      have hvi : ((d.set_voice f v).add_ref s 1).voice i = d.voice i := by
        rw [voice_add_ref, voice_set_voice, if_neg (fun hc => hif hc.1)]
      rw [i5 i (by rw [hvi]; exact hi), hvi]

/-- A run of `SAL_stop_voice` calls on distinct handles whose slots are PLAYING the sample
at `s`, while more references are left than handles: one reference is dropped per call,
nothing is destroyed, the slots of the handles end zeroed and the other slots are kept. -/
theorem stop_all_spec (s : Nat) (hs : List Int) :
    ∀ d : SAL_Device, hs.Nodup → s < d.device_heap.length →
      (∀ h ∈ hs, ∃ i : Nat, h = (i : Int) ∧ (d.voice i).plays s = true) →
      (hs.length : Int) < d.ref_count s →
      (stop_all d hs).ref_count s = d.ref_count s - hs.length ∧
      (stop_all d hs).device_destroyed = d.device_destroyed ∧
      (stop_all d hs).device_voices.length = d.device_voices.length ∧
      (∀ i : Nat, (i : Int) ∈ hs → (stop_all d hs).voice i = SAL_Voice.zero) ∧
      (∀ i : Nat, (i : Int) ∉ hs → (stop_all d hs).voice i = d.voice i) := by
  induction hs with
  | nil =>
    intro d _ _ _ _
    exact ⟨by simp [stop_all], rfl, rfl, by simp, fun _ _ => rfl⟩
  | cons h hs ih =>
    intro d hnd hsd hpl hrc
    obtain ⟨i, rfl, hpi⟩ := hpl h (List.mem_cons_self _ _)
    obtain ⟨hpr, hps⟩ := (plays_iff _ _).mp hpi
    have hi := lt_of_voice_playing d i hpr
    rw [List.nodup_cons] at hnd
    simp only [List.length_cons] at hrc
    push_cast at hrc
    have hrc1 : (d.add_ref s (-1)).ref_count s = d.ref_count s - 1 := by
      rw [ref_count_add_ref, if_pos ⟨rfl, hsd⟩]; rfl
    have hstop : (SAL_stop_voice d (i : Int)).2 = (d.add_ref s (-1)).set_voice i SAL_Voice.zero := by
      rw [SAL_stop_voice_playing d i s hi hpr hps]
      dsimp only
      rw [if_neg (by rw [hrc1]; omega)]
    have hsa : stop_all d ((i : Int) :: hs)
        = stop_all ((d.add_ref s (-1)).set_voice i SAL_Voice.zero) hs := by
      simp only [stop_all, List.foldl_cons, hstop]
    have hvk : ∀ k : Nat, k ≠ i →
        ((d.add_ref s (-1)).set_voice i SAL_Voice.zero).voice k = d.voice k := by
      intro k hk
      rw [voice_set_voice, if_neg (fun hc => hk hc.1.symm), voice_add_ref]
    have hvi : ((d.add_ref s (-1)).set_voice i SAL_Voice.zero).voice i = SAL_Voice.zero := by
      rw [voice_set_voice, if_pos ⟨rfl, hi⟩]
    obtain ⟨j1, j2, j3, j4, j5⟩ := ih ((d.add_ref s (-1)).set_voice i SAL_Voice.zero) hnd.2
      (by rw [heap_set_voice, heap_length_add_ref]; exact hsd)
      (fun h hh => by
        obtain ⟨k, rfl, hk⟩ := hpl h (List.mem_cons_of_mem _ hh)
        have hki : k ≠ i := fun hc => hnd.1 (hc ▸ hh)
        exact ⟨k, rfl, by rw [hvk k hki]; exact hk⟩)
      (by rw [ref_count_set_voice, hrc1]; omega)
    rw [hsa]
    refine ⟨?_, by rw [j2]; rfl, by rw [j3, voices_length_set_voice]; rfl, ?_, ?_⟩
    · rw [j1, ref_count_set_voice, hrc1]
      simp only [List.length_cons]
      push_cast
      omega
    · intro k hk
      rcases List.mem_cons.mp hk with hki | hk
      · have hki2 : k = i := by exact_mod_cast hki
        subst hki2
        by_cases hin : ((k : Nat) : Int) ∈ hs
        · exact j4 k hin
        · rw [j5 k hin, hvi]
      · exact j4 k hk
    · intro k hk
      have hki : k ≠ i := fun hc => hk (hc ▸ List.mem_cons_self _ _)
      rw [j5 k (fun hc => hk (List.mem_cons_of_mem _ hc)), hvk k hki]

/-- A run of `SAL_set_voice_pan` calls on the handle of a slot that is PLAYING the sample
at `s`: the slot stays PLAYING `s`, and the arena and the destroy log are kept. -/
theorem set_pan_all_spec (s : Nat) (i : Nat) (pans : List Int) :
    ∀ d : SAL_Device, (d.voice i).plays s = true →
      ((set_pan_all d (i : Int) pans).voice i).plays s = true ∧
      (set_pan_all d (i : Int) pans).device_heap = d.device_heap ∧
      (set_pan_all d (i : Int) pans).device_destroyed = d.device_destroyed := by
  induction pans with
  | nil => intro d h; exact ⟨h, rfl, rfl⟩
  | cons pan pans ih =>
    intro d h
    obtain ⟨hpr, hps⟩ := (plays_iff _ _).mp h
    have hi := lt_of_voice_playing d i hpr
    have hr : ¬ (((i : Int) < 0) ∨ ((i : Int) ≥ d.device_max_voices)) := by
      simp only [SAL_Device.device_max_voices]; omega
    have hpan : (SAL_set_voice_pan d (i : Int) pan).2
        = d.set_voice i { (d.voice i) with voice_pan := pan } := by
      simp only [SAL_set_voice_pan, hr, if_false, Int.toNat_ofNat]
    have hsa : set_pan_all d (i : Int) (pan :: pans)
        = set_pan_all (d.set_voice i { (d.voice i) with voice_pan := pan }) (i : Int) pans := by
      simp only [set_pan_all, List.foldl_cons, hpan]
    obtain ⟨k1, k2, k3⟩ := ih (d.set_voice i { (d.voice i) with voice_pan := pan })
      (by rw [voice_set_voice, if_pos ⟨rfl, hi⟩]; exact (plays_iff _ _).mpr ⟨hpr, hps⟩)
    rw [hsa]
    exact ⟨k1, by rw [k2]; rfl, by rw [k3]; rfl⟩

theorem get_voice_status_zero (d : SAL_Device) (i : Nat) (st : sal_voice_status_e)
    (hi : i < d.device_voices.length) (hz : d.voice i = SAL_Voice.zero) :
    SAL_get_voice_status d (i : Int) st = (SALERR_OK, SALVS_IDLE) := by
  have hr : ¬ (((i : Int) < 0) ∨ ((i : Int) ≥ d.device_max_voices)) := by
    simp only [SAL_Device.device_max_voices]; omega
  simp only [SAL_get_voice_status, hr, if_false, Int.toNat_ofNat, hz]
  rfl

/-- C11, counterexample: a `SAL_play_sample` call with 0 repetitions returns Ok with handle
0 and `SAL_stop_voice` on that handle returns Ok, but the ref count of the sample is then 2,
not 1 + 1 - 1, and the `SAL_destroy_sample` that follows returns InUse and destroys
nothing. -/
theorem C11_counterexample :
    (SAL_create_sample device8 4).2.1.ref_count 0 = 1 ∧
    (SAL_play_sample (SAL_create_sample device8 4).2.1 0 SAL_INVALID_SOUND 65535 0 0 0 0).1
      = SALERR_OK ∧
    (SAL_play_sample (SAL_create_sample device8 4).2.1 0 SAL_INVALID_SOUND 65535 0 0 0 0).2.2
      = 0 ∧
    (SAL_stop_voice (SAL_play_sample (SAL_create_sample device8 4).2.1 0 SAL_INVALID_SOUND
      65535 0 0 0 0).2.1 0).1 = SALERR_OK ∧
    (run _SAL_generic_decode_sample device8 [.create 4, .play 0 65535 0 0 0 0, .stop 0]).ref_count
      0 = 2 ∧
    (SAL_destroy_sample (run _SAL_generic_decode_sample device8
      [.create 4, .play 0 65535 0 0 0 0, .stop 0]) 0).1 = SALERR_INUSE ∧
    (SAL_destroy_sample (run _SAL_generic_decode_sample device8
      [.create 4, .play 0 65535 0 0 0 0, .stop 0]) 0).2.device_destroyed = [] := by
  decide

/-- C11, amended: a sample starts at ref count 1 on `SAL_create_sample`.  After `k`
`SAL_play_sample` calls of it that return Ok and whose repetition counts are not 0, and
`SAL_stop_voice` on `j` distinct handles among those returned, its ref count is
`1 + k - j`, the slots of the stopped handles are FREE (status IDLE) and nothing has been
destroyed.  In particular one such play, any `SAL_set_voice_pan` calls on the returned
handle and `SAL_stop_voice` on it restore the ref count 1 and the FREE slot, and the
`SAL_destroy_sample` that follows returns Ok and destroys the sample. -/
theorem C11_ref_count_accounting (d0 d1 : SAL_Device) (n s : Nat)
    (hcreate : SAL_create_sample d0 n = (SALERR_OK, d1, s)) :
    d1.ref_count s = 1 ∧
    (∀ (as : List PlayArgs) (hs : List Int),
      (∀ a ∈ as, a.num_repetitions ≠ 0) →
      (∀ r ∈ (play_all d1 s as).1, r.1 = SALERR_OK) →
      hs.Nodup →
      (∀ h ∈ hs, h ∈ (play_all d1 s as).1.map Prod.snd) →
      (stop_all (play_all d1 s as).2 hs).ref_count s = 1 + (as.length : Int) - hs.length ∧
      (∀ h ∈ hs, SAL_get_voice_status (stop_all (play_all d1 s as).2 hs) h SALVS_INVALIDSOUND
        = (SALERR_OK, SALVS_IDLE)) ∧
      (stop_all (play_all d1 s as).2 hs).device_destroyed = d0.device_destroyed) ∧
    (∀ (a : PlayArgs) (pans : List Int) (d2 : SAL_Device) (sid : Int),
      a.num_repetitions ≠ 0 →
      SAL_play_sample d1 s SAL_INVALID_SOUND a.volume a.pan a.loop_start a.loop_end
        a.num_repetitions = (SALERR_OK, d2, sid) →
      d2.ref_count s = 2 ∧
      (SAL_stop_voice (set_pan_all d2 sid pans) sid).1 = SALERR_OK ∧
      (SAL_stop_voice (set_pan_all d2 sid pans) sid).2.ref_count s = 1 ∧
      SAL_get_voice_status (SAL_stop_voice (set_pan_all d2 sid pans) sid).2 sid
        SALVS_INVALIDSOUND = (SALERR_OK, SALVS_IDLE) ∧
      (SAL_stop_voice (set_pan_all d2 sid pans) sid).2.device_destroyed = d0.device_destroyed ∧
      (SAL_destroy_sample (SAL_stop_voice (set_pan_all d2 sid pans) sid).2 s).1 = SALERR_OK ∧
      (SAL_destroy_sample (SAL_stop_voice (set_pan_all d2 sid pans) sid).2 s).2.device_destroyed
        = d0.device_destroyed ++ [s]) := by
  have hc : d1 = { d0 with device_heap := d0.device_heap ++ [
        { SAL_Sample.zero with
          sample_num_samples := toI32 n
          sample_ref_count := 1
          sample_data := if n > 0 then List.replicate n 0 else [] }] }
      ∧ s = d0.device_heap.length := by
    simp only [SAL_create_sample, Prod.mk.injEq, true_and] at hcreate
    exact ⟨hcreate.1.symm, hcreate.2.symm⟩
  have hs1 : s < d1.device_heap.length := by
    rw [hc.1, hc.2]; simp
  have hrc1 : d1.ref_count s = 1 := by
    rw [hc.1, hc.2]
    simp [SAL_Device.ref_count, SAL_Device.sample, List.getD_eq_getElem?_getD]
  have hd1 : d1.device_destroyed = d0.device_destroyed := by rw [hc.1]
  refine ⟨hrc1, ?_, ?_⟩
  · intro as hs hreps hok hnd hsub
    obtain ⟨p0, p1, p2, p3, p4, _⟩ := play_all_spec s as d1 hs1 hreps hok
    have hpl : ∀ h ∈ hs, ∃ i : Nat, h = (i : Int) ∧
        ((play_all d1 s as).2.voice i).plays s = true := by
      intro h hh
      obtain ⟨r, hr, rfl⟩ := List.mem_map.mp (hsub h hh)
      exact p4 r hr
    have hlen : hs.length ≤ as.length := by
      have h1 := (List.subperm_of_subset hnd (fun h hh => hsub h hh)).length_le
      rw [List.length_map, p0] at h1
      exact h1
    obtain ⟨q1, q2, q3, q4, _⟩ := stop_all_spec s hs (play_all d1 s as).2 hnd
      (by rw [p3]; exact hs1) hpl (by rw [p1, hrc1]; omega)
    refine ⟨by rw [q1, p1, hrc1], ?_, by rw [q2, p2, hd1]⟩
    intro h hh
    obtain ⟨i, rfl, hi⟩ := hpl h hh
    have hil := lt_of_voice_playing _ i ((plays_iff _ _).mp hi).1
    exact get_voice_status_zero _ i _ (by rw [q3]; exact hil) (q4 i hh)
  · intro a pans d2 sid hra hplay
    obtain ⟨f, v, hf, _, hvs, hvr, heq⟩ := SAL_play_sample_ok d1 s SAL_INVALID_SOUND
      a.volume a.pan a.loop_start a.loop_end a.num_repetitions (by rw [hplay])
    rw [hplay] at heq
    simp only [Prod.mk.injEq, true_and] at heq
    obtain ⟨hd2, hsid⟩ := heq
    subst hsid
    have hvf : d2.voice f = v := by
      rw [hd2, voice_add_ref, voice_set_voice, if_pos ⟨rfl, hf⟩]
    have hpf : (d2.voice f).plays s = true := by
      rw [hvf]; exact (plays_iff v s).mpr ⟨by rw [hvr]; exact hra, hvs⟩
    have hrc2 : d2.ref_count s = 2 := by
      rw [hd2, ref_count_add_ref, if_pos ⟨rfl, hs1⟩, ref_count_set_voice, hrc1]; rfl
    obtain ⟨k1, k2, k3⟩ := set_pan_all_spec s f pans d2 hpf
    obtain ⟨hpr, hps⟩ := (plays_iff _ _).mp k1
    have hi3 := lt_of_voice_playing _ f hpr
    have hs3 : s < (set_pan_all d2 (f : Int) pans).device_heap.length := by
      rw [k2, hd2, heap_length_add_ref]; exact hs1
    have hrc3 : (set_pan_all d2 (f : Int) pans).ref_count s = 2 := by
      simp only [SAL_Device.ref_count, SAL_Device.sample, k2]
      exact hrc2
    have hrc4 : ((set_pan_all d2 (f : Int) pans).add_ref s (-1)).ref_count s = 1 := by
      rw [ref_count_add_ref, if_pos ⟨rfl, hs3⟩, hrc3]; rfl
    have hstop : SAL_stop_voice (set_pan_all d2 (f : Int) pans) (f : Int)
        = (SALERR_OK,
            ((set_pan_all d2 (f : Int) pans).add_ref s (-1)).set_voice f SAL_Voice.zero) := by
      rw [SAL_stop_voice_playing _ f s hi3 hpr hps, if_neg (by rw [hrc4]; decide)]
    have hdes : (set_pan_all d2 (f : Int) pans).device_destroyed = d0.device_destroyed := by
      rw [k3, hd2]; exact hd1
    rw [hstop]
    dsimp only
    refine ⟨hrc2, rfl, by rw [ref_count_set_voice, hrc4], ?_, hdes, ?_, ?_⟩
    · exact get_voice_status_zero _ f _ (by rw [voices_length_set_voice]; exact hi3)
        (by rw [voice_set_voice, if_pos ⟨rfl, hi3⟩])
    · have h0 : ((((set_pan_all d2 (f : Int) pans).add_ref s (-1)).set_voice f
          SAL_Voice.zero).add_ref s (-1)).ref_count s ≤ 0 := by
        rw [ref_count_add_ref, if_pos ⟨rfl, by rw [heap_set_voice, heap_length_add_ref]; exact hs3⟩,
          ref_count_set_voice, hrc4]
        decide
      simp only [SAL_destroy_sample, h0, if_true]
    · have h0 : ((((set_pan_all d2 (f : Int) pans).add_ref s (-1)).set_voice f
          SAL_Voice.zero).add_ref s (-1)).ref_count s ≤ 0 := by
        rw [ref_count_add_ref, if_pos ⟨rfl, by rw [heap_set_voice, heap_length_add_ref]; exact hs3⟩,
          ref_count_set_voice, hrc4]
        decide
      simp only [SAL_destroy_sample, h0, if_true]
      show (set_pan_all d2 (f : Int) pans).device_destroyed ++ [s] = _
      rw [hdes]

/-- C11, witness: on the device of the test harness, two plays (handles 0 and 1) and a stop
of handle 1 leave the ref count at 1 + 2 - 1; and the sequence of the harness, play with
`SAL_LOOP_ALWAYS` at hard left, three pan changes, stop, destroy, destroys the sample. -/
theorem C11_ref_count_accounting_witness :
    (stop_all (play_all (SAL_create_sample device8 4).2.1 0
      [⟨65535, 0, 0, 0, -1⟩, ⟨65535, 0, 0, 0, 2⟩]).2 [1]).ref_count 0 = 1 + ((2 : Nat) : Int) - (1 : Nat) ∧
    (SAL_destroy_sample (SAL_stop_voice (set_pan_all
      (SAL_play_sample (SAL_create_sample device8 4).2.1 0 SAL_INVALID_SOUND 65535 (-32767)
        0 0 (-1)).2.1 0 [-32767, -32639, -32511]) 0).2 0).2.device_destroyed = [] ++ [0] := by
  have h := C11_ref_count_accounting device8 (SAL_create_sample device8 4).2.1 4 0 rfl
  have h1 := h.2.1 [⟨65535, 0, 0, 0, -1⟩, ⟨65535, 0, 0, 0, 2⟩] [1] (by decide) (by decide)
    (by decide) (by decide)
  have h2 := h.2.2 ⟨65535, -32767, 0, 0, -1⟩ [-32767, -32639, -32511]
    (SAL_play_sample (SAL_create_sample device8 4).2.1 0 SAL_INVALID_SOUND 65535 (-32767)
      0 0 (-1)).2.1 0 (by decide) (by decide)
  exact ⟨h1.1, h2.2.2.2.2.2.2⟩

/-! ## Claim C21: `_SAL_advance_voice` is the step of the specification -/

/-- C21: `_SAL_advance_voice( device, i, n )` is exactly the step `spec_advance_voice` on
slot `i`: it returns the result of that step and writes the voice of that step to the slot.
Nothing but slot `i` changes, and of slot `i` only the cursor and the repetitions.  A voice
with `loop_end == 0` never wraps and never ends: the call returns 1, the cursor is
`cursor + n` (32-bit unsigned) and the repetitions are unchanged. -/
theorem C21_advance_voice_step (d : SAL_Device) (i : Nat) (n : Int) :
    _SAL_advance_voice d i n
      = ((spec_advance_voice (d.voice i) n).1,
         d.set_voice i (spec_advance_voice (d.voice i) n).2) ∧
    (∀ k, k ≠ i → (_SAL_advance_voice d i n).2.voice k = d.voice k) ∧
    ((_SAL_advance_voice d i n).2.device_info = d.device_info ∧
      (_SAL_advance_voice d i n).2.device_heap = d.device_heap ∧
      (_SAL_advance_voice d i n).2.device_destroyed = d.device_destroyed ∧
      (_SAL_advance_voice d i n).2.device_voices.length = d.device_voices.length) ∧
    (((_SAL_advance_voice d i n).2.voice i).voice_sample = (d.voice i).voice_sample ∧
      ((_SAL_advance_voice d i n).2.voice i).voice_volume = (d.voice i).voice_volume ∧
      ((_SAL_advance_voice d i n).2.voice i).voice_pan = (d.voice i).voice_pan ∧
      ((_SAL_advance_voice d i n).2.voice i).voice_loop_start = (d.voice i).voice_loop_start ∧
      ((_SAL_advance_voice d i n).2.voice i).voice_loop_end = (d.voice i).voice_loop_end) ∧
    ((d.voice i).voice_loop_end = 0 →
      (_SAL_advance_voice d i n).1 = 1 ∧
      ((_SAL_advance_voice d i n).2.voice i).voice_num_repetitions
        = (d.voice i).voice_num_repetitions ∧
      (i < d.device_voices.length →
        ((_SAL_advance_voice d i n).2.voice i).voice_cursor
          = toU32 (((d.voice i).voice_cursor : Int) + n))) := by
  have hstep : _SAL_advance_voice d i n
      = ((spec_advance_voice (d.voice i) n).1,
         d.set_voice i (spec_advance_voice (d.voice i) n).2) := by
    unfold _SAL_advance_voice spec_advance_voice
    simp only
    by_cases h1 : (d.voice i).voice_loop_end ≠ 0
    · by_cases h2 : toU32 (((d.voice i).voice_cursor : Int) + n) ≥ (d.voice i).voice_loop_end
      · by_cases h3 : (d.voice i).voice_num_repetitions ≠ SAL_LOOP_ALWAYS
        · by_cases h4 : (d.voice i).voice_num_repetitions - 1 ≤ 0
          · simp only [h1, h2, h3, h4, and_self, if_true, ne_eq, not_false_eq_true]
          · simp only [h1, h2, h3, h4, and_self, if_true, if_false, ne_eq, not_false_eq_true]
        · simp only [h1, h2, h3, and_self, if_true, if_false, ne_eq, not_false_eq_true]
      · simp only [h1, h2, and_false, if_true, if_false, ne_eq, not_false_eq_true]
    · simp only [h1, false_and, if_false]
  have hslot : ∀ v : SAL_Voice,
      v.voice_sample = (d.voice i).voice_sample →
      v.voice_volume = (d.voice i).voice_volume →
      v.voice_pan = (d.voice i).voice_pan →
      v.voice_loop_start = (d.voice i).voice_loop_start →
      v.voice_loop_end = (d.voice i).voice_loop_end →
      ((d.set_voice i v).voice i).voice_sample = (d.voice i).voice_sample ∧
      ((d.set_voice i v).voice i).voice_volume = (d.voice i).voice_volume ∧
      ((d.set_voice i v).voice i).voice_pan = (d.voice i).voice_pan ∧
      ((d.set_voice i v).voice i).voice_loop_start = (d.voice i).voice_loop_start ∧
      ((d.set_voice i v).voice i).voice_loop_end = (d.voice i).voice_loop_end := by
    intro v a1 a2 a3 a4 a5
    rw [voice_set_voice]
    by_cases hi : i < d.device_voices.length
    · rw [if_pos ⟨rfl, hi⟩]; exact ⟨a1, a2, a3, a4, a5⟩
    · rw [if_neg (fun hc => hi hc.2)]; exact ⟨rfl, rfl, rfl, rfl, rfl⟩
  have hspec : (spec_advance_voice (d.voice i) n).2.voice_sample = (d.voice i).voice_sample ∧
      (spec_advance_voice (d.voice i) n).2.voice_volume = (d.voice i).voice_volume ∧
      (spec_advance_voice (d.voice i) n).2.voice_pan = (d.voice i).voice_pan ∧
      (spec_advance_voice (d.voice i) n).2.voice_loop_start = (d.voice i).voice_loop_start ∧
      (spec_advance_voice (d.voice i) n).2.voice_loop_end = (d.voice i).voice_loop_end := by
    unfold spec_advance_voice
    simp only
    split
    · split
      · exact ⟨rfl, rfl, rfl, rfl, rfl⟩
      · exact ⟨rfl, rfl, rfl, rfl, rfl⟩
    · exact ⟨rfl, rfl, rfl, rfl, rfl⟩
  refine ⟨hstep, ?_, ?_, ?_, ?_⟩
  · intro k hk
    rw [hstep]
    dsimp only
    rw [voice_set_voice, if_neg (fun hc => hk hc.1.symm)]
  · rw [hstep]
    exact ⟨rfl, rfl, rfl, voices_length_set_voice _ _ _⟩
  · rw [hstep]
    exact hslot _ hspec.1 hspec.2.1 hspec.2.2.1 hspec.2.2.2.1 hspec.2.2.2.2
  · intro h0
    have hs0 : spec_advance_voice (d.voice i) n
        = (1, { (d.voice i) with
                voice_cursor := toU32 (((d.voice i).voice_cursor : Int) + n) }) := by
      unfold spec_advance_voice
      simp only [h0, ne_eq, not_true_eq_false, false_and, if_false]
    rw [hstep, hs0]
    dsimp only
    refine ⟨rfl, ?_, ?_⟩
    · rw [voice_set_voice]
      split <;> rfl
    · intro hi
      rw [voice_set_voice, if_pos ⟨rfl, hi⟩]

/-- C21, witness: the looping voice of the one-voice device (loop from 0 to 4), advanced by
3 frames, moves its cursor to 3; made open-ended (`loop_end` 0) and advanced by 70000
frames it returns 1 with the cursor at 70000. -/
theorem C21_advance_voice_step_witness :
    _SAL_advance_voice device_full1 0 3
      = (1, device_full1.set_voice 0 { (device_full1.voice 0) with voice_cursor := 3 }) ∧
    (_SAL_advance_voice (device_full1.set_voice 0
        { (device_full1.voice 0) with voice_loop_end := 0 }) 0 70000).1 = 1 ∧
    ((_SAL_advance_voice (device_full1.set_voice 0
        { (device_full1.voice 0) with voice_loop_end := 0 }) 0 70000).2.voice 0).voice_cursor
      = toU32 (0 + 70000) :=
  ⟨(C21_advance_voice_step device_full1 0 3).1.trans (by decide),
   ((C21_advance_voice_step (device_full1.set_voice 0
      { (device_full1.voice 0) with voice_loop_end := 0 }) 0 70000).2.2.2.2 (by decide)).1,
   ((C21_advance_voice_step (device_full1.set_voice 0
      { (device_full1.voice 0) with voice_loop_end := 0 }) 0 70000).2.2.2.2 (by decide)).2.2
      (by decide)⟩

/-! ## Claims C22 - C24: the 16-bit submix and the per-channel volume -/

/-- The 16-bit mono loop body is the sum with the scaled source, reduced to 16 bits. -/
theorem submix_16_mono_eq_spec (d s : Int) (e : Nat) :
    submix_16_mono d s e = spec_submix_16 d s e := by
  simp only [submix_16_mono, spec_submix_16, shiftRight_16]
  generalize s * (e : Int) / 65536 = f
  unfold toI16
  omega

/-- C22: on a 16-bit mono device, for every destination sample `d`, source sample `s`
(signed 16-bit) and volume `v` in [0,65535], the submix result is
`d + floor(s*v / 65536)` reduced modulo 2^16 to a signed 16-bit value, with no clamping
(the scaled source itself lies in [-32768, 32766]); it depends neither on the pan of the
voice nor on the sample index, and at volume 0 the destination is unchanged. -/
theorem C22_submix_16_mono (info : SAL_DeviceInfo) (i : Nat) (d s : Int) (v : Nat) (pan : Int)
    (hbits : info.di_bits = 16) (hch : info.di_channels = 1)
    (hd0 : -32768 ≤ d) (hd1 : d ≤ 32767) (hs0 : -32768 ≤ s) (hs1 : s ≤ 32767)
    (hv : v ≤ 65535) :
    submix_sample info i d s v pan = spec_submix_16 d s v ∧
    submix_sample info i d s v pan = (d + s * (v : Int) / 65536 + 32768) % 65536 - 32768 ∧
    (-32768 ≤ s * (v : Int) / 65536 ∧ s * (v : Int) / 65536 ≤ 32766) ∧
    (∀ (j : Nat) (pan1 : Int), submix_sample info j d s v pan1 = submix_sample info i d s v pan) ∧
    submix_sample info i d s 0 pan = d ∧
    (info.di_bytes_per_sample = 2 →
      submix_buffer info [d] 0 [s] 2 v pan = [spec_submix_16 d s v]) := by
  have hne : info.di_channels ≠ 2 := by rw [hch]; decide
  have hm : ∀ (j : Nat) (pan1 : Int) (w : Nat),
      submix_sample info j d s w pan1 = spec_submix_16 d s w := by
    intro j pan1 w
    rw [submix_sample_16_mono info j d s w pan1 hbits hne, submix_16_mono_eq_spec]
  obtain ⟨hp0, hp1⟩ := mul_volume_bounds s v (-32768) 32767 hs0 hs1 (by decide) (by decide) hv
  refine ⟨hm i pan v, by rw [hm]; rfl, by constructor <;> omega,
    fun j pan1 => by rw [hm, hm], ?_, ?_⟩
  · rw [hm]
    simp only [spec_submix_16, toI16, Nat.cast_zero, mul_zero, Int.zero_ediv, add_zero]
    omega
  · intro hbps
    have h2 : (Int.tdiv 2 2).toNat = 1 := by decide
    simp only [submix_buffer, hbps, h2, submix_loop, Nat.add_zero, List.getD_cons_zero,
      List.set_cons_zero, hm]

/-- C22, witness: the sum 32767 + 32766 wraps to -3 on the 16-bit mono format, and at
volume 0 the destination 1234 is kept. -/
theorem C22_submix_16_mono_witness :
    submix_sample info_16_mono 0 32767 32767 65535 0 = -3 ∧
    submix_sample info_16_mono 0 1234 (-32768) 0 0 = 1234 :=
  ⟨(C22_submix_16_mono info_16_mono 0 32767 32767 65535 0 (by decide) (by decide) (by decide)
      (by decide) (by decide) (by decide) (by decide)).1.trans (by decide),
   (C22_submix_16_mono info_16_mono 0 1234 (-32768) 0 0 (by decide) (by decide) (by decide)
      (by decide) (by decide) (by decide) (by decide)).2.2.2.2.1⟩

/-- C24: on a 16-bit stereo device, for every source sample `s` (signed 16-bit, negative
ones included), destination sample `d`, voice volume, pan and sample index, the submix
result is `d + floor(s*e / 65536)` reduced modulo 2^16 to signed 16-bit, where `e` is the
per-channel volume `pan_volume` which the code computes for the index: the stereo path,
which multiplies in unsigned 32-bit arithmetic and shifts logically, gives the result of the
signed 16-bit mono formula run with volume `e`. -/
theorem C24_submix_16_stereo_refines_mono (info : SAL_DeviceInfo) (i : Nat) (d s : Int)
    (voice_volume : Nat) (voice_pan : Int)
    (hbits : info.di_bits = 16) (hch : info.di_channels = 2)
    (hs0 : -32768 ≤ s) (hs1 : s ≤ 32767) :
    submix_sample info i d s voice_volume voice_pan
      = spec_submix_16 d s (pan_volume voice_volume voice_pan i) ∧
    submix_sample info i d s voice_volume voice_pan
      = submix_16_mono d s (pan_volume voice_volume voice_pan i) ∧
    submix_16_stereo i d s voice_volume voice_pan
      = submix_16_mono d s (pan_volume voice_volume voice_pan i) ∧
    pan_volume voice_volume voice_pan i ≤ 65535 := by
  have h8 : ¬ ((16 : Int) = 8) := by decide
  have hst : submix_sample info i d s voice_volume voice_pan
      = submix_16_stereo i d s voice_volume voice_pan := by
    simp only [submix_sample, hbits, hch, h8, if_true, if_false]
  have heq := submix_16_stereo_eq_mono i d s voice_volume voice_pan hs0 hs1
  exact ⟨by rw [hst, heq, submix_16_mono_eq_spec], by rw [hst, heq], heq,
    pan_volume_le voice_volume voice_pan i⟩

/-- C24, witness: the source -32768 at volume 40000 and pan 1000 on the 16-bit stereo
format, right channel: the result -32768 is the one of the mono formula at volume 42000. -/
theorem C24_submix_16_stereo_refines_mono_witness :
    pan_volume 40000 1000 1 = 42000 ∧
    submix_sample info_16_stereo 1 11768 (-32768) 40000 1000 = submix_16_mono 11768 (-32768) 42000 ∧
    submix_16_mono 11768 (-32768) 42000 = -9232 :=
  ⟨by decide,
   (C24_submix_16_stereo_refines_mono info_16_stereo 1 11768 (-32768) 40000 1000 (by decide)
      (by decide) (by decide) (by decide)).2.1,
   by decide⟩

/-- C23, the per-channel volume of the code: for every voice volume in [0,65535] and pan in
[-32768,32767] the volume used at an index is `voice_volume + 2*pan` (odd index) or
`voice_volume - 2*pan` (even index) capped at 65535 when that sum is not negative, as the
specification says, but 65535 instead of 0 when the sum is negative: the sum is an unsigned
32-bit value, so the test `volume < 0` never holds and the wrapped sum meets the upper cap.
So the code differs from `spec_pan_volume` exactly for the negative sums. -/
theorem C23_pan_volume_negative_sum (voice_volume : Nat) (voice_pan : Int) (i : Nat)
    (hv : voice_volume ≤ 65535) (hp0 : -32768 ≤ voice_pan) (hp1 : voice_pan ≤ 32767) :
    ((pan_volume voice_volume voice_pan i : Nat) : Int)
      = (if (if i % 2 = 1 then (voice_volume : Int) + 2 * voice_pan
              else (voice_volume : Int) - 2 * voice_pan) < 0
         then 65535 else spec_pan_volume voice_volume voice_pan i) ∧
    ((if i % 2 = 1 then (voice_volume : Int) + 2 * voice_pan
        else (voice_volume : Int) - 2 * voice_pan) < 0 →
      spec_pan_volume voice_volume voice_pan i = 0 ∧
      pan_volume voice_volume voice_pan i = 65535) := by
  have key : ∀ e : Int, -65536 ≤ e → e ≤ 131071 →
      (((if (e % 4294967296).toNat > 65535 then 65535 else (e % 4294967296).toNat : Nat) : Int)
        = (if e < 0 then 65535 else max 0 (min e 65535))) ∧
      (e < 0 → max 0 (min e 65535) = 0 ∧
        (if (e % 4294967296).toNat > 65535 then 65535 else (e % 4294967296).toNat) = 65535) := by
    intro e he0 he1
    by_cases hneg : e < 0
    · have h1 : (e % 4294967296).toNat > 65535 := by omega
      rw [if_pos h1, if_pos hneg]
      exact ⟨rfl, fun _ => ⟨by omega, rfl⟩⟩
    · rw [if_neg hneg]
      refine ⟨?_, fun h => absurd h hneg⟩
      by_cases h2 : (e % 4294967296).toNat > 65535
      · rw [if_pos h2]; omega
      · rw [if_neg h2]; omega
  unfold pan_volume spec_pan_volume toU32
  by_cases hi : i % 2 = 1
  · simp only [hi, if_true]
    have h := key ((voice_volume : Int) + 2 * voice_pan) (by omega) (by omega)
    have he : (voice_volume : Int) + voice_pan * 2 = (voice_volume : Int) + 2 * voice_pan := by
      omega
    rw [he]
    exact h
  · simp only [hi, if_false]
    have h := key ((voice_volume : Int) - 2 * voice_pan) (by omega) (by omega)
    have he : (voice_volume : Int) - voice_pan * 2 = (voice_volume : Int) - 2 * voice_pan := by
      omega
    rw [he]
    exact h

/-- C23, witness and failing input: voice volume 32768 at `SAL_PAN_HARD_LEFT` on the right
channel (index 1); the sum is -32766, the clamp of the specification gives 0, the code uses
65535, and the source 16384 is mixed into the silent right channel of the 16-bit stereo
format as 16383. -/
theorem C23_pan_volume_negative_sum_witness :
    spec_pan_volume 32768 SAL_PAN_HARD_LEFT 1 = 0 ∧
    pan_volume 32768 SAL_PAN_HARD_LEFT 1 = 65535 ∧
    submix_sample info_16_stereo 1 0 16384 32768 SAL_PAN_HARD_LEFT = 16383 :=
  ⟨((C23_pan_volume_negative_sum 32768 SAL_PAN_HARD_LEFT 1 (by decide) (by decide)
      (by decide)).2 (by decide)).1,
   ((C23_pan_volume_negative_sum 32768 SAL_PAN_HARD_LEFT 1 (by decide) (by decide)
      (by decide)).2 (by decide)).2,
   by decide⟩

/-! ## Claim C25: `_SAL_mix_chunk` starts from silence -/

/-- The loop of `submix_buffer` on two destinations that agree below position `k`: the
results agree below `k`. -/
theorem submix_loop_agree (info : SAL_DeviceInfo) (kp_src : List Int) (voice_volume : Nat)
    (voice_pan : Int) (off k : Nat) :
    ∀ (n i : Nat) (dst dst1 : List Int),
      (∀ j, j < k → dst[j]? = dst1[j]?) →
      ∀ j, j < k →
        (submix_loop info kp_src voice_volume voice_pan off n i dst)[j]?
          = (submix_loop info kp_src voice_volume voice_pan off n i dst1)[j]? := by
  intro n
  induction n with
  | zero => intro i dst dst1 h j hj; exact h j hj
  | succ n ih =>
    intro i dst dst1 h j hj
    simp only [submix_loop]
    apply ih _ _ _ _ j hj
    intro j1 hj1
    rw [List.getElem?_set, List.getElem?_set]
    by_cases hp : off + i = j1
    · subst hp
      have hlen : (off + i < dst.length) ↔ (off + i < dst1.length) := by
        have h2 := h _ hj1
        constructor
        · intro hl
          by_contra hc
          rw [List.getElem?_eq_getElem hl, List.getElem?_eq_none (by omega)] at h2
          cases h2
        · intro hl
          by_contra hc
          rw [List.getElem?_eq_getElem hl, List.getElem?_eq_none (by omega)] at h2
          cases h2
      simp only [if_true, List.getD_eq_getElem?_getD, h _ hj1, hlen]
    · simp only [hp, if_false]
      exact h j1 hj1

/-- The pass of one voice of `_SAL_mix_chunk` on two destinations that agree below position
`k`: the device and the scratch buffer it leaves are the same, and the destinations agree
below `k`. -/
theorem mix_voice_loop_agree (decode : sal_sample_decode_fnc_t) (i : Nat) (bytes_to_mix : Nat)
    (k : Nat) :
    ∀ (fuel : Nat) (bytes_left : Int) (d : SAL_Device) (dst dst1 buf : List Int),
      (∀ j, j < k → dst[j]? = dst1[j]?) →
      (mix_voice_loop decode i bytes_to_mix fuel bytes_left (d, dst, buf)).1
        = (mix_voice_loop decode i bytes_to_mix fuel bytes_left (d, dst1, buf)).1 ∧
      (mix_voice_loop decode i bytes_to_mix fuel bytes_left (d, dst, buf)).2.2
        = (mix_voice_loop decode i bytes_to_mix fuel bytes_left (d, dst1, buf)).2.2 ∧
      ∀ j, j < k →
        (mix_voice_loop decode i bytes_to_mix fuel bytes_left (d, dst, buf)).2.1[j]?
          = (mix_voice_loop decode i bytes_to_mix fuel bytes_left (d, dst1, buf)).2.1[j]? := by
  intro fuel
  induction fuel with
  | zero => intro bytes_left d dst dst1 buf h; exact ⟨rfl, rfl, h⟩
  | succ fuel ih =>
    intro bytes_left d dst dst1 buf h
    simp only [mix_voice_loop]
    by_cases hpos : bytes_left > 0
    · rw [if_pos hpos, if_pos hpos]
      by_cases hend : (decode d i buf (if bytes_left > 512 then 512 else bytes_left)).1 ≠ 0
      · rw [if_pos hend, if_pos hend]
        refine ⟨rfl, rfl, ?_⟩
        intro j hj
        exact submix_loop_agree _ _ _ _ _ k _ _ dst dst1 h j hj
      · rw [if_neg hend, if_neg hend]
        apply ih
        intro j hj
        exact submix_loop_agree _ _ _ _ _ k _ _ dst dst1 h j hj
    · rw [if_neg hpos, if_neg hpos]
      exact ⟨rfl, rfl, h⟩

theorem mix_fold_agree (decode : sal_sample_decode_fnc_t) (bytes_to_mix : Nat) (k : Nat)
    (l : List Nat) :
    ∀ (d : SAL_Device) (dst dst1 buf : List Int),
      (∀ j, j < k → dst[j]? = dst1[j]?) →
      (l.foldl (mix_voice decode bytes_to_mix) (d, dst, buf)).1
        = (l.foldl (mix_voice decode bytes_to_mix) (d, dst1, buf)).1 ∧
      ∀ j, j < k →
        (l.foldl (mix_voice decode bytes_to_mix) (d, dst, buf)).2.1[j]?
          = (l.foldl (mix_voice decode bytes_to_mix) (d, dst1, buf)).2.1[j]? := by
  induction l with
  | nil => intro d dst dst1 buf h; exact ⟨rfl, h⟩
  | cons i l ih =>
    intro d dst dst1 buf h
    simp only [List.foldl_cons]
    have hstep : (mix_voice decode bytes_to_mix (d, dst, buf) i).1
          = (mix_voice decode bytes_to_mix (d, dst1, buf) i).1 ∧
        (mix_voice decode bytes_to_mix (d, dst, buf) i).2.2
          = (mix_voice decode bytes_to_mix (d, dst1, buf) i).2.2 ∧
        ∀ j, j < k → (mix_voice decode bytes_to_mix (d, dst, buf) i).2.1[j]?
          = (mix_voice decode bytes_to_mix (d, dst1, buf) i).2.1[j]? := by
      by_cases h0 : (d.voice i).voice_num_repetitions = 0
      · have hm : ∀ x : List Int, mix_voice decode bytes_to_mix (d, x, buf) i = (d, x, buf) :=
          fun x => if_pos h0
        rw [hm dst, hm dst1]
        exact ⟨rfl, rfl, h⟩
      · have hm : ∀ x : List Int, mix_voice decode bytes_to_mix (d, x, buf) i
            = mix_voice_loop decode i bytes_to_mix (toI32 bytes_to_mix).toNat
                (toI32 bytes_to_mix) (d, x, buf) :=
          fun x => if_neg h0
        rw [hm dst, hm dst1]
        exact mix_voice_loop_agree decode i bytes_to_mix k _ _ d dst dst1 buf h
    obtain ⟨s1, s2, s3⟩ := hstep
    have e1 : mix_voice decode bytes_to_mix (d, dst, buf) i
        = ((mix_voice decode bytes_to_mix (d, dst, buf) i).1,
           (mix_voice decode bytes_to_mix (d, dst, buf) i).2.1,
           (mix_voice decode bytes_to_mix (d, dst, buf) i).2.2) := rfl
    have e2 : mix_voice decode bytes_to_mix (d, dst1, buf) i
        = ((mix_voice decode bytes_to_mix (d, dst, buf) i).1,
           (mix_voice decode bytes_to_mix (d, dst1, buf) i).2.1,
           (mix_voice decode bytes_to_mix (d, dst, buf) i).2.2) := by
      rw [s1, s2]
    rw [e1, e2]
    exact ih _ _ _ _ s3

theorem clear_chunk_getElem (info : SAL_DeviceInfo) (dst : List Int) (bytes_to_mix : Nat)
    (j : Nat) (hj : j < (Int.tdiv (bytes_to_mix : Int) info.di_bytes_per_sample).toNat) :
    (clear_chunk info dst bytes_to_mix)[j]?
      = if j < dst.length then some (if info.di_bits = 8 then 128 else 0) else none := by
  unfold clear_chunk
  simp only
  by_cases hl : j < dst.length
  · rw [if_pos hl, List.getElem?_append_left (by simp; omega)]
    rw [List.getElem?_replicate]
    simp [hj, hl]
  · rw [if_neg hl]
    apply List.getElem?_eq_none
    simp only [List.length_append, List.length_replicate, List.length_drop]
    omega

/-- With no PLAYING slot the loop over the voice table changes nothing. -/
theorem mix_fold_idle (decode : sal_sample_decode_fnc_t) (bytes_to_mix : Nat) (d : SAL_Device)
    (hidle : ∀ i, (d.voice i).voice_num_repetitions = 0) (l : List Nat) :
    ∀ (dst buf : List Int),
      l.foldl (mix_voice decode bytes_to_mix) (d, dst, buf) = (d, dst, buf) := by
  induction l with
  | nil => intro dst buf; rfl
  | cons i l ih =>
    intro dst buf
    have h : mix_voice decode bytes_to_mix (d, dst, buf) i = (d, dst, buf) :=
      if_pos (hidle i)
    rw [List.foldl_cons, h, ih]

/-- C25: `_SAL_mix_chunk( device, dst, n )` returns Ok, and the `n` bytes it produces (the
first `n / di_bytes_per_sample` samples of the destination) do not depend on the previous
content of `dst`, nor does the device state it leaves.  When no slot is PLAYING every one
of these samples is the silence value (128 = 0x80 on an 8-bit device, 0 on a 16-bit device)
and the device, with its voice table and all ref counts, is unchanged. -/
theorem C25_mix_chunk_from_silence (decode : sal_sample_decode_fnc_t) (d : SAL_Device)
    (dst dst1 decode_buffer : List Int) (bytes_to_mix : Nat) :
    (_SAL_mix_chunk decode d dst decode_buffer bytes_to_mix).1 = SALERR_OK ∧
    (dst.length = dst1.length →
      (_SAL_mix_chunk decode d dst decode_buffer bytes_to_mix).2.1
        = (_SAL_mix_chunk decode d dst1 decode_buffer bytes_to_mix).2.1 ∧
      ∀ j, j < (Int.tdiv (bytes_to_mix : Int) d.device_info.di_bytes_per_sample).toNat →
        (_SAL_mix_chunk decode d dst decode_buffer bytes_to_mix).2.2[j]?
          = (_SAL_mix_chunk decode d dst1 decode_buffer bytes_to_mix).2.2[j]?) ∧
    ((∀ i, i < d.device_voices.length → (d.voice i).voice_num_repetitions = 0) →
      (_SAL_mix_chunk decode d dst decode_buffer bytes_to_mix).2.1 = d ∧
      (∀ j, j < (Int.tdiv (bytes_to_mix : Int) d.device_info.di_bytes_per_sample).toNat →
        j < dst.length →
        (_SAL_mix_chunk decode d dst decode_buffer bytes_to_mix).2.2[j]?
          = some (if d.device_info.di_bits = 8 then 128 else 0)) ∧
      (∀ p, (_SAL_mix_chunk decode d dst decode_buffer bytes_to_mix).2.1.ref_count p
        = d.ref_count p) ∧
      (∀ i, (_SAL_mix_chunk decode d dst decode_buffer bytes_to_mix).2.1.voice i = d.voice i)) := by
  refine ⟨rfl, ?_, ?_⟩
  · intro hlen
    have h0 : ∀ j, j < (Int.tdiv (bytes_to_mix : Int) d.device_info.di_bytes_per_sample).toNat →
        (clear_chunk d.device_info dst bytes_to_mix)[j]?
          = (clear_chunk d.device_info dst1 bytes_to_mix)[j]? := by
      intro j hj
      rw [clear_chunk_getElem _ _ _ j hj, clear_chunk_getElem _ _ _ j hj, hlen]
    exact mix_fold_agree decode bytes_to_mix _ (List.range d.device_voices.length) d _ _
      decode_buffer h0
  · intro hidle
    have hidle2 : ∀ i, (d.voice i).voice_num_repetitions = 0 := by
      intro i
      by_cases hi : i < d.device_voices.length
      · exact hidle i hi
      · rw [voice_eq_zero_of_le d i (by omega)]; rfl
    have hfold := mix_fold_idle decode bytes_to_mix d hidle2 (List.range d.device_voices.length)
      (clear_chunk d.device_info dst bytes_to_mix) decode_buffer
    have hd : (_SAL_mix_chunk decode d dst decode_buffer bytes_to_mix).2.1 = d := by
      simp only [_SAL_mix_chunk, hfold]
    refine ⟨hd, ?_, fun p => by rw [hd], fun i => by rw [hd]⟩
    intro j hj hl
    simp only [_SAL_mix_chunk, hfold]
    rw [clear_chunk_getElem _ _ _ j hj, if_pos hl]

/-- C25, witness: on the idle 8-voice device (16 bits) a chunk of 8 bytes over the
destination [5, 6, 7, 8, 9] leaves four samples of silence and the device as it was. -/
theorem C25_mix_chunk_from_silence_witness :
    (_SAL_mix_chunk _SAL_generic_decode_sample device8 [5, 6, 7, 8, 9] [] 8).2.1 = device8 ∧
    (_SAL_mix_chunk _SAL_generic_decode_sample device8 [5, 6, 7, 8, 9] [] 8).2.2[3]?
      = some 0 ∧
    (_SAL_mix_chunk _SAL_generic_decode_sample device8_playing [5, 6, 7, 8, 9] [] 8).2.2[3]?
      = (_SAL_mix_chunk _SAL_generic_decode_sample device8_playing [1, 1, 1, 1, 1] [] 8).2.2[3]? :=
  ⟨((C25_mix_chunk_from_silence _SAL_generic_decode_sample device8 [5, 6, 7, 8, 9] [] [] 8).2.2
      (by decide)).1,
   (((C25_mix_chunk_from_silence _SAL_generic_decode_sample device8 [5, 6, 7, 8, 9] [] [] 8).2.2
      (by decide)).2.1 3 (by decide) (by decide)).trans (by decide),
   ((C25_mix_chunk_from_silence _SAL_generic_decode_sample device8_playing [5, 6, 7, 8, 9]
      [1, 1, 1, 1, 1] [] 8).2.1 (by decide)).2 3 (by decide)⟩

/-! ## Claim C27: a voice with `n` repetitions, advanced frame by frame -/

/-- The function `_SAL_advance_voice` is the step of the specification on its slot. -/
theorem advance_voice_eq_spec (d : SAL_Device) (i : Nat) (n : Int) :
    _SAL_advance_voice d i n
      = ((spec_advance_voice (d.voice i) n).1,
         d.set_voice i (spec_advance_voice (d.voice i) n).2) := by
  unfold _SAL_advance_voice spec_advance_voice
  simp only
  by_cases h1 : (d.voice i).voice_loop_end ≠ 0
  · by_cases h2 : toU32 (((d.voice i).voice_cursor : Int) + n) ≥ (d.voice i).voice_loop_end
    · by_cases h3 : (d.voice i).voice_num_repetitions ≠ SAL_LOOP_ALWAYS
      · by_cases h4 : (d.voice i).voice_num_repetitions - 1 ≤ 0
        · simp only [h1, h2, h3, h4, and_self, if_true, ne_eq, not_false_eq_true]
        · simp only [h1, h2, h3, h4, and_self, if_true, if_false, ne_eq, not_false_eq_true]
      · simp only [h1, h2, h3, and_self, if_true, if_false, ne_eq, not_false_eq_true]
    · simp only [h1, h2, and_false, if_true, if_false, ne_eq, not_false_eq_true]
  · simp only [h1, false_and, if_false]

/-- One 1-frame step of the specification on a voice whose cursor is below `N`, with loop
bounds `S < L <= N < 2^32`: the loop bounds, the sample, the volume and the pan are kept and
the cursor becomes its successor. -/
theorem spec_advance_voice_one (v : SAL_Voice) (N : Nat)
    (hS : v.voice_loop_start < v.voice_loop_end) (hLN : v.voice_loop_end ≤ N)
    (hN : N < 4294967296) (hc : v.voice_cursor < N) :
    (spec_advance_voice v 1).2.voice_cursor
      = spec_next_cursor v.voice_loop_start v.voice_loop_end v.voice_cursor ∧
    (spec_advance_voice v 1).2.voice_loop_start = v.voice_loop_start ∧
    (spec_advance_voice v 1).2.voice_loop_end = v.voice_loop_end ∧
    (spec_advance_voice v 1).2.voice_sample = v.voice_sample ∧
    (spec_advance_voice v 1).2.voice_volume = v.voice_volume ∧
    (spec_advance_voice v 1).2.voice_pan = v.voice_pan := by
  have hcu : toU32 ((v.voice_cursor : Int) + 1) = v.voice_cursor + 1 := by
    rw [toU32_of_lt _ (by omega) (by omega)]
    omega
  have hne : v.voice_loop_end ≠ 0 := by omega
  unfold spec_advance_voice spec_next_cursor
  simp only [hcu, hne, ne_eq, not_false_eq_true, true_and]
  by_cases h : v.voice_cursor + 1 < v.voice_loop_end
  · have h2 : ¬ (v.voice_cursor + 1 ≥ v.voice_loop_end) := by omega
    simp only [h, h2, if_true, if_false, and_self]
  · have h2 : v.voice_cursor + 1 ≥ v.voice_loop_end := by omega
    simp only [h, h2, if_true, if_false]
    split <;> exact ⟨rfl, rfl, rfl, rfl, rfl, rfl⟩

theorem spec_cursor_lt (S L N c : Nat) (hS : S < L) (hLN : L ≤ N) (hc : c < N) :
    ∀ m, spec_cursor S L c m < N ∧ (c < L → spec_cursor S L c m < L) ∧
      (1 ≤ m → spec_cursor S L c m < L) := by
  intro m
  induction m with
  | zero => exact ⟨hc, fun h => h, fun h => absurd h (by decide)⟩
  | succ m ih =>
    simp only [spec_cursor, spec_next_cursor]
    split
    · exact ⟨by omega, fun _ => by omega, fun _ => by omega⟩
    · exact ⟨by omega, fun _ => hS, fun _ => hS⟩

/-- The voice after `m` calls `_SAL_advance_voice( device, i, 1 )`, whatever its repetitions
are: the loop bounds, the sample, the volume and the pan are those of the start, and the
cursor is the `m`-th cursor of the specification. -/
theorem advance_steps_voice (d : SAL_Device) (i N : Nat) (hi : i < d.device_voices.length)
    (hS : (d.voice i).voice_loop_start < (d.voice i).voice_loop_end)
    (hLN : (d.voice i).voice_loop_end ≤ N) (hN : N < 4294967296)
    (hc : (d.voice i).voice_cursor < N) :
    ∀ m, i < (advance_steps d i m).device_voices.length ∧
      ((advance_steps d i m).voice i).voice_cursor
        = spec_cursor (d.voice i).voice_loop_start (d.voice i).voice_loop_end
            (d.voice i).voice_cursor m ∧
      ((advance_steps d i m).voice i).voice_loop_start = (d.voice i).voice_loop_start ∧
      ((advance_steps d i m).voice i).voice_loop_end = (d.voice i).voice_loop_end ∧
      ((advance_steps d i m).voice i).voice_sample = (d.voice i).voice_sample ∧
      ((advance_steps d i m).voice i).voice_volume = (d.voice i).voice_volume ∧
      ((advance_steps d i m).voice i).voice_pan = (d.voice i).voice_pan ∧
      (advance_steps d i m).device_heap = d.device_heap ∧
      (advance_steps d i m).device_info = d.device_info := by
  intro m
  induction m with
  | zero => exact ⟨hi, rfl, rfl, rfl, rfl, rfl, rfl, rfl, rfl⟩
  | succ m ih =>
    obtain ⟨a0, a1, a2, a3, a4, a5, a6, a7, a8⟩ := ih
    have hb := (spec_cursor_lt _ _ N _ hS hLN hc m).1
    obtain ⟨b1, b2, b3, b4, b5, b6⟩ := spec_advance_voice_one ((advance_steps d i m).voice i) N
      (by rw [a2, a3]; exact hS) (by rw [a3]; exact hLN) hN (by rw [a1]; exact hb)
    have hst : advance_steps d i (m + 1)
        = (advance_steps d i m).set_voice i
            (spec_advance_voice ((advance_steps d i m).voice i) 1).2 := by
      show (_SAL_advance_voice (advance_steps d i m) i 1).2 = _
      rw [advance_voice_eq_spec]
    have hv : (advance_steps d i (m + 1)).voice i
        = (spec_advance_voice ((advance_steps d i m).voice i) 1).2 := by
      rw [hst, voice_set_voice, if_pos ⟨rfl, a0⟩]
    refine ⟨by rw [hst, voices_length_set_voice]; exact a0, ?_, by rw [hv, b2, a2],
      by rw [hv, b3, a3], by rw [hv, b4, a4], by rw [hv, b5, a5], by rw [hv, b6, a6],
      by rw [hst, heap_set_voice, a7], by rw [hst]; exact a8⟩
    rw [hv, b1, a1, a2, a3]
    rfl

/-- The laps of a voice with `n` repetitions started at cursor 0: lap `q + 1` ends with call
number `L + q*w`, `w = L - S`, which leaves the cursor at `S` and `n - (q+1)` repetitions;
the calls before it return 1, and the arrivals at the loop end so far are the calls number
`L + p*w`, `p <= q`. -/
theorem advance_laps (d : SAL_Device) (i S L w n : Nat) (hw : S + w = L) (hw1 : 1 ≤ w)
    (hL : L < 4294967296)
    (hc : (d.voice i).voice_cursor = 0)
    (hs : (d.voice i).voice_loop_start = S)
    (hl : (d.voice i).voice_loop_end = L)
    (hr : (d.voice i).voice_num_repetitions = (n : Int)) :
    ∀ q : Nat, q + 1 ≤ n →
      (((advance_steps d i (L + q * w)).voice i).voice_cursor = S ∧
        ((advance_steps d i (L + q * w)).voice i).voice_loop_start = S ∧
        ((advance_steps d i (L + q * w)).voice i).voice_loop_end = L ∧
        ((advance_steps d i (L + q * w)).voice i).voice_num_repetitions
          = (n : Int) - ((q : Int) + 1)) ∧
      (∀ m : Nat, m + 1 < L + q * w → advance_result d i m = 1) ∧
      advance_result d i (L + q * w - 1) = (if (n : Int) - ((q : Int) + 1) ≤ 0 then 0 else 1) ∧
      (∀ m : Nat, m < L + q * w →
        (crosses_loop_end d i m ↔ ∃ p : Nat, p ≤ q ∧ m + 1 = L + p * w)) := by
  intro q
  induction q with
  | zero =>
    intro hq
    obtain ⟨a1, a2, a3, a4⟩ := advance_lap d i (by rw [hl]; exact hL) (by rw [hc, hl]; omega)
      (by rw [hr]; omega)
    simp only [hc, hl, hs, hr, Nat.sub_zero, Nat.zero_add] at a1 a2 a3 a4
    simp only [Nat.zero_mul, Nat.add_zero, Nat.cast_zero, zero_add]
    refine ⟨⟨by rw [a4], by rw [a4], by rw [a4], by rw [a4]⟩, fun m hm => (a1 m hm).1, a2, ?_⟩
    intro m hm
    constructor
    · intro hcr
      refine ⟨0, Nat.le_refl 0, ?_⟩
      by_cases h : m + 1 < L
      · exact absurd hcr (a1 m h).2
      · omega
    · rintro ⟨p, hp, hm2⟩
      have hp0 : p = 0 := by omega
      subst hp0
      have hm3 : m = L - 1 := by omega
      rw [hm3]; exact a3
  | succ q ih =>
    intro hq
    obtain ⟨⟨c1, s1, l1, r1⟩, i2, i3, i4⟩ := ih (by omega)
    have hmul : (q + 1) * w = q * w + w := Nat.succ_mul q w
    have hcast : (n : Int) - (((q + 1 : Nat) : Int) + 1) = (n : Int) - ((q : Int) + 1) - 1 := by
      push_cast; omega
    rw [hmul, hcast]
    have hpos : ¬ ((n : Int) - ((q : Int) + 1) ≤ 0) := by omega
    rw [if_neg hpos] at i3
    obtain ⟨b1, b2, b3, b4⟩ := advance_lap (advance_steps d i (L + q * w)) i
      (by rw [l1]; exact hL) (by rw [c1, l1]; omega) (by rw [r1]; omega)
    simp only [c1, l1, s1, r1] at b1 b2 b3 b4
    have hLS : L - S = w := by omega
    rw [hLS, ← advance_steps_add] at b4
    rw [hLS] at b2 b3
    have hadd : L + (q * w + w) = L + q * w + w := by omega
    rw [hadd]
    have hmulle : ∀ p : Nat, p ≤ q → p * w ≤ q * w := fun p hp => Nat.mul_le_mul_right w hp
    generalize hQ : q * w = Q at *
    refine ⟨⟨by rw [b4], by rw [b4], by rw [b4], by rw [b4]⟩, ?_, ?_, ?_⟩
    · intro m hm
      by_cases h1 : m + 1 < L + Q
      · exact i2 m h1
      by_cases h2 : m + 1 = L + Q
      · have hm2 : m = L + Q - 1 := by omega
        rw [hm2]; exact i3
      · obtain ⟨t, ht⟩ : ∃ t, m = L + Q + t := ⟨m - (L + Q), by omega⟩
        rw [ht, advance_result_add]
        exact (b1 t (by omega)).1
    · have hm2 : L + Q + w - 1 = L + Q + (w - 1) := by omega
      rw [hm2, advance_result_add]
      exact b2
    · intro m hm
      constructor
      · intro hcr
        by_cases h1 : m < L + Q
        · obtain ⟨p, hp, hpm⟩ := (i4 m h1).mp hcr
          exact ⟨p, by omega, hpm⟩
        · obtain ⟨t, ht⟩ : ∃ t, m = L + Q + t := ⟨m - (L + Q), by omega⟩
          rw [ht, crosses_loop_end_add] at hcr
          by_cases h2 : S + t + 1 < L
          · exact absurd hcr (b1 t h2).2
          · exact ⟨q + 1, Nat.le_refl _, by rw [hmul]; omega⟩
      · rintro ⟨p, hp, hpm⟩
        by_cases h1 : p ≤ q
        · have h2 := hmulle p h1
          exact (i4 m (by omega)).mpr ⟨p, h1, hpm⟩
        · have hp2 : p = q + 1 := by omega
          rw [hp2, hmul] at hpm
          have hm2 : m = L + Q + (w - 1) := by omega
          rw [hm2, crosses_loop_end_add]
          exact b3

/-- C27: for every repetitions count `n >= 1` and loop bounds `0 <= S < L`, a voice started
at cursor 0 and advanced by calls `_SAL_advance_voice( device, i, 1 )` returns 0 (ended) for
the first time on call number `L + (n-1)*(L-S)`: every earlier call returns 1 (still
playing).  The arrivals at the loop end up to there are exactly the calls number
`L + q*(L-S)` for `q < n`, so the ending call is the `n`-th arrival; and after every call
the cursor is `< L`. -/
theorem C27_ends_on_nth_arrival (d : SAL_Device) (i S L n : Nat)
    (hSL : S < L) (hL : L < 4294967296) (hn : 1 ≤ n)
    (hc : (d.voice i).voice_cursor = 0)
    (hs : (d.voice i).voice_loop_start = S)
    (hl : (d.voice i).voice_loop_end = L)
    (hr : (d.voice i).voice_num_repetitions = (n : Int)) :
    (∀ m : Nat, m + 1 < L + (n - 1) * (L - S) → advance_result d i m = 1) ∧
    advance_result d i (L + (n - 1) * (L - S) - 1) = 0 ∧
    (∀ m : Nat, m < L + (n - 1) * (L - S) →
      (crosses_loop_end d i m ↔ ∃ q : Nat, q < n ∧ m + 1 = L + q * (L - S))) ∧
    (∀ m : Nat, ((advance_steps d i m).voice i).voice_cursor < L) ∧
    ((advance_steps d i (L + (n - 1) * (L - S))).voice i).voice_num_repetitions = 0 := by
  have hi : i < d.device_voices.length :=
    lt_of_voice_playing d i (by rw [hr]; omega)
  obtain ⟨⟨_, _, _, r1⟩, i2, i3, i4⟩ := advance_laps d i S L (L - S) n (by omega) (by omega) hL
    hc hs hl hr (n - 1) (by omega)
  have hcast : (n : Int) - (((n - 1 : Nat) : Int) + 1) = 0 := by omega
  rw [hcast] at r1 i3
  refine ⟨i2, by rw [i3]; rfl, ?_, ?_, r1⟩
  · intro m hm
    rw [i4 m hm]
    constructor
    · rintro ⟨p, hp, hpm⟩
      exact ⟨p, by omega, hpm⟩
    · rintro ⟨p, hp, hpm⟩
      exact ⟨p, by omega, hpm⟩
  · intro m
    obtain ⟨_, k1, _⟩ := advance_steps_voice d i L hi (by rw [hs, hl]; exact hSL)
      (by rw [hl]) hL (by rw [hc]; omega) m
    rw [k1, hs, hl, hc]
    exact ((spec_cursor_lt S L L 0 hSL (Nat.le_refl L) (by omega)) m).2.1 (by omega)

/-- C27, witness: the voice of `device8_loop3` (`S = 1`, `L = 3`, 3 repetitions) ends on
call number 3 + 2*2 = 7. -/
theorem C27_ends_on_nth_arrival_witness :
    advance_result device8_loop3 0 (3 + (3 - 1) * (3 - 1) - 1) = 0 ∧
    (∀ m : Nat, m + 1 < 3 + (3 - 1) * (3 - 1) → advance_result device8_loop3 0 m = 1) := by
  have h := C27_ends_on_nth_arrival device8_loop3 0 1 3 3 (by decide) (by decide) (by decide)
    (by decide) (by decide) (by decide) (by decide)
  exact ⟨h.2.1, h.1⟩

/-! ## The copy loop of the generic decoder -/

theorem advance_steps_succ_left (d : SAL_Device) (v : Nat) (t : Nat) :
    advance_steps d v (t + 1) = advance_steps (_SAL_advance_voice d v 1).2 v t := by
  rw [Nat.add_comm, advance_steps_add]
  rfl

theorem advance_result_succ_left (d : SAL_Device) (v : Nat) (t : Nat) :
    advance_result d v (t + 1) = advance_result (_SAL_advance_voice d v 1).2 v t := by
  rw [Nat.add_comm, advance_result_add]
  rfl

theorem decode_read_succ_left (d : SAL_Device) (v : Nat) (data : List Int) (t : Nat) :
    decode_read d v data (t + 1) = decode_read (_SAL_advance_voice d v 1).2 v data t := by
  unfold decode_read
  rw [advance_steps_succ_left]

theorem advance_steps_length (d : SAL_Device) (v : Nat) :
    ∀ t, (advance_steps d v t).device_voices.length = d.device_voices.length := by
  intro t
  induction t with
  | zero => rfl
  | succ t ih =>
    show ((_SAL_advance_voice (advance_steps d v t) v 1).2).device_voices.length = _
    rw [advance_voice_eq_spec]
    dsimp only
    rw [voices_length_set_voice, ih]

/-- Voices other than `v`, the arena, the format and the destroy log are not touched by
calls `_SAL_advance_voice( device, v, 1 )`. -/
theorem advance_steps_other (d : SAL_Device) (v : Nat) :
    ∀ t, (∀ k, k ≠ v → (advance_steps d v t).voice k = d.voice k) ∧
      (advance_steps d v t).device_heap = d.device_heap ∧
      (advance_steps d v t).device_info = d.device_info ∧
      (advance_steps d v t).device_destroyed = d.device_destroyed := by
  intro t
  induction t with
  | zero => exact ⟨fun _ _ => rfl, rfl, rfl, rfl⟩
  | succ t ih =>
    obtain ⟨a1, a2, a3, a4⟩ := ih
    have hst : advance_steps d v (t + 1)
        = (advance_steps d v t).set_voice v
            (spec_advance_voice ((advance_steps d v t).voice v) 1).2 := by
      show (_SAL_advance_voice (advance_steps d v t) v 1).2 = _
      rw [advance_voice_eq_spec]
    rw [hst]
    refine ⟨?_, a2, a3, a4⟩
    intro k hk
    rw [voice_set_voice, if_neg (fun hc => hk hc.1.symm)]
    exact a1 k hk

/-- Writing `x0` at position `i` and then the values `f 0, f 1, ...` from position `i + 1`
on is writing `g 0, g 1, ...` from position `i` on, when `g 0 = x0` and `g (t+1) = f t`. -/
theorem getElem?_fill_step (p : List Int) (i c : Nat) (x0 : Int) (f g : Nat → Int)
    (hg0 : g 0 = x0) (hg : ∀ t, g (t + 1) = f t) (j : Nat) :
    (if i + 1 ≤ j ∧ j < i + 1 + c ∧ j < (p.set i x0).length then some (f (j - (i + 1)))
      else (p.set i x0)[j]?)
      = (if i ≤ j ∧ j < i + (c + 1) ∧ j < p.length then some (g (j - i)) else p[j]?) := by
  rw [List.length_set, List.getElem?_set]
  by_cases h1 : i + 1 ≤ j
  · have hji : j - i = (j - (i + 1)) + 1 := by omega
    have hne : ¬ (i = j) := by omega
    by_cases h2 : j < i + 1 + c ∧ j < p.length
    · rw [if_pos (show i + 1 ≤ j ∧ j < i + 1 + c ∧ j < p.length from ⟨h1, h2⟩),
        if_pos (show i ≤ j ∧ j < i + (c + 1) ∧ j < p.length from ⟨by omega, by omega, h2.2⟩),
        hji, hg]
    · rw [if_neg (show ¬ (i + 1 ≤ j ∧ j < i + 1 + c ∧ j < p.length) from fun hc => h2 hc.2),
        if_neg (show ¬ (i ≤ j ∧ j < i + (c + 1) ∧ j < p.length) from
          fun hc => h2 ⟨by omega, hc.2.2⟩),
        if_neg hne]
  · rw [if_neg (show ¬ (i + 1 ≤ j ∧ j < i + 1 + c ∧ j < p.length) from fun hc => h1 hc.1)]
    by_cases h3 : i = j
    · subst h3
      rw [if_pos rfl]
      by_cases h4 : i < p.length
      · rw [if_pos h4,
          if_pos (show i ≤ i ∧ i < i + (c + 1) ∧ i < p.length from
            ⟨Nat.le_refl i, by omega, h4⟩),
          Nat.sub_self, hg0]
      · rw [if_neg h4,
          if_neg (show ¬ (i ≤ i ∧ i < i + (c + 1) ∧ i < p.length) from fun hc => h4 hc.2.2)]
        exact (List.getElem?_eq_none (by omega)).symm
    · rw [if_neg h3,
        if_neg (show ¬ (i ≤ j ∧ j < i + (c + 1) ∧ j < p.length) from fun hc => by omega)]

/-- The copy loop when none of its `n` calls of `_SAL_advance_voice` returns 0: it returns 0
after `n` iterations, having written the `n` values `decode_read` from position `i` on. -/
theorem generic_decode_loop_all (v : Nat) (data : List Int) :
    ∀ (n i : Nat) (d : SAL_Device) (p_dst : List Int),
      (∀ t, t < n → advance_result d v t ≠ 0) →
      (generic_decode_loop v data n i d p_dst).1 = 0 ∧
      (generic_decode_loop v data n i d p_dst).2.2 = advance_steps d v n ∧
      (generic_decode_loop v data n i d p_dst).2.1.length = p_dst.length ∧
      ∀ j, (generic_decode_loop v data n i d p_dst).2.1[j]?
        = (if i ≤ j ∧ j < i + n ∧ j < p_dst.length then some (decode_read d v data (j - i))
           else p_dst[j]?) := by
  intro n
  induction n with
  | zero =>
    intro i d p_dst _
    refine ⟨rfl, rfl, rfl, fun j => ?_⟩
    rw [if_neg (by omega)]
    rfl
  | succ n ih =>
    intro i d p_dst h
    have h0 : ¬ ((_SAL_advance_voice d v 1).1 = 0) := h 0 (by omega)
    have hl : generic_decode_loop v data (n + 1) i d p_dst
        = generic_decode_loop v data n (i + 1) (_SAL_advance_voice d v 1).2
            (p_dst.set i (read_sample data (SAL_get_voice_cursor d v 0).2)) := by
      simp only [generic_decode_loop, h0, if_false]
    obtain ⟨a1, a2, a3, a4⟩ := ih (i + 1) (_SAL_advance_voice d v 1).2
      (p_dst.set i (read_sample data (SAL_get_voice_cursor d v 0).2))
      (fun t ht => by rw [← advance_result_succ_left]; exact h (t + 1) (by omega))
    rw [hl]
    refine ⟨a1, by rw [a2]; exact (advance_steps_succ_left d v n).symm,
      by rw [a3, List.length_set], fun j => ?_⟩
    rw [a4 j]
    exact getElem?_fill_step p_dst i n _ _ _ rfl (fun t => decode_read_succ_left d v data t) j

/-- The copy loop when call number `k + 1` of `_SAL_advance_voice` is the first to return 0,
`k < n`: it returns 1 right after that call, having written the `k + 1` values
`decode_read` from position `i` on and nothing else. -/
theorem generic_decode_loop_end (v : Nat) (data : List Int) :
    ∀ (k n i : Nat) (d : SAL_Device) (p_dst : List Int),
      k < n → advance_result d v k = 0 → (∀ t, t < k → advance_result d v t ≠ 0) →
      (generic_decode_loop v data n i d p_dst).1 = 1 ∧
      (generic_decode_loop v data n i d p_dst).2.2 = advance_steps d v (k + 1) ∧
      (generic_decode_loop v data n i d p_dst).2.1.length = p_dst.length ∧
      ∀ j, (generic_decode_loop v data n i d p_dst).2.1[j]?
        = (if i ≤ j ∧ j < i + (k + 1) ∧ j < p_dst.length then
             some (decode_read d v data (j - i))
           else p_dst[j]?) := by
  intro k
  induction k with
  | zero =>
    intro n i d p_dst hk h0 _
    obtain ⟨n1, rfl⟩ : ∃ n1, n = n1 + 1 := ⟨n - 1, by omega⟩
    have h00 : (_SAL_advance_voice d v 1).1 = 0 := h0
    have hl : generic_decode_loop v data (n1 + 1) i d p_dst
        = (1, p_dst.set i (read_sample data (SAL_get_voice_cursor d v 0).2),
            (_SAL_advance_voice d v 1).2) := by
      simp only [generic_decode_loop, h00, if_true]
    rw [hl]
    refine ⟨rfl, rfl, List.length_set _ _ _, fun j => ?_⟩
    dsimp only
    have h := getElem?_fill_step p_dst i 0 (read_sample data (SAL_get_voice_cursor d v 0).2)
      (fun _ => 0) (fun t => if t = 0 then decode_read d v data 0 else 0) rfl
      (fun t => by simp) j
    rw [if_neg (by omega)] at h
    rw [h]
    by_cases hc : i ≤ j ∧ j < i + (0 + 1) ∧ j < p_dst.length
    · have hji : j - i = 0 := by omega
      rw [if_pos hc, if_pos hc, hji]
      rfl
    · rw [if_neg hc, if_neg hc]
  | succ k ih =>
    intro n i d p_dst hk h0 hbefore
    obtain ⟨n1, rfl⟩ : ∃ n1, n = n1 + 1 := ⟨n - 1, by omega⟩
    have h00 : ¬ ((_SAL_advance_voice d v 1).1 = 0) := hbefore 0 (by omega)
    have hl : generic_decode_loop v data (n1 + 1) i d p_dst
        = generic_decode_loop v data n1 (i + 1) (_SAL_advance_voice d v 1).2
            (p_dst.set i (read_sample data (SAL_get_voice_cursor d v 0).2)) := by
      simp only [generic_decode_loop, h00, if_false]
    obtain ⟨a1, a2, a3, a4⟩ := ih n1 (i + 1) (_SAL_advance_voice d v 1).2
      (p_dst.set i (read_sample data (SAL_get_voice_cursor d v 0).2)) (by omega)
      (by rw [← advance_result_succ_left]; exact h0)
      (fun t ht => by rw [← advance_result_succ_left]; exact hbefore (t + 1) (by omega))
    rw [hl]
    refine ⟨a1, by rw [a2]; exact (advance_steps_succ_left d v (k + 1)).symm,
      by rw [a3, List.length_set], fun j => ?_⟩
    rw [a4 j]
    exact getElem?_fill_step p_dst i (k + 1) _ _ _ rfl
      (fun t => decode_read_succ_left d v data t) j

/-! ## Claim C26: the generic PCM decoder -/

theorem read_sample_nat (data : List Int) (x : Nat) (hx : x < 2147483648) :
    read_sample data (toI32 (x : Int)) = data.getD x 0 := by
  have h1 : toI32 (x : Int) = (x : Int) := by unfold toI32; omega
  have h2 : (0 : Int) ≤ (x : Int) := Int.ofNat_nonneg x
  rw [h1]
  unfold read_sample
  rw [if_pos h2, Int.toNat_ofNat, List.getD_eq_getElem?_getD]
  cases data[x]? <;> rfl

theorem get_voice_cursor_ok (d : SAL_Device) (v : Nat) (old : Int)
    (hv : v < d.device_voices.length) :
    SAL_get_voice_cursor d (v : Int) old = (SALERR_OK, toI32 (d.voice v).voice_cursor) := by
  have hr : ¬ (((v : Int) < 0) ∨ ((v : Int) ≥ d.device_max_voices)) := by
    simp only [SAL_Device.device_max_voices]; omega
  simp only [SAL_get_voice_cursor, hr, if_false, Int.toNat_ofNat]

/-- The value copied by iteration `t + 1` of the generic decoder, for a voice with loop
bounds `S < L <= N` and cursor below `N`, `N < 2^31`: the sample at the `t`-th cursor of
the specification. -/
theorem decode_read_eq (d : SAL_Device) (v N : Nat) (data : List Int)
    (hv : v < d.device_voices.length)
    (hS : (d.voice v).voice_loop_start < (d.voice v).voice_loop_end)
    (hLN : (d.voice v).voice_loop_end ≤ N) (hN : N < 2147483648)
    (hc : (d.voice v).voice_cursor < N) (t : Nat) :
    decode_read d v data t
      = data.getD (spec_cursor (d.voice v).voice_loop_start (d.voice v).voice_loop_end
          (d.voice v).voice_cursor t) 0 ∧
    (SAL_get_voice_cursor (advance_steps d v t) (v : Int) 0).2
      = ((spec_cursor (d.voice v).voice_loop_start (d.voice v).voice_loop_end
          (d.voice v).voice_cursor t : Nat) : Int) := by
  obtain ⟨a0, a1, _⟩ := advance_steps_voice d v N hv hS hLN (by omega) hc t
  have hb := (spec_cursor_lt _ _ N _ hS hLN hc t).1
  unfold decode_read
  rw [get_voice_cursor_ok _ v 0 a0]
  dsimp only
  rw [a1]
  refine ⟨read_sample_nat data _ (by omega), ?_⟩
  unfold toI32
  omega

/-- The generic decoder on a device of 8 or 16 bits, for a voice of the table bound to the
sample at `p`, is its copy loop over the storage of that sample. -/
theorem generic_decode_sample_eq (d : SAL_Device) (v p : Nat) (p_dst : List Int)
    (bytes_needed : Int) (hv : v < d.device_voices.length)
    (hsam : (d.voice v).voice_sample = some p)
    (hbits : d.device_info.di_bits = 8 ∨ d.device_info.di_bits = 16) :
    _SAL_generic_decode_sample d v p_dst bytes_needed
      = generic_decode_loop v (d.sample p).sample_data
          (Int.tdiv bytes_needed d.device_info.di_bytes_per_sample).toNat 0 d p_dst := by
  have hr : ¬ (((v : Int) < 0) ∨ ((v : Int) ≥ d.device_max_voices)) := by
    simp only [SAL_Device.device_max_voices]; omega
  have hgs : (SAL_get_voice_sample d (v : Int) none).2 = some p := by
    simp only [SAL_get_voice_sample, hr, if_false, Int.toNat_ofNat, hsam]
  unfold _SAL_generic_decode_sample
  simp only [hgs, SAL_get_sample_data]
  rcases hbits with h8 | h16
  · rw [if_pos h8]
  · by_cases h8 : d.device_info.di_bits = 8
    · rw [if_pos h8]
    · rw [if_neg h8, if_pos h16]

/-- C26: the generic PCM decoder, for a PLAYING voice with cursor `c`, loop bounds
`S < L <= N` over a sample of `N` stored samples (`c < N < 2^31`), asked for `m` samples on
a device of 8 or 16 bits, with room for them in `p_dst`.  It writes `out[j] = data[c_j]`,
`c_j` being the cursors of the specification (`c_0 = c`, `c_(j+1) = c_j + 1` if
`c_j + 1 < L`, else `S`; all of them below `N`).  It returns 1 (ended) exactly when one of
the `_SAL_advance_voice` calls of this request returns 0, and then it returns right after
writing the sample whose advance ended the voice, `k + 1` samples if that was call number
`k + 1`, the rest of the buffer being kept; otherwise it returns 0, has written exactly `m`
samples and leaves the cursor at `c_m`. -/
theorem C26_generic_decode_sample (d : SAL_Device) (v p S L N c m : Nat) (p_dst : List Int)
    (bytes_needed : Int)
    (hplay : (d.voice v).voice_num_repetitions ≠ 0)
    (hsam : (d.voice v).voice_sample = some p)
    (hdata : (d.sample p).sample_data.length = N)
    (hs : (d.voice v).voice_loop_start = S) (hl : (d.voice v).voice_loop_end = L)
    (hc : (d.voice v).voice_cursor = c)
    (hSL : S < L) (hLN : L ≤ N) (hcN : c < N) (hN : N < 2147483648)
    (hbits : d.device_info.di_bits = 8 ∨ d.device_info.di_bits = 16)
    (hm : (Int.tdiv bytes_needed d.device_info.di_bytes_per_sample).toNat = m)
    (hbuf : m ≤ p_dst.length) :
    ((_SAL_generic_decode_sample d v p_dst bytes_needed).1 = 1 ↔
      ∃ k, k < m ∧ advance_result d v k = 0) ∧
    ((_SAL_generic_decode_sample d v p_dst bytes_needed).1 = 0 ∨
      (_SAL_generic_decode_sample d v p_dst bytes_needed).1 = 1) ∧
    (∀ k, k < m → advance_result d v k = 0 → (∀ t, t < k → advance_result d v t ≠ 0) →
      (_SAL_generic_decode_sample d v p_dst bytes_needed).1 = 1 ∧
      (_SAL_generic_decode_sample d v p_dst bytes_needed).2.2 = advance_steps d v (k + 1) ∧
      (∀ j, j ≤ k → (_SAL_generic_decode_sample d v p_dst bytes_needed).2.1[j]?
        = some ((d.sample p).sample_data.getD (spec_cursor S L c j) 0)) ∧
      (∀ j, k < j → (_SAL_generic_decode_sample d v p_dst bytes_needed).2.1[j]? = p_dst[j]?)) ∧
    ((∀ k, k < m → advance_result d v k ≠ 0) →
      (_SAL_generic_decode_sample d v p_dst bytes_needed).1 = 0 ∧
      (_SAL_generic_decode_sample d v p_dst bytes_needed).2.2 = advance_steps d v m ∧
      (∀ j, j < m → (_SAL_generic_decode_sample d v p_dst bytes_needed).2.1[j]?
        = some ((d.sample p).sample_data.getD (spec_cursor S L c j) 0)) ∧
      (∀ j, m ≤ j → (_SAL_generic_decode_sample d v p_dst bytes_needed).2.1[j]? = p_dst[j]?) ∧
      ((_SAL_generic_decode_sample d v p_dst bytes_needed).2.2.voice v).voice_cursor
        = spec_cursor S L c m) ∧
    (∀ j, spec_cursor S L c j < (d.sample p).sample_data.length) := by
  have hv := lt_of_voice_playing d v hplay
  have heq := generic_decode_sample_eq d v p p_dst bytes_needed hv hsam hbits
  rw [hm] at heq
  have hrd : ∀ t, decode_read d v (d.sample p).sample_data t
      = (d.sample p).sample_data.getD (spec_cursor S L c t) 0 := by
    intro t
    have h := (decode_read_eq d v N (d.sample p).sample_data hv (by rw [hs, hl]; exact hSL)
      (by rw [hl]; exact hLN) hN (by rw [hc]; exact hcN) t).1
    rw [hs, hl, hc] at h
    exact h
  have hended : ∀ k, k < m → advance_result d v k = 0 →
      (∀ t, t < k → advance_result d v t ≠ 0) →
      (_SAL_generic_decode_sample d v p_dst bytes_needed).1 = 1 ∧
      (_SAL_generic_decode_sample d v p_dst bytes_needed).2.2 = advance_steps d v (k + 1) ∧
      (∀ j, j ≤ k → (_SAL_generic_decode_sample d v p_dst bytes_needed).2.1[j]?
        = some ((d.sample p).sample_data.getD (spec_cursor S L c j) 0)) ∧
      (∀ j, k < j → (_SAL_generic_decode_sample d v p_dst bytes_needed).2.1[j]? = p_dst[j]?) := by
    intro k hk h0 hbefore
    obtain ⟨a1, a2, _, a4⟩ := generic_decode_loop_end v (d.sample p).sample_data k m 0 d p_dst
      hk h0 hbefore
    rw [heq]
    refine ⟨a1, a2, ?_, ?_⟩
    · intro j hj
      rw [a4 j, if_pos ⟨Nat.zero_le j, by omega, by omega⟩, Nat.sub_zero, hrd]
    · intro j hj
      rw [a4 j, if_neg (by omega)]
  have hall : (∀ k, k < m → advance_result d v k ≠ 0) →
      (_SAL_generic_decode_sample d v p_dst bytes_needed).1 = 0 ∧
      (_SAL_generic_decode_sample d v p_dst bytes_needed).2.2 = advance_steps d v m ∧
      (∀ j, j < m → (_SAL_generic_decode_sample d v p_dst bytes_needed).2.1[j]?
        = some ((d.sample p).sample_data.getD (spec_cursor S L c j) 0)) ∧
      (∀ j, m ≤ j → (_SAL_generic_decode_sample d v p_dst bytes_needed).2.1[j]? = p_dst[j]?) ∧
      ((_SAL_generic_decode_sample d v p_dst bytes_needed).2.2.voice v).voice_cursor
        = spec_cursor S L c m := by
    intro hno
    obtain ⟨a1, a2, _, a4⟩ := generic_decode_loop_all v (d.sample p).sample_data m 0 d p_dst
      hno
    rw [heq]
    refine ⟨a1, a2, ?_, ?_, ?_⟩
    · intro j hj
      rw [a4 j, if_pos ⟨Nat.zero_le j, by omega, by omega⟩, Nat.sub_zero, hrd]
    · intro j hj
      rw [a4 j, if_neg (by omega)]
    · rw [a2]
      have h := (advance_steps_voice d v N hv (by rw [hs, hl]; exact hSL)
        (by rw [hl]; exact hLN) (by omega) (by rw [hc]; exact hcN) m).2.1
      rw [hs, hl, hc] at h
      exact h
  have hfirst : (∃ k, k < m ∧ advance_result d v k = 0) →
      (_SAL_generic_decode_sample d v p_dst bytes_needed).1 = 1 := by
    intro hex
    have hsp := Nat.find_spec hex
    exact (hended (Nat.find hex) hsp.1 hsp.2
      (fun t ht hz => Nat.find_min hex ht ⟨by omega, hz⟩)).1
  have hnone : (¬ ∃ k, k < m ∧ advance_result d v k = 0) →
      (_SAL_generic_decode_sample d v p_dst bytes_needed).1 = 0 := by
    intro hno
    exact (hall (fun k hk hz => hno ⟨k, hk, hz⟩)).1
  refine ⟨⟨?_, hfirst⟩, ?_, hended, hall, ?_⟩
  · intro h1
    by_contra hno
    rw [hnone hno] at h1
    exact absurd h1 (by decide)
  · by_cases hex : ∃ k, k < m ∧ advance_result d v k = 0
    · exact Or.inr (hfirst hex)
    · exact Or.inl (hnone hex)
  · intro j
    rw [hdata]
    exact (spec_cursor_lt S L N c hSL hLN hcN j).1

/-- C26, witness: the voice of `device_ramp` (storage 10, 11, 12, 13; loop from 1 to 3; 2
repetitions) asked for 6 samples: the fifth advance ends the voice, the decoder returns 1
after writing 10, 11, 12, 11, 12 and keeps the sixth cell. -/
theorem C26_generic_decode_sample_witness :
    (_SAL_generic_decode_sample device_ramp 0 [9, 9, 9, 9, 9, 9] 12).1 = 1 ∧
    (_SAL_generic_decode_sample device_ramp 0 [9, 9, 9, 9, 9, 9] 12).2.1[3]? = some 11 ∧
    (_SAL_generic_decode_sample device_ramp 0 [9, 9, 9, 9, 9, 9] 12).2.1[5]? = some 9 ∧
    (_SAL_generic_decode_sample device_ramp 0 [9, 9, 9, 9, 9, 9] 12).2.1
      = [10, 11, 12, 11, 12, 9] := by
  have h := (C26_generic_decode_sample device_ramp 0 0 1 3 4 0 6 [9, 9, 9, 9, 9, 9] 12
    (by decide) (by decide) (by decide) (by decide) (by decide) (by decide) (by decide)
    (by decide) (by decide) (by decide) (by decide) (by decide) (by decide)).2.2.1 4
    (by decide) (by decide) (by decide)
  exact ⟨h.1, (h.2.2.1 3 (by decide)).trans (by decide), (h.2.2.2 5 (by decide)).trans
    (by decide), by decide⟩

/-! ## Claim C28: the reads of the generic decoder stay inside the sample storage -/

/-- Without the discipline the bound fails: after a second `SAL_destroy_sample` has freed
the storage of a sample that voice 0 is still PLAYING, the next chunk reads the freed
storage, which has no index in range. -/
theorem reads_of_freed_storage :
    disciplined _SAL_generic_decode_sample device8 []
      [.create 4, .play 0 65535 0 0 4 (-1), .destroy 0, .destroy 0,
        .mix (List.replicate 4 0) (List.replicate 256 0) 8] = false ∧
    loops_in_bounds device8
      [.create 4, .play 0 65535 0 0 4 (-1), .destroy 0, .destroy 0,
        .mix (List.replicate 4 0) (List.replicate 256 0) 8] = true ∧
    run_reads device8
      [.create 4, .play 0 65535 0 0 4 (-1), .destroy 0, .destroy 0,
        .mix (List.replicate 4 0) (List.replicate 256 0) 8]
      = [(0, 0), (1, 0), (2, 0), (3, 0)] := by
  decide

theorem tdiv_toNat_nonpos (x b : Int) (h : x ≤ 0) (hb : 0 < b) : (Int.tdiv x b).toNat = 0 := by
  have h1 : Int.tdiv x b = -(Int.tdiv (-x) b) := by
    rw [← Int.neg_tdiv, Int.neg_neg]
  have h2 : 0 ≤ Int.tdiv (-x) b := by
    rw [Int.tdiv_eq_ediv (by omega) (by omega)]
    exact Int.ediv_nonneg (by omega) (by omega)
  omega

theorem submix_loop_length (info : SAL_DeviceInfo) (kp_src : List Int) (voice_volume : Nat)
    (voice_pan : Int) (off : Nat) :
    ∀ (n i : Nat) (dst : List Int),
      (submix_loop info kp_src voice_volume voice_pan off n i dst).length = dst.length := by
  intro n
  induction n with
  | zero => intro i dst; rfl
  | succ n ih =>
    intro i dst
    simp only [submix_loop]
    rw [ih, List.length_set]

/-- The loop of `submix_buffer`, position by position: iteration `i` replaces the
destination sample at `off + i` by its submix with the source sample `i`, and nothing else
changes. -/
theorem submix_loop_getElem (info : SAL_DeviceInfo) (kp_src : List Int) (voice_volume : Nat)
    (voice_pan : Int) (off : Nat) :
    ∀ (n i : Nat) (dst : List Int) (j : Nat),
      (submix_loop info kp_src voice_volume voice_pan off n i dst)[j]?
        = (if off + i ≤ j ∧ j < off + i + n ∧ j < dst.length then
             some (submix_sample info (j - off) (dst.getD j 0) (kp_src.getD (j - off) 0)
               voice_volume voice_pan)
           else dst[j]?) := by
  intro n
  induction n with
  | zero =>
    intro i dst j
    rw [if_neg (show ¬ (off + i ≤ j ∧ j < off + i + 0 ∧ j < dst.length) from by omega)]
    rfl
  | succ n ih =>
    intro i dst j
    simp only [submix_loop]
    rw [ih, List.length_set]
    by_cases h1 : off + (i + 1) ≤ j
    · have hne : ¬ (off + i = j) := by omega
      have hgd : (dst.set (off + i) (submix_sample info i (dst.getD (off + i) 0)
          (kp_src.getD i 0) voice_volume voice_pan)).getD j 0 = dst.getD j 0 := by
        rw [List.getD_eq_getElem?_getD, List.getElem?_set, if_neg hne,
          ← List.getD_eq_getElem?_getD]
      by_cases h2 : j < off + (i + 1) + n ∧ j < dst.length
      · rw [if_pos (show off + (i + 1) ≤ j ∧ j < off + (i + 1) + n ∧ j < dst.length from
            ⟨h1, h2⟩),
          if_pos (show off + i ≤ j ∧ j < off + i + (n + 1) ∧ j < dst.length from
            ⟨by omega, by omega, h2.2⟩), hgd]
      · rw [if_neg (show ¬ (off + (i + 1) ≤ j ∧ j < off + (i + 1) + n ∧ j < dst.length) from
            fun hc => h2 hc.2),
          if_neg (show ¬ (off + i ≤ j ∧ j < off + i + (n + 1) ∧ j < dst.length) from
            fun hc => h2 ⟨by omega, hc.2.2⟩),
          List.getElem?_set, if_neg hne]
    · rw [if_neg (show ¬ (off + (i + 1) ≤ j ∧ j < off + (i + 1) + n ∧ j < dst.length) from
          fun hc => h1 hc.1), List.getElem?_set]
      by_cases h3 : off + i = j
      · subst h3
        rw [if_pos rfl]
        by_cases h4 : off + i < dst.length
        · rw [if_pos h4,
            if_pos (show off + i ≤ off + i ∧ off + i < off + i + (n + 1) ∧ off + i < dst.length
              from ⟨Nat.le_refl _, by omega, h4⟩), Nat.add_sub_cancel_left]
        · rw [if_neg h4,
            if_neg (show ¬ (off + i ≤ off + i ∧ off + i < off + i + (n + 1) ∧
              off + i < dst.length) from fun hc => h4 hc.2.2)]
          exact (List.getElem?_eq_none (by omega)).symm
      · rw [if_neg h3,
          if_neg (show ¬ (off + i ≤ j ∧ j < off + i + (n + 1) ∧ j < dst.length) from
            fun hc => by omega)]

/-- The loop body of `submix_buffer` uses the sample index only through its parity. -/
theorem submix_sample_parity (info : SAL_DeviceInfo) (i j : Nat) (dst src : Int)
    (voice_volume : Nat) (voice_pan : Int) (h : i % 2 = j % 2) :
    submix_sample info i dst src voice_volume voice_pan
      = submix_sample info j dst src voice_volume voice_pan := by
  have hp : pan_volume voice_volume voice_pan i = pan_volume voice_volume voice_pan j := by
    unfold pan_volume
    rw [h]
  unfold submix_sample submix_8_stereo submix_16_stereo
  rw [hp]

theorem spec_advance_voice_fields (v : SAL_Voice) (n : Int) :
    (spec_advance_voice v n).2.voice_sample = v.voice_sample ∧
    (spec_advance_voice v n).2.voice_volume = v.voice_volume ∧
    (spec_advance_voice v n).2.voice_pan = v.voice_pan ∧
    (spec_advance_voice v n).2.voice_loop_start = v.voice_loop_start ∧
    (spec_advance_voice v n).2.voice_loop_end = v.voice_loop_end := by
  unfold spec_advance_voice
  simp only
  split
  · split
    · exact ⟨rfl, rfl, rfl, rfl, rfl⟩
    · exact ⟨rfl, rfl, rfl, rfl, rfl⟩
  · exact ⟨rfl, rfl, rfl, rfl, rfl⟩

/-- Calls `_SAL_advance_voice( device, v, 1 )` keep the sample, the volume and the pan of the
slot. -/
theorem advance_steps_fields (d : SAL_Device) (v : Nat) (hv : v < d.device_voices.length) :
    ∀ t, ((advance_steps d v t).voice v).voice_sample = (d.voice v).voice_sample ∧
      ((advance_steps d v t).voice v).voice_volume = (d.voice v).voice_volume ∧
      ((advance_steps d v t).voice v).voice_pan = (d.voice v).voice_pan := by
  intro t
  induction t with
  | zero => exact ⟨rfl, rfl, rfl⟩
  | succ t ih =>
    obtain ⟨a1, a2, a3⟩ := ih
    obtain ⟨b1, b2, b3, _, _⟩ := spec_advance_voice_fields ((advance_steps d v t).voice v) 1
    have hv2 : v < (advance_steps d v t).device_voices.length := by
      rw [advance_steps_length]; exact hv
    have hvv : (advance_steps d v (t + 1)).voice v
        = (spec_advance_voice ((advance_steps d v t).voice v) 1).2 := by
      show ((_SAL_advance_voice (advance_steps d v t) v 1).2).voice v = _
      rw [advance_voice_eq_spec]
      dsimp only
      rw [voice_set_voice, if_pos ⟨rfl, hv2⟩]
    rw [hvv]
    exact ⟨by rw [b1, a1], by rw [b2, a2], by rw [b3, a3]⟩

/-- A voice whose repetitions are `SAL_LOOP_ALWAYS` stays so under 1-frame advances, and no
advance returns 0. -/
theorem advance_steps_loop_always (d : SAL_Device) (v : Nat)
    (h : (d.voice v).voice_num_repetitions = SAL_LOOP_ALWAYS) :
    ∀ t, ((advance_steps d v t).voice v).voice_num_repetitions = SAL_LOOP_ALWAYS ∧
      advance_result d v t ≠ 0 := by
  intro t
  induction t with
  | zero =>
    refine ⟨h, ?_⟩
    have h1 := (advance_voice_loop_always d v 1 h).1
    show (_SAL_advance_voice d v 1).1 ≠ 0
    rw [h1]; decide
  | succ t ih =>
    have h2 := (advance_voice_loop_always (advance_steps d v t) v 1 ih.1).2
    refine ⟨h2, ?_⟩
    have h1 := (advance_voice_loop_always (advance_steps d v (t + 1)) v 1 h2).1
    show (_SAL_advance_voice (advance_steps d v (t + 1)) v 1).1 ≠ 0
    rw [h1]; decide

theorem decode_read_add (d : SAL_Device) (v : Nat) (data : List Int) (a t : Nat) :
    decode_read d v data (a + t) = decode_read (advance_steps d v a) v data t := by
  unfold decode_read
  rw [advance_steps_add]

/-! ## Claim C30: the piece in which the generic decoder ends a voice -/

/-- C30, what the code does: in the iteration of `_SAL_mix_chunk` in which the generic
decoder ends the voice `v` after writing `k + 1` of the `m` samples requested for a scratch
piece (`k + 1 < m` included), `submix_buffer` still mixes all `m` samples of the scratch
buffer.  The destination samples of the piece after the last decoded one are therefore
modified: each becomes its submix with what the scratch buffer held beforehand at that
position.  Only the destination before and after the piece is kept, and the voice is ended
after the submix. -/
theorem C30_tail_of_piece_mixes_scratch (d : SAL_Device) (v p : Nat) (dst buf : List Int)
    (bytes_to_mix fuel : Nat) (bytes_left : Int) (k m : Nat)
    (hv : v < d.device_voices.length)
    (hsam : (d.voice v).voice_sample = some p)
    (hbits : d.device_info.di_bits = 8 ∨ d.device_info.di_bits = 16)
    (hpos : bytes_left > 0)
    (hm : (Int.tdiv (if bytes_left > 512 then 512 else bytes_left)
      d.device_info.di_bytes_per_sample).toNat = m)
    (hk : k < m) (hend : advance_result d v k = 0)
    (hbefore : ∀ t, t < k → advance_result d v t ≠ 0) :
    (mix_voice_loop _SAL_generic_decode_sample v bytes_to_mix (fuel + 1) bytes_left
        (d, dst, buf)).1 = mix_end_voice (advance_steps d v (k + 1)) v ∧
    (∀ j, j ≤ k → j < buf.length →
      (Int.tdiv ((bytes_to_mix : Int) - bytes_left) d.device_info.di_bytes_per_sample).toNat + j
        < dst.length →
      (mix_voice_loop _SAL_generic_decode_sample v bytes_to_mix (fuel + 1) bytes_left
        (d, dst, buf)).2.1[(Int.tdiv ((bytes_to_mix : Int) - bytes_left)
          d.device_info.di_bytes_per_sample).toNat + j]?
        = some (submix_sample d.device_info j
            (dst.getD ((Int.tdiv ((bytes_to_mix : Int) - bytes_left)
              d.device_info.di_bytes_per_sample).toNat + j) 0)
            (decode_read d v (d.sample p).sample_data j)
            (d.voice v).voice_volume (d.voice v).voice_pan)) ∧
    (∀ j, k < j → j < m →
      (Int.tdiv ((bytes_to_mix : Int) - bytes_left) d.device_info.di_bytes_per_sample).toNat + j
        < dst.length →
      (mix_voice_loop _SAL_generic_decode_sample v bytes_to_mix (fuel + 1) bytes_left
        (d, dst, buf)).2.1[(Int.tdiv ((bytes_to_mix : Int) - bytes_left)
          d.device_info.di_bytes_per_sample).toNat + j]?
        = some (submix_sample d.device_info j
            (dst.getD ((Int.tdiv ((bytes_to_mix : Int) - bytes_left)
              d.device_info.di_bytes_per_sample).toNat + j) 0)
            (buf.getD j 0)
            (d.voice v).voice_volume (d.voice v).voice_pan)) ∧
    (∀ j, (j < (Int.tdiv ((bytes_to_mix : Int) - bytes_left)
          d.device_info.di_bytes_per_sample).toNat ∨
        (Int.tdiv ((bytes_to_mix : Int) - bytes_left)
          d.device_info.di_bytes_per_sample).toNat + m ≤ j) →
      (mix_voice_loop _SAL_generic_decode_sample v bytes_to_mix (fuel + 1) bytes_left
        (d, dst, buf)).2.1[j]? = dst[j]?) := by
  obtain ⟨a1, a2, _, a4⟩ := generic_decode_loop_end v (d.sample p).sample_data k m 0 d buf
    hk hend hbefore
  have heq := generic_decode_sample_eq d v p buf (if bytes_left > 512 then 512 else bytes_left)
    hv hsam hbits
  rw [hm] at heq
  obtain ⟨_, _, o3, _⟩ := advance_steps_other d v (k + 1)
  obtain ⟨_, f2, f3⟩ := advance_steps_fields d v hv (k + 1)
  have hne : (_SAL_generic_decode_sample d v buf
      (if bytes_left > 512 then 512 else bytes_left)).1 ≠ 0 := by
    rw [heq, a1]; decide
  have hloop : mix_voice_loop _SAL_generic_decode_sample v bytes_to_mix (fuel + 1) bytes_left
      (d, dst, buf)
      = (mix_end_voice (advance_steps d v (k + 1)) v,
         submix_loop d.device_info
           (generic_decode_loop v (d.sample p).sample_data m 0 d buf).2.1
           (d.voice v).voice_volume (d.voice v).voice_pan
           (Int.tdiv ((bytes_to_mix : Int) - bytes_left)
             d.device_info.di_bytes_per_sample).toNat m 0 dst,
         (generic_decode_loop v (d.sample p).sample_data m 0 d buf).2.1) := by
    simp only [mix_voice_loop]
    rw [if_pos hpos, if_pos hne, heq, a2]
    simp only [submix_buffer, o3, f2, f3, hm]
  rw [hloop]
  dsimp only
  have hsrc : ∀ j, j < buf.length →
      (generic_decode_loop v (d.sample p).sample_data m 0 d buf).2.1.getD j 0
        = if j ≤ k then decode_read d v (d.sample p).sample_data j else buf.getD j 0 := by
    intro j hj
    rw [List.getD_eq_getElem?_getD, a4 j]
    by_cases hjk : j ≤ k
    · rw [if_pos (show 0 ≤ j ∧ j < 0 + (k + 1) ∧ j < buf.length from
        ⟨Nat.zero_le j, by omega, hj⟩), if_pos hjk, Nat.sub_zero]
      rfl
    · rw [if_neg (show ¬ (0 ≤ j ∧ j < 0 + (k + 1) ∧ j < buf.length) from by omega),
        if_neg hjk, List.getD_eq_getElem?_getD]
  have hsrc2 : ∀ j, buf.length ≤ j →
      (generic_decode_loop v (d.sample p).sample_data m 0 d buf).2.1.getD j 0
        = buf.getD j 0 := by
    intro j hj
    rw [List.getD_eq_getElem?_getD, a4 j,
      if_neg (show ¬ (0 ≤ j ∧ j < 0 + (k + 1) ∧ j < buf.length) from by omega),
      List.getD_eq_getElem?_getD]
  refine ⟨rfl, ?_, ?_, ?_⟩
  · intro j hjk hjb hjd
    rw [submix_loop_getElem, if_pos ⟨by omega, by omega, hjd⟩, Nat.add_sub_cancel_left,
      hsrc j hjb, if_pos hjk]
  · intro j hjk hjm hjd
    rw [submix_loop_getElem, if_pos ⟨by omega, by omega, hjd⟩, Nat.add_sub_cancel_left]
    by_cases hjb : j < buf.length
    · rw [hsrc j hjb, if_neg (by omega)]
    · rw [hsrc2 j (by omega)]
  · intro j hj
    rw [submix_loop_getElem, if_neg (by omega)]

/-- C30, witness.  The voice of `device_ramp` ends after 5 of the 8 samples of its piece:
the destination cells 5, 6 and 7 are not kept at the silence 0, they get 6 from the scratch
value 7.  On `device_two`, whose scratch buffer starts zeroed, the piece of voice 1 ends the
same way after the pass of voice 0 has left 999 in every cell and 1000 in the scratch
buffer: the cells 5, 6 and 7 become 1998. -/
theorem C30_tail_of_piece_mixes_scratch_witness :
    (mix_voice_loop _SAL_generic_decode_sample 0 16 (15 + 1) 16
      (device_ramp, List.replicate 8 0, List.replicate 256 7)).2.1[0 + 5]? = some 6 ∧
    (mix_voice _SAL_generic_decode_sample 16
      (device_two, List.replicate 8 0, List.replicate 256 0) 0).2.1 = List.replicate 8 999 ∧
    (_SAL_mix_chunk _SAL_generic_decode_sample device_two (List.replicate 8 0)
      (List.replicate 256 0) 16).2.2 = [1008, 1009, 1010, 1009, 1010, 1998, 1998, 1998] :=
  ⟨((C30_tail_of_piece_mixes_scratch device_ramp 0 0 (List.replicate 8 0)
      (List.replicate 256 7) 16 15 16 4 8 (by decide) (by decide) (by decide) (by decide)
      (by decide) (by decide) (by decide) (by decide)).2.2.1 5 (by decide) (by decide)
      (by decide)).trans (by decide),
   by decide, by decide⟩

/-! ## Claim C29: the pieces of a chunk -/

/-- Sample counts of byte counts for the two sample sizes: a scratch piece of 512 bytes
holds `K` samples, `K` being even. -/
theorem samples_facts (b : Int) (K : Nat) (hK : (b = 1 ∧ K = 512) ∨ (b = 2 ∧ K = 256)) :
    (Int.tdiv 512 b).toNat = K ∧
    (∀ x : Int, 0 ≤ x → (Int.tdiv (512 + x) b).toNat = K + (Int.tdiv x b).toNat) ∧
    (∀ q : Nat, (Int.tdiv (512 * (q : Int)) b).toNat = K * q) ∧
    K % 2 = 0 ∧ 0 < b ∧
    (∀ x : Int, 0 ≤ x → x ≤ 512 → (Int.tdiv x b).toNat ≤ K) := by
  rcases hK with ⟨rfl, rfl⟩ | ⟨rfl, rfl⟩
  · refine ⟨by decide, ?_, ?_, by decide, by decide, ?_⟩
    · intro x hx
      rw [Int.tdiv_eq_ediv (by omega) (by decide), Int.tdiv_eq_ediv hx (by decide)]
      omega
    · intro q
      rw [Int.tdiv_eq_ediv (by omega) (by decide)]
      omega
    · intro x hx hx2
      rw [Int.tdiv_eq_ediv hx (by decide)]
      omega
  · refine ⟨by decide, ?_, ?_, by decide, by decide, ?_⟩
    · intro x hx
      rw [Int.tdiv_eq_ediv (by omega) (by decide), Int.tdiv_eq_ediv hx (by decide)]
      omega
    · intro q
      rw [Int.tdiv_eq_ediv (by omega) (by decide)]
      omega
    · intro x hx hx2
      rw [Int.tdiv_eq_ediv hx (by decide)]
      omega

theorem mix_voice_loop_nonpos (decode : sal_sample_decode_fnc_t) (i : Nat) (bytes_to_mix : Nat)
    (fuel : Nat) (bytes_left : Int) (st : SAL_Device × List Int × List Int)
    (h : bytes_left ≤ 0) :
    mix_voice_loop decode i bytes_to_mix fuel bytes_left st = st := by
  cases fuel with
  | zero => rfl
  | succ fuel =>
    obtain ⟨d, dst, buf⟩ := st
    simp only [mix_voice_loop]
    rw [if_neg (by omega)]

/-- One call of the generic decoder for a voice that loops forever: it returns 0 and writes
the `m` samples requested at the head of the buffer. -/
theorem generic_decode_sample_always (d : SAL_Device) (v p : Nat) (buf : List Int)
    (bytes_needed : Int) (m : Nat)
    (hv : v < d.device_voices.length)
    (hrep : (d.voice v).voice_num_repetitions = SAL_LOOP_ALWAYS)
    (hsam : (d.voice v).voice_sample = some p)
    (hbits : d.device_info.di_bits = 8 ∨ d.device_info.di_bits = 16)
    (hm : (Int.tdiv bytes_needed d.device_info.di_bytes_per_sample).toNat = m) :
    (_SAL_generic_decode_sample d v buf bytes_needed).1 = 0 ∧
    (_SAL_generic_decode_sample d v buf bytes_needed).2.2 = advance_steps d v m ∧
    (_SAL_generic_decode_sample d v buf bytes_needed).2.1.length = buf.length ∧
    (∀ j, j < m → j < buf.length →
      (_SAL_generic_decode_sample d v buf bytes_needed).2.1.getD j 0
        = decode_read d v (d.sample p).sample_data j) := by
  have heq := generic_decode_sample_eq d v p buf bytes_needed hv hsam hbits
  rw [hm] at heq
  obtain ⟨a1, a2, a3, a4⟩ := generic_decode_loop_all v (d.sample p).sample_data m 0 d buf
    (fun t _ => (advance_steps_loop_always d v hrep t).2)
  rw [heq]
  refine ⟨a1, a2, a3, ?_⟩
  intro j hj hjb
  rw [List.getD_eq_getElem?_getD, a4 j,
    if_pos (show 0 ≤ j ∧ j < 0 + m ∧ j < buf.length from ⟨Nat.zero_le j, by omega, hjb⟩),
    Nat.sub_zero]
  rfl

/-- The state which a voice that loops forever keeps under 1-frame advances. -/
theorem advance_steps_always_state (d : SAL_Device) (v p : Nat) (t : Nat)
    (hv : v < d.device_voices.length)
    (hrep : (d.voice v).voice_num_repetitions = SAL_LOOP_ALWAYS)
    (hsam : (d.voice v).voice_sample = some p) :
    v < (advance_steps d v t).device_voices.length ∧
    ((advance_steps d v t).voice v).voice_num_repetitions = SAL_LOOP_ALWAYS ∧
    ((advance_steps d v t).voice v).voice_sample = some p ∧
    ((advance_steps d v t).voice v).voice_volume = (d.voice v).voice_volume ∧
    ((advance_steps d v t).voice v).voice_pan = (d.voice v).voice_pan ∧
    (advance_steps d v t).device_info = d.device_info ∧
    ((advance_steps d v t).sample p).sample_data = (d.sample p).sample_data := by
  obtain ⟨f1, f2, f3⟩ := advance_steps_fields d v hv t
  obtain ⟨_, o2, o3, _⟩ := advance_steps_other d v t
  refine ⟨by rw [advance_steps_length]; exact hv, (advance_steps_loop_always d v hrep t).1,
    by rw [f1, hsam], f2, f3, o3, ?_⟩
  simp only [SAL_Device.sample, o2]

/-- One piece submixed at an even offset `Q`: the destination samples of the piece become
their submix with the source samples, the index that selects the channel being the
position in the destination. -/
theorem submix_piece (info : SAL_DeviceInfo) (src : List Int) (voice_volume : Nat)
    (voice_pan : Int) (Q m : Nat) (dst : List Int) (g : Nat → Int)
    (hsrc : ∀ t, t < m → src.getD t 0 = g t) (hQ : Q % 2 = 0) (j : Nat) :
    (submix_loop info src voice_volume voice_pan Q m 0 dst)[j]?
      = (if Q ≤ j ∧ j < Q + m ∧ j < dst.length then
           some (submix_sample info j (dst.getD j 0) (g (j - Q)) voice_volume voice_pan)
         else dst[j]?) := by
  rw [submix_loop_getElem]
  by_cases h : Q ≤ j ∧ j < Q + m ∧ j < dst.length
  · rw [if_pos (show Q + 0 ≤ j ∧ j < Q + 0 + m ∧ j < dst.length from
      ⟨by omega, by omega, h.2.2⟩), if_pos h, hsrc (j - Q) (by omega),
      submix_sample_parity info (j - Q) j _ _ _ _ (by omega)]
  · rw [if_neg (show ¬ (Q + 0 ≤ j ∧ j < Q + 0 + m ∧ j < dst.length) from
      fun hc => h ⟨by omega, by omega, hc.2.2⟩), if_neg h]

/-- A piece of `K` samples at `Q` followed by the pieces from `Q + K` on is the run of pieces
from `Q` on. -/
theorem pieces_combine (dst A R : List Int) (Q K m2 : Nat) (f : Nat → Int → Int → Int)
    (g g2 : Nat → Int)
    (hA : ∀ j, A[j]? = (if Q ≤ j ∧ j < Q + K ∧ j < dst.length then
      some (f j (dst.getD j 0) (g (j - Q))) else dst[j]?))
    (hR : ∀ j, R[j]? = (if Q + K ≤ j ∧ j < Q + K + m2 ∧ j < A.length then
      some (f j (A.getD j 0) (g2 (j - (Q + K)))) else A[j]?))
    (hg : ∀ t, g2 t = g (K + t)) (hlen : A.length = dst.length) (j : Nat) :
    R[j]? = (if Q ≤ j ∧ j < Q + (K + m2) ∧ j < dst.length then
      some (f j (dst.getD j 0) (g (j - Q))) else dst[j]?) := by
  rw [hR, hlen]
  by_cases h1 : Q + K ≤ j
  · have hAj : A.getD j 0 = dst.getD j 0 := by
      rw [List.getD_eq_getElem?_getD, hA j,
        if_neg (show ¬ (Q ≤ j ∧ j < Q + K ∧ j < dst.length) from by omega),
        List.getD_eq_getElem?_getD]
    have hjq : K + (j - (Q + K)) = j - Q := by omega
    by_cases h2 : j < Q + K + m2 ∧ j < dst.length
    · rw [if_pos (show Q + K ≤ j ∧ j < Q + K + m2 ∧ j < dst.length from ⟨h1, h2⟩),
        if_pos (show Q ≤ j ∧ j < Q + (K + m2) ∧ j < dst.length from
          ⟨by omega, by omega, h2.2⟩), hAj, hg, hjq]
    · rw [if_neg (show ¬ (Q + K ≤ j ∧ j < Q + K + m2 ∧ j < dst.length) from fun hc => h2 hc.2),
        if_neg (show ¬ (Q ≤ j ∧ j < Q + (K + m2) ∧ j < dst.length) from
          fun hc => h2 ⟨by omega, hc.2.2⟩), hA j,
        if_neg (show ¬ (Q ≤ j ∧ j < Q + K ∧ j < dst.length) from by omega)]
  · rw [if_neg (show ¬ (Q + K ≤ j ∧ j < Q + K + m2 ∧ j < dst.length) from fun hc => h1 hc.1),
      hA j]
    by_cases h3 : Q ≤ j ∧ j < Q + K ∧ j < dst.length
    · rw [if_pos h3, if_pos (show Q ≤ j ∧ j < Q + (K + m2) ∧ j < dst.length from
        ⟨h3.1, by omega, h3.2.2⟩)]
    · rw [if_neg h3, if_neg (show ¬ (Q ≤ j ∧ j < Q + (K + m2) ∧ j < dst.length) from
        fun hc => h3 ⟨hc.1, by omega, hc.2.2⟩)]

/-- The pass of a voice that loops forever in `_SAL_mix_chunk` with the generic decoder,
entered with `bytes_left` bytes to go after `q` whole pieces: the voice is advanced by the
samples left, and each destination sample left becomes its submix with the sample decoded
for it, the index that selects the channel being its position in the destination. -/
theorem mix_voice_loop_always (v p : Nat) (bytes_to_mix : Nat) (b : Int) (K : Nat)
    (hK : (b = 1 ∧ K = 512) ∨ (b = 2 ∧ K = 256)) :
    ∀ (fuel : Nat) (bytes_left : Int) (d : SAL_Device) (dst buf : List Int) (q : Nat),
      v < d.device_voices.length →
      (d.voice v).voice_num_repetitions = SAL_LOOP_ALWAYS →
      (d.voice v).voice_sample = some p →
      (d.device_info.di_bits = 8 ∨ d.device_info.di_bits = 16) →
      d.device_info.di_bytes_per_sample = b →
      K ≤ buf.length → 0 ≤ bytes_left → bytes_left ≤ (fuel : Int) →
      (bytes_to_mix : Int) - bytes_left = 512 * (q : Int) →
      (mix_voice_loop _SAL_generic_decode_sample v bytes_to_mix fuel bytes_left
          (d, dst, buf)).1 = advance_steps d v (Int.tdiv bytes_left b).toNat ∧
      ∀ j, (mix_voice_loop _SAL_generic_decode_sample v bytes_to_mix fuel bytes_left
          (d, dst, buf)).2.1[j]?
        = (if K * q ≤ j ∧ j < K * q + (Int.tdiv bytes_left b).toNat ∧ j < dst.length then
             some (submix_sample d.device_info j (dst.getD j 0)
               (decode_read d v (d.sample p).sample_data (j - K * q))
               (d.voice v).voice_volume (d.voice v).voice_pan)
           else dst[j]?) := by
  obtain ⟨F1, F2, F3, F4, F5, F6⟩ := samples_facts b K hK
  have hzero : ∀ (fuel : Nat) (d : SAL_Device) (dst buf : List Int) (q : Nat),
      (mix_voice_loop _SAL_generic_decode_sample v bytes_to_mix fuel 0 (d, dst, buf)).1
        = advance_steps d v (Int.tdiv 0 b).toNat ∧
      ∀ j, (mix_voice_loop _SAL_generic_decode_sample v bytes_to_mix fuel 0
          (d, dst, buf)).2.1[j]?
        = (if K * q ≤ j ∧ j < K * q + (Int.tdiv 0 b).toNat ∧ j < dst.length then
             some (submix_sample d.device_info j (dst.getD j 0)
               (decode_read d v (d.sample p).sample_data (j - K * q))
               (d.voice v).voice_volume (d.voice v).voice_pan)
           else dst[j]?) := by
    intro fuel d dst buf q
    have h0 : (Int.tdiv 0 b).toNat = 0 := tdiv_toNat_nonpos 0 b (Int.le_refl 0) F5
    rw [mix_voice_loop_nonpos _ _ _ _ _ _ (Int.le_refl 0), h0]
    refine ⟨rfl, fun j => ?_⟩
    rw [if_neg (by omega)]
  have hQeven : ∀ q : Nat, (K * q) % 2 = 0 := by
    intro q
    rw [Nat.mul_mod, F4, Nat.zero_mul]
  intro fuel
  induction fuel with
  | zero =>
    intro bytes_left d dst buf q _ _ _ _ _ _ h0 h1 _
    have hbl : bytes_left = 0 := by omega
    subst hbl
    exact hzero 0 d dst buf q
  | succ fuel ih =>
    intro bytes_left d dst buf q hv hrep hsam hbits hbps hbuf h0 h1 hq
    by_cases hpos : bytes_left > 0
    · by_cases hbig : bytes_left > 512
      · -- a whole piece of 512 bytes, more to come
        obtain ⟨g1, g2, g3, g4⟩ := generic_decode_sample_always d v p buf 512 K hv hrep hsam
          hbits (by rw [hbps]; exact F1)
        obtain ⟨s1, s2, s3, s4, s5, s6, s7⟩ := advance_steps_always_state d v p K hv hrep hsam
        have hoff : (Int.tdiv ((bytes_to_mix : Int) - bytes_left) b).toNat = K * q := by
          rw [hq]; exact F3 q
        have hne : ¬ ((_SAL_generic_decode_sample d v buf 512).1 ≠ 0) := by
          rw [g1]; decide
        have hstep : mix_voice_loop _SAL_generic_decode_sample v bytes_to_mix (fuel + 1)
            bytes_left (d, dst, buf)
            = mix_voice_loop _SAL_generic_decode_sample v bytes_to_mix fuel (bytes_left - 512)
                (advance_steps d v K,
                 submix_loop d.device_info (_SAL_generic_decode_sample d v buf 512).2.1
                   (d.voice v).voice_volume (d.voice v).voice_pan (K * q) K 0 dst,
                 (_SAL_generic_decode_sample d v buf 512).2.1) := by
          simp only [mix_voice_loop]
          rw [if_pos hpos]
          simp only [if_pos hbig]
          rw [if_neg hne]
          simp only [submix_buffer, g2, s6, s4, s5, hbps, F1, hoff]
        obtain ⟨i1, i2⟩ := ih (bytes_left - 512) (advance_steps d v K)
          (submix_loop d.device_info (_SAL_generic_decode_sample d v buf 512).2.1
            (d.voice v).voice_volume (d.voice v).voice_pan (K * q) K 0 dst)
          (_SAL_generic_decode_sample d v buf 512).2.1 (q + 1) s1 s2 s3
          (by rw [s6]; exact hbits) (by rw [s6]; exact hbps) (by rw [g3]; exact hbuf)
          (by omega) (by omega) (by push_cast; omega)
        have hS : (Int.tdiv bytes_left b).toNat = K + (Int.tdiv (bytes_left - 512) b).toNat := by
          have h := F2 (bytes_left - 512) (by omega)
          have he : 512 + (bytes_left - 512) = bytes_left := by omega
          rw [he] at h
          exact h
        rw [hstep, hS]
        refine ⟨by rw [i1, ← advance_steps_add], fun j => ?_⟩
        have hmul : K * (q + 1) = K * q + K := Nat.mul_succ K q
        rw [hmul, s6, s4, s5, s7] at i2
        exact pieces_combine dst _ _ (K * q) K _
          (fun j x y => submix_sample d.device_info j x y (d.voice v).voice_volume
            (d.voice v).voice_pan)
          (decode_read d v (d.sample p).sample_data)
          (decode_read (advance_steps d v K) v (d.sample p).sample_data)
          (fun j => submix_piece d.device_info _ _ _ (K * q) K dst
            (decode_read d v (d.sample p).sample_data)
            (fun t ht => g4 t ht (by omega)) (hQeven q) j)
          i2 (fun t => (decode_read_add d v _ K t).symm)
          (submix_loop_length _ _ _ _ _ _ _ _) j
      · -- the last piece
        obtain ⟨g1, g2, g3, g4⟩ := generic_decode_sample_always d v p buf bytes_left
          (Int.tdiv bytes_left b).toNat hv hrep hsam hbits (by rw [hbps])
        obtain ⟨s1, s2, s3, s4, s5, s6, s7⟩ := advance_steps_always_state d v p
          (Int.tdiv bytes_left b).toNat hv hrep hsam
        have hoff : (Int.tdiv ((bytes_to_mix : Int) - bytes_left) b).toNat = K * q := by
          rw [hq]; exact F3 q
        have hne : ¬ ((_SAL_generic_decode_sample d v buf bytes_left).1 ≠ 0) := by
          rw [g1]; decide
        have hstep : mix_voice_loop _SAL_generic_decode_sample v bytes_to_mix (fuel + 1)
            bytes_left (d, dst, buf)
            = (advance_steps d v (Int.tdiv bytes_left b).toNat,
                 submix_loop d.device_info (_SAL_generic_decode_sample d v buf bytes_left).2.1
                   (d.voice v).voice_volume (d.voice v).voice_pan (K * q)
                   (Int.tdiv bytes_left b).toNat 0 dst,
                 (_SAL_generic_decode_sample d v buf bytes_left).2.1) := by
          simp only [mix_voice_loop]
          rw [if_pos hpos]
          simp only [if_neg hbig]
          rw [if_neg hne, mix_voice_loop_nonpos _ _ _ _ _ _ (by omega)]
          simp only [submix_buffer, g2, s6, s4, s5, hbps, hoff]
        rw [hstep]
        refine ⟨rfl, fun j => ?_⟩
        exact submix_piece d.device_info _ _ _ (K * q) _ dst
          (decode_read d v (d.sample p).sample_data)
          (fun t ht => g4 t ht (by have := F6 bytes_left h0 (by omega); omega)) (hQeven q) j
    · have hbl : bytes_left = 0 := by omega
      subst hbl
      exact hzero (fuel + 1) d dst buf q

/-- The passes over FREE slots change nothing. -/
theorem mix_fold_free (decode : sal_sample_decode_fnc_t) (bytes_to_mix : Nat) (l : List Nat) :
    ∀ st : SAL_Device × List Int × List Int,
      (∀ i ∈ l, (st.1.voice i).voice_num_repetitions = 0) →
      l.foldl (mix_voice decode bytes_to_mix) st = st := by
  induction l with
  | nil => intro st _; rfl
  | cons i l ih =>
    intro st h
    have h1 : mix_voice decode bytes_to_mix st i = st := if_pos (h i (List.mem_cons_self _ _))
    rw [List.foldl_cons, h1]
    exact ih st (fun k hk => h k (List.mem_cons_of_mem _ hk))

theorem clear_chunk_length (info : SAL_DeviceInfo) (dst : List Int) (bytes_to_mix : Nat) :
    (clear_chunk info dst bytes_to_mix).length = dst.length := by
  unfold clear_chunk
  simp only [List.length_append, List.length_replicate, List.length_drop]
  omega

/-- A 32-bit byte count read as a signed value is itself or negative. -/
theorem toI32_cases (n : Nat) (hn : n < 4294967296) :
    (0 ≤ toI32 (n : Int) ∧ toI32 (n : Int) = (n : Int)) ∨ toI32 (n : Int) < 0 := by
  unfold toI32
  omega

/-- C29: splitting a chunk into scratch pieces of 512 bytes is transparent.  For a device
of 8 or 16 bits whose only PLAYING voice `v` loops forever (`SAL_LOOP_ALWAYS`) on the
generic decoder, and every byte count `n` (a `sal_u32_t`), `_SAL_mix_chunk` produces the
destination, and leaves the device, that result from decoding all `n` bytes in one request
(into a buffer large enough) and submixing them once at offset 0 onto the cleared
destination.  Position by position: the destination sample at global index `j` is the
submix of the silence value with the `j`-th decoded sample, `submix_sample` being given
the global index `j`, so that on a stereo device it gets the right-channel volume iff `j` is
odd, across the boundaries of the scratch pieces. -/
theorem C29_pieces_transparent (d : SAL_Device) (v p : Nat) (dst decode_buffer big : List Int)
    (bytes_to_mix : Nat)
    (hv : v < d.device_voices.length)
    (hrep : (d.voice v).voice_num_repetitions = SAL_LOOP_ALWAYS)
    (hsam : (d.voice v).voice_sample = some p)
    (hidle : ∀ k, k < d.device_voices.length → k ≠ v → (d.voice k).voice_num_repetitions = 0)
    (hfmt : (d.device_info.di_bits = 8 ∧ d.device_info.di_bytes_per_sample = 1) ∨
      (d.device_info.di_bits = 16 ∧ d.device_info.di_bytes_per_sample = 2))
    (hn : bytes_to_mix < 4294967296)
    (hbuf : (Int.tdiv 512 d.device_info.di_bytes_per_sample).toNat ≤ decode_buffer.length)
    (hbig : (Int.tdiv (toI32 bytes_to_mix) d.device_info.di_bytes_per_sample).toNat
      ≤ big.length) :
    (_SAL_mix_chunk _SAL_generic_decode_sample d dst decode_buffer bytes_to_mix).2.2
      = submix_buffer
          (_SAL_generic_decode_sample d v big (toI32 bytes_to_mix)).2.2.device_info
          (clear_chunk d.device_info dst bytes_to_mix) 0
          (_SAL_generic_decode_sample d v big (toI32 bytes_to_mix)).2.1
          (toI32 bytes_to_mix)
          ((_SAL_generic_decode_sample d v big (toI32 bytes_to_mix)).2.2.voice v).voice_volume
          ((_SAL_generic_decode_sample d v big (toI32 bytes_to_mix)).2.2.voice v).voice_pan ∧
    (_SAL_mix_chunk _SAL_generic_decode_sample d dst decode_buffer bytes_to_mix).2.1
      = (_SAL_generic_decode_sample d v big (toI32 bytes_to_mix)).2.2 ∧
    (∀ j, j < (Int.tdiv (toI32 bytes_to_mix) d.device_info.di_bytes_per_sample).toNat →
      j < dst.length →
      (_SAL_mix_chunk _SAL_generic_decode_sample d dst decode_buffer bytes_to_mix).2.2[j]?
        = some (submix_sample d.device_info j (if d.device_info.di_bits = 8 then 128 else 0)
            (decode_read d v (d.sample p).sample_data j)
            (d.voice v).voice_volume (d.voice v).voice_pan)) := by
  -- the format
  obtain ⟨b, K, hK, hbps, hbits⟩ : ∃ (b : Int) (K : Nat),
      ((b = 1 ∧ K = 512) ∨ (b = 2 ∧ K = 256)) ∧ d.device_info.di_bytes_per_sample = b ∧
      (d.device_info.di_bits = 8 ∨ d.device_info.di_bits = 16) := by
    rcases hfmt with ⟨h1, h2⟩ | ⟨h1, h2⟩
    · exact ⟨1, 512, Or.inl ⟨rfl, rfl⟩, h2, Or.inl h1⟩
    · exact ⟨2, 256, Or.inr ⟨rfl, rfl⟩, h2, Or.inr h1⟩
  obtain ⟨F1, _, _, _, F5, _⟩ := samples_facts b K hK
  have htc := toI32_cases bytes_to_mix hn
  rw [hbps] at hbuf hbig ⊢
  have hne : ¬ ((d.voice v).voice_num_repetitions = 0) := by rw [hrep]; decide
  have hmv : mix_voice _SAL_generic_decode_sample bytes_to_mix
      (d, clear_chunk d.device_info dst bytes_to_mix, decode_buffer) v
      = mix_voice_loop _SAL_generic_decode_sample v bytes_to_mix
          (toI32 bytes_to_mix).toNat (toI32 bytes_to_mix)
          (d, clear_chunk d.device_info dst bytes_to_mix, decode_buffer) := if_neg hne
  generalize toI32 (bytes_to_mix : Int) = x at htc hbig hmv ⊢
  rw [F1] at hbuf
  -- the pass of the voice
  have hpass : (mix_voice _SAL_generic_decode_sample bytes_to_mix
        (d, clear_chunk d.device_info dst bytes_to_mix, decode_buffer) v).1
        = advance_steps d v (Int.tdiv x b).toNat ∧
      ∀ j, (mix_voice _SAL_generic_decode_sample bytes_to_mix
          (d, clear_chunk d.device_info dst bytes_to_mix, decode_buffer) v).2.1[j]?
        = (if 0 ≤ j ∧ j < 0 + (Int.tdiv x b).toNat ∧
              j < (clear_chunk d.device_info dst bytes_to_mix).length then
             some (submix_sample d.device_info j
               ((clear_chunk d.device_info dst bytes_to_mix).getD j 0)
               (decode_read d v (d.sample p).sample_data (j - 0))
               (d.voice v).voice_volume (d.voice v).voice_pan)
           else (clear_chunk d.device_info dst bytes_to_mix)[j]?) := by
    rw [hmv]
    by_cases hnn : 0 ≤ x
    · have htoi : x = (bytes_to_mix : Int) := by
        rcases htc with h1 | h1
        · exact h1.2
        · exact absurd hnn (Int.not_le.mpr h1)
      obtain ⟨a1, a2⟩ := mix_voice_loop_always v p bytes_to_mix b K hK
        x.toNat x d
        (clear_chunk d.device_info dst bytes_to_mix) decode_buffer 0 hv hrep hsam hbits hbps
        hbuf hnn (Int.self_le_toNat x) (by rw [htoi]; simp)
      refine ⟨a1, fun j => ?_⟩
      rw [a2 j, Nat.mul_zero]
    · have hfuel : x.toNat = 0 := Int.toNat_eq_zero.mpr (Int.le_of_lt (Int.not_le.mp hnn))
      have hM : (Int.tdiv x b).toNat = 0 :=
        tdiv_toNat_nonpos _ b (Int.le_of_lt (Int.not_le.mp hnn)) F5
      rw [hfuel, hM]
      refine ⟨rfl, fun j => ?_⟩
      rw [if_neg (fun hc => Nat.not_lt_zero j hc.2.1)]
      rfl
  obtain ⟨hp1, hp2⟩ := hpass
  -- the other slots are FREE before and after it
  obtain ⟨l1, l2, hl⟩ := List.append_of_mem (List.mem_range.mpr hv)
  have hnd : (l1 ++ v :: l2).Nodup := hl ▸ List.nodup_range d.device_voices.length
  rw [List.nodup_middle, List.nodup_cons] at hnd
  have hmem : ∀ i, i ∈ l1 ∨ i ∈ l2 → i < d.device_voices.length ∧ i ≠ v := by
    intro i hi
    constructor
    · apply List.mem_range.mp
      rw [hl]
      rcases hi with hi | hi
      · exact List.mem_append_left _ hi
      · exact List.mem_append_right _ (List.mem_cons_of_mem _ hi)
    · intro hc
      subst hc
      rcases hi with hi | hi
      · exact hnd.1 (List.mem_append_left _ hi)
      · exact hnd.1 (List.mem_append_right _ hi)
  have hfold : (List.range d.device_voices.length).foldl
      (mix_voice _SAL_generic_decode_sample bytes_to_mix)
      (d, clear_chunk d.device_info dst bytes_to_mix, decode_buffer)
      = mix_voice _SAL_generic_decode_sample bytes_to_mix
          (d, clear_chunk d.device_info dst bytes_to_mix, decode_buffer) v := by
    rw [hl, List.foldl_append, List.foldl_cons,
      mix_fold_free _ _ l1 _ (fun i hi => hidle i (hmem i (Or.inl hi)).1 (hmem i (Or.inl hi)).2)]
    apply mix_fold_free
    intro i hi
    rw [hp1, (advance_steps_other d v _).1 i (hmem i (Or.inr hi)).2]
    exact hidle i (hmem i (Or.inr hi)).1 (hmem i (Or.inr hi)).2
  have hchunk : _SAL_mix_chunk _SAL_generic_decode_sample d dst decode_buffer bytes_to_mix
      = (SALERR_OK,
         (mix_voice _SAL_generic_decode_sample bytes_to_mix
           (d, clear_chunk d.device_info dst bytes_to_mix, decode_buffer) v).1,
         (mix_voice _SAL_generic_decode_sample bytes_to_mix
           (d, clear_chunk d.device_info dst bytes_to_mix, decode_buffer) v).2.1) := by
    simp only [_SAL_mix_chunk, hfold]
  -- the single request
  obtain ⟨g1, g2, g3, g4⟩ := generic_decode_sample_always d v p big x
    (Int.tdiv x b).toNat hv hrep hsam hbits (by rw [hbps])
  obtain ⟨_, _, _, s4, s5, s6, _⟩ := advance_steps_always_state d v p
    (Int.tdiv x b).toNat hv hrep hsam
  have hone : ∀ j, (submix_buffer
        (_SAL_generic_decode_sample d v big x).2.2.device_info
        (clear_chunk d.device_info dst bytes_to_mix) 0
        (_SAL_generic_decode_sample d v big x).2.1
        x
        ((_SAL_generic_decode_sample d v big x).2.2.voice v).voice_volume
        ((_SAL_generic_decode_sample d v big x).2.2.voice v).voice_pan)[j]?
      = (if 0 ≤ j ∧ j < 0 + (Int.tdiv x b).toNat ∧
            j < (clear_chunk d.device_info dst bytes_to_mix).length then
           some (submix_sample d.device_info j
             ((clear_chunk d.device_info dst bytes_to_mix).getD j 0)
             (decode_read d v (d.sample p).sample_data (j - 0))
             (d.voice v).voice_volume (d.voice v).voice_pan)
         else (clear_chunk d.device_info dst bytes_to_mix)[j]?) := by
    intro j
    simp only [submix_buffer, g2, s6, s4, s5, hbps]
    exact submix_piece d.device_info _ _ _ 0 _ _ (decode_read d v (d.sample p).sample_data)
      (fun t ht => g4 t ht (Nat.lt_of_lt_of_le ht hbig)) (by decide) j
  rw [hchunk]
  dsimp only
  refine ⟨?_, by rw [hp1, g2], ?_⟩
  · apply List.ext_getElem?
    intro j
    rw [hp2 j, hone j]
  · intro j hj hjd
    have hlen := clear_chunk_length d.device_info dst bytes_to_mix
    have hjn : j < (Int.tdiv (bytes_to_mix : Int) d.device_info.di_bytes_per_sample).toNat := by
      rw [hbps]
      by_cases hnn : 0 ≤ x
      · have htoi : x = (bytes_to_mix : Int) := by
          rcases htc with h1 | h1
          · exact h1.2
          · exact absurd hnn (Int.not_le.mpr h1)
        rw [htoi] at hj
        exact hj
      · rw [tdiv_toNat_nonpos _ b (Int.le_of_lt (Int.not_le.mp hnn)) F5] at hj
        exact absurd hj (Nat.not_lt_zero j)
    have hclear : (clear_chunk d.device_info dst bytes_to_mix).getD j 0
        = (if d.device_info.di_bits = 8 then 128 else 0) := by
      rw [List.getD_eq_getElem?_getD, clear_chunk_getElem _ _ _ j hjn, if_pos hjd]
      rfl
    rw [hp2 j, if_pos ⟨Nat.zero_le j, (Nat.zero_add _).symm ▸ hj, hlen.symm ▸ hjd⟩, hclear,
      Nat.sub_zero]

/-- C29, witness: on `device_stereo_loop` (16-bit stereo, volume 30000, pan 10000) a chunk
of 1200 bytes spans three scratch pieces; the destination sample 257, in the second piece,
is the submix with index 257 and so uses the right-channel volume 50000, and the whole
destination is the one of a single request of 1200 bytes. -/
theorem C29_pieces_transparent_witness :
    (_SAL_mix_chunk _SAL_generic_decode_sample device_stereo_loop (List.replicate 600 7)
      (List.replicate 256 0) 1200).2.2[257]?
      = some (submix_sample info_16_stereo 257 0
          (decode_read device_stereo_loop 0 [100, 200, 300] 257) 30000 10000) ∧
    pan_volume 30000 10000 257 = 50000 := by
  have h := (C29_pieces_transparent device_stereo_loop 0 0 (List.replicate 600 7)
    (List.replicate 256 0) (List.replicate 600 0) 1200 (by decide) (by decide) (by decide)
    (by decide) (by decide) (by decide)
    (by rw [List.length_replicate]; decide) (by rw [List.length_replicate]; decide)).2.2 257
    (by decide) (by rw [List.length_replicate]; decide)
  exact ⟨h, by decide⟩

end SAL
